import Mathlib

/-!
# Equalizer server: configuration state machine and resource builder

A shallow embedding of `server/config.cpp` (class `eq::server::Config`) and of
`libs/eq/server/config/resources.cpp` (class `eq::server::config::Resources`).

Conventions of the embedding

* Member functions become functions on an explicit `Config` value; the resource builder
  threads the process-wide `_frameCounter` instead.
* `uint32_t` counters are natural numbers, an increment is taken modulo `2^32`; the signed
  32-bit `_frameCounter` is an integer whose increment wraps from `2^31 - 1` to `-2^31`.
* Every packet sent and every call into a collaborator whose code lies outside the two files
  (nodes, canvases, compounds, the connection layer) is appended to `Config.log`, in program
  order. A packet sent through a connection handle is logged with that handle.
* What such a collaborator answers is read from an `Env`; an answer may depend on everything
  that happened so far (the log).
* A function that can stop early returns `Except`: a failed `EQASSERT` (when assertions are
  compiled in), a read through a null pointer, a container of negative size, or a wait that
  never ends. The failure carries the state reached at that point.
* Object identity (pointer equality) is equality of the `id` field.
-/

namespace eq
namespace server

/-! ## Failure of an operation -/

/-- Why an operation did not run to its end. -/
inductive Failure
  | assertion (what : String)
  | nullPointer (what : String)
  | lengthError (what : String)
  | outOfRange (what : String)
  | blocked (what : String)
  deriving DecidableEq, Repr

/-- An operation that stopped early: the cause, and the state reached at that point. -/
structure Abort (σ : Type) where
  cause : Failure
  state : σ
  deriving Repr

/-- Modelled from the spec: the `EQASSERT` macro (declared in `base/debug.h`, which is not
among the sources). A failed assertion is a precondition violation that rejects the
operation: "init() called while already Running is rejected (precondition violation)", "a
configuration error (unimplemented topology), signaled, not silently ignored". `checked`
tells whether assertions are compiled in; when they are not, the macro does nothing and
execution goes on, which is the case the sources prepare for with an explicit test right
after several assertions. -/
def EQASSERT {σ : Type} (checked : Bool) (cond : Bool) (what : String) (s : σ) :
    Except (Abort σ) Unit :=
  if checked && !cond then .error ⟨.assertion what, s⟩ else .ok ()

/-! ## Task tree (compounds) -/

/-- Modelled from the spec: an output surface (class `Channel`, declared in `channel.h`).
`layout` is the name of the layout the surface declares, `canvas` the identity of its
canvas, `segment` whether it belongs to a segment and, if so, `segmentChannel` the identity
of that segment's own channel. -/
structure Channel where
  id : Nat
  name : String
  layout : Option String
  canvas : Option Nat
  segment : Bool
  segmentChannel : Option Nat
  deriving DecidableEq, Repr

/-- Data-transfer edge (`Frame`): only its name matters here. -/
structure Frame where
  name : String
  deriving DecidableEq, Repr

/-- Modes of `LoadEqualizer`; a default-constructed one is two-dimensional. -/
inductive LoadEqualizerMode
  | MODE_2D
  | MODE_DB
  deriving DecidableEq, Repr

/-- Modelled from the spec: a load-balancing policy attached to a compound, with its
mutable "frozen" flag. -/
structure Equalizer where
  mode : LoadEqualizerMode
  frozen : Bool
  deriving DecidableEq, Repr

/-- Eye mask of a compound (`EYE_CYCLOP`, `EYE_LEFT`, `EYE_RIGHT` bits). -/
structure Eyes where
  cyclop : Bool
  left : Bool
  right : Bool
  deriving DecidableEq, Repr

/-- Sub-range of the database, `Range( start, end )`: the values of its two members of type
`float`, which are rationals. -/
structure Range where
  start : ℚ
  end_ : ℚ
  deriving DecidableEq, Repr

/-- Frame buffer attachments (`eq::Frame::BUFFER_COLOR`, `BUFFER_DEPTH`). -/
inductive Buffer
  | BUFFER_COLOR
  | BUFFER_DEPTH
  deriving DecidableEq, Repr

/-- Modelled from the spec: a render task (class `Compound`, declared in `compound.h`): "target
output surface (optional), active eye(s) bitmask, numeric sub-range [0,1], buffer mask, zero
or more attached load-balancing policies", children in creation order and input/output
data-transfer edges. `inherited` is the channel of the nearest ancestor naming one, what
`getChannel()` falls back to when the task names none itself. -/
structure Compound where
  name : String
  channel : Option Channel
  inherited : Option Channel
  eyes : Option Eyes
  range : Range
  buffers : List Buffer
  equalizers : List Equalizer
  inputFrames : List Frame
  outputFrames : List Frame
  children : List Compound
  deriving Repr

namespace Compound

/-- Channel of a compound: its own, else the inherited one. -/
def getChannel (c : Compound) : Option Channel :=
  match c.channel with
  | some ch => some ch
  | none => c.inherited

/-- The compound made by `new Compound( parent )`, before it is configured. -/
def new (parent : Compound) : Compound :=
  { name := "", channel := none, inherited := parent.getChannel, eyes := none,
    range := ⟨0, 1⟩, buffers := [], equalizers := [], inputFrames := [], outputFrames := [],
    children := [] }

/-- Attach a finished child as the last child of `parent`. -/
def addChild (parent child : Compound) : Compound :=
  { parent with children := parent.children ++ [child] }

end Compound

/-! ## Configuration -/

/-- Run-state of a configuration, `Config::_state`. -/
inductive State
  | STATE_STOPPED
  | STATE_INITIALIZING
  | STATE_RUNNING
  | STATE_EXITING
  deriving DecidableEq, Repr

/-- Modelled from the spec: the run-state of a node record (`Node::State`, declared in
`node.h`): "run-state {Stopped, Running}". -/
inductive NodeState
  | STATE_STOPPED
  | STATE_RUNNING
  deriving DecidableEq, Repr

/-- Connection handle of a node (`net::NodePtr`): the launch timeout and the host names of
the connection descriptions it was decorated with. -/
structure NetNode where
  id : Nat
  launchTimeout : Int
  hostnames : List String
  deriving DecidableEq, Repr

/-- An entity that can be marked for deletion (canvas, layout, observer, window). -/
structure Entity where
  id : Nat
  needsDelete : Bool
  deriving DecidableEq, Repr

/-- Pixel viewport `( x, y, w, h )`. -/
structure PixelViewport where
  x : Int
  y : Int
  w : Int
  h : Int
  deriving DecidableEq, Repr

/-- Drawable hint of a window (`Window::IATTR_HINT_DRAWABLE`): as configured, or an off-screen
frame buffer object (`fabric::FBO`). -/
inductive Drawable
  | unset
  | FBO
  deriving DecidableEq, Repr

/-- Modelled from the spec: a window of a device (class `Window`, declared in `window.h`) with
the output surfaces it holds. -/
structure Window where
  id : Nat
  needsDelete : Bool
  name : String
  pvp : PixelViewport
  drawable : Drawable
  channels : List Channel
  deriving DecidableEq, Repr

/-- Modelled from the spec: a device sub-resource of a node (class `Pipe`, declared in
`pipe.h`): name, port, device index and pixel viewport, and its windows. -/
structure Pipe where
  name : String
  port : Nat
  device : Nat
  pvp : PixelViewport
  windows : List Window
  deriving DecidableEq, Repr

/-- Modelled from the spec: the node record (class `eq::server::Node`, declared in `node.h`):
"activation flag, run-state, application-node flag, last-finished-frame, a connection handle
once established", and the device sub-resources (pipes) it owns. -/
structure Node where
  name : String
  active : Bool
  applicationNode : Bool
  state : NodeState
  finishedFrame : Nat
  node : Option NetNode
  launchTimeout : Int
  hostnames : List String
  errorMessage : String
  pipes : List Pipe
  deriving DecidableEq, Repr

/-- Packets the configuration sends. -/
inductive Packet
  | ConfigFrameFinish (frameNumber : Nat)
  | ConfigReleaseFrameLocal (frameNumber : Nat)
  | ConfigEventExit
  | ConfigSyncClock
  | ConfigSync
  | ConfigInitReply (result : Bool)
  | ConfigExitReply (result : Bool)
  | ConfigStartFrameReply (finish : Bool)
  | ServerCreateConfig
  | ServerDestroyConfig
  | ClientExit
  deriving DecidableEq, Repr

/-- Receiver of a packet: the application connection `_appNetNode`, the node a command came
from (`command.getNode()`), or the connection handle of a node. -/
inductive Peer
  | app
  | requester
  | node (netNode : Option NetNode)
  deriving DecidableEq, Repr

/-- Observable steps, in program order. -/
inductive Action
  | send (peer : Peer) (packet : Packet)
  | syncObjects
  | syncHead
  | commit
  | observerInit (i : Nat)
  | canvasInit (i : Nat)
  | canvasExit (i : Nat)
  | compoundInit (i : Nat)
  | compoundExit (i : Nat)
  | compoundUpdate (i : Nat) (frameNumber : Nat)
  | compoundDeregister (i : Nat)
  | updateData
  | nodeUpdate (i : Nat) (frameID : Nat) (frameNumber : Nat)
  | nodeFlushFrames (i : Nat) (frameNumber : Nat)
  | nodeUpdateRunning (i : Nat) (initID : Nat) (frameNumber : Nat)
  | nodeSyncRunning (i : Nat)
  | initConnect (netNode : Option NetNode)
  | syncConnect (netNode : NetNode) (timeOut : Nat)
  | waitRequest (i : Nat)
  | sleep (ms : Nat)
  | close (netNode : NetNode)
  | deregisterObject (id : Nat)
  deriving DecidableEq, Repr

/-- The collaborators whose code is outside the sources: what the connection layer, the
clock and the nodes answer, each as a function of the log at the time of the call, and
whether assertions are compiled in. -/
structure Env where
  /-- whether `EQASSERT` is checked -/
  assertsEnabled : Bool
  /-- result of `localNode->initConnect( netNode )` -/
  initConnect : List Action → Option NetNode → Bool
  /-- result of `localNode->syncConnect( netNode, timeOut )` -/
  syncConnect : List Action → NetNode → Nat → Bool
  /-- result of `netNode->isConnected()` -/
  isConnected : List Action → NetNode → Bool
  /-- reading of `clock.getTime64()` for a clock started at the first log, read at the second -/
  getTime64 : List Action → List Action → Int
  /-- outcome of `node->syncRunning()` for node number `i`: the result, and the run-state,
  last-finished frame and error text the node is left with -/
  syncRunning : List Action → Nat → Node → Bool × NodeState × Nat × String
  /-- text of a node streamed into an error message (`operator <<` on `Node*`) -/
  printNode : Node → String
  /-- node reports `(node number, frame number)` of finished frames that come in, in this
  order, while the configuration waits in `_finishedFrame.waitEQ` -/
  arrivals : List Action → List (Nat × Nat)

/-- State of `eq::server::Config` as far as `config.cpp` reads and writes it. -/
structure Config where
  currentFrame : Nat
  finishedFrame : Nat
  state : State
  needsFinish : Bool
  initID : Nat
  errorMessage : String
  workDir : String
  renderClient : String
  appNetNode : Option NetNode
  nodes : List Node
  compounds : List Compound
  canvases : List Entity
  layouts : List Entity
  observers : List Entity
  log : List Action

namespace Config

/-- Result of a member function that may stop early. -/
abbrev Result (α : Type) := Except (Abort Config) α

/-- State set up by the constructor `Config::Config( parent )`: both frame counters 0,
run-state Stopped, needs-finish flag clear, nothing else yet. -/
def fresh : Config :=
  { currentFrame := 0, finishedFrame := 0, state := .STATE_STOPPED, needsFinish := false,
    initID := 0, errorMessage := "", workDir := "", renderClient := "", appNetNode := none,
    nodes := [], compounds := [], canvases := [], layouts := [], observers := [], log := [] }

/-- Append one step to the log. -/
def emit (c : Config) (a : Action) : Config :=
  { c with log := c.log ++ [a] }

/-- Append steps to the log. -/
def emitAll (c : Config) (l : List Action) : Config :=
  { c with log := c.log ++ l }

/-- Overwrite the error text, `setErrorMessage`. -/
def setErrorMessage (c : Config) (m : String) : Config :=
  { c with errorMessage := m }

/-- Change node number `i` in place. -/
def updateNode (c : Config) (i : Nat) (f : Node → Node) : Config :=
  match c.nodes[i]? with
  | some n => { c with nodes := c.nodes.set i (f n) }
  | none => c

/-- Set the connection handle of node `i`, `node->setNode( netNode )`. -/
def setNode (c : Config) (i : Nat) (netNode : Option NetNode) : Config :=
  c.updateNode i (fun n => { n with node := netNode })

/-- Indices of the nodes, in node order. -/
def nodeIndices (c : Config) : List Nat := List.range c.nodes.length

/-- Indices of the active nodes, in node order. -/
def activeIndices (c : Config) : List Nat :=
  c.nodeIndices.filter (fun i => match c.nodes[i]? with
    | some n => n.active
    | none => false)

/-- Increment of a `uint32_t`. -/
def incr32 (n : Nat) : Nat := (n + 1) % 2 ^ 32

/-- Member `Config::restore`, as far as it writes the members of `Config` itself. -/
def restore (c : Config) : Config :=
  { c with currentFrame := 0, finishedFrame := 0, appNetNode := none, workDir := "",
           renderClient := "" }

/-- Member `Config::notifyNodeFrameFinished`. -/
def notifyNodeFrameFinished (frameNumber : Nat) (c : Config) : Config :=
  if c.finishedFrame ≥ frameNumber then c
  else if c.nodes.any (fun node => node.active && decide (node.finishedFrame < frameNumber))
  then c
  else ({ c with finishedFrame := frameNumber }).emit
    (.send .app (.ConfigFrameFinish frameNumber))

/-- Modelled from the spec: a node's report that it finished a frame (command handler of
`Node`, outside the sources): the node records its last-finished frame and calls
`notifyNodeFrameFinished`. -/
def nodeFrameFinished (i : Nat) (frameNumber : Nat) (c : Config) : Config :=
  notifyNodeFrameFinished frameNumber
    (c.updateNode i (fun n => { n with finishedFrame := frameNumber }))

/-- Member `Config::_flushAllFrames`. -/
def _flushAllFrames (c : Config) : Config :=
  if c.currentFrame = 0 then c
  else c.emitAll (c.activeIndices.map (fun i => Action.nodeFlushFrames i c.currentFrame))

/-- Blocking `_finishedFrame.waitEQ( _currentFrame )`: node reports come in one by one until
the two counters agree; when the reports run out before that, the wait never ends. -/
def waitEQ : List (Nat × Nat) → Config → Result Config
  | [], c =>
    if c.finishedFrame = c.currentFrame then .ok c
    else .error ⟨.blocked "_finishedFrame.waitEQ( _currentFrame )", c⟩
  | (i, f) :: rest, c =>
    if c.finishedFrame = c.currentFrame then .ok c
    else waitEQ rest (nodeFrameFinished i f c)

/-! ### Running-state reconciliation -/

/-- Helper `_createNetNode`: a new connection handle decorated from the node's settings. -/
def _createNetNode (i : Nat) (node : Node) : NetNode :=
  { id := i + 1, launchTimeout := node.launchTimeout, hostnames := node.hostnames }

/-- Member `Config::_connectNode`, for node number `i`. -/
def _connectNode (env : Env) (i : Nat) (node : Node) (c : Config) : Result (Bool × Config) := do
  EQASSERT env.assertsEnabled node.active "node->isActive()" c
  match node.node with
  | some netNode => pure (env.isConnected c.log netNode, c)
  | none =>
    let netNode := if node.applicationNode then c.appNetNode else some (_createNetNode i node)
    let c := c.emit (.initConnect netNode)
    if !env.initConnect c.log netNode then
      pure (false, c.setErrorMessage (c.errorMessage ++
        "Connection to node failed, node does not run and launch command failed: " ++
        env.printNode node))
    else
      pure (true, c.setNode i netNode)

/-- Member `Config::_syncConnectNode`, for node number `i`; `clock` is the log at the time the
clock was started. -/
def _syncConnectNode (env : Env) (i : Nat) (node : Node) (clock : List Action) (c : Config) :
    Result (Bool × Config) := do
  EQASSERT env.assertsEnabled node.active "node->isActive()" c
  match node.node with
  | none => pure (false, c)
  | some netNode =>
    let timeLeft : Int := netNode.launchTimeout - env.getTime64 clock c.log
    let timeOut : Nat := (max timeLeft 0).toNat % 2 ^ 32
    let c := c.emit (.syncConnect netNode timeOut)
    if !env.syncConnect c.log netNode timeOut then
      let data := String.join (netNode.hostnames.map (fun h => h ++ " "))
      let c := c.setErrorMessage (c.errorMessage ++
        "Connection of node failed, node did not start ( " ++ data ++ ") ")
      pure (false, c.setNode i none)
    else
      pure (true, c)

/-- First loop of `_connectNodes`: start connecting, stop at the first failure. -/
def _connectLoop (env : Env) : List Nat → Config → Result (Bool × Config)
  | [], c => pure (true, c)
  | i :: rest, c =>
    match c.nodes[i]? with
    | none => _connectLoop env rest c
    | some node =>
      if node.active then do
        let (ok, c) ← _connectNode env i node c
        if !ok then pure (false, c) else _connectLoop env rest c
      else _connectLoop env rest c

/-- Second loop of `_connectNodes`: await every active node. -/
def _syncConnectLoop (env : Env) (clock : List Action) :
    List Nat → Bool → Config → Result (Bool × Config)
  | [], success, c => pure (success, c)
  | i :: rest, success, c =>
    match c.nodes[i]? with
    | none => _syncConnectLoop env clock rest success c
    | some node =>
      if node.active then do
        let (ok, c) ← _syncConnectNode env i node clock c
        _syncConnectLoop env clock rest (if !ok then false else success) c
      else _syncConnectLoop env clock rest success c

/-- Member `Config::_connectNodes`. -/
def _connectNodes (env : Env) (c : Config) : Result (Bool × Config) := do
  let clock := c.log
  let (success, c) ← _connectLoop env c.nodeIndices c
  _syncConnectLoop env clock c.nodeIndices success c

/-- Member `Config::_createConfig`; the caller names the request by the node number. -/
def _createConfig (env : Env) (node : Node) (c : Config) : Result Config := do
  EQASSERT env.assertsEnabled (!node.applicationNode) "!node->isApplicationNode()" c
  EQASSERT env.assertsEnabled node.active "node->isActive()" c
  let c := c.emit .commit
  pure (c.emit (.send (.node node.node) .ServerCreateConfig))

/-- First loop of `_startNodes`: collect the create-config requests of the starting nodes. -/
def _startLoop (env : Env) : List Nat → List Nat → Config → Result (List Nat × Config)
  | [], requests, c => pure (requests, c)
  | i :: rest, requests, c =>
    match c.nodes[i]? with
    | none => _startLoop env rest requests c
    | some node =>
      if node.active && decide (node.state ≠ .STATE_RUNNING) then do
        EQASSERT env.assertsEnabled (decide (node.state = .STATE_STOPPED))
          "state == Node::STATE_STOPPED" c
        if !node.applicationNode then do
          let c ← _createConfig env node c
          _startLoop env rest (requests ++ [i]) c
        else _startLoop env rest requests c
      else _startLoop env rest requests c

/-- Member `Config::_startNodes`. -/
def _startNodes (env : Env) (c : Config) : Result Config := do
  let (requests, c) ← _startLoop env c.nodeIndices [] c
  pure (c.emitAll (requests.map Action.waitRequest))

/-- Member `Config::_updateCanvases`. -/
def _updateCanvases (c : Config) : Config :=
  c.emitAll ((c.canvases.filter (fun e => e.needsDelete)).map (fun e => Action.canvasExit e.id))

/-- Second loop of `_updateNodes`: await every node and collect the error texts. -/
def _syncRunningLoop (env : Env) : List Nat → Bool → Config → Bool × Config
  | [], result, c => (result, c)
  | i :: rest, result, c =>
    match c.nodes[i]? with
    | none => _syncRunningLoop env rest result c
    | some node =>
      let c := c.emit (.nodeSyncRunning i)
      let r := env.syncRunning c.log i node
      let c := c.updateNode i (fun n =>
        { n with state := r.2.1, finishedFrame := r.2.2.1, errorMessage := r.2.2.2 })
      if !r.1 then
        _syncRunningLoop env rest false
          (c.setErrorMessage (c.errorMessage ++ "node " ++ node.name ++ ": '" ++ r.2.2.2 ++ "'"))
      else _syncRunningLoop env rest result c

/-- Member `Config::_updateNodes`. -/
def _updateNodes (env : Env) (c : Config) : Bool × Config :=
  let c := c.emitAll (c.nodeIndices.map
    (fun i => Action.nodeUpdateRunning i c.initID c.currentFrame))
  _syncRunningLoop env c.nodeIndices true c

/-- First loop of `_stopNodes`: detach stopped application nodes, send the teardown packets
to the other stopped nodes that are still connected and collect them. -/
def _stopLoop (env : Env) : List Nat → List Nat → Config → Result (List Nat × Config)
  | [], stopping, c => pure (stopping, c)
  | i :: rest, stopping, c =>
    match c.nodes[i]? with
    | none => _stopLoop env rest stopping c
    | some node =>
      if node.state ≠ .STATE_STOPPED then _stopLoop env rest stopping c
      else if node.applicationNode then _stopLoop env rest stopping (c.setNode i none)
      else
        match node.node with
        | none => _stopLoop env rest stopping c
        | some netNode => do
          EQASSERT env.assertsEnabled (!node.active) "!node->isActive()" c
          let c := c.emit (.send (.node (some netNode)) .ServerDestroyConfig)
          let c := c.emit (.send (.node (some netNode)) .ClientExit)
          _stopLoop env rest (stopping ++ [i]) c

/-- Inner loop `while( netNode->isConnected() && --nSleeps ) sleep( 100 )` of `_stopNodes`,
entered with `nSleeps` not zero; gives the sleeps left. -/
def _waitDisconnect (env : Env) (netNode : NetNode) : Nat → Config → Nat × Config
  | 0, c => (0, c)
  | n + 1, c =>
    if env.isConnected c.log netNode then
      if n = 0 then (0, c) else _waitDisconnect env netNode n (c.emit (.sleep 100))
    else (n + 1, c)

/-- Second loop of `_stopNodes`: wait for the render clients to disconnect. -/
def _disconnectLoop (env : Env) : List Nat → Nat → Config → Config
  | [], _, c => c
  | i :: rest, nSleeps, c =>
    match c.nodes[i]? with
    | none => _disconnectLoop env rest nSleeps c
    | some node =>
      match node.node with
      | none => _disconnectLoop env rest nSleeps (c.setNode i none)
      | some netNode =>
        let c := c.setNode i none
        let r := if nSleeps ≠ 0 then _waitDisconnect env netNode nSleeps c else (nSleeps, c)
        let c := r.2
        let c := if env.isConnected c.log netNode then c.emit (.close netNode) else c
        _disconnectLoop env rest r.1 c

/-- Member `Config::_stopNodes`. -/
def _stopNodes (env : Env) (c : Config) : Result Config := do
  let (stopping, c) ← _stopLoop env c.nodeIndices [] c
  pure (_disconnectLoop env stopping 50 c)

/-- Steps of `_deleteEntities` on one vector: every entity marked for deletion is
deregistered and deleted, the others stay. -/
def deleteActions (entities : List Entity) : List Action :=
  (entities.filter (fun e => e.needsDelete)).map (fun e => Action.deregisterObject e.id)

/-- What `_deleteEntities` leaves of one vector. -/
def keepEntities (entities : List Entity) : List Entity :=
  entities.filter (fun e => !e.needsDelete)

/-- Steps of `_deleteEntities` on the windows of one pipe. -/
def deleteWindowActions (windows : List Window) : List Action :=
  (windows.filter (fun w => w.needsDelete)).map (fun w => Action.deregisterObject w.id)

/-- What `_deleteEntities` leaves of the windows of one pipe. -/
def keepWindows (windows : List Window) : List Window :=
  windows.filter (fun w => !w.needsDelete)

/-- The four `_deleteEntities` passes of `_updateRunning`: canvases, layouts, observers, then
the windows of every pipe of every node. -/
def _deleteEntities (c : Config) : Config :=
  let c := { c.emitAll (deleteActions c.canvases) with canvases := keepEntities c.canvases }
  let c := { c.emitAll (deleteActions c.layouts) with layouts := keepEntities c.layouts }
  let c := { c.emitAll (deleteActions c.observers) with observers := keepEntities c.observers }
  { c.emitAll ((c.nodes.map (fun n =>
      (n.pipes.map (fun p => deleteWindowActions p.windows)).flatten)).flatten) with
    nodes := c.nodes.map (fun n =>
      { n with pipes := n.pipes.map (fun p => { p with windows := keepWindows p.windows }) }) }

/-- Loop of `_syncClock` over the active nodes. -/
def _syncClockLoop (env : Env) : List Nat → Config → Result Config
  | [], c => pure c
  | i :: rest, c =>
    match c.nodes[i]? with
    | none => _syncClockLoop env rest c
    | some node =>
      if node.active then do
        EQASSERT env.assertsEnabled
          (match node.node with
           | some netNode => env.isConnected c.log netNode
           | none => false) "netNode->isConnected()" c
        _syncClockLoop env rest (c.emit (.send (.node node.node) .ConfigSyncClock))
      else _syncClockLoop env rest c

/-- Member `Config::_syncClock`. -/
def _syncClock (env : Env) (c : Config) : Result Config :=
  _syncClockLoop env c.nodeIndices (c.emit (.send .app .ConfigSyncClock))

/-- Member `Config::_updateRunning`. -/
def _updateRunning (env : Env) (c : Config) : Result (Bool × Config) :=
  if c.state = .STATE_STOPPED then pure (true, c)
  else do
    EQASSERT env.assertsEnabled
      (decide (c.state = .STATE_RUNNING) || decide (c.state = .STATE_INITIALIZING) ||
        decide (c.state = .STATE_EXITING))
      "_state == STATE_RUNNING || _state == STATE_INITIALIZING || _state == STATE_EXITING" c
    let c := c.setErrorMessage ""
    let (connected, c) ← _connectNodes env c
    if !connected then pure (false, c)
    else do
      let c ← _startNodes env c
      let c := _updateCanvases c
      let (result, c) := _updateNodes env c
      let c ← _stopNodes env c
      let c := _deleteEntities c
      let c ← _syncClock env c
      pure (result, c)

/-! ### Init, exit and frames -/

/-- Steps `f 0, f 1, ..` for the `n` members of a vector, in order. -/
def forEach (n : Nat) (f : Nat → Action) : List Action := (List.range n).map f

/-- First part of `Config::_init`, from the state change up to the reconciliation: the
counters are reset, the init id is stored, and the observers, canvases and compounds are
initialised. -/
def _initBegin (initID : Nat) (c : Config) : Config :=
  let c := { c with state := .STATE_INITIALIZING, currentFrame := 0, finishedFrame := 0,
                    initID := initID }
  let c := c.emitAll (c.observers.map (fun e => Action.observerInit e.id))
  let c := c.emitAll (c.canvases.map (fun e => Action.canvasInit e.id))
  c.emitAll (forEach c.compounds.length Action.compoundInit)

/-- Member `Config::_init`. -/
def _init (env : Env) (initID : Nat) (c : Config) : Result (Bool × Config) := do
  EQASSERT env.assertsEnabled (decide (c.state = .STATE_STOPPED)) "_state == STATE_STOPPED" c
  let c := _initBegin initID c
  let (ok, c) ← _updateRunning env c
  if !ok then pure (false, c)
  else pure (true, { c with needsFinish := false, state := .STATE_RUNNING })

/-- Member `Config::exit`. -/
def exit (env : Env) (c : Config) : Result (Bool × Config) := do
  EQASSERT env.assertsEnabled
    (decide (c.state = .STATE_RUNNING) || decide (c.state = .STATE_INITIALIZING))
    "_state == STATE_RUNNING || _state == STATE_INITIALIZING" c
  let c := { c with state := .STATE_EXITING }
  let c := c.emitAll (forEach c.compounds.length Action.compoundExit)
  let c := c.emitAll (c.canvases.map (fun e => Action.canvasExit e.id))
  let (success, c) ← _updateRunning env c
  let c := c.emitAll (forEach c.compounds.length Action.compoundDeregister)
  let c := c.emit (.send .app .ConfigEventExit)
  pure (success, { c with needsFinish := false, state := .STATE_STOPPED })

/-- First part of `Config::_startFrame`, from the increment of the frame counter up to the
closing call of `notifyNodeFrameFinished`: the compounds are updated, the data is pushed,
every active node is told to start the frame, and the application's local sync is released
when no active node is the application node. -/
def _startFrameBegin (frameID : Nat) (c : Config) : Config :=
  let c := { c with currentFrame := incr32 c.currentFrame }
  let c := c.emitAll (forEach c.compounds.length (fun i => Action.compoundUpdate i c.currentFrame))
  let c := c.emit .updateData
  let c := c.emitAll (c.activeIndices.map (fun i => Action.nodeUpdate i frameID c.currentFrame))
  let appNodeRunning := c.nodes.any (fun node => node.active && node.applicationNode)
  if !appNodeRunning then c.emit (.send .app (.ConfigReleaseFrameLocal c.currentFrame))
  else c

/-- Member `Config::_startFrame`. -/
def _startFrame (env : Env) (frameID : Nat) (c : Config) : Result Config := do
  EQASSERT env.assertsEnabled (decide (c.state = .STATE_RUNNING)) "_state == STATE_RUNNING" c
  let c := _startFrameBegin frameID c
  pure (notifyNodeFrameFinished c.currentFrame c)

/-- Handler `Config::_cmdInit` of the command `ConfigInit( initID )`. -/
def _cmdInit (env : Env) (initID : Nat) (c : Config) : Result Config := do
  let c := c.emit .syncObjects
  let (result, c) ← _init env initID c
  let c ← if !result then (do let (_, c) ← exit env c; pure c) else pure c
  let c := c.emit .syncHead
  let c := c.emit .commit
  let c := c.emit (.send .requester (.ConfigInitReply result))
  pure (c.setErrorMessage "")

/-- Handler `Config::_cmdExit` of the command `ConfigExit`. -/
def _cmdExit (env : Env) (c : Config) : Result Config := do
  let (result, c) ← if c.state = .STATE_RUNNING then exit env c else pure (false, c)
  pure (c.emit (.send .requester (.ConfigExitReply result)))

/-- Opening of `Config::_cmdStartFrame`: the objects are synchronised, the sync packet and
the reply (carrying the needs-finish flag) are sent to the requester and, when the flag is
set, all frames are flushed and the handler waits until the finished-frame counter equals
the current-frame counter. -/
def _cmdStartFrameBegin (env : Env) (c : Config) : Result Config :=
  let c := c.emit .syncObjects
  let c := c.emit (.send .requester .ConfigSync)
  let c := c.emit (.send .requester (.ConfigStartFrameReply c.needsFinish))
  if c.needsFinish then
    let c := _flushAllFrames c
    waitEQ (env.arrivals c.log) c
  else pure c

/-- Closing of `Config::_cmdStartFrame`: when the needs-finish flag is set the current frame
is flushed and the flag is cleared; when the configuration is stopped, a frame-finished
packet for the current frame unlocks the requester. -/
def _cmdStartFrameEnd (c : Config) : Config :=
  let c := if c.needsFinish then { _flushAllFrames c with needsFinish := false } else c
  if c.state = .STATE_STOPPED
  then c.emit (.send .requester (.ConfigFrameFinish c.currentFrame)) else c

/-- Handler `Config::_cmdStartFrame` of the command `ConfigStartFrame( frameID )`. -/
def _cmdStartFrame (env : Env) (frameID : Nat) (c : Config) : Result Config := do
  let c ← _cmdStartFrameBegin env c
  let (ok, c) ← _updateRunning env c
  let c ← if ok then _startFrame env frameID c
    else (do
      let (_, c) ← exit env c
      pure { c with currentFrame := incr32 c.currentFrame })
  pure (_cmdStartFrameEnd c)

/-- Handler `Config::_cmdFinishAllFrames`. -/
def _cmdFinishAllFrames (c : Config) : Config := _flushAllFrames c

/-- The frame numbers of the frame-finished notifications to the application among the
steps of a log, in order. -/
def frameFinishes (log : List Action) : List Nat :=
  log.filterMap (fun a =>
    match a with
    | .send .app (.ConfigFrameFinish n) => some n
    | _ => none)

/-- The answer `syncRunning` of node number `j` gives in `_updateNodes`, started with the log
`log` and the nodes `nodes`: the node is awaited after the updates were issued to all nodes
and the nodes before it were awaited. -/
def syncAnswer (env : Env) (log : List Action) (initID currentFrame : Nat) (nodes : List Node)
    (j : Nat) : Option (Bool × NodeState × Nat × String) :=
  (nodes[j]?).map (fun node =>
    env.syncRunning
      (log ++ (List.range nodes.length).map
          (fun i => Action.nodeUpdateRunning i initID currentFrame) ++
        (List.range (j + 1)).map Action.nodeSyncRunning) j node)

/-- Whether node number `j` fails to synchronise in `_updateNodes`. -/
def syncFails (env : Env) (log : List Action) (initID currentFrame : Nat) (nodes : List Node)
    (j : Nat) : Bool :=
  match syncAnswer env log initID currentFrame nodes j with
  | some r => !r.1
  | none => false

/-- The text `_updateNodes` adds to the error message for node number `j` when it fails. -/
def syncText (env : Env) (log : List Action) (initID currentFrame : Nat) (nodes : List Node)
    (j : Nat) : String :=
  match nodes[j]?, syncAnswer env log initID currentFrame nodes j with
  | some node, some r => "node " ++ node.name ++ ": '" ++ r.2.2.2 ++ "'"
  | _, _ => ""
end Config

/-! ## Single-precision arithmetic -/

namespace float

/-- Nearest integer, a tie going to the even one. -/
def roundEven (t : ℚ) : ℤ :=
  if t - ⌊t⌋ < 1 / 2 then ⌊t⌋
  else if 1 / 2 < t - ⌊t⌋ then ⌊t⌋ + 1
  else if ⌊t⌋ % 2 = 0 then ⌊t⌋ else ⌊t⌋ + 1

/-- Exponent of the binade a non-negative value lies in, not below the exponent of the
smallest normal number. -/
def exponent (x : ℚ) : ℤ := max (Int.log 2 x) (-126)

/-- The value of type `float` (IEEE 754 single precision, 24 significant bits, round to
nearest, ties to even) that represents a rational. Overflow to infinity is left out: the
values rounded here are at most 100000. -/
def round (x : ℚ) : ℚ :=
  if x < 0 then -(roundEven (-x / 2 ^ (exponent (-x) - 23)) * 2 ^ (exponent (-x) - 23))
  else roundEven (x / 2 ^ (exponent x - 23)) * 2 ^ (exponent x - 23)

/-- Conversion `float( n )` of an unsigned integer. -/
def ofNat (n : Nat) : ℚ := round n

/-- Quotient `x / y` of two values of type `float`. A division by zero, which gives no finite
value, reads as 0; its result is not used where it occurs here. -/
def div (x y : ℚ) : ℚ := round (x / y)

end float

/-! ## Resource builder (`resources.cpp`) -/

namespace config

/-- Decimal digits of `n`, most significant first; `fuel` bounds the number of digits. -/
def digitsAux : Nat → Nat → List Char
  | 0, _ => []
  | fuel + 1, n =>
    if n < 10 then [Nat.digitChar n]
    else digitsAux fuel (n / 10) ++ [Nat.digitChar (n % 10)]

/-- Decimal digits of a natural number. -/
def decimalNat (n : Nat) : List Char := digitsAux (n + 1) n

/-- What `operator <<` prints for a signed integer. -/
def decimal (k : Int) : List Char :=
  if k < 0 then '-' :: decimalNat k.natAbs else decimalNat k.natAbs

/-- Prefix increment of the 32-bit signed atomic counter (`a_int32_t`): the new value,
wrapping from `2^31 - 1` to `-2^31`. -/
def incrInt32 (k : Int) : Int := (k + 1 + 2 ^ 31) % 2 ^ 32 - 2 ^ 31

/-- Name `"Frame." << compound->getName() << '.' << k` of a data-transfer edge. -/
def frameName (groupName : String) (k : Int) : String :=
  "Frame." ++ groupName ++ "." ++ String.mk (decimal k)

/-- A `Channel*`, possibly null. -/
abbrev ChannelPtr := Option Channel

/-- Pointer equality of two channels. -/
def samePtr (a b : ChannelPtr) : Bool :=
  match a, b with
  | none, none => true
  | some x, some y => x.id == y.id
  | _, _ => false

namespace Resources

/-- Result of a builder function: the process-wide `_frameCounter` is threaded through, and
a failure records the counter reached. -/
abbrev Result (α : Type) := Except (Abort Int) α

/-- Loop of `_addSources` over the sources, for the output surface `outputChannel`. -/
def _addSourcesLoop (outputChannel : Option Nat) :
    List ChannelPtr → Compound → Int → Compound × Int
  | [], compound, counter => (compound, counter)
  | channel :: rest, compound, counter =>
    let child := Compound.new compound
    if channel.map (fun ch => ch.id) = outputChannel then
      _addSourcesLoop outputChannel rest (compound.addChild child) counter
    else
      let child := { child with channel := channel }
      let counter := incrInt32 counter
      let name := frameName compound.name counter
      let child := { child with outputFrames := child.outputFrames ++ [Frame.mk name] }
      let compound := { compound with inputFrames := compound.inputFrames ++ [Frame.mk name] }
      _addSourcesLoop outputChannel rest (compound.addChild child) counter

/-- The output surface `segment ? segment->getChannel() : 0` of the segment a channel belongs
to, by identity. -/
def outputChannelOf (rootChannel : Channel) : Option Nat :=
  if rootChannel.segment then rootChannel.segmentChannel else none

/-- Member `Resources::_addSources`: the group with its new children and input edges. -/
def _addSources (checked : Bool) (compound : Compound) (channels : List ChannelPtr)
    (counter : Int) : Result (Compound × Int) :=
  match compound.getChannel with
  | none => .error ⟨.nullPointer "rootChannel->getSegment()", counter⟩
  | some rootChannel => do
    let outputChannel := outputChannelOf rootChannel
    EQASSERT checked outputChannel.isSome "outputChannel" counter
    pure (_addSourcesLoop outputChannel channels compound counter)

/-- Number of times one `_addSources` call increments the counter: the sources that are not
the output surface of the group. -/
def increments (compound : Compound) (channels : List ChannelPtr) : Nat :=
  match compound.getChannel with
  | none => 0
  | some rootChannel =>
    (channels.filter (fun ch => ch.map (fun x => x.id) ≠ outputChannelOf rootChannel)).length

/-- Member `Resources::_add2DCompound`: the new group, to be attached under `root`. -/
def _add2DCompound (checked : Bool) (root : Compound) (channels : List ChannelPtr)
    (counter : Int) : Result (Compound × Int) :=
  let compound := { Compound.new root with name := "2D" }
  let compound := { compound with
    equalizers := compound.equalizers ++ [{ mode := .MODE_2D, frozen := false }] }
  _addSources checked compound channels counter

/-- Range assignment loop of `_addDBCompound`, over the children from `start` on: the bounds
are the single-precision quotients `float( start ) / 100000.f` and
`float( start + step ) / 100000.f`, the last child ending at `1.f`. -/
def setRanges (step : Nat) : Nat → List Compound → List Compound
  | _, [] => []
  | start, [child] => [{ child with range := ⟨float.div (float.ofNat start) 100000, 1⟩ }]
  | start, child :: next :: rest =>
    { child with range := ⟨float.div (float.ofNat start) 100000,
                           float.div (float.ofNat (start + step)) 100000⟩ } ::
      setRanges step (start + step) (next :: rest)

/-- The step `size_t( 100000.0f / float( n ))` of `_addDBCompound` for `n` children: the
single-precision quotient, truncated. -/
def dbStep (n : Nat) : Nat := (⌊float.div 100000 (float.ofNat n)⌋).toNat

/-- Member `Resources::_addDBCompound`: the new group, to be attached under `root`. -/
def _addDBCompound (checked : Bool) (root : Compound) (channels : List ChannelPtr)
    (counter : Int) : Result (Compound × Int) := do
  let compound := { Compound.new root with name := "DB" }
  let compound := if channels.length > 1
    then { compound with buffers := [.BUFFER_COLOR, .BUFFER_DEPTH] } else compound
  let (compound, counter) ← _addSources checked compound channels counter
  let step := dbStep compound.children.length
  pure ({ compound with children := setRanges step 0 compound.children }, counter)

/-- The ranges as the spec reads them, over the integer basis 100000: the exact quotients
`start / 100000` and `( start + step ) / 100000` that the range assignment of
`_addDBCompound` rounds to single precision, the last child ending at 1. -/
def exactRanges (step : Nat) : Nat → List Compound → List Compound
  | _, [] => []
  | start, [child] => [{ child with range := ⟨(start : ℚ) / 100000, 1⟩ }]
  | start, child :: next :: rest =>
    { child with range := ⟨(start : ℚ) / 100000, ((start + step : Nat) : ℚ) / 100000⟩ } ::
      exactRanges step (start + step) (next :: rest)

/-- A range as it is stored: both bounds rounded to single precision. -/
def stored (r : Range) : Range := ⟨float.round r.start, float.round r.end_⟩

/-- One eye of `_addEyeCompound`: a plain child when the half is empty or is exactly the
group's own channel, a two-dimensional group over the half otherwise. -/
def eyeChild (checked : Bool) (compound : Compound) (half : List ChannelPtr) (counter : Int) :
    Result (Compound × Int) :=
  if half.isEmpty ||
      (half.length == 1 && (match half.head? with
        | some front => samePtr front compound.getChannel
        | none => false)) then
    pure (Compound.new compound, counter)
  else _add2DCompound checked compound half counter

/-- Left half of the stereo split: the sources before `split = begin + (nChannels >> 1)`. -/
def leftChannels (channels : List ChannelPtr) : List ChannelPtr :=
  channels.take (channels.length >>> 1)

/-- Right half of the stereo split: the sources from `split + 1` on. -/
def rightChannels (channels : List ChannelPtr) : List ChannelPtr :=
  channels.drop ((channels.length >>> 1) + 1)

/-- Member `Resources::_addEyeCompound`: the new group, to be attached under `root`. Sizing
`rightChannels` with `channels.end() - (split+1)` is not possible for an empty source list
(the size would be negative). -/
def _addEyeCompound (checked : Bool) (root : Compound) (channels : List ChannelPtr)
    (counter : Int) : Result (Compound × Int) :=
  let compound := { Compound.new root with name := "Stereo" }
  let nChannels := channels.length
  let split := nChannels >>> 1
  if nChannels < split + 1 then
    .error ⟨.lengthError "Channels rightChannels( channels.end() - (split+1))", counter⟩
  else do
    let (left, counter) ← eyeChild checked compound (leftChannels channels) counter
    let left := { left with eyes := some { cyclop := true, left := true, right := false } }
    let compound := compound.addChild left
    let (right, counter) ← eyeChild checked compound (rightChannels channels) counter
    let right := { right with eyes := some { cyclop := true, left := false, right := true } }
    pure (compound.addChild right, counter)

/-- Body of the loop of `configure` for one top-level compound; `canvas` is the canvas seen
so far. Gives the compound with the groups added under its segment child. -/
def configureOne (checked : Bool) (channels : List ChannelPtr) (top : Compound)
    (canvas : Option Nat) (counter : Int) : Result (Compound × Option Nat × Int) := do
  EQASSERT checked (top.children.length == 1) "children.size() == 1" counter
  match top.children with
  | [segmentCompound] =>
    EQASSERT checked segmentCompound.getChannel.isSome "channel" counter
    match segmentCompound.getChannel with
    | none => .error ⟨.nullPointer "channel->getCanvas()", counter⟩
    | some channel =>
      EQASSERT checked (canvas.isNone || channel.canvas == canvas)
        "!canvas || channel->getCanvas() == canvas" counter
      let canvas := channel.canvas
      EQASSERT checked channel.layout.isSome "layout" counter
      match channel.layout with
      | none => .error ⟨.nullPointer "layout->getName()", counter⟩
      | some name =>
        if name = "2D" then do
          let (mono, counter) ← _add2DCompound checked segmentCompound channels counter
          let mono := { mono with eyes := some { cyclop := true, left := false, right := false } }
          let segmentCompound := segmentCompound.addChild mono
          let (stereo, counter) ← _addEyeCompound checked segmentCompound channels counter
          let stereo := { stereo with eyes := some { cyclop := false, left := true, right := true } }
          pure ({ top with children := [segmentCompound.addChild stereo] }, canvas, counter)
        else if name = "static DB" || name = "dynamic DB" then do
          let (db, counter) ← _addDBCompound checked segmentCompound channels counter
          let db := { db with name := name }
          let db := if name = "dynamic DB"
            then { db with equalizers := db.equalizers ++ [{ mode := .MODE_DB, frozen := false }] } else db
          pure ({ top with children := [segmentCompound.addChild db] }, canvas, counter)
        else if name = "Simple" then
          pure (top, canvas, counter)
        else do
          EQASSERT checked false "Unimplemented" counter
          pure (top, canvas, counter)
  | _ => pure (top, canvas, counter)

/-- Loop of `configure` over the top-level compounds. -/
def configureLoop (checked : Bool) (channels : List ChannelPtr) :
    List Compound → Option Nat → Int → Result (List Compound × Int)
  | [], _, counter => pure ([], counter)
  | top :: rest, canvas, counter => do
    let (top, canvas, counter) ← configureOne checked channels top canvas counter
    let (rest, counter) ← configureLoop checked channels rest canvas counter
    pure (top :: rest, counter)

/-- Member `Resources::configure`: the top-level compounds after the build. -/
def configure (checked : Bool) (compounds : List Compound) (channels : List ChannelPtr)
    (counter : Int) : Result (List Compound × Int) := do
  EQASSERT checked (!compounds.isEmpty) "!compounds.empty()" counter
  if compounds.isEmpty || channels.isEmpty then pure (compounds, counter)
  else configureLoop checked channels compounds none counter

/-- A sequence of `_addSources` calls run one after the other on the shared counter: for
every call the group as built and the names of the input edges the call added to it. -/
def addSourcesSeq (checked : Bool) :
    List (Compound × List ChannelPtr) → Int → Result (List (Compound × List String) × Int)
  | [], counter => pure ([], counter)
  | (compound, channels) :: rest, counter => do
    let (built, counter) ← _addSources checked compound channels counter
    let names := (built.inputFrames.drop compound.inputFrames.length).map (fun f => f.name)
    let (others, counter) ← addSourcesSeq checked rest counter
    pure ((built, names) :: others, counter)

/-- Modelled from the spec: validity of a pixel viewport (`PixelViewport::isValid`, declared
in `pixelViewport.h`): the viewport has been sized. -/
def isValid (pvp : PixelViewport) : Bool := decide (0 ≤ pvp.w) && decide (0 ≤ pvp.h)

/-- Member `Config::findAppNode`: the first node flagged as application node, with its
position. -/
def findAppNode : List Node → Nat → Option (Nat × Node)
  | [], _ => none
  | node :: rest, i => if node.applicationNode then some (i, node) else findAppNode rest (i + 1)

/-- Modelled from the spec: `pipe->getChannel( ChannelPath( 0 ))` (declared in `pipe.h`): the
first output surface of the first window of the device, null when there is none. -/
def getChannel0 (pipe : Pipe) : ChannelPtr :=
  match pipe.windows with
  | [] => none
  | window :: _ => window.channels.head?

/-- The off-screen source window made for `pipe` by `configureSourceChannels`, holding the new
source channel; `id` and `id + 1` are the identities of the two new objects. -/
def sourceWindow (pipe : Pipe) (pvp : PixelViewport) (id : Nat) : Window :=
  { id := id, needsDelete := false, name := pipe.name ++ " source window", pvp := pvp,
    drawable := .FBO,
    channels := [{ id := id + 1, name := pipe.name ++ " source channel", layout := none,
                   canvas := none, segment := false, segmentChannel := none }] }

/-- Loop of `configureSourceChannels` over the pipes after the first: every pipe gets a
source window, whose channel is collected. -/
def sourceLoop (pvp : PixelViewport) : List Pipe → Nat → List Pipe × List ChannelPtr
  | [], _ => ([], [])
  | pipe :: rest, id =>
    let window := sourceWindow pipe pvp id
    let r := sourceLoop pvp rest (id + 2)
    ({ pipe with windows := pipe.windows ++ [window] } :: r.1, window.channels.head? :: r.2)

/-- Member `Resources::configureSourceChannels`: the render sources, and the configuration
with the new windows; `fresh` is the first unused object identity. -/
def configureSourceChannels (checked : Bool) (c : Config) (fresh : Nat) :
    Config.Result (List ChannelPtr × Config) := do
  EQASSERT checked (findAppNode c.nodes 0).isSome "node" c
  match findAppNode c.nodes 0 with
  | none => pure ([], c)
  | some (i, node) =>
    EQASSERT checked (!node.pipes.isEmpty) "!pipes.empty()" c
    match node.pipes with
    | [] => pure ([], c)
    | pipe :: rest =>
      let pvp : PixelViewport :=
        if isValid pipe.pvp then { pipe.pvp with x := 0, y := 0 } else ⟨0, 0, 1920, 1200⟩
      let first : List ChannelPtr := if pipe.name ≠ "display" then [getChannel0 pipe] else []
      let r := sourceLoop pvp rest fresh
      pure (first ++ r.2, c.updateNode i (fun n => { n with pipes := pipe :: r.1 }))

/-- Modelled from the spec: one device descriptor of the discovery feed (`gpusd::GPUInfo`,
declared in `gpusd/gpuInfo.h`): "host name, port, device index, pixel viewport". The host
name of a local device is empty, and the device index of a descriptor without one is
`EQ_UNDEFINED_UINT32`. -/
structure GPUInfo where
  hostname : String
  port : Nat
  device : Nat
  pvp : PixelViewport
  deriving DecidableEq, Repr

/-- The device index that stands for "no device index": the largest `uint32_t`. -/
def EQ_UNDEFINED_UINT32 : Nat := 4294967295

/-- Local variable `nodes` of `discover`, a map from host names to nodes: for every host name
entered its node, as the position of the node among the nodes of the configuration. -/
abbrev NodeMap := List (String × Nat)

/-- Modelled from the spec: the node record made by `new Node( config )` (constructor in
`node.cpp`), before anything is set on it: stopped, not active, not the application node, no
connection handle and no device. -/
def newNode : Node :=
  { name := "", active := false, applicationNode := false, state := .STATE_STOPPED,
    finishedFrame := 0, node := none, launchTimeout := 60000, hostnames := [],
    errorMessage := "", pipes := [] }

/-- Name of the device made for a descriptor when the counter of indexed devices stands at
`gpuCounter`, and the counter afterwards: `"display"` without a device index, `"GPU"`
followed by the incremented counter with one. The counter is a `size_t` that counts
descriptors held in memory and cannot wrap. -/
def pipeName (info : GPUInfo) (gpuCounter : Nat) : String × Nat :=
  if info.device = EQ_UNDEFINED_UINT32 then ("display", gpuCounter)
  else ("GPU" ++ String.mk (decimalNat (gpuCounter + 1)), gpuCounter + 1)

/-- The device `new Pipe( node )` as set up from a descriptor, under the name `name`. -/
def newPipe (info : GPUInfo) (name : String) : Pipe :=
  { name := name, port := info.port, device := info.device, pvp := info.pvp, windows := [] }

/-- Loop of `discover` over the descriptors of the feed: the node of the host is looked up,
and made and entered in the map when the host is new; the device is added to it. -/
def discoverLoop : List GPUInfo → NodeMap → Nat → Config → NodeMap × Nat × Config
  | [], nodes, gpuCounter, c => (nodes, gpuCounter, c)
  | info :: rest, nodes, gpuCounter, c =>
    let found : Nat × NodeMap × Config :=
      match nodes.lookup info.hostname with
      | some node => (node, nodes, c)
      | none =>
        (c.nodes.length, nodes ++ [(info.hostname, c.nodes.length)],
          { c with nodes := c.nodes ++ [newNode] })
    let name := pipeName info gpuCounter
    let pipe := newPipe info name.1
    discoverLoop rest found.2.1 name.2
      (found.2.2.updateNode found.1 (fun n => { n with pipes := n.pipes ++ [pipe] }))

/-- Member `Resources::discover`, for the descriptors `infos` the discovery modules give:
whether anything was found, and the configuration with the new nodes. -/
def discover (infos : List GPUInfo) (c : Config) : Bool × Config :=
  if infos.isEmpty then (false, c)
  else
    let node := { newNode with applicationNode := true }
    let nodes : NodeMap := [("", c.nodes.length)]
    let c := { c with nodes := c.nodes ++ [node] }
    (true, (discoverLoop infos nodes 0 c).2.2)

/-- The names the loop of `discover` gives to the devices of a feed, in feed order, when the
counter of indexed devices starts at `gpuCounter`. -/
def deviceNames : Nat → List GPUInfo → List String
  | _, [] => []
  | gpuCounter, info :: rest =>
    (pipeName info gpuCounter).1 :: deviceNames (pipeName info gpuCounter).2 rest

/-- The devices the loop of `discover` makes for the host `host` out of a feed, in feed
order, when the counter of indexed devices starts at `gpuCounter`. -/
def hostPipes (host : String) : Nat → List GPUInfo → List Pipe
  | _, [] => []
  | gpuCounter, info :: rest =>
    (if info.hostname = host then [newPipe info (pipeName info gpuCounter).1] else []) ++
      hostPipes host (pipeName info gpuCounter).2 rest

end Resources
end config

/-! ## Server (`server.cpp`) -/

/-- Modelled from the spec: what the handler of a command reports (`net::CommandResult`,
declared in `net/commandResult.h`). -/
inductive CommandResult
  | COMMAND_HANDLED
  | COMMAND_DISCARD
  | COMMAND_ERROR
  deriving DecidableEq, Repr

/-- Packets the server sends to the node a command came from. A session id of 0 is
`net::SessionID::ZERO`. -/
inductive ServerPacket
  | ServerChooseConfigReply (configID : Nat)
  | ServerCreateConfig (configID : Nat) (name : String)
  | ServerDestroyConfig (configID : Nat)
  | ServerReleaseConfigReply
  | ServerShutdownReply (result : Bool)
  deriving DecidableEq, Repr

/-- Observable steps of the server, in program order: a packet sent to a node, or a sleep
of so many milliseconds. -/
inductive ServerAction
  | send (node : Nat) (packet : ServerPacket)
  | sleep (ms : Nat)
  deriving DecidableEq, Repr

/-- State of a `Server`: the flag `_running` of the dispatch loop, the counter `_configID`,
the loaded configurations `_configs`, and the registry `_appConfigs` of application sessions,
a map from session ids to `Config*` (a null pointer is `none`), in order of entry. -/
structure Server where
  _running : Bool
  _configID : Nat
  _configs : List Config
  _appConfigs : List (Nat × Option Config)
  log : List ServerAction

namespace Server

/-- Append one step to the log of the server. -/
def emit (s : Server) (a : ServerAction) : Server :=
  { s with log := s.log ++ [a] }

/-- Handler `Server::_cmdShutdown` of a shutdown command that came from `node`; `win32`
tells whether the build is the Windows one, which leaves out the closing sleep. -/
def _cmdShutdown (win32 : Bool) (node : Nat) (s : Server) : CommandResult × Server :=
  let result := s._appConfigs.isEmpty
  let s := if result then { s with _running := false } else s
  let s := s.emit (.send node (.ServerShutdownReply result))
  let s := if win32 then s else s.emit (.sleep 100)
  (.COMMAND_HANDLED, s)

/-- Loop of `Server::_handleCommands` over the commands that arrive in the queue, where
`invoke` stands for `invokeCommand`, which runs the handler registered for the command:
while `_running` is set the next command is popped and invoked. An error result is an
`EQABORT`, which stops the server when assertions are checked. When no command is left the
pop never returns. -/
def _handleLoop {κ : Type} (checked : Bool) (invoke : κ → Server → CommandResult × Server) :
    List κ → Server → Except (Abort Server) Server
  | [], s => if s._running then .error ⟨.blocked "_serverThreadQueue.pop()", s⟩ else pure s
  | command :: rest, s =>
    if s._running then
      let r := invoke command s
      match r.1 with
      | .COMMAND_HANDLED => _handleLoop checked invoke rest r.2
      | .COMMAND_DISCARD => _handleLoop checked invoke rest r.2
      | .COMMAND_ERROR => do
        EQASSERT checked false "Error handling command" r.2
        _handleLoop checked invoke rest r.2
    else pure s

/-- Member `Server::_handleCommands`: the flag is set, the loop runs until the flag is
cleared, and what is left in the queue is flushed. -/
def _handleCommands {κ : Type} (checked : Bool)
    (invoke : κ → Server → CommandResult × Server) (queue : List κ) (s : Server) :
    Except (Abort Server) Server :=
  _handleLoop checked invoke queue { s with _running := true }

end Server

/-! ## Concrete configurations used to exercise the definitions -/

namespace Example

/-- Collaborators that always succeed. -/
def env (checked : Bool) : Env :=
  { assertsEnabled := checked,
    initConnect := fun _ _ => true,
    syncConnect := fun _ _ _ => true,
    isConnected := fun _ _ => true,
    getTime64 := fun _ _ => 0,
    syncRunning := fun _ _ node =>
      (true, if node.active then NodeState.STATE_RUNNING else NodeState.STATE_STOPPED,
        node.finishedFrame, ""),
    printNode := fun node => node.name,
    arrivals := fun _ => [] }

/-- Collaborators whose nodes fail to synchronise. -/
def failingEnv (checked : Bool) : Env :=
  { env checked with
    syncRunning := fun _ _ node => (false, NodeState.STATE_STOPPED, node.finishedFrame, "failed") }

/-- An active render node that last finished frame `f`. -/
def node (f : Nat) : Node :=
  { name := "node", active := true, applicationNode := false, state := .STATE_RUNNING,
    finishedFrame := f, node := some ⟨1, 60000, ["host"]⟩, launchTimeout := 60000,
    hostnames := ["host"], errorMessage := "", pipes := [] }

/-- A running configuration at frame 5 with three active nodes, two of which have finished
frame 5 and one only frame 4. -/
def threeNodes : Config :=
  { Config.fresh with
    state := .STATE_RUNNING, currentFrame := 5, finishedFrame := 4,
    appNetNode := some ⟨0, 0, []⟩, nodes := [node 5, node 5, node 4] }

/-- A stopped configuration with one active render node. -/
def stoppedWithNode : Config :=
  { Config.fresh with appNetNode := some ⟨0, 0, []⟩, nodes := [node 0] }

/-- A running configuration without nodes, at frame `n` with all frames finished. -/
def running (n : Nat) : Config :=
  { Config.fresh with
    state := .STATE_RUNNING, currentFrame := n, finishedFrame := n,
    appNetNode := some ⟨0, 0, []⟩ }

/-- The plain display of the application node, with its window and channel; the channel
shows the segment it drives, in the layout named `layout`. -/
def display (layout : String) : Pipe :=
  { name := "display", port := 0, device := 4294967295, pvp := ⟨0, 0, 1920, 1200⟩,
    windows := [{ id := 1, needsDelete := false, name := "window", pvp := ⟨0, 0, 1920, 1200⟩,
                  drawable := .unset,
                  channels := [{ id := 2, name := "channel", layout := some layout,
                                 canvas := some 3, segment := true, segmentChannel := some 2 }] }] }

/-- A second device of the application node. -/
def gpu1 : Pipe :=
  { name := "GPU1", port := 0, device := 1, pvp := ⟨0, 0, 1920, 1200⟩, windows := [] }

/-- One host with the two devices `display` and `GPU1`: a configuration with the application
node alone. -/
def oneHost (layout : String) : Config :=
  { Config.fresh with
    appNetNode := some ⟨0, 0, []⟩,
    nodes := [{ name := "", active := true, applicationNode := true, state := .STATE_STOPPED,
                finishedFrame := 0, node := none, launchTimeout := 60000, hostnames := [],
                errorMessage := "", pipes := [display layout, gpu1] }] }

/-- The render sources `configureSourceChannels` gives for `oneHost`. -/
def sources (layout : String) : List config.ChannelPtr :=
  match config.Resources.configureSourceChannels true (oneHost layout) 100 with
  | .ok r => r.1
  | .error _ => []

/-- A task without content whose channel is `channel`. -/
def task (name : String) (channel : Option Channel) (children : List Compound) : Compound :=
  { name := name, channel := channel, inherited := none, eyes := none, range := ⟨0, 1⟩,
    buffers := [], equalizers := [], inputFrames := [], outputFrames := [],
    children := children }

/-- The segment task of `oneHost`: it names the channel of the display. -/
def segmentTask (layout : String) : Compound :=
  task "segment" (config.Resources.getChannel0 (display layout)) []

/-- The top-level task of `oneHost`, with the segment task as its single child. -/
def topTask (layout : String) : Compound := task "view" none [segmentTask layout]

/-- The task groups `configure` adds under the segment task of `oneHost`, or nothing when
`configure` fails. -/
def addedGroups (layout : String) : List Compound :=
  match config.Resources.configure true [topTask layout] (sources layout) 0 with
  | .ok ([top], _) =>
    (match top.children with
     | [segment] => segment.children
     | _ => [])
  | _ => []

/-- A two-dimensional group about to be filled under the segment task of `oneHost`. -/
def group : Compound := { Compound.new (segmentTask "2D") with name := "2D" }

/-- Two sibling groups of the same name, each to be fed by the sources of `oneHost` and by
the display channel itself. -/
def twoGroups : List (Compound × List config.ChannelPtr) :=
  [(group, sources "2D" ++ [config.Resources.getChannel0 (display "2D")] ++ sources "2D"),
   (group, sources "2D")]

/-- A list of `n` distinct render sources. -/
def manySources (n : Nat) : List config.ChannelPtr :=
  (List.range n).map (fun i =>
    some { id := 100 + i, name := "source", layout := none, canvas := none, segment := false,
           segmentChannel := none })

/-- The DB group built under the segment task of `oneHost` from `n` sources. -/
def dbGroup (n : Nat) : config.Resources.Result (Compound × Int) :=
  config.Resources._addDBCompound true (segmentTask "static DB") (manySources n) 0

/-- The ranges of the children of the DB group built from `n` sources partition `[0,1]`. -/
def dbPartition (n : Nat) : Prop :=
  ∃ v, dbGroup n = .ok v ∧
    v.1.children.length = n ∧
    (v.1.children.map (fun c => c.range)).head?.map (fun r => r.start) = some 0 ∧
    List.Chain' (fun a b => a.end_ = b.start) (v.1.children.map (fun c => c.range)) ∧
    (∀ r ∈ v.1.children.map (fun c => c.range), r.start ≤ r.end_) ∧
    (v.1.children.map (fun c => c.range)).getLast?.map (fun r => r.end_) = some 1

/-- A feed of one local host with two devices: its display and one indexed device. -/
def localFeed : List config.Resources.GPUInfo :=
  [⟨"", 0, config.Resources.EQ_UNDEFINED_UINT32, ⟨0, 0, 1920, 1200⟩⟩,
   ⟨"", 0, 0, ⟨0, 0, 1920, 1200⟩⟩]

/-- A feed of three hosts: the local host with one indexed device, the host "a" with its
display and two indexed devices, and the host "b" with one indexed device, interleaved. -/
def clusterFeed : List config.Resources.GPUInfo :=
  [⟨"a", 0, 0, ⟨0, 0, 1920, 1200⟩⟩,
   ⟨"b", 0, 0, ⟨0, 0, 1280, 1024⟩⟩,
   ⟨"a", 0, config.Resources.EQ_UNDEFINED_UINT32, ⟨0, 0, 1920, 1200⟩⟩,
   ⟨"", 0, 0, ⟨0, 0, 1920, 1200⟩⟩,
   ⟨"a", 0, 1, ⟨0, 0, 1920, 1200⟩⟩]

/-- A server with one loaded configuration and no application session. -/
def idleServer : Server :=
  { _running := true, _configID := 0, _configs := [Config.fresh], _appConfigs := [], log := [] }

/-- A server with one application session, registered under the id 7. -/
def busyServer : Server :=
  { idleServer with _configID := 1, _appConfigs := [(7, some (running 5))] }

end Example

/-! ## The state machine proper -/

/-- The fields of the state machine proper: frame counters, run-state, needs-finish flag and
init id. -/
structure Core where
  currentFrame : Nat
  finishedFrame : Nat
  state : State
  needsFinish : Bool
  initID : Nat
  deriving DecidableEq, Repr

/-- Projection of a configuration on the state machine proper. -/
def Config.core (c : Config) : Core :=
  { currentFrame := c.currentFrame, finishedFrame := c.finishedFrame, state := c.state,
    needsFinish := c.needsFinish, initID := c.initID }

/-! ## Kinds of steps in the log -/

/-- Whether a step tells a node to start a frame (`node->update( frameID, frameNumber )`). -/
def Action.isFrameStart : Action → Bool
  | .nodeUpdate _ _ _ => true
  | _ => false

/-- Whether a step is a call of the connection layer that starts or awaits a connection. -/
def Action.isConnect : Action → Bool
  | .initConnect _ => true
  | .syncConnect _ _ => true
  | _ => false

/-- Whether a step is something else than telling a node to start a frame. -/
def Action.noFrameStart (a : Action) : Bool := !a.isFrameStart

/-- Whether a step, if it tells a node to start a frame, does so for the frame `frameNumber`
under the id `frameID`. -/
def Action.startsOnly (frameID frameNumber : Nat) : Action → Bool
  | .nodeUpdate _ f n => f == frameID && n == frameNumber
  | _ => true

namespace Config
/-- The log of `c'` is the log of `c` followed by steps that all satisfy `P`. -/
def Adds (P : Action → Bool) (c c' : Config) : Prop :=
  ∃ new, c'.log = c.log ++ new ∧ ∀ a ∈ new, P a = true
end Config

namespace Example

/-- Collaborators whose connection layer fails to start any connection. -/
def unreachableEnv (checked : Bool) : Env :=
  { env checked with initConnect := fun _ _ => false }

/-- A running configuration at frame 5 with one active node that holds no handle yet. -/
def newNode : Config :=
  { threeNodes with nodes := [{ node 5 with node := none }] }

end Example

/-! ## Timeouts handed to the connection layer -/

namespace Config

/-- Every `syncConnect` step of `new`, which follows the steps `base`, carries the timeout
computed from the handle's launch timeout and the reading, at that step, of the clock
started at `clock`. -/
def timed (env : Env) (clock : List Action) : List Action → List Action → Prop
  | _, [] => True
  | base, a :: rest =>
    (match a with
      | .syncConnect netNode timeOut =>
        timeOut = (max (netNode.launchTimeout - env.getTime64 clock base) 0).toNat % 2 ^ 32
      | _ => True) ∧
    timed env clock (base ++ [a]) rest

end Config

namespace Example

/-- Collaborators that always succeed, with a clock on which every step takes 25 seconds. -/
def tickingEnv : Env :=
  { env false with
    getTime64 := fun clock log => ((log.length : Int) - (clock.length : Int)) * 25000 }

end Example

/-! ## Steps of the teardown of stopped nodes -/

namespace Config

/-- The handle `_stopNodes` tears down for node number `i`: that of a stopped node that is
not the application node, if it holds one. -/
def stoppingHandle (c : Config) (i : Nat) : Option NetNode :=
  match c.nodes[i]? with
  | some n => if n.state = .STATE_STOPPED ∧ n.applicationNode = false then n.node else none
  | none => none

/-- The handles `_stopNodes` tears down, in node order. -/
def stoppingHandles (c : Config) : List NetNode :=
  c.nodeIndices.filterMap c.stoppingHandle

/-- The two packets that tell the render client behind a handle to go away. -/
def teardownPackets (netNode : NetNode) : List Action :=
  [.send (.node (some netNode)) .ServerDestroyConfig, .send (.node (some netNode)) .ClientExit]

/-- The steps `new`, which follow the steps `base`, are for each of the handles in turn: some
sleeps of 100 ms, each taken while the handle was still connected, and then the forced close
of the handle if it is still connected at that point, and nothing if it is not. -/
def torn (env : Env) : List NetNode → List Action → List Action → Prop
  | [], _, new => new = []
  | netNode :: rest, base, new =>
    ∃ (k : Nat) (more : List Action),
      new = List.replicate k (Action.sleep 100) ++
        (if env.isConnected (base ++ List.replicate k (Action.sleep 100)) netNode
          then [Action.close netNode] else []) ++ more ∧
      (∀ j < k, env.isConnected (base ++ List.replicate j (Action.sleep 100)) netNode = true) ∧
      torn env rest (base ++ (List.replicate k (Action.sleep 100) ++
        (if env.isConnected (base ++ List.replicate k (Action.sleep 100)) netNode
          then [Action.close netNode] else []))) more

end Config

namespace Example

/-- A running configuration whose three nodes are all stopped and still hold a handle: the
application node and two render nodes. -/
def stoppedNodes : Config :=
  { running 5 with
    nodes := [
      { node 5 with
        name := "app"
        active := false
        applicationNode := true
        state := .STATE_STOPPED
        node := some ⟨0, 0, []⟩ },
      { node 5 with
        active := false
        state := .STATE_STOPPED },
      { node 5 with
        active := false
        state := .STATE_STOPPED
        node := some ⟨2, 60000, ["other"]⟩ }] }

end Example

/-! ## Freezing of the load-balancing policies (`config.cpp`) -/

/-- Result of a visit (`VisitorResult`). -/
inductive VisitorResult
  | TRAVERSE_CONTINUE
  | TRAVERSE_PRUNE
  | TRAVERSE_TERMINATE
  deriving DecidableEq, Repr

/-- Modelled from the spec: the setter of the "frozen" flag of a load-balancing policy
(`Equalizer::setFrozen`, declared in `equalizer.h`). -/
def Equalizer.setFrozen (e : Equalizer) (onOff : Bool) : Equalizer :=
  { e with frozen := onOff }

namespace FreezeVisitor

/-- Member `FreezeVisitor::visitPre( Node* )`: no need to go down on nodes. -/
def visitPre (_node : Node) : VisitorResult := .TRAVERSE_PRUNE

/-- Member `FreezeVisitor::visit( Compound* )`: the flag is set on every equalizer of the
compound. -/
def visit (freeze : Bool) (compound : Compound) : VisitorResult × Compound :=
  (.TRAVERSE_CONTINUE,
    { compound with equalizers := compound.equalizers.map (fun e => e.setFrozen freeze) })

end FreezeVisitor

mutual
/-- Modelled from the spec: the traversal `Compound::accept` (defined in `compound.cpp`) for a
`FreezeVisitor`, whose `visit` always answers `TRAVERSE_CONTINUE`: the compound and every
compound below it are visited. -/
def Compound.accept (freeze : Bool) : Compound → VisitorResult × Compound
  | ⟨name, channel, inherited, eyes, range, buffers, equalizers, inputFrames, outputFrames,
      children⟩ =>
    FreezeVisitor.visit freeze ⟨name, channel, inherited, eyes, range, buffers, equalizers,
      inputFrames, outputFrames, Compound.acceptChildren freeze children⟩
/-- The traversal of the children of a compound, in order. -/
def Compound.acceptChildren (freeze : Bool) : List Compound → List Compound
  | [] => []
  | child :: rest => (Compound.accept freeze child).2 :: Compound.acceptChildren freeze rest
end

/-- Modelled from the spec: `Node::accept` (defined in `node.cpp`) for a `FreezeVisitor`: as
`visitPre` answers `TRAVERSE_PRUNE`, nothing below the node is visited and the node stays as
it is. -/
def Node.accept (node : Node) : VisitorResult × Node :=
  (FreezeVisitor.visitPre node, node)

namespace Config

/-- Helper `_accept( config, visitor )` for a `FreezeVisitor`: the loop over the top-level
compounds, which stops when a traversal answers `TRAVERSE_TERMINATE`. -/
def _accept (freeze : Bool) : List Compound → VisitorResult → VisitorResult × List Compound
  | [], result => (result, [])
  | compound :: rest, result =>
    let r := compound.accept freeze
    match r.1 with
    | .TRAVERSE_TERMINATE => (.TRAVERSE_TERMINATE, r.2 :: rest)
    | .TRAVERSE_PRUNE =>
      let v := _accept freeze rest .TRAVERSE_PRUNE
      (v.1, r.2 :: v.2)
    | .TRAVERSE_CONTINUE =>
      let v := _accept freeze rest result
      (v.1, r.2 :: v.2)

/-- Member `Config::_acceptCompounds`. -/
def _acceptCompounds (freeze : Bool) (c : Config) : VisitorResult × Config :=
  let r := _accept freeze c.compounds .TRAVERSE_CONTINUE
  (r.1, { c with compounds := r.2 })

/-- Modelled from the spec: `Config::accept( visitor )` (inherited from a class outside the
sources) for a `FreezeVisitor`: the nodes are offered to the visitor, then the compounds are
traversed by `_acceptCompounds`. -/
def accept (freeze : Bool) (c : Config) : VisitorResult × Config :=
  let c := { c with nodes := c.nodes.map (fun node => node.accept.2) }
  _acceptCompounds freeze c

/-- Member `Config::_cmdFreezeLoadBalancing`, for a packet with the flag `freeze`. -/
def _cmdFreezeLoadBalancing (freeze : Bool) (c : Config) : CommandResult × Config :=
  (.COMMAND_HANDLED, (c.accept freeze).2)

end Config

/-! ### The task tree as the claims speak of it -/

mutual
/-- The compounds reachable from a compound: itself and everything below it. -/
def Compound.reachable : Compound → List Compound
  | ⟨name, channel, inherited, eyes, range, buffers, equalizers, inputFrames, outputFrames,
      children⟩ =>
    ⟨name, channel, inherited, eyes, range, buffers, equalizers, inputFrames, outputFrames,
      children⟩ :: Compound.reachableAll children
/-- The compounds reachable from a list of compounds. -/
def Compound.reachableAll : List Compound → List Compound
  | [] => []
  | c :: rest => Compound.reachable c ++ Compound.reachableAll rest
end

mutual
/-- Two task trees differ in nothing but the frozen flags of their policies: same members,
as many policies of the same modes in the same order on every compound, and children that
are alike one by one. -/
def Compound.alike : Compound → Compound → Prop
  | ⟨name, channel, inherited, eyes, range, buffers, equalizers, inputFrames, outputFrames,
      children⟩, y =>
    y.name = name ∧ y.channel = channel ∧ y.inherited = inherited ∧ y.eyes = eyes ∧
    y.range = range ∧ y.buffers = buffers ∧
    y.equalizers.map (fun e => e.mode) = equalizers.map (fun e => e.mode) ∧
    y.inputFrames = inputFrames ∧ y.outputFrames = outputFrames ∧
    Compound.alikeAll children y.children
/-- Two lists of task trees are alike one by one. -/
def Compound.alikeAll : List Compound → List Compound → Prop
  | [], ys => ys = []
  | x :: xs, ys => ∃ y rest, ys = y :: rest ∧ Compound.alike x y ∧ Compound.alikeAll xs rest
end

/-! ## Session-registry commands of the server (`server.cpp`) -/

namespace string

/-- The constant `std::string::npos`, the largest value of the 64-bit `size_t`. -/
def npos : Nat := 2 ^ 64 - 1

/-- The call `std::string::find( char )`: the position of the first occurrence of the
character, or `npos` when there is none. -/
def find (s : String) (ch : Char) : Nat :=
  if ch ∈ s.data then s.data.indexOf ch else npos

/-- The call `std::string::substr( pos, n )`: the characters from position `pos` on, at most
`n` of them; a position beyond the end of the string throws `std::out_of_range`, which is
`none`. -/
def substr (s : String) (pos : Nat) (n : Nat) : Option String :=
  if pos > s.length then none else some (String.mk ((s.data.drop pos).take n))

end string

/-- The collaborators of the server whose code is outside the sources. -/
structure ServerEnv where
  /-- collaborators of the configurations, which also tell whether `EQASSERT` is checked -/
  config : Env
  /-- result of `Loader::parseConfig( configData )`: the configuration, or a null pointer -/
  parseConfig : String → Option Config
  /-- name `config->getName()` of a configuration before it is registered -/
  getName : Config → String
  /-- session id `config->getID()` that `registerSession` gives a configuration -/
  registerSession : Server → Config → Nat
  /-- result of `deregisterSession( config )` for the session with this id -/
  deregisterSession : Server → Nat → Bool

/-- Member `Config::setApplicationNetNode`. -/
def Config.setApplicationNetNode (env : Env) (node : Option NetNode) (c : Config) :
    Config.Result Config := do
  EQASSERT env.assertsEnabled (decide (c.state = .STATE_STOPPED)) "_state == STATE_STOPPED" c
  pure { c with appNetNode := node }

namespace Server

/-- Member `Server::registerConfig`: a configuration without name is named after the
incremented counter `_configID`, then the session is registered. Gives the name and the
session id the configuration has afterwards. -/
def registerConfig (env : ServerEnv) (config : Config) (s : Server) :
    (String × Nat) × Server :=
  let named : String × Server :=
    if (env.getName config).isEmpty then
      ("EQ_CONFIG_" ++ String.mk (eq.server.config.decimalNat (s._configID + 1)),
        { s with _configID := s._configID + 1 })
    else (env.getName config, s)
  ((named.1, env.registerSession named.2 config), named.2)

/-- Read access `_appConfigs[ id ]` to the registry: the entry under the id; when there is
none, one is made that holds a null pointer. -/
def appConfigAt (s : Server) (id : Nat) : Option Config × Server :=
  match s._appConfigs.lookup id with
  | some config => (config, s)
  | none => (none, { s with _appConfigs := s._appConfigs ++ [(id, none)] })

/-- Assignment `_appConfigs[ id ] = config`. -/
def setAppConfig (s : Server) (id : Nat) (config : Option Config) : Server :=
  if (s._appConfigs.lookup id).isSome then
    { s with _appConfigs := s._appConfigs.map (fun e => if e.1 = id then (id, config) else e) }
  else { s with _appConfigs := s._appConfigs ++ [(id, config)] }

/-- Call `_appConfigs.erase( id )`. -/
def eraseAppConfig (s : Server) (id : Nat) : Server :=
  { s with _appConfigs := s._appConfigs.filter (fun e => e.1 ≠ id) }

/-- Handler `Server::_cmdChooseConfig` of a command with the text `rendererInfo` that came
from `node`. -/
def _cmdChooseConfig (env : ServerEnv) (rendererInfo : String) (node : NetNode) (s : Server) :
    Except (Abort Server) (CommandResult × Server) :=
  match s._configs.head? with
  | none => pure (.COMMAND_HANDLED, s.emit (.send node.id (.ServerChooseConfigReply 0)))
  | some config =>
    match Config.setApplicationNetNode env.config (some node) config with
    | .error e => .error ⟨e.cause, s⟩
    | .ok appConfig =>
      let registered := registerConfig env appConfig s
      let s := registered.2
      let colonPos := string.find rendererInfo '#'
      match string.substr rendererInfo 0 colonPos with
      | none => .error ⟨.outOfRange "rendererInfo.substr( 0, colonPos )", s⟩
      | some workDir =>
        match string.substr rendererInfo ((colonPos + 1) % 2 ^ 64) string.npos with
        | none => .error ⟨.outOfRange "rendererInfo.substr( colonPos + 1 )", s⟩
        | some renderClient =>
          let configID := registered.1.2
          let appConfig := { appConfig with workDir := workDir, renderClient := renderClient }
          let s := s.setAppConfig configID (some appConfig)
          let s := s.emit (.send node.id (.ServerCreateConfig configID registered.1.1))
          let s := s.emit (.send node.id (.ServerChooseConfigReply configID))
          pure (.COMMAND_HANDLED, s)

/-- Handler `Server::_cmdUseConfig` of a command with the text `configInfo` that came from
`node`. -/
def _cmdUseConfig (env : ServerEnv) (configInfo : String) (node : NetNode) (s : Server) :
    Except (Abort Server) (CommandResult × Server) :=
  let colonPos := string.find configInfo '#'
  match string.substr configInfo 0 colonPos with
  | none => .error ⟨.outOfRange "configInfo.substr( 0, colonPos )", s⟩
  | some workDir =>
    match string.substr configInfo ((colonPos + 1) % 2 ^ 64) string.npos with
    | none => .error ⟨.outOfRange "configInfo.substr( colonPos + 1 )", s⟩
    | some configInfo =>
      let colonPos := string.find configInfo '#'
      match string.substr configInfo 0 colonPos with
      | none => .error ⟨.outOfRange "configInfo.substr( 0, colonPos )", s⟩
      | some renderClient =>
        match string.substr configInfo ((colonPos + 1) % 2 ^ 64) string.npos with
        | none => .error ⟨.outOfRange "configInfo.substr( colonPos + 1 )", s⟩
        | some configData =>
          match env.parseConfig configData with
          | none => pure (.COMMAND_HANDLED, s.emit (.send node.id (.ServerChooseConfigReply 0)))
          | some config =>
            match Config.setApplicationNetNode env.config (some node) config with
            | .error e => .error ⟨e.cause, s⟩
            | .ok config =>
              let registered := registerConfig env config s
              let s := registered.2
              let configID := registered.1.2
              let config := { config with workDir := workDir, renderClient := renderClient }
              let s := s.setAppConfig configID (some config)
              let s := s.emit (.send node.id (.ServerCreateConfig configID registered.1.1))
              let s := s.emit (.send node.id (.ServerChooseConfigReply configID))
              pure (.COMMAND_HANDLED, s)

/-- Handler `Server::_cmdReleaseConfig` of a command for the session `configID` that came
from `node`. The configuration is exited when it is running (`isRunning()` is the run-state
Running), then unmapped, deregistered, erased from the registry and deleted. -/
def _cmdReleaseConfig (env : ServerEnv) (configID : Nat) (node : NetNode) (s : Server) :
    Except (Abort Server) (CommandResult × Server) :=
  let r := s.appConfigAt configID
  let s := r.2
  match r.1 with
  | none => pure (.COMMAND_HANDLED, s.emit (.send node.id .ServerReleaseConfigReply))
  | some config =>
    match (if config.state = .STATE_RUNNING then Config.exit env.config config
        else pure (true, config)) with
    | .error e => .error ⟨e.cause, s⟩
    | .ok _ => do
      let s := s.emit (.send node.id (.ServerDestroyConfig configID))
      EQASSERT env.config.assertsEnabled (env.deregisterSession s configID)
        "deregisterSession( config )" s
      let s := s.eraseAppConfig configID
      pure (.COMMAND_HANDLED, s.emit (.send node.id .ServerReleaseConfigReply))

end Server

namespace Example

/-- Collaborators of a server: configuration texts that start with `c` parse, to a fresh
configuration; configurations have no name yet; session ids are counted from 1. -/
def serverEnv (checked : Bool) : ServerEnv :=
  { config := env checked,
    parseConfig := fun text => if text.data.head? = some 'c' then some Config.fresh else none,
    getName := fun _ => "",
    registerSession := fun s _ => s._appConfigs.length + 1,
    deregisterSession := fun _ _ => true }

end Example

/-! ## Stale connection handles -/

namespace Config

end Config

/-! ## Theorems -/

open Config

/-! ### Rounding to single precision -/

namespace float

theorem roundEven_cases (t : ℚ) : roundEven t = ⌊t⌋ ∧ t - ⌊t⌋ ≤ 1 / 2 ∨
    roundEven t = ⌊t⌋ + 1 ∧ 1 / 2 ≤ t - ⌊t⌋ := by
  unfold roundEven
  split_ifs with h1 h2 h3
  · exact Or.inl ⟨rfl, le_of_lt h1⟩
  · exact Or.inr ⟨rfl, le_of_lt h2⟩
  · exact Or.inl ⟨rfl, not_lt.mp h2⟩
  · exact Or.inr ⟨rfl, not_lt.mp h1⟩

theorem abs_roundEven_sub (t : ℚ) : |(roundEven t : ℚ) - t| ≤ 1 / 2 := by
  have h1 := Int.floor_le t
  have h2 := Int.lt_floor_add_one t
  rw [abs_le]
  rcases roundEven_cases t with ⟨h, hf⟩ | ⟨h, hf⟩
  · rw [h]
    constructor <;> linarith
  · rw [h]
    push_cast
    constructor <;> linarith

theorem roundEven_eq_of_abs_lt {t : ℚ} {m : ℤ} (h : |t - m| < 1 / 2) : roundEven t = m := by
  have h3 := abs_roundEven_sub t
  rw [abs_lt] at h
  rw [abs_le] at h3
  have h4 : ((roundEven t - m : ℤ) : ℚ) < 1 := by push_cast; linarith
  have h5 : (-1 : ℚ) < ((roundEven t - m : ℤ) : ℚ) := by push_cast; linarith
  have h6 : roundEven t - m < 1 := by exact_mod_cast h4
  have h7 : -1 < roundEven t - m := by exact_mod_cast h5
  omega

theorem roundEven_intCast (n : ℤ) : roundEven (n : ℚ) = n :=
  roundEven_eq_of_abs_lt (by simp)

theorem roundEven_le_of_le {t : ℚ} {n : ℤ} (h : t ≤ n) : roundEven t ≤ n := by
  have h1 := Int.floor_le t
  rcases roundEven_cases t with ⟨hr, hf⟩ | ⟨hr, hf⟩
  · rw [hr]
    exact_mod_cast le_trans h1 h
  · rw [hr]
    have : ((⌊t⌋ : ℤ) : ℚ) < n := by linarith
    have : ⌊t⌋ < n := by exact_mod_cast this
    omega

theorem le_roundEven_of_le {t : ℚ} {n : ℤ} (h : (n : ℚ) ≤ t) : n ≤ roundEven t := by
  have h1 : n ≤ ⌊t⌋ := Int.le_floor.mpr h
  rcases roundEven_cases t with ⟨hr, _⟩ | ⟨hr, _⟩ <;> rw [hr] <;> omega

theorem roundEven_mono {s t : ℚ} (h : s ≤ t) : roundEven s ≤ roundEven t := by
  have hfl : ⌊s⌋ ≤ ⌊t⌋ := Int.floor_mono h
  rcases lt_or_eq_of_le hfl with hlt | heq
  · have h1 : roundEven s ≤ ⌊s⌋ + 1 := by
      rcases roundEven_cases s with ⟨hr, _⟩ | ⟨hr, _⟩ <;> omega
    have h2 : ⌊t⌋ ≤ roundEven t := by
      rcases roundEven_cases t with ⟨hr, _⟩ | ⟨hr, _⟩ <;> omega
    omega
  · unfold roundEven
    rw [heq]
    have hs : s - ⌊t⌋ ≤ t - ⌊t⌋ := by linarith
    split_ifs <;> first | omega | (exfalso; linarith)

theorem exponent_ge (x : ℚ) : -126 ≤ exponent x := le_max_right _ _

theorem lt_zpow_exponent (x : ℚ) : x < 2 ^ (exponent x + 1) := by
  have h1 : x < ((2 : ℕ) : ℚ) ^ (Int.log 2 x + 1) := Int.lt_zpow_succ_log_self (by norm_num) x
  have h2 : ((2 : ℕ) : ℚ) ^ (Int.log 2 x + 1) ≤ ((2 : ℕ) : ℚ) ^ (exponent x + 1) :=
    zpow_le_zpow_right₀ (by norm_num) (by unfold exponent; have := le_max_left (Int.log 2 x) (-126); omega)
  have := lt_of_lt_of_le h1 h2
  simpa using this

theorem exponent_eq_of {x : ℚ} {e : ℤ} (he : -126 ≤ e) (h1 : 2 ^ e ≤ x) (h2 : x < 2 ^ (e + 1)) :
    exponent x = e := by
  have hx : 0 < x := lt_of_lt_of_le (by positivity) h1
  have hlog : Int.log 2 x = e := by
    have a : e ≤ Int.log 2 x := (Int.zpow_le_iff_le_log (by norm_num) hx).mp (by simpa using h1)
    have b : Int.log 2 x < e + 1 := (Int.lt_zpow_iff_log_lt (by norm_num) hx).mp (by simpa using h2)
    omega
  unfold exponent
  rw [hlog]
  exact max_eq_left he

theorem round_of_nonneg {x : ℚ} (h : 0 ≤ x) :
    round x = roundEven (x / 2 ^ (exponent x - 23)) * 2 ^ (exponent x - 23) := by
  unfold round
  rw [if_neg (not_lt.mpr h)]

theorem round_zero : round 0 = 0 := by
  rw [round_of_nonneg (le_refl _)]
  simp [roundEven]

theorem round_nonneg {x : ℚ} (h : 0 ≤ x) : 0 ≤ round x := by
  rw [round_of_nonneg h]
  apply mul_nonneg _ (by positivity)
  have : (0 : ℤ) ≤ roundEven (x / 2 ^ (exponent x - 23)) :=
    le_roundEven_of_le (by simpa using div_nonneg h (by positivity))
  exact_mod_cast this

/-- The value of a rounding whose binade and mantissa are known. -/
theorem round_eq_of {x : ℚ} {e m : ℤ} (he : -126 ≤ e) (h1 : 2 ^ e ≤ x) (h2 : x < 2 ^ (e + 1))
    (hm : |x / 2 ^ (e - 23) - m| < 1 / 2) : round x = m * 2 ^ (e - 23) := by
  have hx : 0 ≤ x := le_trans (by positivity) h1
  rw [round_of_nonneg hx, exponent_eq_of he h1 h2, roundEven_eq_of_abs_lt hm]

theorem two24_mul (e : ℤ) : (16777216 : ℚ) * 2 ^ (e - 23) = 2 ^ (e + 1) := by
  have h : (16777216 : ℚ) = 2 ^ (24 : ℤ) := by norm_num
  rw [h, ← zpow_add₀ (by norm_num)]
  congr 1
  ring

theorem two23_mul (e : ℤ) : (8388608 : ℚ) * 2 ^ (e - 23) = 2 ^ e := by
  have h : (8388608 : ℚ) = 2 ^ (23 : ℤ) := by norm_num
  rw [h, ← zpow_add₀ (by norm_num)]
  congr 1
  ring

theorem round_le_zpow {x : ℚ} (hx : 0 ≤ x) : round x ≤ 2 ^ (exponent x + 1) := by
  rw [round_of_nonneg hx]
  have hq : (0 : ℚ) < 2 ^ (exponent x - 23) := by positivity
  have h24 : x / 2 ^ (exponent x - 23) ≤ ((16777216 : ℤ) : ℚ) := by
    rw [div_le_iff₀ hq]
    push_cast
    rw [two24_mul]
    exact le_of_lt (lt_zpow_exponent x)
  have h' : (roundEven (x / 2 ^ (exponent x - 23)) : ℚ) ≤ ((16777216 : ℤ) : ℚ) := by
    exact_mod_cast roundEven_le_of_le h24
  calc (roundEven (x / 2 ^ (exponent x - 23)) : ℚ) * 2 ^ (exponent x - 23)
      ≤ ((16777216 : ℤ) : ℚ) * 2 ^ (exponent x - 23) :=
        mul_le_mul_of_nonneg_right h' (le_of_lt hq)
    _ = 2 ^ (exponent x + 1) := by
      push_cast
      exact two24_mul _

theorem zpow_le_round {y : ℚ} (hy : 0 < y) (hlog : exponent y = Int.log 2 y) :
    2 ^ (exponent y) ≤ round y := by
  rw [round_of_nonneg (le_of_lt hy)]
  have hq : (0 : ℚ) < 2 ^ (exponent y - 23) := by positivity
  have hle : (2 : ℚ) ^ (exponent y) ≤ y := by
    rw [hlog]
    have := Int.zpow_log_le_self (b := 2) (by norm_num) hy
    simpa using this
  have h23 : ((8388608 : ℤ) : ℚ) ≤ y / 2 ^ (exponent y - 23) := by
    rw [le_div_iff₀ hq]
    push_cast
    rw [two23_mul]
    exact hle
  have h' : ((8388608 : ℤ) : ℚ) ≤ (roundEven (y / 2 ^ (exponent y - 23)) : ℚ) := by
    exact_mod_cast le_roundEven_of_le h23
  calc (2 : ℚ) ^ (exponent y) = ((8388608 : ℤ) : ℚ) * 2 ^ (exponent y - 23) := by
        push_cast
        exact (two23_mul _).symm
    _ ≤ _ := mul_le_mul_of_nonneg_right h' (le_of_lt hq)

/-- Rounding to single precision never reverses the order of two non-negative values. -/
theorem round_mono {x y : ℚ} (hx : 0 ≤ x) (hxy : x ≤ y) : round x ≤ round y := by
  rcases eq_or_lt_of_le hx with h0 | hpos
  · rw [← h0, round_zero]
    exact round_nonneg (le_trans hx hxy)
  have hy : 0 < y := lt_of_lt_of_le hpos hxy
  have hexp : exponent x ≤ exponent y := by
    unfold exponent
    exact max_le_max (Int.log_mono_right hpos hxy) (le_refl _)
  rcases eq_or_lt_of_le hexp with heq | hlt
  · rw [round_of_nonneg hx, round_of_nonneg (le_of_lt hy), heq]
    apply mul_le_mul_of_nonneg_right _ (by positivity)
    have : roundEven (x / 2 ^ (exponent y - 23)) ≤ roundEven (y / 2 ^ (exponent y - 23)) :=
      roundEven_mono (div_le_div_of_nonneg_right hxy (by positivity))
    exact_mod_cast this
  · -- different binades: the power of two between them separates the roundings
    have hylog : exponent y = Int.log 2 y := by
      have hge := exponent_ge x
      unfold exponent at hlt ⊢
      apply max_eq_left
      by_contra hc
      push_neg at hc
      rw [max_eq_right (le_of_lt hc)] at hlt
      have := le_max_right (Int.log 2 x) (-126)
      omega
    have hmid : (2 : ℚ) ^ (exponent x + 1) ≤ 2 ^ (exponent y) :=
      zpow_le_zpow_right₀ (by norm_num) (by omega)
    exact le_trans (round_le_zpow hx) (le_trans hmid (zpow_le_round hy hylog))

/-- The error of a rounding below a power of two. -/
theorem abs_round_sub_le {x : ℚ} (h0 : 0 ≤ x) (k : ℤ) (hk : -125 ≤ k) (hx : x < 2 ^ k) :
    |round x - x| ≤ 2 ^ (k - 25) := by
  rcases eq_or_lt_of_le h0 with hz | hpos
  · rw [← hz, round_zero]
    simp
    positivity
  have he : exponent x ≤ k - 1 := by
    unfold exponent
    apply max_le
    · have := (Int.lt_zpow_iff_log_lt (b := 2) (by norm_num) hpos).mp (by simpa using hx)
      omega
    · omega
  rw [round_of_nonneg h0]
  have hq : (0 : ℚ) < 2 ^ (exponent x - 23) := by positivity
  have herr := abs_roundEven_sub (x / 2 ^ (exponent x - 23))
  have hrew : (roundEven (x / 2 ^ (exponent x - 23)) : ℚ) * 2 ^ (exponent x - 23) - x =
      ((roundEven (x / 2 ^ (exponent x - 23)) : ℚ) - x / 2 ^ (exponent x - 23)) *
        2 ^ (exponent x - 23) := by
    field_simp
  rw [hrew, abs_mul, abs_of_pos hq]
  calc |(roundEven (x / 2 ^ (exponent x - 23)) : ℚ) - x / 2 ^ (exponent x - 23)| *
        2 ^ (exponent x - 23)
      ≤ 1 / 2 * 2 ^ (exponent x - 23) := mul_le_mul_of_nonneg_right herr (le_of_lt hq)
    _ = 2 ^ (exponent x - 24) := by
      rw [show exponent x - 23 = (exponent x - 24) + 1 by ring, zpow_add_one₀ (by norm_num)]
      ring
    _ ≤ 2 ^ (k - 25) := zpow_le_zpow_right₀ (by norm_num) (by omega)

/-- A natural number below `2^24` is a single-precision value. -/
theorem round_natCast (n : ℕ) (hn : n < 2 ^ 24) : round (n : ℚ) = n := by
  rcases Nat.eq_zero_or_pos n with h0 | hpos
  · rw [h0]
    simpa using round_zero
  have hx : (0 : ℚ) < n := by exact_mod_cast hpos
  have hlog0 : 0 ≤ Int.log 2 (n : ℚ) :=
    (Int.zpow_le_iff_le_log (b := 2) (by norm_num) hx).mp (by
      simp
      exact_mod_cast hpos)
  have hlog1 : Int.log 2 (n : ℚ) < 24 :=
    (Int.lt_zpow_iff_log_lt (b := 2) (by norm_num) hx).mp (by
      have : ((n : ℕ) : ℚ) < ((2 ^ 24 : ℕ) : ℚ) := by exact_mod_cast hn
      norm_num at this ⊢
      exact this)
  have hexp : exponent (n : ℚ) = Int.log 2 (n : ℚ) := by
    unfold exponent
    exact max_eq_left (by omega)
  rw [round_of_nonneg (le_of_lt hx), hexp]
  obtain ⟨j, hj⟩ : ∃ j : ℕ, (23 : ℤ) - Int.log 2 (n : ℚ) = j :=
    ⟨(23 - Int.log 2 (n : ℚ)).toNat, (Int.toNat_of_nonneg (by omega)).symm⟩
  have hq : (2 : ℚ) ^ (Int.log 2 (n : ℚ) - 23) = ((2 : ℚ) ^ j)⁻¹ := by
    rw [show Int.log 2 (n : ℚ) - 23 = -(j : ℤ) by omega, zpow_neg, zpow_natCast]
  rw [hq, div_inv_eq_mul]
  have hint : (n : ℚ) * 2 ^ j = ((n * 2 ^ j : ℕ) : ℤ) := by push_cast; ring
  rw [hint, roundEven_intCast]
  push_cast
  field_simp

/-- The error of rounding a normal value, relative to the value. -/
theorem abs_round_sub_le_mul {x : ℚ} (h1 : 1 ≤ x) : |round x - x| ≤ x / 2 ^ 24 := by
  have hpos : 0 < x := lt_of_lt_of_le (by norm_num) h1
  have hlog0 : 0 ≤ Int.log 2 x :=
    (Int.zpow_le_iff_le_log (b := 2) (by norm_num) hpos).mp (by simpa using h1)
  have hexp : exponent x = Int.log 2 x := by
    unfold exponent
    exact max_eq_left (by omega)
  have hle : (2 : ℚ) ^ (exponent x) ≤ x := by
    rw [hexp]
    have := Int.zpow_log_le_self (b := 2) (by norm_num) hpos
    simpa using this
  have herr := abs_round_sub_le (le_of_lt hpos) (exponent x + 1)
    (by have := exponent_ge x; omega) (lt_zpow_exponent x)
  refine le_trans herr ?_
  rw [show exponent x + 1 - 25 = exponent x - 24 by ring, zpow_sub₀ (by norm_num)]
  have h24 : (2 : ℚ) ^ (24 : ℤ) = 2 ^ 24 := by norm_num
  rw [h24]
  exact div_le_div_of_nonneg_right hle (by norm_num)

theorem round_one : round 1 = 1 := by
  have := round_natCast 1 (by norm_num)
  simpa using this

/-- The error of rounding a value between 0 and 1. -/
theorem abs_round_sub_le_unit {x : ℚ} (h0 : 0 ≤ x) (h1 : x ≤ 1) :
    |round x - x| ≤ 1 / 2 ^ 25 := by
  rcases eq_or_lt_of_le h1 with h | h
  · rw [h, round_one]
    norm_num
  · have := abs_round_sub_le h0 0 (by norm_num) (by simpa using h)
    refine le_trans this ?_
    norm_num

end float

/-- C1: for a frame number `f` above the finished-frame counter, `notifyNodeFrameFinished( f )`
sets the counter to `f` when every active node has last finished a frame `>= f`, and
otherwise changes nothing; inactive nodes play no part. -/
theorem notifyNodeFrameFinished_barrier (c : Config) (f : Nat) (h : c.finishedFrame < f) :
    ((∀ node ∈ c.nodes, node.active = true → f ≤ node.finishedFrame) →
        (notifyNodeFrameFinished f c).finishedFrame = f) ∧
    (¬ (∀ node ∈ c.nodes, node.active = true → f ≤ node.finishedFrame) →
        notifyNodeFrameFinished f c = c) := by
  have hge : ¬ c.finishedFrame ≥ f := Nat.not_le.mpr h
  constructor
  · intro hall
    have hany : c.nodes.any
        (fun node => node.active && decide (node.finishedFrame < f)) = false := by
      rw [List.any_eq_false]
      intro node hmem
      cases hact : node.active with
      | false => simp
      | true => simpa using hall node hmem hact
    simp [notifyNodeFrameFinished, hge, hany, emit]
  · intro hnot
    have hany : c.nodes.any
        (fun node => node.active && decide (node.finishedFrame < f)) = true := by
      rw [List.any_eq_true]
      by_contra hcon
      apply hnot
      intro node hmem hact
      by_contra hlt
      exact hcon ⟨node, hmem, by simp [hact, Nat.lt_of_not_le hlt]⟩
    simp [notifyNodeFrameFinished, hge, hany]

/-- Witness for C1: three active nodes with last-finished frames 5, 5 and 4 and `f = 5`
leave the finished-frame counter below 5. -/
theorem notifyNodeFrameFinished_barrier_witness :
    Example.threeNodes.finishedFrame < 5 ∧
    (notifyNodeFrameFinished 5 Example.threeNodes).finishedFrame < 5 := by
  have h := (notifyNodeFrameFinished_barrier Example.threeNodes 5 (by decide)).2 (by decide)
  exact ⟨by decide, by rw [h]; decide⟩


/-- C2: `notifyNodeFrameFinished( f )` is idempotent. A frame number at or below the
finished-frame counter changes nothing and sends nothing; the call either leaves the whole
state as it was or advances the counter to `f` and sends exactly one frame-finished packet
carrying `f` to the application; a second call right after the first changes nothing, so two
calls in a row send the packet at most once. -/
theorem notifyNodeFrameFinished_idempotent (c : Config) (f : Nat) :
    (f ≤ c.finishedFrame → notifyNodeFrameFinished f c = c) ∧
    (notifyNodeFrameFinished f c = c ∨
      (c.finishedFrame < f ∧ (notifyNodeFrameFinished f c).finishedFrame = f ∧
        (notifyNodeFrameFinished f c).log =
          c.log ++ [Action.send Peer.app (Packet.ConfigFrameFinish f)])) ∧
    ((notifyNodeFrameFinished f c).log =
        c.log ++ [Action.send Peer.app (Packet.ConfigFrameFinish f)] ↔
      (notifyNodeFrameFinished f c).finishedFrame ≠ c.finishedFrame) ∧
    notifyNodeFrameFinished f (notifyNodeFrameFinished f c) = notifyNodeFrameFinished f c ∧
    (notifyNodeFrameFinished f (notifyNodeFrameFinished f c)).log.count
        (Action.send Peer.app (Packet.ConfigFrameFinish f)) ≤
      c.log.count (Action.send Peer.app (Packet.ConfigFrameFinish f)) + 1 := by
  have key : notifyNodeFrameFinished f c = c ∨
      (c.finishedFrame < f ∧ (notifyNodeFrameFinished f c).finishedFrame = f ∧
        (notifyNodeFrameFinished f c).log =
          c.log ++ [Action.send Peer.app (Packet.ConfigFrameFinish f)]) := by
    unfold notifyNodeFrameFinished
    by_cases h1 : c.finishedFrame ≥ f
    · left; simp [h1]
    · by_cases h2 : c.nodes.any
          (fun node => node.active && decide (node.finishedFrame < f)) = true
      · left; simp [h1, h2]
      · right
        simp only [h1, h2, if_false, Bool.false_eq_true]
        exact ⟨Nat.lt_of_not_le h1, rfl, rfl⟩
  have twice : notifyNodeFrameFinished f (notifyNodeFrameFinished f c) =
      notifyNodeFrameFinished f c := by
    rcases key with h | ⟨_, h, _⟩
    · rw [h, h]
    · generalize notifyNodeFrameFinished f c = d at h
      simp [notifyNodeFrameFinished, h]
  refine ⟨?_, key, ?_, twice, ?_⟩
  · intro h
    simp [notifyNodeFrameFinished, h]
  · rcases key with h | ⟨hlt, hf, hlog⟩
    · rw [h]; simp
    · constructor
      · intro _; omega
      · intro _; exact hlog
  · rw [twice]
    rcases key with h | ⟨_, _, hlog⟩
    · rw [h]; omega
    · rw [hlog, List.count_append]
      simp


/-! ### Reconciliation leaves the state machine proper alone -/

@[simp] theorem core_emit (c : Config) (a : Action) : (c.emit a).core = c.core := rfl

@[simp] theorem core_emitAll (c : Config) (l : List Action) : (c.emitAll l).core = c.core := rfl

@[simp] theorem core_setErrorMessage (c : Config) (m : String) :
    (c.setErrorMessage m).core = c.core := rfl

@[simp] theorem core_updateNode (c : Config) (i : Nat) (f : Node → Node) :
    (c.updateNode i f).core = c.core := by
  unfold updateNode
  split <;> rfl

@[simp] theorem core_setNode (c : Config) (i : Nat) (n : Option NetNode) :
    (c.setNode i n).core = c.core := core_updateNode c i _

theorem EQASSERT_ok {σ : Type} {checked cond : Bool} {what : String} {s : σ} {u : Unit}
    (_h : EQASSERT checked cond what s = .ok u) : checked = false ∨ cond = true := by
  cases checked <;> cases cond <;> simp_all [EQASSERT]

theorem core_connectNode {env : Env} {i : Nat} {node : Node} {c : Config}
    {v : Bool × Config} (h : _connectNode env i node c = .ok v) : v.2.core = c.core := by
  simp only [_connectNode, bind, Except.bind, pure, Except.pure, EQASSERT] at h
  repeat' split at h
  all_goals cases h
  all_goals simp

theorem core_syncConnectNode {env : Env} {i : Nat} {node : Node} {clock : List Action}
    {c : Config} {v : Bool × Config}
    (h : _syncConnectNode env i node clock c = .ok v) : v.2.core = c.core := by
  simp only [_syncConnectNode, bind, Except.bind, pure, Except.pure, EQASSERT] at h
  repeat' split at h
  all_goals cases h
  all_goals simp

theorem core_connectLoop {env : Env} (l : List Nat) : ∀ {c : Config} {v : Bool × Config},
    _connectLoop env l c = .ok v → v.2.core = c.core := by
  induction l with
  | nil =>
    intro c v h
    cases h
    rfl
  | cons i rest ih =>
    intro c v h
    simp only [_connectLoop, bind, Except.bind, pure, Except.pure] at h
    repeat' split at h
    all_goals first
      | exact ih h
      | exact (ih h).trans (core_connectNode ‹_›)
      | (cases h; dsimp only; exact core_connectNode ‹_›)
      | cases h

theorem core_syncConnectLoop {env : Env} {clock : List Action} (l : List Nat) :
    ∀ {c : Config} {b : Bool} {v : Bool × Config},
    _syncConnectLoop env clock l b c = .ok v → v.2.core = c.core := by
  induction l with
  | nil =>
    intro c b v h
    cases h
    rfl
  | cons i rest ih =>
    intro c b v h
    simp only [_syncConnectLoop, bind, Except.bind, pure, Except.pure] at h
    repeat' split at h
    all_goals first
      | exact ih h
      | exact (ih h).trans (core_syncConnectNode ‹_›)
      | cases h

theorem core_connectNodes {env : Env} {c : Config} {v : Bool × Config}
    (h : _connectNodes env c = .ok v) : v.2.core = c.core := by
  simp only [_connectNodes, bind, Except.bind] at h
  split at h
  · cases h
  · exact (core_syncConnectLoop _ h).trans (core_connectLoop _ ‹_›)

theorem core_createConfig {env : Env} {node : Node} {c c' : Config}
    (h : _createConfig env node c = .ok c') : c'.core = c.core := by
  simp only [_createConfig, bind, Except.bind, pure, Except.pure, EQASSERT] at h
  repeat' split at h
  all_goals cases h
  all_goals simp

theorem core_startLoop {env : Env} (l : List Nat) :
    ∀ {c : Config} {requests : List Nat} {v : List Nat × Config},
    _startLoop env l requests c = .ok v → v.2.core = c.core := by
  induction l with
  | nil =>
    intro c requests v h
    cases h
    rfl
  | cons i rest ih =>
    intro c requests v h
    simp only [_startLoop, bind, Except.bind, pure, Except.pure] at h
    repeat' split at h
    all_goals first
      | exact ih h
      | exact (ih h).trans (core_createConfig ‹_›)
      | cases h

theorem core_startNodes {env : Env} {c c' : Config}
    (h : _startNodes env c = .ok c') : c'.core = c.core := by
  simp only [_startNodes, bind, Except.bind, pure, Except.pure] at h
  split at h
  · cases h
  · cases h
    exact core_startLoop _ ‹_›

@[simp] theorem core_updateCanvases (c : Config) : (_updateCanvases c).core = c.core := rfl

theorem core_syncRunningLoop (env : Env) (l : List Nat) :
    ∀ (c : Config) (b : Bool), (_syncRunningLoop env l b c).2.core = c.core := by
  induction l with
  | nil => intro c b; rfl
  | cons i rest ih =>
    intro c b
    simp only [_syncRunningLoop]
    repeat' split
    all_goals simp [ih]

@[simp] theorem core_updateNodes (env : Env) (c : Config) :
    (_updateNodes env c).2.core = c.core := by
  simp [_updateNodes, core_syncRunningLoop]

theorem core_stopLoop {env : Env} (l : List Nat) :
    ∀ {c : Config} {stopping : List Nat} {v : List Nat × Config},
    _stopLoop env l stopping c = .ok v → v.2.core = c.core := by
  induction l with
  | nil =>
    intro c stopping v h
    cases h
    rfl
  | cons i rest ih =>
    intro c stopping v h
    simp only [_stopLoop, bind, Except.bind, pure, Except.pure, EQASSERT] at h
    repeat' split at h
    all_goals first
      | exact ih h
      | exact (ih h).trans (by simp)
      | cases h

theorem core_waitDisconnect (env : Env) (netNode : NetNode) (n : Nat) :
    ∀ (c : Config), (_waitDisconnect env netNode n c).2.core = c.core := by
  induction n with
  | zero => intro c; rfl
  | succ n ih =>
    intro c
    simp only [_waitDisconnect]
    repeat' split
    all_goals simp [ih]

theorem core_disconnectLoop (env : Env) (l : List Nat) :
    ∀ (n : Nat) (c : Config), (_disconnectLoop env l n c).core = c.core := by
  induction l with
  | nil => intro n c; rfl
  | cons i rest ih =>
    intro n c
    simp only [_disconnectLoop]
    repeat' split
    all_goals simp [ih, core_waitDisconnect]

theorem core_stopNodes {env : Env} {c c' : Config}
    (h : _stopNodes env c = .ok c') : c'.core = c.core := by
  simp only [_stopNodes, bind, Except.bind, pure, Except.pure] at h
  split at h
  · cases h
  · cases h
    exact (core_disconnectLoop _ _ _ _).trans (core_stopLoop _ ‹_›)

@[simp] theorem core_deleteEntities (c : Config) : (_deleteEntities c).core = c.core := by
  simp only [_deleteEntities, Config.core, emitAll]

theorem core_syncClockLoop {env : Env} (l : List Nat) : ∀ {c c' : Config},
    _syncClockLoop env l c = .ok c' → c'.core = c.core := by
  induction l with
  | nil =>
    intro c c' h
    cases h
    rfl
  | cons i rest ih =>
    intro c c' h
    simp only [_syncClockLoop, bind, Except.bind, pure, Except.pure, EQASSERT] at h
    repeat' split at h
    all_goals first
      | exact ih h
      | exact (ih h).trans (by simp)
      | cases h

theorem core_syncClock {env : Env} {c c' : Config}
    (h : _syncClock env c = .ok c') : c'.core = c.core :=
  (core_syncClockLoop _ h).trans (by simp)

/-- Running-state reconciliation never touches the frame counters, the run-state, the
needs-finish flag or the init id. -/
theorem core_updateRunning {env : Env} {c : Config} {v : Bool × Config}
    (h : _updateRunning env c = .ok v) : v.2.core = c.core := by
  simp only [_updateRunning, bind, Except.bind, pure, Except.pure, EQASSERT] at h
  repeat' split at h
  all_goals try cases h
  · rfl
  · dsimp only
    exact (core_connectNodes ‹_›).trans (by simp)
  · dsimp only
    rw [core_syncClock ‹_›, core_deleteEntities, core_stopNodes ‹_›, core_updateNodes,
      core_updateCanvases, core_startNodes ‹_›, core_connectNodes ‹_›]
    simp

/-! ### Without assertion checking the reconciliation always returns -/

theorem connectNode_total {env : Env} (h : env.assertsEnabled = false) (i : Nat) (node : Node)
    (c : Config) : ∃ v, _connectNode env i node c = .ok v := by
  simp only [_connectNode, EQASSERT, h, Bool.false_and, Bool.false_eq_true, if_false, bind,
    Except.bind, pure, Except.pure]
  repeat' split
  all_goals exact ⟨_, rfl⟩

theorem syncConnectNode_total {env : Env} (h : env.assertsEnabled = false) (i : Nat)
    (node : Node) (clock : List Action) (c : Config) :
    ∃ v, _syncConnectNode env i node clock c = .ok v := by
  simp only [_syncConnectNode, EQASSERT, h, Bool.false_and, Bool.false_eq_true, if_false, bind,
    Except.bind, pure, Except.pure]
  repeat' split
  all_goals exact ⟨_, rfl⟩

theorem connectLoop_total {env : Env} (h : env.assertsEnabled = false) (l : List Nat) :
    ∀ c : Config, ∃ v, _connectLoop env l c = .ok v := by
  induction l with
  | nil => intro c; exact ⟨_, rfl⟩
  | cons i rest ih =>
    intro c
    simp only [_connectLoop, bind, Except.bind, pure, Except.pure]
    split
    · exact ih c
    · split
      · rename_i node _ _
        obtain ⟨w, hw⟩ := connectNode_total h i node c
        rw [hw]
        dsimp only
        split
        · exact ⟨_, rfl⟩
        · exact ih _
      · exact ih c

theorem syncConnectLoop_total {env : Env} (h : env.assertsEnabled = false)
    (clock : List Action) (l : List Nat) :
    ∀ (b : Bool) (c : Config), ∃ v, _syncConnectLoop env clock l b c = .ok v := by
  induction l with
  | nil => intro b c; exact ⟨_, rfl⟩
  | cons i rest ih =>
    intro b c
    simp only [_syncConnectLoop, bind, Except.bind, pure, Except.pure]
    split
    · exact ih b c
    · split
      · rename_i node _ _
        obtain ⟨w, hw⟩ := syncConnectNode_total h i node clock c
        rw [hw]
        exact ih _ _
      · exact ih b c

theorem connectNodes_total {env : Env} (h : env.assertsEnabled = false) (c : Config) :
    ∃ v, _connectNodes env c = .ok v := by
  simp only [_connectNodes, bind, Except.bind]
  obtain ⟨w, hw⟩ := connectLoop_total h c.nodeIndices c
  rw [hw]
  exact syncConnectLoop_total h _ _ _ _

theorem startLoop_total {env : Env} (h : env.assertsEnabled = false) (l : List Nat) :
    ∀ (requests : List Nat) (c : Config), ∃ v, _startLoop env l requests c = .ok v := by
  induction l with
  | nil => intro requests c; exact ⟨_, rfl⟩
  | cons i rest ih =>
    intro requests c
    simp only [_startLoop, _createConfig, EQASSERT, h, Bool.false_and, Bool.false_eq_true,
      if_false, bind, Except.bind, pure, Except.pure]
    repeat' split
    all_goals exact ih _ _

theorem startNodes_total {env : Env} (h : env.assertsEnabled = false) (c : Config) :
    ∃ v, _startNodes env c = .ok v := by
  simp only [_startNodes, bind, Except.bind, pure, Except.pure]
  obtain ⟨w, hw⟩ := startLoop_total h c.nodeIndices [] c
  rw [hw]
  exact ⟨_, rfl⟩

theorem stopLoop_total {env : Env} (h : env.assertsEnabled = false) (l : List Nat) :
    ∀ (stopping : List Nat) (c : Config), ∃ v, _stopLoop env l stopping c = .ok v := by
  induction l with
  | nil => intro stopping c; exact ⟨_, rfl⟩
  | cons i rest ih =>
    intro stopping c
    simp only [_stopLoop, EQASSERT, h, Bool.false_and, Bool.false_eq_true, if_false, bind,
      Except.bind, pure, Except.pure]
    repeat' split
    all_goals exact ih _ _

theorem stopNodes_total {env : Env} (h : env.assertsEnabled = false) (c : Config) :
    ∃ v, _stopNodes env c = .ok v := by
  simp only [_stopNodes, bind, Except.bind, pure, Except.pure]
  obtain ⟨w, hw⟩ := stopLoop_total h c.nodeIndices [] c
  rw [hw]
  exact ⟨_, rfl⟩

theorem syncClockLoop_total {env : Env} (h : env.assertsEnabled = false) (l : List Nat) :
    ∀ c : Config, ∃ v, _syncClockLoop env l c = .ok v := by
  induction l with
  | nil => intro c; exact ⟨_, rfl⟩
  | cons i rest ih =>
    intro c
    simp only [_syncClockLoop, EQASSERT, h, Bool.false_and, Bool.false_eq_true, if_false, bind,
      Except.bind, pure, Except.pure]
    repeat' split
    all_goals exact ih _

/-- Without assertion checking the running-state reconciliation always returns. -/
theorem updateRunning_total {env : Env} (h : env.assertsEnabled = false) (c : Config) :
    ∃ v, _updateRunning env c = .ok v := by
  simp only [_updateRunning, EQASSERT, h, Bool.false_and, Bool.false_eq_true, if_false, bind,
    Except.bind, pure, Except.pure]
  split
  · exact ⟨_, rfl⟩
  · obtain ⟨w, hw⟩ := connectNodes_total h (c.setErrorMessage "")
    rw [hw]
    dsimp only
    split
    · exact ⟨_, rfl⟩
    · obtain ⟨w₁, hw₁⟩ := startNodes_total h w.2
      rw [hw₁]
      dsimp only
      obtain ⟨w₂, hw₂⟩ := stopNodes_total h (_updateNodes env (_updateCanvases w₁)).2
      rw [hw₂]
      dsimp only
      obtain ⟨w₃, hw₃⟩ := syncClockLoop_total h (_deleteEntities w₂).nodeIndices
        ((_deleteEntities w₂).emit (.send .app .ConfigSyncClock))
      unfold _syncClock
      rw [hw₃]
      exact ⟨_, rfl⟩

/-- Without assertion checking `Config::exit` always returns. -/
theorem exit_total {env : Env} (h : env.assertsEnabled = false) (c : Config) :
    ∃ v, exit env c = .ok v := by
  simp only [exit, EQASSERT, h, Bool.false_and, Bool.false_eq_true, if_false, bind,
    Except.bind, pure, Except.pure]
  obtain ⟨w, hw⟩ := updateRunning_total h
    (({ c with state := State.STATE_EXITING }.emitAll
      (forEach c.compounds.length Action.compoundExit)).emitAll
        (c.canvases.map (fun (e : Entity) => Action.canvasExit e.id)))
  dsimp only [emitAll] at hw ⊢
  rw [hw]
  exact ⟨_, rfl⟩

/-! ### Effect of the operations on the state machine proper -/

theorem core_notifyNodeFrameFinished (n : Nat) (c : Config) :
    (notifyNodeFrameFinished n c).core = c.core ∨
    (c.finishedFrame < n ∧
      (notifyNodeFrameFinished n c).core = { c.core with finishedFrame := n }) := by
  unfold notifyNodeFrameFinished
  by_cases h1 : c.finishedFrame ≥ n
  · left; simp [h1]
  · by_cases h2 : c.nodes.any
        (fun node => node.active && decide (node.finishedFrame < n)) = true
    · left; simp [h1, h2]
    · right
      simp only [h1, h2, if_false, Bool.false_eq_true]
      exact ⟨Nat.lt_of_not_le h1, rfl⟩

theorem core_nodeFrameFinished (i n : Nat) (c : Config) :
    (nodeFrameFinished i n c).core = c.core ∨
    (nodeFrameFinished i n c).core = { c.core with finishedFrame := n } := by
  unfold nodeFrameFinished
  rcases core_notifyNodeFrameFinished n
    (c.updateNode i (fun x => { x with finishedFrame := n })) with h | ⟨_, h⟩
  · left; rw [h]; simp
  · right; rw [h]; simp

@[simp] theorem core_flushAllFrames (c : Config) : (_flushAllFrames c).core = c.core := by
  unfold _flushAllFrames
  split <;> rfl

theorem waitEQ_ok (l : List (Nat × Nat)) : ∀ {c c' : Config}, waitEQ l c = .ok c' →
    c'.finishedFrame = c'.currentFrame ∧ c'.currentFrame = c.currentFrame ∧
    c'.state = c.state ∧ c'.needsFinish = c.needsFinish ∧ c'.initID = c.initID := by
  induction l with
  | nil =>
    intro c c' h
    simp only [waitEQ] at h
    split at h
    · cases h; simp [*]
    · cases h
  | cons p rest ih =>
    intro c c' h
    obtain ⟨i, f⟩ := p
    simp only [waitEQ] at h
    split at h
    · cases h; simp [*]
    · have := ih h
      rcases core_nodeFrameFinished i f c with hc | hc <;>
        simp only [Config.core, Core.mk.injEq] at hc <;>
        simp [this, hc]

theorem core_startFrameBegin (frameID : Nat) (c : Config) :
    (_startFrameBegin frameID c).core = { c.core with currentFrame := incr32 c.currentFrame } := by
  unfold _startFrameBegin
  dsimp only
  split <;> rfl

theorem startFrame_ok {env : Env} {frameID : Nat} {c c' : Config}
    (h : _startFrame env frameID c = .ok c') :
    c'.currentFrame = incr32 c.currentFrame ∧
    (c'.finishedFrame = c.finishedFrame ∨
      (c.finishedFrame < incr32 c.currentFrame ∧ c'.finishedFrame = incr32 c.currentFrame)) ∧
    c'.state = c.state ∧ c'.needsFinish = c.needsFinish ∧ c'.initID = c.initID := by
  simp only [_startFrame, bind, Except.bind, pure, Except.pure, EQASSERT] at h
  split at h
  · cases h
  · simp only [Except.ok.injEq] at h
    subst h
    have hb := core_startFrameBegin frameID c
    simp only [Config.core, Core.mk.injEq] at hb
    obtain ⟨hb1, hb2, hb3, hb4, hb5⟩ := hb
    rw [hb1]
    rcases core_notifyNodeFrameFinished (incr32 c.currentFrame)
        (_startFrameBegin frameID c) with hc | ⟨hlt, hc⟩ <;>
      simp only [Config.core, Core.mk.injEq] at hc <;>
      obtain ⟨hc1, hc2, hc3, hc4, hc5⟩ := hc
    · exact ⟨hc1.trans hb1, Or.inl (hc2.trans hb2), hc3.trans hb3, hc4.trans hb4,
        hc5.trans hb5⟩
    · exact ⟨hc1.trans hb1, Or.inr ⟨hb2 ▸ hlt, hc2⟩, hc3.trans hb3, hc4.trans hb4,
        hc5.trans hb5⟩

theorem exit_ok {env : Env} {c : Config} {v : Bool × Config} (h : exit env c = .ok v) :
    v.2.currentFrame = c.currentFrame ∧ v.2.finishedFrame = c.finishedFrame ∧
    v.2.state = .STATE_STOPPED ∧ v.2.needsFinish = false ∧ v.2.initID = c.initID := by
  simp only [exit, bind, Except.bind, pure, Except.pure, EQASSERT] at h
  repeat' split at h
  all_goals try cases h
  have hc := core_updateRunning ‹_›
  simp only [Config.core, Core.mk.injEq, emitAll] at hc
  simp [emit, emitAll, hc]

theorem init_ok {env : Env} {initID : Nat} {c : Config} {v : Bool × Config}
    (h : _init env initID c = .ok v) :
    (env.assertsEnabled = false ∨ c.state = .STATE_STOPPED) ∧
    ∃ w, _updateRunning env (_initBegin initID c) = .ok w ∧ v.1 = w.1 ∧
      v.2.currentFrame = 0 ∧ v.2.finishedFrame = 0 ∧ v.2.initID = initID ∧
      (w.1 = true → v.2.state = .STATE_RUNNING ∧ v.2.needsFinish = false) ∧
      (w.1 = false → v.2 = w.2 ∧ v.2.state = .STATE_INITIALIZING) := by
  simp only [_init, bind, Except.bind, pure, Except.pure] at h
  split at h
  · cases h
  · rename_i hassert
    refine ⟨by simpa using EQASSERT_ok hassert, ?_⟩
    split at h
    · cases h
    · rename_i w hw
      have hc := core_updateRunning hw
      simp only [Config.core, Core.mk.injEq, _initBegin, emitAll] at hc
      refine ⟨w, hw, ?_⟩
      split at h <;> cases h <;> simp_all


theorem cmdStartFrameBegin_ok {env : Env} {c c' : Config}
    (h : _cmdStartFrameBegin env c = .ok c') :
    c'.currentFrame = c.currentFrame ∧ c'.state = c.state ∧ c'.needsFinish = c.needsFinish ∧
    c'.initID = c.initID ∧
    (c.needsFinish = true → c'.finishedFrame = c'.currentFrame) ∧
    (c.needsFinish = false → c'.finishedFrame = c.finishedFrame) := by
  unfold _cmdStartFrameBegin at h
  dsimp only at h
  split at h
  · rename_i hn
    have hn' : c.needsFinish = true := hn
    have hw := waitEQ_ok _ h
    have hf := core_flushAllFrames (((c.emit Action.syncObjects).emit
      (Action.send Peer.requester Packet.ConfigSync)).emit
        (Action.send Peer.requester (Packet.ConfigStartFrameReply c.needsFinish)))
    simp only [Config.core, Core.mk.injEq, emit] at hf
    obtain ⟨hw1, hw2, hw3, hw4, hw5⟩ := hw
    obtain ⟨hf1, hf2, hf3, hf4, hf5⟩ := hf
    refine ⟨hw2.trans hf1, hw3.trans hf3, hw4.trans hf4, hw5.trans hf5, fun _ => hw1, ?_⟩
    intro hfalse
    rw [hn'] at hfalse
    cases hfalse
  · rename_i hn
    have hn' : ¬ c.needsFinish = true := hn
    cases h
    refine ⟨rfl, rfl, rfl, rfl, fun ht => absurd ht hn', fun _ => rfl⟩

theorem cmdStartFrameEnd_eq (c : Config) :
    (_cmdStartFrameEnd c).currentFrame = c.currentFrame ∧
    (_cmdStartFrameEnd c).finishedFrame = c.finishedFrame ∧
    (_cmdStartFrameEnd c).state = c.state ∧ (_cmdStartFrameEnd c).needsFinish = false ∧
    (_cmdStartFrameEnd c).initID = c.initID := by
  unfold _cmdStartFrameEnd
  have hf := core_flushAllFrames c
  simp only [Config.core, Core.mk.injEq] at hf
  obtain ⟨hf1, hf2, hf3, _, hf5⟩ := hf
  dsimp only
  by_cases hn : c.needsFinish = true
  · rw [if_pos hn]
    split <;> simp [emit, hf1, hf2, hf3, hf5]
  · rw [if_neg hn]
    have hn' : c.needsFinish = false := by simpa using hn
    split <;> simp [emit, hn']


theorem cmdStartFrame_ok {env : Env} {frameID : Nat} {c c' : Config}
    (h : _cmdStartFrame env frameID c = .ok c') :
    c'.currentFrame = incr32 c.currentFrame ∧ c'.needsFinish = false ∧ c'.initID = c.initID ∧
    ∃ c₁ w, _cmdStartFrameBegin env c = .ok c₁ ∧ _updateRunning env c₁ = .ok w ∧
      (w.1 = true → c'.state = c.state ∧
        (c'.finishedFrame = c₁.finishedFrame ∨
          (c₁.finishedFrame < incr32 c.currentFrame ∧
            c'.finishedFrame = incr32 c.currentFrame))) ∧
      (w.1 = false → c'.state = .STATE_STOPPED ∧ c'.finishedFrame = c₁.finishedFrame) := by
  unfold _cmdStartFrame at h
  simp only [bind, Except.bind, pure, Except.pure] at h
  cases hb : _cmdStartFrameBegin env c with
  | error e => rw [hb] at h; cases h
  | ok c₁ =>
    rw [hb] at h
    dsimp only at h
    cases hu : _updateRunning env c₁ with
    | error e => rw [hu] at h; cases h
    | ok w =>
      rw [hu] at h
      dsimp only at h
      obtain ⟨hb1, hb2, hb3, hb4, _, _⟩ := cmdStartFrameBegin_ok hb
      have hc := core_updateRunning hu
      simp only [Config.core, Core.mk.injEq] at hc
      obtain ⟨hc1, hc2, hc3, hc4, hc5⟩ := hc
      by_cases hw : w.1 = true
      · rw [if_pos hw] at h
        cases hs : _startFrame env frameID w.2 with
        | error e => rw [hs] at h; cases h
        | ok c₂ =>
          rw [hs] at h
          cases h
          obtain ⟨hs1, hs2, hs3, hs4, hs5⟩ := startFrame_ok hs
          obtain ⟨he1, he2, he3, he4, he5⟩ := cmdStartFrameEnd_eq c₂
          refine ⟨?_, he4, ?_, c₁, w, rfl, hu, ?_, ?_⟩
          · rw [he1, hs1, hc1, hb1]
          · rw [he5, hs5, hc5, hb4]
          · intro _
            refine ⟨by rw [he3, hs3, hc3, hb2], ?_⟩
            rw [he2]
            rcases hs2 with hs2 | ⟨hlt, hs2⟩
            · left; rw [hs2, hc2]
            · right
              rw [hc2, hc1, hb1] at hlt
              exact ⟨hlt, by rw [hs2, hc1, hb1]⟩
          · intro hf
            rw [hw] at hf
            cases hf
      · rw [if_neg hw] at h
        cases hx : exit env w.2 with
        | error e => rw [hx] at h; cases h
        | ok v =>
          rw [hx] at h
          cases h
          obtain ⟨hx1, hx2, hx3, hx4, hx5⟩ := exit_ok hx
          obtain ⟨he1, he2, he3, he4, he5⟩ := cmdStartFrameEnd_eq
            { v.2 with currentFrame := incr32 v.2.currentFrame }
          dsimp only at he1 he2 he3 he5
          refine ⟨?_, he4, ?_, c₁, w, rfl, hu, ?_, ?_⟩
          · rw [he1, hx1, hc1, hb1]
          · rw [he5, hx5, hc5, hb4]
          · intro ht
            exact absurd ht hw
          · intro _
            exact ⟨by rw [he3, hx3], by rw [he2, hx2, hc2]⟩


/-- Counterexample to C3 as stated: on a running configuration at frame 5 with all frames
finished and no active node, `notifyNodeFrameFinished( 6 )` raises the finished-frame counter
to 6, above the current-frame counter 5; and `_startFrame` at current frame `2^32 - 1` wraps
the current-frame counter to 0, below the finished-frame counter. -/
theorem finished_le_current_counterexample :
    (Example.running 5).finishedFrame ≤ (Example.running 5).currentFrame ∧
    ¬ ((notifyNodeFrameFinished 6 (Example.running 5)).finishedFrame ≤
        (notifyNodeFrameFinished 6 (Example.running 5)).currentFrame) ∧
    (Example.running (2 ^ 32 - 1)).finishedFrame ≤ (Example.running (2 ^ 32 - 1)).currentFrame ∧
    (_startFrame (Example.env true) 0 (Example.running (2 ^ 32 - 1))).toOption.map
      (fun c => (c.finishedFrame, c.currentFrame)) = some (2 ^ 32 - 1, 0) := by
  refine ⟨by decide, by decide, by decide, by rfl⟩

/-- C3 (amended): `finished-frame <= current-frame` holds in a freshly constructed `Config`
and after `restore`, `_init` and `exit`; `notifyNodeFrameFinished( n )` keeps it for every
frame number `n` up to the current frame, and for any `n` when some active node has not
finished frame `n`; `_startFrame` and the `ConfigStartFrame` handler (success and failure
branch alike) keep it as long as the 32-bit current-frame counter does not wrap. -/
theorem finished_le_current_preserved (env : Env) (c : Config)
    (hinv : c.finishedFrame ≤ c.currentFrame) :
    Config.fresh.finishedFrame ≤ Config.fresh.currentFrame ∧
    (restore c).finishedFrame ≤ (restore c).currentFrame ∧
    (∀ n, n ≤ c.currentFrame →
      (notifyNodeFrameFinished n c).finishedFrame ≤ (notifyNodeFrameFinished n c).currentFrame) ∧
    (∀ n, (∃ node ∈ c.nodes, node.active = true ∧ node.finishedFrame < n) →
      (notifyNodeFrameFinished n c).finishedFrame ≤ (notifyNodeFrameFinished n c).currentFrame) ∧
    (∀ initID v, _init env initID c = .ok v → v.2.finishedFrame ≤ v.2.currentFrame) ∧
    (∀ v, exit env c = .ok v → v.2.finishedFrame ≤ v.2.currentFrame) ∧
    (∀ frameID c', c.currentFrame + 1 < 2 ^ 32 → _startFrame env frameID c = .ok c' →
      c'.finishedFrame ≤ c'.currentFrame) ∧
    (∀ frameID c', c.currentFrame + 1 < 2 ^ 32 → _cmdStartFrame env frameID c = .ok c' →
      c'.finishedFrame ≤ c'.currentFrame) := by
  have hincr : c.currentFrame + 1 < 2 ^ 32 → incr32 c.currentFrame = c.currentFrame + 1 :=
    fun hw => Nat.mod_eq_of_lt hw
  refine ⟨Nat.le_refl _, Nat.le_refl _, ?_, ?_, ?_, ?_, ?_, ?_⟩
  · intro n hn
    rcases core_notifyNodeFrameFinished n c with h | ⟨_, h⟩ <;>
      simp only [Config.core, Core.mk.injEq] at h <;>
      obtain ⟨h1, h2, _⟩ := h
    · rw [h1, h2]; exact hinv
    · rw [h1, h2]; exact hn
  · intro n hex
    obtain ⟨node, hmem, hact, hlt⟩ := hex
    have hany : c.nodes.any
        (fun node => node.active && decide (node.finishedFrame < n)) = true := by
      rw [List.any_eq_true]
      exact ⟨node, hmem, by simp [hact, hlt]⟩
    have hsame : notifyNodeFrameFinished n c = c := by
      unfold notifyNodeFrameFinished
      split
      · rfl
      · simp [hany]
    rw [hsame]
    exact hinv
  · intro initID v h
    obtain ⟨_, w, _, _, h1, h2, _⟩ := init_ok h
    rw [h1, h2]
  · intro v h
    obtain ⟨h1, h2, _⟩ := exit_ok h
    rw [h1, h2]
    exact hinv
  · intro frameID c' hw h
    obtain ⟨h1, h2, _⟩ := startFrame_ok h
    rw [h1]
    rcases h2 with h2 | ⟨_, h2⟩
    · rw [h2, hincr hw]; omega
    · rw [h2]
  · intro frameID c' hw h
    obtain ⟨h1, _, _, c₁, w, hb, _, ht, hf⟩ := cmdStartFrame_ok h
    obtain ⟨hb1, _, _, _, hb5, hb6⟩ := cmdStartFrameBegin_ok hb
    have hc₁ : c₁.finishedFrame ≤ c.currentFrame := by
      cases hn : c.needsFinish with
      | true => rw [hb5 hn, hb1]
      | false => rw [hb6 hn]; exact hinv
    rw [h1, hincr hw]
    cases hw1 : w.1 with
    | true =>
      rcases (ht hw1).2 with h2 | ⟨_, h2⟩
      · rw [h2]; omega
      · rw [h2, hincr hw]
    | false =>
      rw [(hf hw1).2]; omega

/-- Witness for C3 (amended): a running configuration at frame 5 with all frames finished
handles `ConfigStartFrame` to the end and the invariant holds afterwards. -/
theorem finished_le_current_preserved_witness :
    (Example.running 5).finishedFrame ≤ (Example.running 5).currentFrame ∧
    ∃ c', _cmdStartFrame (Example.env true) 7 (Example.running 5) = .ok c' ∧
      c'.finishedFrame ≤ c'.currentFrame := by
  refine ⟨by decide, ?_⟩
  have hok : (_cmdStartFrame (Example.env true) 7 (Example.running 5)).toBool = true := by rfl
  cases h : _cmdStartFrame (Example.env true) 7 (Example.running 5) with
  | error e => rw [h] at hok; cases hok
  | ok c' =>
    exact ⟨c', rfl, (finished_le_current_preserved (Example.env true) (Example.running 5)
      (by decide)).2.2.2.2.2.2.2 7 c' (by decide) h⟩


/-- Counterexample to C7 as stated: `Config::exit` itself, entered on the freshly constructed
configuration, which is Stopped. Without assertion checking it returns success and has sent
the clock synchronisation and the exit event to the application; with assertion checking it
stops at its assertion. -/
theorem exit_stopped_counterexample :
    Config.fresh.state = .STATE_STOPPED ∧
    (exit (Example.env false) Config.fresh).toOption.map (fun v => (v.1, v.2.log, v.2.state)) =
      some (true, [.send .app .ConfigSyncClock, .send .app .ConfigEventExit],
        .STATE_STOPPED) ∧
    exit (Example.env true) Config.fresh =
      .error ⟨.assertion "_state == STATE_RUNNING || _state == STATE_INITIALIZING",
        Config.fresh⟩ := by
  refine ⟨rfl, ?_, ?_⟩
  · rfl
  · rfl

/-- C7 (amended): a `ConfigExit` request handled while the configuration is Stopped is a
no-op answering failure. `_cmdExit` enters `Config::exit` only when the run-state is Running;
on a Stopped configuration it returns normally, the state is the old one (run-state, frame
counters, needs-finish flag untouched) with nothing added to the log but the reply
`ConfigExitReply( false )`: no compound or canvas is exited, no exit event is sent. -/
theorem cmdExit_stopped_noop (env : Env) (c : Config) (h : c.state = .STATE_STOPPED) :
    _cmdExit env c =
      .ok { c with log := c.log ++ [Action.send Peer.requester (Packet.ConfigExitReply false)] } := by
  simp [_cmdExit, h, emit, bind, Except.bind, pure, Except.pure]

/-- Witness for C7: the freshly constructed configuration is Stopped. -/
theorem cmdExit_stopped_noop_witness :
    Config.fresh.state = .STATE_STOPPED ∧
    _cmdExit (Example.env true) Config.fresh =
      .ok { Config.fresh with
            log := [Action.send Peer.requester (Packet.ConfigExitReply false)] } :=
  ⟨rfl, cmdExit_stopped_noop (Example.env true) Config.fresh rfl⟩

/-- C8: with assertions compiled in, `_init` on a configuration that is not Stopped is
rejected at its first statement: the assertion `_state == STATE_STOPPED` fails, and the state
at that point is the state `_init` was entered with, so neither the frame counters nor the
init id nor the run-state have been reset. The `ConfigInit` handler is rejected the same way,
having only synchronised its objects. -/
theorem init_rejected_unless_stopped (env : Env) (initID : Nat) (c : Config)
    (hchecked : env.assertsEnabled = true) (h : c.state ≠ .STATE_STOPPED) :
    _init env initID c = .error ⟨.assertion "_state == STATE_STOPPED", c⟩ ∧
    _cmdInit env initID c =
      .error ⟨.assertion "_state == STATE_STOPPED", c.emit .syncObjects⟩ ∧
    (c.emit .syncObjects).core = c.core := by
  have h1 : ∀ d : Config, d.state ≠ .STATE_STOPPED →
      _init env initID d = .error ⟨.assertion "_state == STATE_STOPPED", d⟩ := by
    intro d hd
    simp [_init, EQASSERT, hchecked, hd, bind, Except.bind]
  refine ⟨h1 c h, ?_, rfl⟩
  have h2 := h1 (c.emit .syncObjects) h
  simp only [_cmdInit, bind, Except.bind, h2]

/-- Witness for C8: `ConfigInit( 9 )` on a Running configuration at frame 5. -/
theorem init_rejected_unless_stopped_witness :
    (Example.running 5).state ≠ .STATE_STOPPED ∧
    _init (Example.env true) 9 (Example.running 5) =
      .error ⟨.assertion "_state == STATE_STOPPED", Example.running 5⟩ :=
  ⟨by decide, (init_rejected_unless_stopped (Example.env true) 9 (Example.running 5) rfl
    (by decide)).1⟩


/-- C9: handling `ConfigInit( initID )` on a Stopped configuration. Whenever the handler
returns, both frame counters are 0 and `initID` is stored, the last packet sent is the reply
and it carries the result of the running-state reconciliation done by `_init`; the run-state
is Running with the needs-finish flag cleared when that reconciliation succeeded and Stopped
(through the implicit `exit()`) when it failed, never Initializing or Exiting. The handler
does return whenever the reconciliation returns and, on failure, the implicit `exit()`
returns as well; without assertion checking it always returns. -/
theorem cmdInit_stopped (env : Env) (initID : Nat) (c : Config)
    (hs : c.state = .STATE_STOPPED) :
    (∀ c', _cmdInit env initID c = .ok c' →
      c'.currentFrame = 0 ∧ c'.finishedFrame = 0 ∧ c'.initID = initID ∧
      c'.state ≠ .STATE_INITIALIZING ∧ c'.state ≠ .STATE_EXITING ∧
      ∃ w, _updateRunning env (_initBegin initID (c.emit .syncObjects)) = .ok w ∧
        c'.log.getLast? = some (Action.send Peer.requester (Packet.ConfigInitReply w.1)) ∧
        (w.1 = true → c'.state = .STATE_RUNNING ∧ c'.needsFinish = false) ∧
        (w.1 = false → c'.state = .STATE_STOPPED)) ∧
    (∀ w, _updateRunning env (_initBegin initID (c.emit .syncObjects)) = .ok w →
      (w.1 = true → ∃ c', _cmdInit env initID c = .ok c') ∧
      (w.1 = false → ∀ v, exit env w.2 = .ok v → ∃ c', _cmdInit env initID c = .ok c')) ∧
    (env.assertsEnabled = false → ∃ c', _cmdInit env initID c = .ok c') := by
  have hassert : EQASSERT env.assertsEnabled (decide ((c.emit .syncObjects).state = .STATE_STOPPED))
      "_state == STATE_STOPPED" (c.emit .syncObjects) = .ok () := by
    have : (c.emit .syncObjects).state = .STATE_STOPPED := hs
    simp [EQASSERT, this]
  have hreturns : ∀ w, _updateRunning env (_initBegin initID (c.emit .syncObjects)) = .ok w →
      (w.1 = true → ∃ c', _cmdInit env initID c = .ok c') ∧
      (w.1 = false → ∀ v, exit env w.2 = .ok v → ∃ c', _cmdInit env initID c = .ok c') := by
    intro w hw
    constructor
    · intro hw1
      cases h : _cmdInit env initID c with
      | ok c' => exact ⟨c', rfl⟩
      | error e =>
        exfalso
        simp [_cmdInit, _init, bind, Except.bind, pure, Except.pure, hassert, hw, hw1] at h
    · intro hw1 v hv
      cases h : _cmdInit env initID c with
      | ok c' => exact ⟨c', rfl⟩
      | error e =>
        exfalso
        simp [_cmdInit, _init, bind, Except.bind, pure, Except.pure, hassert, hw, hw1, hv] at h
  refine ⟨?_, hreturns, ?_⟩
  · intro c' h
    unfold _cmdInit at h
    simp only [bind, Except.bind, pure, Except.pure] at h
    cases hi : _init env initID (c.emit .syncObjects) with
    | error e => rw [hi] at h; cases h
    | ok v =>
      rw [hi] at h
      dsimp only at h
      obtain ⟨_, w, hw, hv1, hv2, hv3, hv4, hv5, hv6⟩ := init_ok hi
      cases hr : v.1 with
      | true =>
        rw [hr] at h
        simp only [Bool.not_true, Bool.false_eq_true, if_false, Except.ok.injEq] at h
        subst h
        have hw1 : w.1 = true := by rw [← hv1, hr]
        obtain ⟨hst, hnf⟩ := hv5 hw1
        refine ⟨hv2, hv3, hv4, ?_, ?_, w, hw, ?_, ?_, ?_⟩
        · simp [setErrorMessage, emit, hst]
        · simp [setErrorMessage, emit, hst]
        · simp [setErrorMessage, emit, hw1]
        · intro _; exact ⟨by simp [setErrorMessage, emit, hst], by simp [setErrorMessage, emit, hnf]⟩
        · intro hf; rw [hw1] at hf; cases hf
      | false =>
        rw [hr] at h
        simp only [Bool.not_false, if_true] at h
        cases hx : exit env v.2 with
        | error e => rw [hx] at h; cases h
        | ok x =>
          rw [hx] at h
          simp only [Except.ok.injEq] at h
          subst h
          have hw1 : w.1 = false := by rw [← hv1, hr]
          obtain ⟨hx1, hx2, hx3, hx4, hx5⟩ := exit_ok hx
          refine ⟨?_, ?_, ?_, ?_, ?_, w, hw, ?_, ?_, ?_⟩
          · simpa [setErrorMessage, emit, hx1] using hv2
          · simpa [setErrorMessage, emit, hx2] using hv3
          · simpa [setErrorMessage, emit, hx5] using hv4
          · simp [setErrorMessage, emit, hx3]
          · simp [setErrorMessage, emit, hx3]
          · simp [setErrorMessage, emit, hw1]
          · intro ht; rw [hw1] at ht; cases ht
          · intro _; simp [setErrorMessage, emit, hx3]
  · intro hunchecked
    obtain ⟨w, hw⟩ := updateRunning_total hunchecked (_initBegin initID (c.emit .syncObjects))
    cases hw1 : w.1 with
    | true => exact (hreturns w hw).1 hw1
    | false =>
      obtain ⟨v, hv⟩ := exit_total hunchecked w.2
      exact (hreturns w hw).2 hw1 v hv

/-- Witness for C9: the freshly constructed configuration, with collaborators that always
succeed, ends Running with both counters 0 and init id 9; a stopped configuration whose only
node fails to synchronise ends Stopped, the reply reporting failure. -/
theorem cmdInit_stopped_witness :
    Config.fresh.state = .STATE_STOPPED ∧
    (∃ c', _cmdInit (Example.env true) 9 Config.fresh = .ok c' ∧
      c'.state = .STATE_RUNNING ∧ c'.currentFrame = 0 ∧ c'.finishedFrame = 0 ∧
      c'.initID = 9) ∧
    Example.stoppedWithNode.state = .STATE_STOPPED ∧
    (∃ c', _cmdInit (Example.failingEnv false) 9 Example.stoppedWithNode = .ok c' ∧
      c'.state = .STATE_STOPPED ∧
      c'.log.getLast? = some (Action.send Peer.requester (Packet.ConfigInitReply false))) := by
  refine ⟨rfl, ?_, rfl, ?_⟩
  · have hthm := cmdInit_stopped (Example.env true) 9 Config.fresh rfl
    have hw : ∃ w, _updateRunning (Example.env true)
        (_initBegin 9 (Config.fresh.emit .syncObjects)) = .ok w ∧ w.1 = true :=
      ⟨_, rfl, rfl⟩
    obtain ⟨w, hw, hw1⟩ := hw
    obtain ⟨c', hc'⟩ := (hthm.2.1 w hw).1 hw1
    obtain ⟨h1, h2, h3, _, _, w', hw', _, ht, _⟩ := hthm.1 c' hc'
    have : w' = w := by rw [hw] at hw'; cases hw'; rfl
    subst this
    exact ⟨c', hc', (ht hw1).1, h1, h2, h3⟩
  · have hthm := cmdInit_stopped (Example.failingEnv false) 9 Example.stoppedWithNode rfl
    obtain ⟨c', hc'⟩ := hthm.2.2 rfl
    obtain ⟨_, _, _, _, _, w, hw, hreply, _, hf⟩ := hthm.1 c' hc'
    have hfail : (_updateRunning (Example.failingEnv false)
        (_initBegin 9 (Example.stoppedWithNode.emit .syncObjects))).toOption.map
          (fun w => w.1) = some false := by rfl
    rw [hw] at hfail
    have hw1 : w.1 = false := by simpa [Except.toOption] using hfail
    refine ⟨c', hc', hf hw1, ?_⟩
    rw [hreply, hw1]

/-! ### Names of data-transfer edges -/

namespace config

theorem digitChar_toNat (d : Nat) (h : d < 10) : (Nat.digitChar d).toNat - 48 = d := by
  interval_cases d <;> rfl

theorem digitChar_ne (d : Nat) (h : d < 10) :
    Nat.digitChar d ≠ '.' ∧ Nat.digitChar d ≠ '-' := by
  interval_cases d <;> decide

theorem digitsAux_value (fuel : Nat) : ∀ n, n < fuel →
    (digitsAux fuel n).foldl (fun acc ch => 10 * acc + (ch.toNat - 48)) 0 = n := by
  induction fuel with
  | zero => intro n h; omega
  | succ fuel ih =>
    intro n h
    unfold digitsAux
    split
    · rename_i hlt
      simp [digitChar_toNat n hlt]
    · rename_i hge
      rw [List.foldl_append, ih (n / 10) (by omega)]
      simp only [List.foldl_cons, List.foldl_nil]
      rw [digitChar_toNat (n % 10) (Nat.mod_lt _ (by decide))]
      omega

theorem digitsAux_chars (fuel : Nat) : ∀ n, ∀ ch ∈ digitsAux fuel n, ch ≠ '.' ∧ ch ≠ '-' := by
  induction fuel with
  | zero => intro n ch h; simp [digitsAux] at h
  | succ fuel ih =>
    intro n ch h
    unfold digitsAux at h
    split at h
    · rename_i hlt
      simp only [List.mem_singleton] at h
      subst h
      exact digitChar_ne n hlt
    · rw [List.mem_append] at h
      rcases h with h | h
      · exact ih _ ch h
      · simp only [List.mem_singleton] at h
        subst h
        exact digitChar_ne _ (Nat.mod_lt _ (by decide))

theorem decimalNat_injective {a b : Nat} (h : decimalNat a = decimalNat b) : a = b := by
  have ha := digitsAux_value (a + 1) a (Nat.lt_succ_self a)
  have hb := digitsAux_value (b + 1) b (Nat.lt_succ_self b)
  unfold decimalNat at h
  rw [h] at ha
  exact ha.symm.trans hb

theorem decimal_chars (k : Int) : ∀ ch ∈ decimal k, ch ≠ '.' := by
  intro ch h
  unfold decimal at h
  split at h
  · rcases List.mem_cons.mp h with h | h
    · subst h; decide
    · exact (digitsAux_chars _ _ ch h).1
  · exact (digitsAux_chars _ _ ch h).1

theorem decimal_injective {a b : Int} (h : decimal a = decimal b) : a = b := by
  unfold decimal at h
  split at h <;> split at h
  · have := decimalNat_injective (List.cons.inj h).2
    omega
  · exfalso
    have hmem : '-' ∈ decimalNat b.natAbs := by rw [← h]; exact List.mem_cons_self _ _
    exact (digitsAux_chars _ _ _ hmem).2 rfl
  · exfalso
    have hmem : '-' ∈ decimalNat a.natAbs := by rw [h]; exact List.mem_cons_self _ _
    exact (digitsAux_chars _ _ _ hmem).2 rfl
  · have := decimalNat_injective h
    omega

theorem suffix_after_last {α : Type} {a : α} {s₁ s₂ : List α} (h₁ : a ∉ s₁) (h₂ : a ∉ s₂) :
    ∀ p₁ p₂ : List α, p₁ ++ a :: s₁ = p₂ ++ a :: s₂ → s₁ = s₂ := by
  intro p₁
  induction p₁ with
  | nil =>
    intro p₂ h
    cases p₂ with
    | nil => exact (List.cons.inj h).2
    | cons b p₂ =>
      exfalso
      have := (List.cons.inj h).2
      exact h₁ (by rw [this]; simp)
  | cons b p₁ ih =>
    intro p₂ h
    cases p₂ with
    | nil =>
      exfalso
      have := (List.cons.inj h).2
      exact h₂ (by rw [← this]; simp)
    | cons c p₂ => exact ih p₂ (List.cons.inj h).2

/-- Two edge names are equal only when they carry the same counter value, whatever the group
names are. -/
theorem frameName_counter {g₁ g₂ : String} {k₁ k₂ : Int}
    (h : frameName g₁ k₁ = frameName g₂ k₂) : k₁ = k₂ := by
  have hd := congrArg String.data h
  simp only [frameName, String.data_append] at hd
  have key : ("Frame.".data ++ g₁.data) ++ '.' :: decimal k₁ =
      ("Frame.".data ++ g₂.data) ++ '.' :: decimal k₂ := by
    simpa using hd
  exact decimal_injective
    (suffix_after_last (fun hm => decimal_chars k₁ _ hm rfl) (fun hm => decimal_chars k₂ _ hm rfl)
      _ _ key)

theorem incrInt32_eq (k : Int) (h₁ : -2 ^ 31 ≤ k) (h₂ : k + 1 < 2 ^ 31) :
    incrInt32 k = k + 1 := by
  unfold incrInt32
  rw [Int.emod_eq_of_lt (by omega) (by omega)]
  omega

namespace Resources

/-- What the loop of `_addSources` does, as long as the counter does not wrap: it only
appends children, one per source, and input edges, one per source other than the output
surface; the edges added to the group and the output edges of the new children are the same
frames, in the same order, named after the group with the successive values
`counter + 1, counter + 2, ..` the counter takes when it is incremented. -/
theorem addSourcesLoop_spec (out : Option Nat) (channels : List ChannelPtr) :
    ∀ (compound : Compound) (counter : Int), -2 ^ 31 ≤ counter →
      counter + ((channels.filter (fun ch => ch.map (fun x => x.id) ≠ out)).length : Nat) <
        2 ^ 31 →
    ∃ (ks : List Int) (added : List Compound),
      (_addSourcesLoop out channels compound counter).1.inputFrames =
        compound.inputFrames ++ ks.map (fun k => Frame.mk (frameName compound.name k)) ∧
      (_addSourcesLoop out channels compound counter).1.children =
        compound.children ++ added ∧
      added.length = channels.length ∧
      (added.map (fun child => child.outputFrames)).flatten =
        ks.map (fun k => Frame.mk (frameName compound.name k)) ∧
      ks = (List.range ks.length).map (fun (j : Nat) => counter + 1 + (j : Int)) ∧
      ks.length = (channels.filter (fun ch => ch.map (fun x => x.id) ≠ out)).length ∧
      (_addSourcesLoop out channels compound counter).2 = counter + ks.length ∧
      (_addSourcesLoop out channels compound counter).1.name = compound.name := by
  induction channels with
  | nil =>
    intro compound counter _ _
    exact ⟨[], [], by simp [_addSourcesLoop], by simp [_addSourcesLoop], rfl, rfl,
      rfl, rfl, by simp [_addSourcesLoop], rfl⟩
  | cons channel rest ih =>
    intro compound counter h₁ h₂
    unfold _addSourcesLoop
    dsimp only
    split
    · rename_i heq
      rw [List.filter_cons_of_neg (by simpa using heq)] at h₂
      obtain ⟨ks, added, hin, hch, hlen, hout, hks, hcount, hres, hname⟩ :=
        ih (compound.addChild (Compound.new compound)) counter h₁ h₂
      refine ⟨ks, Compound.new compound :: added, ?_, ?_, ?_, ?_, hks, ?_, hres, ?_⟩
      · rw [hin]; rfl
      · rw [hch]; simp [Compound.addChild]
      · simp [hlen]
      · simp only [List.map_cons, List.flatten_cons]
        rw [hout]; rfl
      · rw [hcount, List.filter_cons_of_neg (by simpa using heq)]
      · rw [hname]; rfl
    · rename_i hne
      rw [List.filter_cons_of_pos (by simpa using hne)] at h₂
      simp only [List.length_cons, Nat.cast_add, Nat.cast_one] at h₂
      have hincr := incrInt32_eq counter h₁ (by omega)
      have hrest := ih (Compound.addChild
            { compound with inputFrames := compound.inputFrames ++
                [Frame.mk (frameName compound.name (incrInt32 counter))] }
            { Compound.new compound with
              channel := channel,
              outputFrames := (Compound.new compound).outputFrames ++
                [Frame.mk (frameName compound.name (incrInt32 counter))] })
          (incrInt32 counter) (by omega) (by omega)
      dsimp only at hrest
      obtain ⟨ks, added, hin, hch, hlen, hout, hks, hcount, hres, hname⟩ := hrest
      refine ⟨incrInt32 counter :: ks,
        { Compound.new compound with
          channel := channel,
          outputFrames := (Compound.new compound).outputFrames ++
            [Frame.mk (frameName compound.name (incrInt32 counter))] } :: added,
        ?_, ?_, ?_, ?_, ?_, ?_, ?_, ?_⟩
      · rw [hin]; simp [Compound.addChild]
      · rw [hch]; simp [Compound.addChild]
      · simp [hlen]
      · simp only [List.map_cons, List.flatten_cons]
        rw [hout]; simp [Compound.addChild, Compound.new]
      · rw [List.length_cons, List.range_succ_eq_map, List.map_cons, List.map_map]
        congr 1
        · rw [hincr]; simp
        · rw [hks]
          simp only [List.length_map, List.length_range]
          apply List.map_congr_left
          intro j _
          simp only [Function.comp_apply, Nat.succ_eq_add_one, Nat.cast_add, Nat.cast_one]
          rw [hincr]; ring
      · rw [List.length_cons, hcount, List.filter_cons_of_pos (by simpa using hne)]
        rfl
      · rw [hres, hincr, List.length_cons]
        push_cast; ring
      · rw [hname]; rfl

theorem addSources_ok {checked : Bool} {compound : Compound} {channels : List ChannelPtr}
    {counter : Int} {v : Compound × Int}
    (h : _addSources checked compound channels counter = .ok v) :
    ∃ rootChannel, compound.getChannel = some rootChannel ∧
      v = _addSourcesLoop (outputChannelOf rootChannel) channels compound counter := by
  unfold _addSources at h
  split at h
  · cases h
  · rename_i rootChannel hroot
    simp only [bind, Except.bind, pure, Except.pure] at h
    split at h
    · cases h
    · cases h
      exact ⟨rootChannel, hroot, rfl⟩

/-- Every name created by a sequence of `_addSources` calls carries a counter value above the
counter the sequence started from and at most the counter it ended with, and no name is
created twice. -/
theorem addSourcesSeq_spec (checked : Bool) (calls : List (Compound × List ChannelPtr)) :
    ∀ (counter counter' : Int) (built : List (Compound × List String)),
    -2 ^ 31 ≤ counter →
    counter + ((calls.map (fun call => increments call.1 call.2)).sum : Nat) < 2 ^ 31 →
    addSourcesSeq checked calls counter = .ok (built, counter') →
    counter ≤ counter' ∧
    List.Forall₂ (fun call b =>
      ∃ (c₀ : Int) (ks : List Int) (added : List Compound),
        counter ≤ c₀ ∧
        ks = (List.range ks.length).map (fun (j : Nat) => c₀ + 1 + (j : Int)) ∧
        c₀ + ks.length ≤ counter' ∧
        b.1.inputFrames =
          call.1.inputFrames ++ ks.map (fun k => Frame.mk (frameName call.1.name k)) ∧
        b.1.children = call.1.children ++ added ∧
        (added.map (fun child => child.outputFrames)).flatten =
          ks.map (fun k => Frame.mk (frameName call.1.name k)) ∧
        b.2 = ks.map (frameName call.1.name)) calls built ∧
    (∀ name ∈ (built.map (fun b => b.2)).flatten,
      ∃ g k, counter < k ∧ k ≤ counter' ∧ name = frameName g k) ∧
    (built.map (fun b => b.2)).flatten.Nodup := by
  induction calls with
  | nil =>
    intro counter counter' built _ _ h
    cases h
    exact ⟨le_refl _, List.Forall₂.nil, by simp, by simp⟩
  | cons call rest ih =>
    intro counter counter' built hlow hwrap h
    obtain ⟨compound, channels⟩ := call
    simp only [List.map_cons, List.sum_cons, Nat.cast_add] at hwrap
    simp only [addSourcesSeq, bind, Except.bind, pure, Except.pure] at h
    cases h1 : _addSources checked compound channels counter with
    | error e => rw [h1] at h; cases h
    | ok v =>
      rw [h1] at h
      dsimp only at h
      cases h2 : addSourcesSeq checked rest v.2 with
      | error e => rw [h2] at h; cases h
      | ok r =>
        rw [h2] at h
        simp only [Except.ok.injEq, Prod.mk.injEq] at h
        obtain ⟨hbuilt, hcounter⟩ := h
        subst hbuilt
        obtain ⟨rootChannel, hroot, hv⟩ := addSources_ok h1
        have hinc : increments compound channels =
            (channels.filter (fun ch =>
              ch.map (fun x => x.id) ≠ outputChannelOf rootChannel)).length := by
          simp only [increments, hroot]
        rw [hinc] at hwrap
        obtain ⟨ks, added, hin, hch, _, hout, hks, hcount, hres, hname⟩ :=
          addSourcesLoop_spec (outputChannelOf rootChannel) channels compound counter hlow
            (by omega)
        rw [← hv] at hin hch hres hname
        rw [← hcount] at hwrap
        obtain ⟨hle, hall, hnames, hnodup⟩ := ih v.2 r.2 r.1 (by omega) (by omega)
          (by rw [h2])
        rw [hcounter] at hle hall hnames
        have hmem : ∀ k ∈ ks, counter < k ∧ k ≤ v.2 := by
          intro k hk
          rw [hks] at hk
          obtain ⟨j, hj, rfl⟩ := List.mem_map.mp hk
          have := List.mem_range.mp hj
          omega
        have hsorted : ks.Nodup := by
          rw [hks]
          exact (List.nodup_range _).map (fun a b hab => by simpa using hab)
        have hnew : (v.1.inputFrames.drop compound.inputFrames.length).map (fun f => f.name) =
            ks.map (frameName compound.name) := by
          rw [hin, List.drop_left, List.map_map]
          rfl
        refine ⟨by omega, List.Forall₂.cons ?_ ?_, ?_, ?_⟩
        · exact ⟨counter, ks, added, le_refl _, hks, by omega, hin, hch, hout, hnew⟩
        · refine hall.imp ?_
          rintro call b ⟨c₀, ks', added', h1', h2', h3', h4'⟩
          exact ⟨c₀, ks', added', by omega, h2', h3', h4'⟩
        · intro name hn
          simp only [List.map_cons, List.flatten_cons, List.mem_append] at hn
          rcases hn with hn | hn
          · rw [hnew] at hn
            obtain ⟨k, hk, rfl⟩ := List.mem_map.mp hn
            exact ⟨compound.name, k, (hmem k hk).1, by have := (hmem k hk).2; omega, rfl⟩
          · obtain ⟨g, k, hk1, hk2, rfl⟩ := hnames name hn
            exact ⟨g, k, by omega, hk2, rfl⟩
        · simp only [List.map_cons, List.flatten_cons]
          rw [hnew]
          refine List.Nodup.append ?_ hnodup ?_
          · exact hsorted.map_on (fun a _ b _ hab => frameName_counter hab)
          · intro name hn1 hn2
            obtain ⟨k, hk, rfl⟩ := List.mem_map.mp hn1
            obtain ⟨g, k', hk1, _, heq⟩ := hnames _ hn2
            have := frameName_counter heq
            have := (hmem k hk).2
            omega

end Resources
end config

/-- C6: over any sequence of `_addSources` calls (any groups, any group names, any source
lists) during which the 32-bit counter does not wrap (it starts at `counter` and is
incremented once per source that is not the output surface of its group), every call pairs the input edges it
adds to its group with the output edges of the children it creates, frame for frame under the
identical name `"Frame.<group name>.<k>"`, where `k` runs through the values
`c + 1, c + 2, ..` the process-wide counter takes after each increment, `c` being the counter
at the start of the call; and no name is given twice in the whole sequence. -/
theorem frame_names_unique (checked : Bool) (calls : List (Compound × List config.ChannelPtr))
    (counter counter' : Int) (built : List (Compound × List String))
    (hlow : -2 ^ 31 ≤ counter)
    (hnowrap : counter +
      ((calls.map (fun call => config.Resources.increments call.1 call.2)).sum : Nat) < 2 ^ 31)
    (h : config.Resources.addSourcesSeq checked calls counter = .ok (built, counter')) :
    List.Forall₂ (fun call b =>
      ∃ (c₀ : Int) (ks : List Int) (added : List Compound),
        counter ≤ c₀ ∧
        ks = (List.range ks.length).map (fun (j : Nat) => c₀ + 1 + (j : Int)) ∧
        c₀ + ks.length ≤ counter' ∧
        b.1.inputFrames =
          call.1.inputFrames ++ ks.map (fun k => Frame.mk (config.frameName call.1.name k)) ∧
        b.1.children = call.1.children ++ added ∧
        (added.map (fun child => child.outputFrames)).flatten =
          ks.map (fun k => Frame.mk (config.frameName call.1.name k)) ∧
        b.2 = ks.map (config.frameName call.1.name)) calls built ∧
    (built.map (fun b => b.2)).flatten.Nodup :=
  have hs := config.Resources.addSourcesSeq_spec checked calls counter counter' built hlow
    hnowrap h
  ⟨hs.2.1, hs.2.2.2⟩


/-- Witness for C6: two sibling groups of the same name built one after the other, the first
from three sources around the output surface (which is skipped), the second from one. -/
theorem frame_names_unique_witness :
    ∃ v, config.Resources.addSourcesSeq true Example.twoGroups 0 = .ok v ∧
      (v.1.map (fun b => b.2)).flatten.Nodup ∧
      v.1.map (fun b => b.2) = [["Frame.2D.1", "Frame.2D.2"], ["Frame.2D.3"]] := by
  have hok : (config.Resources.addSourcesSeq true Example.twoGroups 0).toBool = true := by rfl
  cases h : config.Resources.addSourcesSeq true Example.twoGroups 0 with
  | error e => rw [h] at hok; cases hok
  | ok v =>
    refine ⟨v, rfl, (frame_names_unique true Example.twoGroups 0 v.2 v.1 (by decide)
      (by decide) h).2, ?_⟩
    have hv : (config.Resources.addSourcesSeq true Example.twoGroups 0).toOption.map
        (fun v => v.1.map (fun b => b.2)) = some [["Frame.2D.1", "Frame.2D.2"], ["Frame.2D.3"]] := by
      rfl
    rw [h] at hv
    simpa [Except.toOption] using hv


/-! ### Range assignment of the DB group -/

namespace config
namespace Resources

theorem addSourcesLoop_children (out : Option Nat) (channels : List ChannelPtr) :
    ∀ (compound : Compound) (counter : Int),
      (_addSourcesLoop out channels compound counter).1.children.length =
        compound.children.length + channels.length := by
  induction channels with
  | nil => intro compound counter; rfl
  | cons channel rest ih =>
    intro compound counter
    unfold _addSourcesLoop
    dsimp only
    split <;> rw [ih] <;> simp [Compound.addChild] <;> omega

theorem exactRanges_spec (step : Nat) : ∀ (children : List Compound) (start : Nat),
    children ≠ [] → start + (children.length - 1) * step ≤ 100000 →
    ((exactRanges step start children).map (fun c => c.range)).length = children.length ∧
    ((exactRanges step start children).map (fun c => c.range)).head?.map (fun r => r.start) =
      some ((start : ℚ) / 100000) ∧
    List.Chain' (fun a b => a.end_ = b.start)
      ((exactRanges step start children).map (fun c => c.range)) ∧
    (∀ r ∈ (exactRanges step start children).map (fun c => c.range), r.start ≤ r.end_) ∧
    ((exactRanges step start children).map (fun c => c.range)).getLast?.map (fun r => r.end_) =
      some 1 := by
  intro children
  induction children with
  | nil => intro start h; exact absurd rfl h
  | cons child rest ih =>
    intro start _ hle
    cases rest with
    | nil =>
      simp only [List.length_singleton, Nat.sub_self, Nat.zero_mul, Nat.add_zero] at hle
      have hq : (start : ℚ) / 100000 ≤ 1 := by
        rw [div_le_one (by norm_num)]
        exact_mod_cast hle
      simp [exactRanges, hq]
    | cons next rest =>
      simp only [List.length_cons, Nat.add_sub_cancel] at hle
      obtain ⟨h1, h2, h3, h4, h5⟩ := ih (start + step) (by simp) (by
        simp only [List.length_cons, Nat.add_sub_cancel]
        rw [Nat.add_mul] at hle
        omega)
      have hstep : (start : ℚ) / 100000 ≤ ((start + step : Nat) : ℚ) / 100000 := by
        apply div_le_div_of_nonneg_right _ (by norm_num)
        exact_mod_cast Nat.le_add_right start step
      simp only [exactRanges, List.map_cons, List.length_cons, List.head?_cons, Option.map_some']
      refine ⟨by simpa using h1, trivial, ?_, ?_, ?_⟩
      · rw [List.chain'_cons']
        refine ⟨?_, h3⟩
        intro y hy
        have : ((List.map (fun c => c.range) (exactRanges step (start + step) (next :: rest))).head?).map
            (fun r => r.start) = some y.start := by rw [Option.mem_def.mp hy]; rfl
        rw [h2] at this
        exact (Option.some.inj this)
      · intro r hr
        rcases List.mem_cons.mp hr with hr | hr
        · subst hr; exact hstep
        · exact h4 r hr
      · rw [List.getLast?_cons]
        cases hl : (List.map (fun c => c.range)
            (exactRanges step (start + step) (next :: rest))).getLast? with
        | none => rw [hl] at h5; simp at h5
        | some x => rw [hl] at h5; simpa using h5

/-- The step of `_addDBCompound` is the integer quotient of 100000 by the number of children:
the single-precision quotient is exact to better than the distance `1/n` that separates a
quotient which is not an integer from the next integer, and for more than 100000 children
it is below 1. -/
theorem dbStep_eq (n : Nat) : dbStep n = 100000 / n := by
  unfold dbStep float.div float.ofNat
  rcases Nat.eq_zero_or_pos n with h0 | hpos
  · subst h0
    simp [float.round_zero]
  by_cases hn : n ≤ 100000
  · have hcast : float.round (n : ℚ) = n := float.round_natCast n (by
      have : (100000 : ℕ) < 2 ^ 24 := by norm_num
      omega)
    rw [hcast]
    have hnq : (0 : ℚ) < n := by exact_mod_cast hpos
    have hk1 : ((100000 / n : ℕ) : ℚ) ≤ 100000 / n := by
      rw [le_div_iff₀ hnq]
      exact_mod_cast Nat.div_mul_le_self 100000 n
    have hk2 : (100000 : ℚ) / n + 1 / n ≤ ((100000 / n : ℕ) : ℚ) + 1 := by
      rw [← add_div, div_le_iff₀ hnq]
      have : 100000 + 1 ≤ (100000 / n + 1) * n := by
        have := Nat.lt_succ_iff.mpr (Nat.le_refl (100000 / n))
        have h2 : 100000 < (100000 / n + 1) * n := by
          have := Nat.div_add_mod 100000 n
          have hm := Nat.mod_lt 100000 hpos
          nlinarith
        omega
      exact_mod_cast this
    have hx1 : (1 : ℚ) ≤ 100000 / n := by
      rw [le_div_iff₀ hnq]
      exact_mod_cast (by omega : 1 * n ≤ 100000)
    have hklt : 100000 / n < 2 ^ 24 := by
      have : 100000 / n ≤ 100000 := Nat.div_le_self _ _
      have : (100000 : ℕ) < 2 ^ 24 := by norm_num
      omega
    have hlow : ((100000 / n : ℕ) : ℚ) ≤ float.round (100000 / n) := by
      have := float.round_mono (Nat.cast_nonneg (100000 / n)) hk1
      rwa [float.round_natCast _ hklt] at this
    have herr := float.abs_round_sub_le_mul hx1
    have hsmall : (100000 : ℚ) / n / 2 ^ 24 < 1 / n := by
      rw [div_div, div_lt_div_iff₀ (by positivity) hnq]
      have : (100000 : ℚ) * n < 1 * (n * 2 ^ 24) := by nlinarith
      exact this
    have hup : float.round (100000 / n) < ((100000 / n : ℕ) : ℚ) + 1 := by
      have := (abs_le.mp herr).2
      linarith
    have hfloor : ⌊float.round ((100000 : ℚ) / n)⌋ = ((100000 / n : ℕ) : ℤ) := by
      rw [Int.floor_eq_iff]
      exact ⟨by exact_mod_cast hlow, by exact_mod_cast hup⟩
    rw [hfloor]
    exact Int.toNat_natCast _
  · have hn' : 100001 ≤ n := by omega
    have hbig : (100001 : ℚ) ≤ float.round (n : ℚ) := by
      have h1 : ((100001 : ℕ) : ℚ) ≤ n := by exact_mod_cast hn'
      have := float.round_mono (Nat.cast_nonneg 100001) h1
      rwa [float.round_natCast _ (by norm_num)] at this
    have hq0 : (0 : ℚ) ≤ 100000 / float.round (n : ℚ) :=
      div_nonneg (by norm_num) (le_trans (by norm_num) hbig)
    have hq1 : (100000 : ℚ) / float.round (n : ℚ) ≤ 100000 / 100001 :=
      div_le_div_of_nonneg_left (by norm_num) (by norm_num) hbig
    have hval : float.round (100000 / 100001) = (16777048 : ℤ) * 2 ^ ((-1 : ℤ) - 23) :=
      float.round_eq_of (by norm_num) (by norm_num) (by norm_num) (by
        rw [abs_lt]
        constructor <;> norm_num)
    have hlt : float.round (100000 / float.round (n : ℚ)) < 1 := by
      have := float.round_mono hq0 hq1
      rw [hval] at this
      have h2 : ((16777048 : ℤ) : ℚ) * 2 ^ ((-1 : ℤ) - 23) < 1 := by norm_num
      linarith
    have hfloor : ⌊float.round ((100000 : ℚ) / float.round (n : ℚ))⌋ = 0 := by
      rw [Int.floor_eq_iff]
      exact ⟨by simpa using float.round_nonneg hq0, by simpa using hlt⟩
    rw [hfloor, Nat.div_eq_of_lt (by omega)]
    rfl

theorem exactRanges_nonneg (step : Nat) : ∀ (children : List Compound) (start : Nat),
    ∀ r ∈ (exactRanges step start children).map (fun c => c.range), 0 ≤ r.start := by
  intro children
  induction children with
  | nil => intro start r hr; simp [exactRanges] at hr
  | cons child rest ih =>
    intro start r hr
    cases rest with
    | nil =>
      simp only [exactRanges, List.map_cons, List.map_nil, List.mem_singleton] at hr
      rw [hr]
      positivity
    | cons next rest =>
      simp only [exactRanges, List.map_cons, List.mem_cons] at hr
      rcases hr with hr | hr
      · rw [hr]
        positivity
      · exact ih (start + step) r (by simpa using hr)

/-- The ranges of the exact reading depend on the number of children only. -/
theorem exactRanges_congr (step : Nat) : ∀ (l₁ l₂ : List Compound) (start : Nat),
    l₁.length = l₂.length →
    (exactRanges step start l₁).map (fun c => c.range) =
      (exactRanges step start l₂).map (fun c => c.range) := by
  intro l₁
  induction l₁ with
  | nil =>
    intro l₂ start h
    cases l₂ with
    | nil => rfl
    | cons _ _ => cases h
  | cons a rest ih =>
    intro l₂ start h
    cases l₂ with
    | nil => cases h
    | cons b rest₂ =>
      have hlen : rest.length = rest₂.length := by simpa using h
      cases rest with
      | nil =>
        cases rest₂ with
        | nil => rfl
        | cons _ _ => cases hlen
      | cons a₂ rest =>
        cases rest₂ with
        | nil => cases hlen
        | cons b₂ rest₂ =>
          simp only [exactRanges, List.map_cons, List.cons.injEq, true_and]
          exact ih (b₂ :: rest₂) (start + step) hlen

/-- What the range assignment stores is the exact reading rounded to single precision, and
the children keep their number. -/
theorem setRanges_stored (step : Nat) : ∀ (children : List Compound) (start : Nat),
    start + (children.length - 1) * step ≤ 100000 →
    (setRanges step start children).length = children.length ∧
    (setRanges step start children).map (fun c => c.range) =
      ((exactRanges step start children).map (fun c => c.range)).map stored := by
  have hof : ∀ k : Nat, k ≤ 100000 → float.div (float.ofNat k) 100000 =
      float.round ((k : ℚ) / 100000) := by
    intro k hk
    unfold float.div float.ofNat
    rw [float.round_natCast k (by
      have : (100000 : ℕ) < 2 ^ 24 := by norm_num
      omega)]
  intro children
  induction children with
  | nil => intro start _; exact ⟨rfl, rfl⟩
  | cons child rest ih =>
    intro start hle
    cases rest with
    | nil =>
      simp only [List.length_singleton, Nat.sub_self, Nat.zero_mul, Nat.add_zero] at hle
      simp only [setRanges, exactRanges, List.map_cons, List.map_nil, stored, hof start hle,
        float.round_one, List.length_singleton, and_self]
    | cons next rest =>
      simp only [List.length_cons, Nat.add_sub_cancel] at hle
      have hb : start + step + ((next :: rest).length - 1) * step ≤ 100000 := by
        simp only [List.length_cons, Nat.add_sub_cancel]
        rw [Nat.add_mul] at hle
        omega
      have hs : start ≤ 100000 := by omega
      have hs2 : start + step ≤ 100000 := by
        rw [Nat.add_mul] at hle
        have : 0 ≤ rest.length * step := Nat.zero_le _
        omega
      obtain ⟨h1, h2⟩ := ih (start + step) hb
      constructor
      · simp only [setRanges, List.length_cons, h1]
      · simp only [setRanges, exactRanges, List.map_cons, stored, hof start hs,
          hof (start + step) hs2, h2]

theorem setRanges_spec (step : Nat) : ∀ (children : List Compound) (start : Nat),
    children ≠ [] → start + (children.length - 1) * step ≤ 100000 →
    ((setRanges step start children).map (fun c => c.range)).length = children.length ∧
    ((setRanges step start children).map (fun c => c.range)).head?.map (fun r => r.start) =
      some (float.round ((start : ℚ) / 100000)) ∧
    List.Chain' (fun a b => a.end_ = b.start)
      ((setRanges step start children).map (fun c => c.range)) ∧
    (∀ r ∈ (setRanges step start children).map (fun c => c.range), r.start ≤ r.end_) ∧
    ((setRanges step start children).map (fun c => c.range)).getLast?.map (fun r => r.end_) =
      some 1 := by
  intro children start hne hle
  obtain ⟨e1, e2, e3, e4, e5⟩ := exactRanges_spec step children start hne hle
  obtain ⟨s1, s2⟩ := setRanges_stored step children start hle
  rw [s2]
  refine ⟨by rw [List.length_map]; exact e1, ?_, ?_, ?_, ?_⟩
  · rw [List.head?_map, Option.map_map]
    cases hh : ((exactRanges step start children).map (fun c => c.range)).head? with
    | none => rw [hh] at e2; cases e2
    | some r =>
      rw [hh] at e2
      simp only [Option.map_some', Option.some.injEq] at e2
      simp [stored, e2]
  · rw [List.chain'_map]
    exact e3.imp (fun {a b} hab => by simp only [stored]; rw [hab])
  · intro r hr
    obtain ⟨r₀, hr₀, rfl⟩ := List.mem_map.mp hr
    exact float.round_mono (exactRanges_nonneg step children start r₀ hr₀) (e4 r₀ hr₀)
  · rw [List.getLast?_map, Option.map_map]
    cases hh : ((exactRanges step start children).map (fun c => c.range)).getLast? with
    | none => rw [hh] at e5; cases e5
    | some r =>
      rw [hh] at e5
      simp only [Option.map_some', Option.some.injEq] at e5
      simp [stored, e5, float.round_one]

end Resources
end config

/-- C4: for every source list of length `n >= 1`, the DB group `_addDBCompound` builds has
`n` children and their ranges, in child order, partition `[0,1]` exactly: the first range
starts at 0, each range ends where the next one starts, every range has `start <= end`, and
the last range ends at exactly 1. This holds for the ranges as they are stored, and the
stored ranges are the single-precision roundings of the ranges read as exact rationals over
the integer basis 100000 (`start / 100000` with the step `100000 / n`), for which the same
four properties hold. -/
theorem addDBCompound_ranges_partition (checked : Bool) (root : Compound)
    (channels : List config.ChannelPtr) (counter : Int) (v : Compound × Int)
    (hn : 1 ≤ channels.length)
    (h : config.Resources._addDBCompound checked root channels counter = .ok v) :
    v.1.children.length = channels.length ∧
    (v.1.children.map (fun c => c.range)).head?.map (fun r => r.start) = some 0 ∧
    List.Chain' (fun a b => a.end_ = b.start) (v.1.children.map (fun c => c.range)) ∧
    (∀ r ∈ v.1.children.map (fun c => c.range), r.start ≤ r.end_) ∧
    (v.1.children.map (fun c => c.range)).getLast?.map (fun r => r.end_) = some 1 ∧
    v.1.children.map (fun c => c.range) =
      ((config.Resources.exactRanges (100000 / channels.length) 0 v.1.children).map
        (fun c => c.range)).map config.Resources.stored ∧
    ((config.Resources.exactRanges (100000 / channels.length) 0 v.1.children).map
      (fun c => c.range)).head?.map (fun r => r.start) = some 0 ∧
    List.Chain' (fun a b => a.end_ = b.start)
      ((config.Resources.exactRanges (100000 / channels.length) 0 v.1.children).map
        (fun c => c.range)) ∧
    (∀ r ∈ (config.Resources.exactRanges (100000 / channels.length) 0 v.1.children).map
      (fun c => c.range), r.start ≤ r.end_) ∧
    ((config.Resources.exactRanges (100000 / channels.length) 0 v.1.children).map
      (fun c => c.range)).getLast?.map (fun r => r.end_) = some 1 := by
  simp only [config.Resources._addDBCompound, bind, Except.bind, pure, Except.pure,
    config.Resources.dbStep_eq] at h
  split at h
  · cases h
  · rename_i w hw
    cases h
    obtain ⟨out, _, hout⟩ := config.Resources.addSources_ok hw
    have hlen : w.1.children.length = channels.length := by
      rw [hout, config.Resources.addSourcesLoop_children]
      split <;> simp [Compound.new]
    have hne : w.1.children ≠ [] := by
      intro hnil
      rw [hnil] at hlen
      simp only [List.length_nil] at hlen
      omega
    have hbound : 0 + (w.1.children.length - 1) * (100000 / w.1.children.length) ≤ 100000 := by
      have h1 : (w.1.children.length - 1) * (100000 / w.1.children.length) ≤
          w.1.children.length * (100000 / w.1.children.length) :=
        Nat.mul_le_mul_right _ (Nat.sub_le _ _)
      have h2 := Nat.mul_div_le 100000 w.1.children.length
      omega
    obtain ⟨h1, h2, h3, h4, h5⟩ := config.Resources.setRanges_spec
      (100000 / w.1.children.length) w.1.children 0 hne hbound
    obtain ⟨s1, s2⟩ := config.Resources.setRanges_stored
      (100000 / w.1.children.length) w.1.children 0 hbound
    have hcongr := config.Resources.exactRanges_congr (100000 / w.1.children.length)
      (config.Resources.setRanges (100000 / w.1.children.length) 0 w.1.children) w.1.children 0 s1
    have hne' : config.Resources.setRanges (100000 / w.1.children.length) 0 w.1.children ≠ [] := by
      intro hnil
      rw [hnil] at s1
      exact hne (List.length_eq_zero.mp s1.symm)
    obtain ⟨_, e2, e3, e4, e5⟩ := config.Resources.exactRanges_spec
      (100000 / w.1.children.length)
      (config.Resources.setRanges (100000 / w.1.children.length) 0 w.1.children) 0 hne'
      (by rw [s1]; exact hbound)
    dsimp only
    rw [← hlen]
    refine ⟨?_, ?_, h3, h4, h5, ?_, ?_, e3, e4, e5⟩
    · rw [List.length_map] at h1
      exact h1
    · rw [h2]
      simp [float.round_zero]
    · rw [hcongr]
      exact s2
    · rw [e2]
      simp


/-- Witness for C4: the DB groups built from 3, 7 and 100 sources. -/
theorem addDBCompound_ranges_partition_witness :
    Example.dbPartition 3 ∧ Example.dbPartition 7 ∧ Example.dbPartition 100 := by
  have key : ∀ n, 1 ≤ n → (Example.dbGroup n).toBool = true → Example.dbPartition n := by
    intro n hn hok
    unfold Example.dbPartition
    cases h : Example.dbGroup n with
    | error e => rw [h] at hok; cases hok
    | ok v =>
      have hlen : 1 ≤ (Example.manySources n).length := by
        simpa [Example.manySources] using hn
      have := addDBCompound_ranges_partition true (Example.segmentTask "static DB")
        (Example.manySources n) 0 v hlen h
      refine ⟨v, rfl, ?_, this.2.1, this.2.2.1, this.2.2.2.1, this.2.2.2.2.1⟩
      rw [this.1]
      simp [Example.manySources]
  exact ⟨key 3 (by decide) (by rfl), key 7 (by decide) (by rfl), key 100 (by decide) (by rfl)⟩

/-! ### Stereo split -/

/-- C5: for every non-empty source list (so for every list of odd length `n`),
`_addEyeCompound` builds its left eye from the first `n / 2` sources and its right eye from
the sources after index `n / 2`, both in the original order: the list is the left half, then
the source at index `n / 2`, then the right half, so the two halves together have `n - 1`
sources and the source at the split index goes to neither; when no source occurs twice in the
list, it is no member of either half. -/
theorem addEyeCompound_split (checked : Bool) (root : Compound)
    (channels : List config.ChannelPtr) (counter : Int) (hne : channels ≠ []) :
    config.Resources.leftChannels channels = channels.take (channels.length / 2) ∧
    config.Resources.rightChannels channels = channels.drop (channels.length / 2 + 1) ∧
    (config.Resources.leftChannels channels).length +
      (config.Resources.rightChannels channels).length = channels.length - 1 ∧
    (∃ pivot, channels[channels.length / 2]? = some pivot ∧
      channels = config.Resources.leftChannels channels ++
        pivot :: config.Resources.rightChannels channels ∧
      (channels.Nodup → pivot ∉ config.Resources.leftChannels channels ∧
        pivot ∉ config.Resources.rightChannels channels)) ∧
    (∀ v, config.Resources._addEyeCompound checked root channels counter = .ok v →
      ∃ l r, config.Resources.eyeChild checked { Compound.new root with name := "Stereo" }
          (config.Resources.leftChannels channels) counter = .ok l ∧
        config.Resources.eyeChild checked
          (Compound.addChild { Compound.new root with name := "Stereo" }
            { l.1 with eyes := some { cyclop := true, left := true, right := false } })
          (config.Resources.rightChannels channels) l.2 = .ok r ∧
        v.1.children =
          [{ l.1 with eyes := some { cyclop := true, left := true, right := false } },
           { r.1 with eyes := some { cyclop := true, left := false, right := true } }] ∧
        v.2 = r.2) := by
  have hpos : 0 < channels.length := List.length_pos.mpr hne
  have hlt : channels.length / 2 < channels.length := Nat.div_lt_self hpos (by decide)
  have hshift : channels.length >>> 1 = channels.length / 2 := by
    simp [Nat.shiftRight_eq_div_pow]
  have hleft : config.Resources.leftChannels channels = channels.take (channels.length / 2) := by
    simp [config.Resources.leftChannels, hshift]
  have hright : config.Resources.rightChannels channels =
      channels.drop (channels.length / 2 + 1) := by
    simp [config.Resources.rightChannels, hshift]
  have hsplit : channels = config.Resources.leftChannels channels ++
      channels[channels.length / 2] :: config.Resources.rightChannels channels := by
    rw [hleft, hright, ← List.drop_eq_getElem_cons hlt, List.take_append_drop]
  refine ⟨hleft, hright, ?_, ⟨channels[channels.length / 2], ?_, hsplit, ?_⟩, ?_⟩
  · rw [hleft, hright, List.length_take, List.length_drop]
    omega
  · exact List.getElem?_eq_getElem hlt
  · intro hnd
    rw [hsplit] at hnd
    have h1 := List.nodup_append.mp hnd
    have h2 := List.nodup_cons.mp h1.2.1
    refine ⟨?_, h2.1⟩
    intro hmem
    exact h1.2.2 hmem (List.mem_cons_self _ _)
  · intro v h
    simp only [config.Resources._addEyeCompound, bind, Except.bind, pure, Except.pure] at h
    split at h
    · cases h
    · split at h
      · cases h
      · rename_i l hl
        split at h
        · cases h
        · rename_i r hr
          cases h
          exact ⟨l, r, hl, hr, by simp [Compound.addChild, Compound.new], rfl⟩

/-- Witness for C5: five sources split into the first two and the last two, the third being
left out. -/
theorem addEyeCompound_split_witness :
    Example.manySources 5 ≠ [] ∧
    config.Resources.leftChannels (Example.manySources 5) = (Example.manySources 5).take 2 ∧
    config.Resources.rightChannels (Example.manySources 5) = (Example.manySources 5).drop 3 ∧
    (config.Resources.leftChannels (Example.manySources 5)).length +
      (config.Resources.rightChannels (Example.manySources 5)).length = 4 := by
  have h := addEyeCompound_split true (Example.segmentTask "2D") (Example.manySources 5) 0
    (by decide)
  exact ⟨by decide, h.1, h.2.1, h.2.2.1⟩


/-! ### End-to-end build for the layout "2D" with one source -/

/-- Counterexample to C10 as stated: for one host with the devices `display` and `GPU1`,
`configureSourceChannels` gives the single source "GPU1 source channel" and `configure` adds
two groups under the segment task, but the stereo group has two child tasks, not one, and
neither of them is bound to the GPU1 source. -/
theorem configure_2D_counterexample :
    (Example.sources "2D").map (fun c => c.map (fun ch => ch.name)) =
      [some "GPU1 source channel"] ∧
    (Example.addedGroups "2D").map (fun g => g.name) = ["2D", "Stereo"] ∧
    ¬ (∀ g ∈ Example.addedGroups "2D",
        g.children.length = 1 ∧ ∀ child ∈ g.children, [child.channel] = Example.sources "2D") := by
  refine ⟨by decide, by decide, by decide⟩

/-- C10 (amended): for a top-level task whose single child is a segment task with layout
"2D", and a single render source other than the segment's output surface, `configure` adds
exactly two task groups under the segment task. The first is the group "2D" for the cyclop
eye, with a two-dimensional load-balancing policy and exactly one child task, bound to the
source and paired with the group by one edge. The second is the group "Stereo" for the left
and right eyes, with exactly two child tasks, the left-eye task and the right-eye task, both
without channel, children or edges: the single source sits at the split index and goes to
neither half. -/
theorem configure_2D_single_source (checked : Bool) (top segment : Compound)
    (channel : Channel) (source : config.ChannelPtr) (out : Nat) (counter : Int)
    (htop : top.children = [segment]) (hch : segment.getChannel = some channel)
    (hlayout : channel.layout = some "2D") (hseg : channel.segment = true)
    (hout : channel.segmentChannel = some out)
    (hsrc : source.map (fun ch => ch.id) ≠ some out) :
    ∃ mono stereo child left right,
      config.Resources.configure checked [top] [source] counter =
        .ok ([{ top with children :=
                [{ segment with children := segment.children ++ [mono, stereo] }] }],
             config.incrInt32 counter) ∧
      mono.name = "2D" ∧
      mono.eyes = some { cyclop := true, left := false, right := false } ∧
      mono.equalizers = [{ mode := .MODE_2D, frozen := false }] ∧
      mono.children = [child] ∧ child.channel = source ∧ child.children = [] ∧
      child.outputFrames = mono.inputFrames ∧
      mono.inputFrames = [Frame.mk (config.frameName "2D" (config.incrInt32 counter))] ∧
      stereo.name = "Stereo" ∧
      stereo.eyes = some { cyclop := false, left := true, right := true } ∧
      stereo.equalizers = [] ∧ stereo.inputFrames = [] ∧
      stereo.children = [left, right] ∧
      left.eyes = some { cyclop := true, left := true, right := false } ∧
      right.eyes = some { cyclop := true, left := false, right := true } ∧
      left.channel = none ∧ right.channel = none ∧
      left.children = [] ∧ right.children = [] ∧
      left.equalizers = [] ∧ right.equalizers = [] ∧
      left.outputFrames = [] ∧ right.outputFrames = [] := by
  have hnew : ∀ p : Compound, (Compound.new p).getChannel = p.getChannel := fun _ => rfl
  have hadd : ∀ p x : Compound, (p.addChild x).getChannel = p.getChannel := fun _ _ => rfl
  have hmono : Compound.getChannel
      { Compound.new segment with
        name := "2D",
        equalizers := (Compound.new segment).equalizers ++ [{ mode := .MODE_2D, frozen := false }] } =
      some channel := (hnew segment).trans hch
  have hstereo : ∀ x : Compound,
      Compound.getChannel { Compound.new (segment.addChild x) with name := "Stereo" } =
        some channel := fun x => ((hnew _).trans (hadd segment x)).trans hch
  refine ⟨
    { Compound.addChild
        { Compound.new segment with
          name := "2D",
          equalizers := [{ mode := .MODE_2D, frozen := false }],
          inputFrames := [Frame.mk (config.frameName "2D" (config.incrInt32 counter))] }
        { Compound.new { Compound.new segment with name := "2D" } with
          channel := source,
          outputFrames := [Frame.mk (config.frameName "2D" (config.incrInt32 counter))] } with
      eyes := some { cyclop := true, left := false, right := false } },
    { Compound.new segment with
      name := "Stereo",
      eyes := some { cyclop := false, left := true, right := true },
      children :=
        [{ Compound.new segment with
           eyes := some { cyclop := true, left := true, right := false } },
         { Compound.new segment with
           eyes := some { cyclop := true, left := false, right := true } }] },
    { Compound.new { Compound.new segment with name := "2D" } with
      channel := source,
      outputFrames := [Frame.mk (config.frameName "2D" (config.incrInt32 counter))] },
    { Compound.new segment with eyes := some { cyclop := true, left := true, right := false } },
    { Compound.new segment with eyes := some { cyclop := true, left := false, right := true } },
    ?_, ?_⟩
  · simp only [config.Resources.configure, config.Resources.configureLoop,
      config.Resources.configureOne, config.Resources._add2DCompound,
      config.Resources._addEyeCompound, config.Resources.eyeChild,
      config.Resources._addSources, config.Resources._addSourcesLoop,
      config.Resources.outputChannelOf,
      config.Resources.leftChannels, config.Resources.rightChannels,
      EQASSERT, bind, Except.bind, pure, Except.pure, htop, hch, hlayout, hseg, hout, hsrc,
      hmono, hstereo]
    have hsrc' : ¬ ∃ a, source = some a ∧ a.id = out := by
      rintro ⟨a, rfl, rfl⟩
      exact hsrc rfl
    simp [Compound.new, Compound.addChild, Compound.getChannel, hch, hsrc']
  · simp [Compound.new, Compound.addChild]

/-- Witness for C10 (amended): one host with the devices `display` and `GPU1`, the segment
task naming the display channel with layout "2D", and the source `configureSourceChannels`
returns. -/
theorem configure_2D_single_source_witness :
    ∃ mono stereo child,
      config.Resources.configure true [Example.topTask "2D"] (Example.sources "2D") 0 =
        .ok ([{ Example.topTask "2D" with
                children := [{ Example.segmentTask "2D" with children := [mono, stereo] }] }], 1) ∧
      mono.children = [child] ∧ [child.channel] = Example.sources "2D" ∧
      stereo.children.length = 2 ∧ ∀ eye ∈ stereo.children, eye.channel = none := by
  have hs : Example.sources "2D" =
      [some { id := 101, name := "GPU1 source channel", layout := none, canvas := none,
              segment := false, segmentChannel := none }] := by decide
  obtain ⟨mono, stereo, child, left, right, h, _, _, _, hm, hc, _, _, _, _, _, _, _, hst, _, _,
      hl, hr, _⟩ :=
    configure_2D_single_source true (Example.topTask "2D") (Example.segmentTask "2D")
      { id := 2, name := "channel", layout := some "2D", canvas := some 3, segment := true,
        segmentChannel := some 2 }
      (some { id := 101, name := "GPU1 source channel", layout := none, canvas := none,
              segment := false, segmentChannel := none })
      2 0 rfl rfl rfl rfl rfl (by decide)
  refine ⟨mono, stereo, child, ?_, hm, ?_, ?_, ?_⟩
  · rw [hs]; exact h
  · rw [hs, hc]
  · rw [hst]; rfl
  · intro eye he
    rw [hst] at he
    simp only [List.mem_cons, List.mem_singleton, List.not_mem_nil, or_false] at he
    rcases he with rfl | rfl
    · exact hl
    · exact hr

/-! ### Children created by `_addSources` -/

namespace config
namespace Resources

/-- What the loop of `_addSources` does to the children of the group: one child per source,
in source order; the child of a source that is the output surface is the plain compound made
by `new Compound( compound )`, the child of any other source is bound to the source and has
one output edge; the input edges added to the group are the output edges of the new
children, in order. -/
theorem addSourcesLoop_each (out : Option Nat) (base : Compound) (name : String)
    (channels : List ChannelPtr) :
    ∀ (compound : Compound) (counter : Int), Compound.new compound = base →
      compound.name = name →
    ∃ added : List Compound,
      (_addSourcesLoop out channels compound counter).1.children =
        compound.children ++ added ∧
      List.Forall₂ (fun channel child =>
        (channel.map (fun ch => ch.id) = out → child = base) ∧
        (channel.map (fun ch => ch.id) ≠ out → ∃ k : Int, child =
          { base with channel := channel, outputFrames := [Frame.mk (frameName name k)] }))
        channels added ∧
      (_addSourcesLoop out channels compound counter).1.inputFrames =
        compound.inputFrames ++ (added.map (fun child => child.outputFrames)).flatten ∧
      (_addSourcesLoop out channels compound counter).1.getChannel = compound.getChannel := by
  induction channels with
  | nil =>
    intro compound counter _ _
    exact ⟨[], by simp [_addSourcesLoop], List.Forall₂.nil, by simp [_addSourcesLoop],
      by simp [_addSourcesLoop]⟩
  | cons channel rest ih =>
    intro compound counter hbase hname
    by_cases hc : channel.map (fun ch => ch.id) = out
    · obtain ⟨added, h1, h2, h3, h4⟩ := ih (compound.addChild (Compound.new compound)) counter
        (by rw [← hbase]; rfl) (by rw [← hname]; rfl)
      refine ⟨Compound.new compound :: added, ?_, ?_, ?_, ?_⟩
      · simp only [_addSourcesLoop, if_pos hc]
        rw [h1]
        simp [Compound.addChild]
      · refine List.Forall₂.cons ⟨fun _ => hbase, fun hne => absurd hc hne⟩ h2
      · simp only [_addSourcesLoop, if_pos hc]
        rw [h3]
        simp [Compound.addChild, Compound.new, ← hbase]
      · simp only [_addSourcesLoop, if_pos hc]
        rw [h4]
        rfl
    · obtain ⟨added, h1, h2, h3, h4⟩ := ih
        (Compound.addChild
          { compound with inputFrames := compound.inputFrames ++
              [Frame.mk (frameName compound.name (incrInt32 counter))] }
          { Compound.new compound with
            channel := channel,
            outputFrames := (Compound.new compound).outputFrames ++
              [Frame.mk (frameName compound.name (incrInt32 counter))] })
        (incrInt32 counter) (by rw [← hbase]; rfl) (by rw [← hname]; rfl)
      refine ⟨{ Compound.new compound with
                channel := channel,
                outputFrames := (Compound.new compound).outputFrames ++
                  [Frame.mk (frameName compound.name (incrInt32 counter))] } :: added,
        ?_, ?_, ?_, ?_⟩
      · simp only [_addSourcesLoop, if_neg hc]
        rw [h1]
        simp [Compound.addChild]
      · refine List.Forall₂.cons ⟨fun he => absurd he hc, fun _ => ⟨incrInt32 counter, ?_⟩⟩ h2
        rw [← hbase, ← hname]
        rfl
      · simp only [_addSourcesLoop, if_neg hc]
        rw [h3]
        simp [Compound.addChild, Compound.new]
      · simp only [_addSourcesLoop, if_neg hc]
        rw [h4]
        rfl

end Resources
end config

/-- Counterexample to C16 as stated: a group whose only source is its own output surface
still gains a child task, bound to no source and without edges. -/
theorem addSources_skipped_counterexample :
    ∃ v, config.Resources._addSources true Example.group
        [config.Resources.getChannel0 (Example.display "2D")] 0 = .ok v ∧
      v.1.children = [Compound.new Example.group] ∧ v.1.inputFrames = [] := by
  refine ⟨_, rfl, ?_, ?_⟩ <;> rfl

/-- C16 (amended): whenever the group names a channel (and, with assertion checking, that
channel belongs to a segment with an output surface), `_addSources` returns and gives the
group exactly one new child per source, in source order. The child of a source other than
the output surface of the group is bound to that source and carries exactly one output
edge; the child of a source that is the output surface is the plain compound, bound to no
channel of its own and without edge. The input edges added to the group are the output
edges of the new children, in the same order and of the same names: one per source other
than the output surface. -/
theorem addSources_children (checked : Bool) (compound : Compound)
    (channels : List config.ChannelPtr) (counter : Int) (rootChannel : Channel)
    (hroot : compound.getChannel = some rootChannel)
    (hout : checked = false ∨ (config.Resources.outputChannelOf rootChannel).isSome = true) :
    ∃ v added, config.Resources._addSources checked compound channels counter = .ok v ∧
      v.1.children = compound.children ++ added ∧
      added.length = channels.length ∧
      List.Forall₂ (fun channel child =>
        (channel.map (fun ch => ch.id) = config.Resources.outputChannelOf rootChannel →
          child = Compound.new compound) ∧
        (channel.map (fun ch => ch.id) ≠ config.Resources.outputChannelOf rootChannel →
          ∃ k : Int, child =
            { Compound.new compound with
              channel := channel,
              outputFrames := [Frame.mk (config.frameName compound.name k)] }))
        channels added ∧
      v.1.inputFrames =
        compound.inputFrames ++ (added.map (fun child => child.outputFrames)).flatten ∧
      v.1.inputFrames.length = compound.inputFrames.length +
        (channels.filter (fun channel =>
          channel.map (fun ch => ch.id) ≠ config.Resources.outputChannelOf rootChannel)).length := by
  obtain ⟨added, h1, h2, h3, h4⟩ := config.Resources.addSourcesLoop_each
    (config.Resources.outputChannelOf rootChannel) (Compound.new compound) compound.name
    channels compound counter rfl rfl
  have hok : config.Resources._addSources checked compound channels counter =
      .ok (config.Resources._addSourcesLoop (config.Resources.outputChannelOf rootChannel)
        channels compound counter) := by
    unfold config.Resources._addSources
    rw [hroot]
    rcases hout with hc | ho
    · simp [hc, EQASSERT, bind, Except.bind, pure, Except.pure]
    · simp [ho, EQASSERT, bind, Except.bind, pure, Except.pure]
  refine ⟨_, added, hok, h1, h2.length_eq.symm, h2, h3, ?_⟩
  rw [h3, List.length_append]
  congr 1
  clear h1 h3 h4 hok
  induction h2 with
  | nil => rfl
  | @cons channel child rest added' hhead _ ih =>
    by_cases hc : channel.map (fun ch => ch.id) = config.Resources.outputChannelOf rootChannel
    · rw [hhead.1 hc]
      simp [List.filter_cons, hc, Compound.new, ih]
    · obtain ⟨k, hk⟩ := hhead.2 hc
      rw [hk]
      simp [List.filter_cons, hc, ih]

/-- Witness for C16: the sources of the one-host example and the display channel itself,
given to a group under the segment of the display: three sources, three children, two
edges. -/
theorem addSources_children_witness :
    ∃ v, config.Resources._addSources true Example.group
        (Example.sources "2D" ++ [config.Resources.getChannel0 (Example.display "2D")] ++
          Example.sources "2D") 0 = .ok v ∧
      v.1.children.length = 3 ∧ v.1.inputFrames.length = 2 := by
  obtain ⟨v, added, hok, h1, h2, _, _, h5⟩ := addSources_children true Example.group
    (Example.sources "2D" ++ [config.Resources.getChannel0 (Example.display "2D")] ++
      Example.sources "2D") 0
    { id := 2, name := "channel", layout := some "2D", canvas := some 3, segment := true,
      segmentChannel := some 2 } rfl (Or.inr rfl)
  refine ⟨v, hok, ?_, ?_⟩
  · rw [h1, List.length_append, h2]
    rfl
  · rw [h5]
    rfl

/-! ### The two eyes of the stereo group -/

namespace config
namespace Resources

/-- The loop of `_addSources` leaves the name, the policies, the eyes and the channel of the
group alone. -/
theorem addSourcesLoop_frame (out : Option Nat) (channels : List ChannelPtr) :
    ∀ (compound : Compound) (counter : Int),
      (_addSourcesLoop out channels compound counter).1.name = compound.name ∧
      (_addSourcesLoop out channels compound counter).1.equalizers = compound.equalizers ∧
      (_addSourcesLoop out channels compound counter).1.channel = compound.channel := by
  induction channels with
  | nil => intro compound counter; exact ⟨rfl, rfl, rfl⟩
  | cons channel rest ih =>
    intro compound counter
    unfold _addSourcesLoop
    dsimp only
    split
    · exact ih _ _
    · exact ih _ _

/-- With a channel to start from (and, under assertion checking, an output surface for its
segment), `_addSources` returns what its loop builds. -/
theorem addSources_returns (checked : Bool) (compound : Compound) (channels : List ChannelPtr)
    (counter : Int) (rootChannel : Channel) (hroot : compound.getChannel = some rootChannel)
    (hout : checked = false ∨ (outputChannelOf rootChannel).isSome = true) :
    _addSources checked compound channels counter =
      .ok (_addSourcesLoop (outputChannelOf rootChannel) channels compound counter) := by
  unfold _addSources
  rw [hroot]
  rcases hout with hc | ho
  · simp [hc, EQASSERT, bind, Except.bind, pure, Except.pure]
  · simp [ho, EQASSERT, bind, Except.bind, pure, Except.pure]

/-- Under the same conditions `_add2DCompound` returns a group named "2D" that carries one
two-dimensional load-balancing policy, names no channel of its own and has one child per
source. -/
theorem add2DCompound_returns (checked : Bool) (root : Compound) (channels : List ChannelPtr)
    (counter : Int) (rootChannel : Channel) (hroot : root.getChannel = some rootChannel)
    (hout : checked = false ∨ (outputChannelOf rootChannel).isSome = true) :
    ∃ g, _add2DCompound checked root channels counter = .ok g ∧
      g.1.name = "2D" ∧ g.1.equalizers = [{ mode := .MODE_2D, frozen := false }] ∧
      g.1.channel = none ∧ g.1.children.length = channels.length := by
  refine ⟨_, addSources_returns checked _ channels counter rootChannel ?_ hout, ?_⟩
  · simpa [Compound.new, Compound.getChannel] using hroot
  · obtain ⟨h1, h2, h3⟩ := addSourcesLoop_frame (outputChannelOf rootChannel) channels
      { name := "2D", channel := none, inherited := root.getChannel, eyes := none,
        range := ⟨0, 1⟩, buffers := [],
        equalizers := [{ mode := .MODE_2D, frozen := false }], inputFrames := [],
        outputFrames := [], children := [] } counter
    have h4 := addSourcesLoop_children (outputChannelOf rootChannel) channels
      { name := "2D", channel := none, inherited := root.getChannel, eyes := none,
        range := ⟨0, 1⟩, buffers := [],
        equalizers := [{ mode := .MODE_2D, frozen := false }], inputFrames := [],
        outputFrames := [], children := [] } counter
    refine ⟨h1, h2, h3, ?_⟩
    simpa using h4

/-- The two cases of one eye of `_addEyeCompound`: a half that is empty or is exactly the
channel of the group gives the plain compound, any other half the two-dimensional group
`_add2DCompound` builds over it. -/
theorem eyeChild_cases (checked : Bool) (compound : Compound) (half : List ChannelPtr)
    (counter : Int) (rootChannel : Channel) (hroot : compound.getChannel = some rootChannel) :
    ((half = [] ∨ ∃ x : Channel, half = [some x] ∧ x.id = rootChannel.id) →
      eyeChild checked compound half counter = .ok (Compound.new compound, counter)) ∧
    (¬ (half = [] ∨ ∃ x : Channel, half = [some x] ∧ x.id = rootChannel.id) →
      eyeChild checked compound half counter = _add2DCompound checked compound half counter) := by
  unfold eyeChild
  rw [hroot]
  constructor
  · rintro (h | ⟨x, h, hx⟩)
    · subst h; rfl
    · subst h; simp [samePtr, hx, pure, Except.pure]
  · intro h
    rw [if_neg]
    intro hc
    apply h
    match half, hc with
    | [], _ => exact Or.inl rfl
    | [none], hc => simp [samePtr] at hc
    | [some x], hc =>
      right
      exact ⟨x, rfl, by simpa [samePtr] using hc⟩
    | _ :: _ :: _, hc => simp at hc

/-- Member `_addEyeCompound` assembled from its two eyes. -/
theorem addEyeCompound_of_eyes (checked : Bool) (root : Compound) (channels : List ChannelPtr)
    (counter : Int) (hne : channels ≠ []) (l r : Compound × Int)
    (hl : eyeChild checked { Compound.new root with name := "Stereo" }
      (leftChannels channels) counter = .ok l)
    (hr : eyeChild checked
      (Compound.addChild { Compound.new root with name := "Stereo" }
        { l.1 with eyes := some { cyclop := true, left := true, right := false } })
      (rightChannels channels) l.2 = .ok r) :
    _addEyeCompound checked root channels counter =
      .ok ({ Compound.new root with
              name := "Stereo",
              children :=
                [{ l.1 with eyes := some { cyclop := true, left := true, right := false } },
                 { r.1 with eyes := some { cyclop := true, left := false, right := true } }] },
           r.2) := by
  have hpos : 0 < channels.length := List.length_pos.mpr hne
  have hlen : ¬ channels.length < (channels.length >>> 1) + 1 := by
    have : channels.length >>> 1 = channels.length / 2 := by
      simp [Nat.shiftRight_eq_div_pow]
    omega
  simp only [_addEyeCompound, if_neg hlen, bind, Except.bind, pure, Except.pure, hl, hr]
  simp [Compound.addChild, Compound.new]

end Resources
end config

/-- C17: for a non-empty source list and a root that names a channel (with, under assertion
checking, an output surface for its segment), `_addEyeCompound` returns a group named
"Stereo" with exactly two children, the left eye then the right eye, with the eye masks
{LEFT, CYCLOP} and {RIGHT, CYCLOP}. For each eye, when its half of the sources is empty or
is exactly the channel of the group, the child is the plain compound: no channel of its own,
no children, no edges, no load-balancing policy; otherwise the child is the group
`_add2DCompound` builds over exactly that half: named "2D", with one two-dimensional
load-balancing policy and one child per source of the half. -/
theorem addEyeCompound_children (checked : Bool) (root : Compound)
    (channels : List config.ChannelPtr) (counter : Int) (rootChannel : Channel)
    (hne : channels ≠ []) (hroot : root.getChannel = some rootChannel)
    (hout : checked = false ∨ (config.Resources.outputChannelOf rootChannel).isSome = true) :
    ∃ v left right, config.Resources._addEyeCompound checked root channels counter = .ok v ∧
      v.1.name = "Stereo" ∧ v.1.children = [left, right] ∧
      left.eyes = some { cyclop := true, left := true, right := false } ∧
      right.eyes = some { cyclop := true, left := false, right := true } ∧
      ((config.Resources.leftChannels channels = [] ∨ ∃ x : Channel,
          config.Resources.leftChannels channels = [some x] ∧ x.id = rootChannel.id) →
        left = { Compound.new root with
                 eyes := some { cyclop := true, left := true, right := false } } ∧
        left.channel = none ∧ left.children = [] ∧ left.inputFrames = [] ∧
        left.outputFrames = [] ∧ left.equalizers = []) ∧
      (¬ (config.Resources.leftChannels channels = [] ∨ ∃ x : Channel,
          config.Resources.leftChannels channels = [some x] ∧ x.id = rootChannel.id) →
        ∃ g, config.Resources._add2DCompound checked { Compound.new root with name := "Stereo" }
            (config.Resources.leftChannels channels) counter = .ok g ∧
          left = { g.1 with eyes := some { cyclop := true, left := true, right := false } } ∧
          left.name = "2D" ∧ left.equalizers = [{ mode := .MODE_2D, frozen := false }] ∧
          left.children.length = (config.Resources.leftChannels channels).length) ∧
      ((config.Resources.rightChannels channels = [] ∨ ∃ x : Channel,
          config.Resources.rightChannels channels = [some x] ∧ x.id = rootChannel.id) →
        right = { Compound.new root with
                  eyes := some { cyclop := true, left := false, right := true } } ∧
        right.channel = none ∧ right.children = [] ∧ right.inputFrames = [] ∧
        right.outputFrames = [] ∧ right.equalizers = []) ∧
      (¬ (config.Resources.rightChannels channels = [] ∨ ∃ x : Channel,
          config.Resources.rightChannels channels = [some x] ∧ x.id = rootChannel.id) →
        ∃ k g, config.Resources._add2DCompound checked
            (Compound.addChild { Compound.new root with name := "Stereo" } left)
            (config.Resources.rightChannels channels) k = .ok g ∧
          right = { g.1 with eyes := some { cyclop := true, left := false, right := true } } ∧
          right.name = "2D" ∧ right.equalizers = [{ mode := .MODE_2D, frozen := false }] ∧
          right.children.length = (config.Resources.rightChannels channels).length) := by
  have hst : ({ Compound.new root with name := "Stereo" } : Compound).getChannel =
      some rootChannel := by
    simpa [Compound.new, Compound.getChannel] using hroot
  have hst' : ∀ child : Compound,
      (Compound.addChild { Compound.new root with name := "Stereo" } child).getChannel =
        some rootChannel := by
    intro child
    simpa [Compound.new, Compound.getChannel, Compound.addChild] using hroot
  obtain ⟨hL1, hL2⟩ := config.Resources.eyeChild_cases checked
    { Compound.new root with name := "Stereo" } (config.Resources.leftChannels channels)
    counter rootChannel hst
  -- the left eye
  have hleft : ∃ l, config.Resources.eyeChild checked { Compound.new root with name := "Stereo" }
      (config.Resources.leftChannels channels) counter = .ok l := by
    by_cases hd : config.Resources.leftChannels channels = [] ∨ ∃ x : Channel,
        config.Resources.leftChannels channels = [some x] ∧ x.id = rootChannel.id
    · exact ⟨_, hL1 hd⟩
    · obtain ⟨g, hg, _⟩ := config.Resources.add2DCompound_returns checked
        { Compound.new root with name := "Stereo" } (config.Resources.leftChannels channels)
        counter rootChannel hst hout
      exact ⟨g, (hL2 hd).trans hg⟩
  obtain ⟨l, hl⟩ := hleft
  obtain ⟨hR1, hR2⟩ := config.Resources.eyeChild_cases checked
    (Compound.addChild { Compound.new root with name := "Stereo" }
      { l.1 with eyes := some { cyclop := true, left := true, right := false } })
    (config.Resources.rightChannels channels) l.2 rootChannel (hst' _)
  have hright : ∃ r, config.Resources.eyeChild checked
      (Compound.addChild { Compound.new root with name := "Stereo" }
        { l.1 with eyes := some { cyclop := true, left := true, right := false } })
      (config.Resources.rightChannels channels) l.2 = .ok r := by
    by_cases hd : config.Resources.rightChannels channels = [] ∨ ∃ x : Channel,
        config.Resources.rightChannels channels = [some x] ∧ x.id = rootChannel.id
    · exact ⟨_, hR1 hd⟩
    · obtain ⟨g, hg, _⟩ := config.Resources.add2DCompound_returns checked
        (Compound.addChild { Compound.new root with name := "Stereo" }
          { l.1 with eyes := some { cyclop := true, left := true, right := false } })
        (config.Resources.rightChannels channels) l.2 rootChannel (hst' _) hout
      exact ⟨g, (hR2 hd).trans hg⟩
  obtain ⟨r, hr⟩ := hright
  refine ⟨_, _, _, config.Resources.addEyeCompound_of_eyes checked root channels counter hne
    l r hl hr, rfl, rfl, rfl, rfl, ?_, ?_, ?_, ?_⟩
  · intro hd
    have h := (hL1 hd).symm.trans hl
    cases h
    exact ⟨rfl, rfl, rfl, rfl, rfl, rfl⟩
  · intro hd
    obtain ⟨g, hg, h1, h2, _, h4⟩ := config.Resources.add2DCompound_returns checked
      { Compound.new root with name := "Stereo" } (config.Resources.leftChannels channels)
      counter rootChannel hst hout
    have h := ((hL2 hd).symm.trans hl).symm.trans hg
    cases h
    exact ⟨l, hg, rfl, h1, h2, h4⟩
  · intro hd
    have h := (hR1 hd).symm.trans hr
    cases h
    refine ⟨?_, rfl, rfl, rfl, rfl, rfl⟩
    simp [Compound.new, Compound.addChild, Compound.getChannel]
  · intro hd
    obtain ⟨g, hg, h1, h2, _, h4⟩ := config.Resources.add2DCompound_returns checked
      (Compound.addChild { Compound.new root with name := "Stereo" }
        { l.1 with eyes := some { cyclop := true, left := true, right := false } })
      (config.Resources.rightChannels channels) l.2 rootChannel (hst' _) hout
    have h := ((hR2 hd).symm.trans hr).symm.trans hg
    cases h
    exact ⟨l.2, r, hg, rfl, h1, h2, h4⟩

/-- Witness for C17: five sources under the segment of the one-host example give a left eye
and a right eye that are two-dimensional groups over two sources each; a single source gives
two plain eyes. -/
theorem addEyeCompound_children_witness :
    (∃ v left right, config.Resources._addEyeCompound true (Example.segmentTask "2D")
        (Example.manySources 5) 0 = .ok v ∧ v.1.children = [left, right] ∧
      left.name = "2D" ∧ left.children.length = 2 ∧
      right.name = "2D" ∧ right.children.length = 2) ∧
    (∃ v left right, config.Resources._addEyeCompound true (Example.segmentTask "2D")
        (Example.sources "2D") 0 = .ok v ∧ v.1.children = [left, right] ∧
      left.children = [] ∧ left.equalizers = [] ∧
      right.children = [] ∧ right.equalizers = []) := by
  constructor
  · obtain ⟨v, left, right, hv, _, hc, _, _, _, hl, _, hr⟩ :=
      addEyeCompound_children true (Example.segmentTask "2D") (Example.manySources 5) 0
        { id := 2, name := "channel", layout := some "2D", canvas := some 3, segment := true,
          segmentChannel := some 2 } (by decide) rfl (Or.inr rfl)
    have hll : (config.Resources.leftChannels (Example.manySources 5)).length = 2 := by decide
    have hrl : (config.Resources.rightChannels (Example.manySources 5)).length = 2 := by decide
    obtain ⟨_, _, _, hl2, _, hl4⟩ := hl
      (by rintro (h | ⟨x, h, _⟩) <;> rw [h] at hll <;> cases hll)
    obtain ⟨_, _, _, _, hr2, _, hr4⟩ := hr
      (by rintro (h | ⟨x, h, _⟩) <;> rw [h] at hrl <;> cases hrl)
    rw [hll] at hl4
    rw [hrl] at hr4
    exact ⟨v, left, right, hv, hc, hl2, hl4, hr2, hr4⟩
  · obtain ⟨v, left, right, hv, _, hc, _, _, hl, _, hr, _⟩ :=
      addEyeCompound_children true (Example.segmentTask "2D") (Example.sources "2D") 0
        { id := 2, name := "channel", layout := some "2D", canvas := some 3, segment := true,
          segmentChannel := some 2 } (by decide) rfl (Or.inr rfl)
    obtain ⟨_, _, hl3, _, _, hl6⟩ := hl (Or.inl rfl)
    obtain ⟨_, _, hr3, _, _, hr6⟩ := hr (Or.inl rfl)
    exact ⟨v, left, right, hv, hc, hl3, hl6, hr3, hr6⟩

/-! ### Layouts `configure` does not know -/

namespace config
namespace Resources

/-- With assertion checking, the loop body of `configure` stops on a top-level compound whose
single child names a channel with a layout of unknown name, whatever the canvas seen so far:
at the assertion on the canvas when the channel is on another canvas, at the assertion
"Unimplemented" otherwise. -/
theorem configureOne_unknown (channels : List ChannelPtr) (top segment : Compound)
    (channel : Channel) (name : String) (canvas : Option Nat) (counter : Int)
    (hchildren : top.children = [segment]) (hchannel : segment.getChannel = some channel)
    (hlayout : channel.layout = some name)
    (h2D : name ≠ "2D") (hstatic : name ≠ "static DB") (hdynamic : name ≠ "dynamic DB")
    (hsimple : name ≠ "Simple") :
    configureOne true channels top canvas counter =
      .error ⟨.assertion (if canvas.isNone || channel.canvas == canvas then "Unimplemented"
        else "!canvas || channel->getCanvas() == canvas"), counter⟩ := by
  unfold configureOne
  simp only [hchildren, hchannel, hlayout, EQASSERT, bind, Except.bind, pure, Except.pure]
  by_cases hc : (canvas.isNone || channel.canvas == canvas) = true
  · simp [hc, h2D, hstatic, hdynamic, hsimple]
  · simp [hc]

/-- With assertion checking, the loop of `configure` does not return normally when one of the
top-level compounds has a single child naming a channel with a layout of unknown name. -/
theorem configureLoop_unknown (channels : List ChannelPtr) (top segment : Compound)
    (channel : Channel) (name : String)
    (hchildren : top.children = [segment]) (hchannel : segment.getChannel = some channel)
    (hlayout : channel.layout = some name)
    (h2D : name ≠ "2D") (hstatic : name ≠ "static DB") (hdynamic : name ≠ "dynamic DB")
    (hsimple : name ≠ "Simple") :
    ∀ (compounds : List Compound) (canvas : Option Nat) (counter : Int), top ∈ compounds →
      ∃ e, configureLoop true channels compounds canvas counter = .error e := by
  intro compounds
  induction compounds with
  | nil => intro _ _ h; cases h
  | cons first rest ih =>
    intro canvas counter hmem
    unfold configureLoop
    simp only [bind, Except.bind, pure, Except.pure]
    cases hfirst : configureOne true channels first canvas counter with
    | error e => exact ⟨e, rfl⟩
    | ok v =>
      rcases List.mem_cons.mp hmem with heq | hrest
      · subst heq
        rw [configureOne_unknown channels top segment channel name canvas counter hchildren
          hchannel hlayout h2D hstatic hdynamic hsimple] at hfirst
        cases hfirst
      · obtain ⟨e, he⟩ := ih v.2.1 v.2.2 hrest
        dsimp only
        rw [he]
        exact ⟨e, rfl⟩

end Resources
end config

/-- Counterexample to C11 as stated: with an empty list of render sources `configure` returns
normally and leaves the top-level task whose segment has the unknown layout "Foo" as it
was, with assertion checking as without. -/
theorem configure_unknown_layout_counterexample :
    config.Resources.configure true [Example.topTask "Foo"] [] 0 =
      .ok ([Example.topTask "Foo"], 0) ∧
    config.Resources.configure false [Example.topTask "Foo"] [] 0 =
      .ok ([Example.topTask "Foo"], 0) := by
  constructor <;> rfl

/-- C11 (amended): with assertion checking and a non-empty list of render sources, `configure`
does not return normally when some top-level task has a single child that names an output
surface whose layout name is none of "2D", "static DB", "dynamic DB" and "Simple": it stops
with an error; when that task is the first one, the error is the failed assertion
"Unimplemented", raised before anything is built. -/
theorem configure_unknown_layout (compounds : List Compound)
    (channels : List config.ChannelPtr) (counter : Int) (top segment : Compound)
    (channel : Channel) (name : String) (hsources : channels ≠ [])
    (hmem : top ∈ compounds)
    (hchildren : top.children = [segment]) (hchannel : segment.getChannel = some channel)
    (hlayout : channel.layout = some name)
    (h2D : name ≠ "2D") (hstatic : name ≠ "static DB") (hdynamic : name ≠ "dynamic DB")
    (hsimple : name ≠ "Simple") :
    (∃ e, config.Resources.configure true compounds channels counter = .error e) ∧
    (compounds.head? = some top →
      config.Resources.configure true compounds channels counter =
        .error ⟨.assertion "Unimplemented", counter⟩) := by
  have hne : compounds ≠ [] := List.ne_nil_of_mem hmem
  have hconf : config.Resources.configure true compounds channels counter =
      config.Resources.configureLoop true channels compounds none counter := by
    unfold config.Resources.configure
    cases compounds with
    | nil => exact absurd rfl hne
    | cons first rest =>
      cases channels with
      | nil => exact absurd rfl hsources
      | cons s ss => simp [EQASSERT, bind, Except.bind]
  rw [hconf]
  refine ⟨config.Resources.configureLoop_unknown channels top segment channel name hchildren
    hchannel hlayout h2D hstatic hdynamic hsimple compounds none counter hmem, ?_⟩
  intro hhead
  cases compounds with
  | nil => cases hhead
  | cons first rest =>
    simp only [List.head?_cons, Option.some.injEq] at hhead
    subst hhead
    unfold config.Resources.configureLoop
    simp only [bind, Except.bind]
    rw [config.Resources.configureOne_unknown channels first segment channel name none counter
      hchildren hchannel hlayout h2D hstatic hdynamic hsimple]
    rfl

/-- Witness for C11: the segment of the one-host example with the layout "Foo" and the source
of its second device. -/
theorem configure_unknown_layout_witness :
    Example.sources "Foo" ≠ [] ∧
    config.Resources.configure true [Example.topTask "Foo"] (Example.sources "Foo") 0 =
      .error ⟨.assertion "Unimplemented", 0⟩ :=
  ⟨by decide,
   (configure_unknown_layout [Example.topTask "Foo"] (Example.sources "Foo") 0
      (Example.topTask "Foo") (Example.segmentTask "Foo")
      { id := 2, name := "channel", layout := some "Foo", canvas := some 3, segment := true,
        segmentChannel := some 2 } "Foo" (by decide) (List.mem_singleton.mpr rfl) rfl rfl rfl
      (by decide) (by decide) (by decide) (by decide)).2 rfl⟩

/-! ### Render sources of the application node -/

namespace config
namespace Resources

/-- What the loop of `configureSourceChannels` does: every pipe gets one more window, the
source window made for it, and the channel of that window is collected, in pipe order. -/
theorem sourceLoop_spec (pvp : PixelViewport) : ∀ (rest : List Pipe) (fresh : Nat),
    (sourceLoop pvp rest fresh).1.length = rest.length ∧
    (sourceLoop pvp rest fresh).2.length = rest.length ∧
    ∀ (j : Nat) (hj : j < rest.length),
      (sourceLoop pvp rest fresh).1[j]? =
        some { rest[j] with
               windows := rest[j].windows ++ [sourceWindow rest[j] pvp (fresh + 2 * j)] } ∧
      (sourceLoop pvp rest fresh).2[j]? =
        some (sourceWindow rest[j] pvp (fresh + 2 * j)).channels.head? := by
  intro rest
  induction rest with
  | nil => intro fresh; exact ⟨rfl, rfl, fun j hj => absurd hj (Nat.not_lt_zero j)⟩
  | cons pipe rest ih =>
    intro fresh
    obtain ⟨h1, h2, h3⟩ := ih (fresh + 2)
    refine ⟨by simp [sourceLoop, h1], by simp [sourceLoop, h2], ?_⟩
    intro j hj
    cases j with
    | zero => simp [sourceLoop]
    | succ j =>
      have hj' : j < rest.length := by simpa using hj
      obtain ⟨h4, h5⟩ := h3 j hj'
      have e : fresh + 2 * (j + 1) = fresh + 2 + 2 * j := by omega
      simp only [sourceLoop, List.getElem?_cons_succ, List.getElem_cons_succ, e]
      exact ⟨h4, h5⟩

end Resources
end config

/-- C15: for an application node whose devices are `pipe :: rest`, `configureSourceChannels`
returns, in this order, the channel of the first device when that device is not named
"display" (and nothing for it when it is), then one new source per remaining device, in
device order: the channel of a new window of that device, which is an off-screen (FBO)
window whose pixel viewport is the one of the first device moved to the origin when that
viewport is valid, and (0, 0, 1920, 1200) otherwise. Without assertion checking it returns
the empty list when there is no application node or the application node has no device. -/
theorem configureSourceChannels_sources (checked : Bool) (c : Config) (fresh : Nat) :
    (∀ (i : Nat) (node : Node) (pipe : Pipe) (rest : List Pipe),
      config.Resources.findAppNode c.nodes 0 = some (i, node) → node.pipes = pipe :: rest →
      ∃ (news : List config.ChannelPtr) (pipes : List Pipe),
        config.Resources.configureSourceChannels checked c fresh =
          .ok ((if pipe.name = "display" then [] else [config.Resources.getChannel0 pipe]) ++
                news,
               c.updateNode i (fun n => { n with pipes := pipe :: pipes })) ∧
        news.length = rest.length ∧ pipes.length = rest.length ∧
        ∀ (j : Nat) (hj : j < rest.length), ∃ (window : Window) (channel : Channel),
          news[j]? = some (some channel) ∧
          pipes[j]? = some { rest[j] with windows := rest[j].windows ++ [window] } ∧
          window.channels = [channel] ∧
          channel.name = rest[j].name ++ " source channel" ∧
          window.name = rest[j].name ++ " source window" ∧
          window.drawable = .FBO ∧
          (config.Resources.isValid pipe.pvp = true →
            window.pvp = { pipe.pvp with x := 0, y := 0 }) ∧
          (config.Resources.isValid pipe.pvp = false → window.pvp = ⟨0, 0, 1920, 1200⟩)) ∧
    (checked = false → config.Resources.findAppNode c.nodes 0 = none →
      config.Resources.configureSourceChannels checked c fresh = .ok ([], c)) ∧
    (checked = false → ∀ (i : Nat) (node : Node),
      config.Resources.findAppNode c.nodes 0 = some (i, node) → node.pipes = [] →
      config.Resources.configureSourceChannels checked c fresh = .ok ([], c)) := by
  refine ⟨?_, ?_, ?_⟩
  · intro i node pipe rest happ hpipes
    obtain ⟨h1, h2, h3⟩ := config.Resources.sourceLoop_spec
      (if config.Resources.isValid pipe.pvp then { pipe.pvp with x := 0, y := 0 }
        else ⟨0, 0, 1920, 1200⟩) rest fresh
    refine ⟨_, _, ?_, h2, h1, ?_⟩
    · unfold config.Resources.configureSourceChannels
      simp only [happ, hpipes, EQASSERT, bind, Except.bind, pure, Except.pure]
      by_cases hd : pipe.name = "display" <;> simp [hd]
    · intro j hj
      obtain ⟨h4, h5⟩ := h3 j hj
      refine ⟨_, _, h5, h4, rfl, rfl, rfl, rfl, ?_, ?_⟩
      · intro hv
        simp [config.Resources.sourceWindow, hv]
      · intro hv
        simp [config.Resources.sourceWindow, hv]
  · intro hc happ
    unfold config.Resources.configureSourceChannels
    simp [happ, hc, EQASSERT, bind, Except.bind, pure, Except.pure]
  · intro hc i node happ hpipes
    unfold config.Resources.configureSourceChannels
    simp [happ, hpipes, hc, EQASSERT, bind, Except.bind, pure, Except.pure]

/-- Witness for C15: the devices `display` and `GPU1` of the one-host example give exactly
one source, the channel of the new off-screen window of `GPU1`. -/
theorem configureSourceChannels_sources_witness :
    ∃ channel c', config.Resources.configureSourceChannels true (Example.oneHost "2D") 100 =
        .ok ([some channel], c') ∧ channel.name = "GPU1 source channel" := by
  obtain ⟨news, pipes, hok, hlen, _, hall⟩ :=
    (configureSourceChannels_sources true (Example.oneHost "2D") 100).1 0 _
      (Example.display "2D") [Example.gpu1] rfl rfl
  obtain ⟨window, channel, hnews, _, _, hname, _⟩ := hall 0 (by decide)
  have hd : (Example.display "2D").name = "display" := rfl
  rw [if_pos hd] at hok
  match news, hlen, hnews, hok with
  | [x], _, hx, hok =>
    simp only [List.getElem?_cons_zero, Option.some.injEq] at hx
    subst hx
    exact ⟨channel, _, hok, hname⟩

/-! ### A frame that fails to start -/

/-- C18: the handler of `ConfigStartFrame` on a running configuration. Whenever it returns,
the current-frame counter has advanced by one (as the 32-bit counter it is: by exactly 1
below `2^32 - 1`), whether the reconciliation `_updateRunning` succeeded or not. When the
reconciliation fails, `exit()` is run on the state it left, the run-state afterwards is
Stopped, the finished-frame counter is the one the reconciliation started from (the one on
entry when the needs-finish flag was clear), and the last thing the handler does is to send
the requester a frame-finished packet that carries the new current frame number. Without
assertion checking and with the needs-finish flag clear the handler does return. -/
theorem cmdStartFrame_failure (env : Env) (frameID : Nat) (c : Config)
    (hrun : c.state = .STATE_RUNNING) :
    (∀ c', _cmdStartFrame env frameID c = .ok c' →
      c'.currentFrame = incr32 c.currentFrame ∧
      (c.currentFrame + 1 < 2 ^ 32 → c'.currentFrame = c.currentFrame + 1) ∧
      ∃ c₁ w, _cmdStartFrameBegin env c = .ok c₁ ∧ _updateRunning env c₁ = .ok w ∧
        w.2.state = .STATE_RUNNING ∧
        (w.1 = false →
          ∃ v, exit env w.2 = .ok v ∧
            c'.state = .STATE_STOPPED ∧
            c'.finishedFrame = c₁.finishedFrame ∧
            (c.needsFinish = false → c'.finishedFrame = c.finishedFrame) ∧
            c'.log = v.2.log ++
              [.send .requester (.ConfigFrameFinish (incr32 c.currentFrame))])) ∧
    (env.assertsEnabled = false → c.needsFinish = false →
      ∃ c', _cmdStartFrame env frameID c = .ok c') := by
  constructor
  · intro c' h
    obtain ⟨h1, _, _, c₁, w, hb, hu, _, hfail⟩ := cmdStartFrame_ok h
    obtain ⟨hb1, hb2, _, _, _, hb6⟩ := cmdStartFrameBegin_ok hb
    have hc := core_updateRunning hu
    simp only [Config.core, Core.mk.injEq] at hc
    obtain ⟨hc1, hc2, hc3, _, _⟩ := hc
    refine ⟨h1, ?_, c₁, w, hb, hu, by rw [hc3, hb2, hrun], ?_⟩
    · intro hlt
      rw [h1]
      exact Nat.mod_eq_of_lt hlt
    · intro hw
      obtain ⟨hs, hf⟩ := hfail hw
      unfold _cmdStartFrame at h
      simp only [bind, Except.bind, pure, Except.pure, hb, hu, hw, Bool.false_eq_true,
        if_false] at h
      cases hx : exit env w.2 with
      | error e => rw [hx] at h; cases h
      | ok v =>
        rw [hx] at h
        simp only [Except.ok.injEq] at h
        obtain ⟨hx1, _, hx3, hx4, _⟩ := exit_ok hx
        refine ⟨v, rfl, hs, hf, fun hn => hf.trans (hb6 hn), ?_⟩
        rw [← h]
        simp only [_cmdStartFrameEnd, hx4, hx3, Bool.false_eq_true, if_false, if_true, emit,
          hx1, hc1, hb1]
  · intro ha hn
    have hb : _cmdStartFrameBegin env c = .ok (((c.emit .syncObjects).emit
        (.send .requester .ConfigSync)).emit
          (.send .requester (.ConfigStartFrameReply c.needsFinish))) := by
      simp [_cmdStartFrameBegin, hn, emit, pure, Except.pure]
    obtain ⟨w, hu⟩ := updateRunning_total ha (((c.emit .syncObjects).emit
        (.send .requester .ConfigSync)).emit
          (.send .requester (.ConfigStartFrameReply c.needsFinish)))
    unfold _cmdStartFrame
    simp only [bind, Except.bind, pure, Except.pure, hb, hu]
    by_cases hw : w.1 = true
    · simp only [hw, if_true, _startFrame, EQASSERT, ha, Bool.false_and, Bool.false_eq_true,
        if_false, bind, Except.bind, pure, Except.pure]
      exact ⟨_, rfl⟩
    · obtain ⟨v, hx⟩ := exit_total ha w.2
      simp only [hw, if_false, hx]
      exact ⟨_, rfl⟩

/-- Witness for C18: three nodes that fail to synchronise, at frame 5 with frame 4 finished:
the handler returns with the current frame 6, Stopped, frame 4 still the last finished, and
ends by sending the requester the frame-finished packet for frame 6. -/
theorem cmdStartFrame_failure_witness :
    Example.threeNodes.state = .STATE_RUNNING ∧
    ∃ c', _cmdStartFrame (Example.failingEnv false) 7 Example.threeNodes = .ok c' ∧
      c'.currentFrame = 6 ∧ c'.state = .STATE_STOPPED ∧ c'.finishedFrame = 4 ∧
      c'.log.getLast? = some (.send .requester (.ConfigFrameFinish 6)) := by
  refine ⟨rfl, ?_⟩
  obtain ⟨hall, hex⟩ := cmdStartFrame_failure (Example.failingEnv false) 7 Example.threeNodes rfl
  obtain ⟨c', hc'⟩ := hex rfl rfl
  obtain ⟨_, h2, c₁, w, hb, hu, _, hfail⟩ := hall c' hc'
  have hw : w.1 = false := by
    have hb' : _cmdStartFrameBegin (Example.failingEnv false) Example.threeNodes =
        .ok (((Example.threeNodes.emit .syncObjects).emit
          (.send .requester .ConfigSync)).emit
            (.send .requester (.ConfigStartFrameReply false))) := rfl
    rw [hb'] at hb
    cases hb
    have : (_updateRunning (Example.failingEnv false)
        (((Example.threeNodes.emit .syncObjects).emit
          (.send .requester .ConfigSync)).emit
            (.send .requester (.ConfigStartFrameReply false)))).toOption.map
              (fun v => v.1) = some false := by rfl
    rw [hu] at this
    simpa [Except.toOption] using this
  obtain ⟨v, _, hs, _, hf, hlog⟩ := hfail hw
  refine ⟨c', hc', h2 (by decide), hs, hf rfl, ?_⟩
  rw [hlog]
  simp
  rfl

/-! ### The frame-finished notification of `_startFrame` -/

theorem frameFinishes_append (l₁ l₂ : List Action) :
    frameFinishes (l₁ ++ l₂) = frameFinishes l₁ ++ frameFinishes l₂ := by
  simp [frameFinishes, List.filterMap_append]

theorem frameFinishes_startFrameBegin (frameID : Nat) (c : Config) :
    ∃ new, (_startFrameBegin frameID c).log = c.log ++ new ∧ frameFinishes new = [] := by
  unfold _startFrameBegin
  dsimp only
  split
  · refine ⟨_, by simp only [emit, emitAll, List.append_assoc]; rfl, ?_⟩
    simp only [frameFinishes_append]
    simp [frameFinishes, forEach, List.filterMap_map, Function.comp_def]
  · refine ⟨_, by simp only [emit, emitAll, List.append_assoc]; rfl, ?_⟩
    simp only [frameFinishes_append]
    simp [frameFinishes, forEach, List.filterMap_map, Function.comp_def]

/-- Counterexample to C19 as stated: a running configuration without any node whose
current-frame counter is `2^32 - 1`, all frames finished. `_startFrame` wraps the current
frame to 0; the finished-frame counter stays at `2^32 - 1`, and no frame-finished
notification is sent. -/
theorem startFrame_finish_counterexample :
    (Example.running (2 ^ 32 - 1)).state = .STATE_RUNNING ∧
    (Example.running (2 ^ 32 - 1)).finishedFrame ≤ (Example.running (2 ^ 32 - 1)).currentFrame ∧
    (Example.running (2 ^ 32 - 1)).nodes = [] ∧
    ∃ c', _startFrame (Example.env true) 0 (Example.running (2 ^ 32 - 1)) = .ok c' ∧
      c'.currentFrame = 0 ∧ c'.finishedFrame = 2 ^ 32 - 1 ∧
      frameFinishes c'.log = [] := by
  refine ⟨rfl, by decide, rfl, _, rfl, by rfl, by rfl, by rfl⟩

/-- C19 (amended): on a running configuration with `finished-frame <= current-frame` whose
32-bit current-frame counter does not wrap (`current-frame < 2^32 - 1`), when every active
node has already finished the frame after the current one (in particular when no node is
active), `_startFrame` returns with the current-frame counter advanced by one and the
finished-frame counter equal to it, and among the steps it takes there is exactly one
frame-finished notification to the application, for that frame; it is the last step. -/
theorem startFrame_finishes (env : Env) (frameID : Nat) (c : Config)
    (hrun : c.state = .STATE_RUNNING) (hle : c.finishedFrame ≤ c.currentFrame)
    (hwrap : c.currentFrame + 1 < 2 ^ 32)
    (hnodes : ∀ node ∈ c.nodes, node.active = true → c.currentFrame + 1 ≤ node.finishedFrame) :
    ∃ c' new, _startFrame env frameID c = .ok c' ∧
      c'.currentFrame = c.currentFrame + 1 ∧ c'.finishedFrame = c.currentFrame + 1 ∧
      c'.log = c.log ++ new ∧ frameFinishes new = [c.currentFrame + 1] ∧
      new.getLast? = some (.send .app (.ConfigFrameFinish (c.currentFrame + 1))) := by
  have hincr : incr32 c.currentFrame = c.currentFrame + 1 := Nat.mod_eq_of_lt hwrap
  obtain ⟨new, hlog, hnone⟩ := frameFinishes_startFrameBegin frameID c
  have hb := core_startFrameBegin frameID c
  simp only [Config.core, Core.mk.injEq, hincr] at hb
  obtain ⟨hb1, hb2, _, _, _⟩ := hb
  have hn : (_startFrameBegin frameID c).nodes = c.nodes := by
    unfold _startFrameBegin
    dsimp only
    split <;> rfl
  have hany : (_startFrameBegin frameID c).nodes.any
      (fun node => node.active && decide (node.finishedFrame < c.currentFrame + 1)) = false := by
    rw [hn, List.any_eq_false]
    intro node hmem
    by_cases ha : node.active = true
    · have := hnodes node hmem ha
      simp [ha]
      omega
    · simp [ha]
  have hlt : ¬ (_startFrameBegin frameID c).finishedFrame ≥ c.currentFrame + 1 := by
    rw [hb2]; omega
  refine ⟨notifyNodeFrameFinished (_startFrameBegin frameID c).currentFrame
    (_startFrameBegin frameID c),
    new ++ [.send .app (.ConfigFrameFinish (c.currentFrame + 1))], ?_, ?_, ?_, ?_, ?_, ?_⟩
  · simp only [_startFrame, EQASSERT, hrun, decide_True, Bool.not_true, Bool.and_false,
      Bool.false_eq_true, if_false, bind, Except.bind, pure, Except.pure]
  · simp only [notifyNodeFrameFinished, hb1, if_neg hlt, hany, Bool.false_eq_true, if_false,
      emit]
  · simp only [notifyNodeFrameFinished, hb1, if_neg hlt, hany, Bool.false_eq_true, if_false,
      emit]
  · simp only [notifyNodeFrameFinished, hb1, if_neg hlt, hany, Bool.false_eq_true, if_false,
      emit, hlog, List.append_assoc]
  · rw [frameFinishes_append, hnone]
    rfl
  · simp

/-- Witness for C19: the running configuration without nodes at frame 5, all frames
finished. -/
theorem startFrame_finishes_witness :
    ∃ c' new, _startFrame (Example.env true) 0 (Example.running 5) = .ok c' ∧
      c'.currentFrame = 6 ∧ c'.finishedFrame = 6 ∧
      c'.log = (Example.running 5).log ++ new ∧ frameFinishes new = [6] :=
  have h := startFrame_finishes (Example.env true) 0 (Example.running 5) rfl (by decide)
    (by decide) (by intro node hmem; cases hmem)
  h.elim fun c' h => h.elim fun new h => ⟨c', new, h.1, h.2.1, h.2.2.1, h.2.2.2.1, h.2.2.2.2.1⟩

/-! ### Nodes and devices made by `discover` -/

namespace config
namespace Resources

theorem lookup_zip_range (h : String) : ∀ (hosts : List String) (b : Nat),
    (hosts.zip (List.range' b hosts.length)).lookup h =
      if h ∈ hosts then some (b + hosts.indexOf h) else none := by
  intro hosts
  induction hosts with
  | nil => intro b; rfl
  | cons a hosts ih =>
    intro b
    simp only [List.length_cons, List.range'_succ, List.zip_cons_cons, List.lookup_cons]
    by_cases ha : h = a
    · subst ha
      simp
    · have hne : (h == a) = false := by simpa using ha
      rw [hne, ih (b + 1)]
      by_cases hm : h ∈ hosts
      · have ha' : a ≠ h := fun e => ha e.symm
        simp [hm, List.indexOf_cons_ne _ ha']
        omega
      · simp [hm, ha]

theorem updateNode_append (c : Config) (old news : List Node) (p : Nat) (node : Node)
    (f : Node → Node) (hc : c.nodes = old ++ news) (hp : news[p]? = some node) :
    c.updateNode (old.length + p) f = { c with nodes := old ++ news.set p (f node) } := by
  have hget : c.nodes[old.length + p]? = some node := by
    rw [hc, List.getElem?_append_right (by omega)]
    simpa using hp
  unfold updateNode
  rw [hget]
  simp only [hc]
  congr 1
  rw [List.set_append]
  simp

/-- One pass of the loop of `discover` for a descriptor whose host has its node already. -/
theorem discoverLoop_found (old news : List Node) (hosts : List String) (info : GPUInfo)
    (rest : List GPUInfo) (k : Nat) (c : Config) (node : Node)
    (hmem : info.hostname ∈ hosts) (hc : c.nodes = old ++ news)
    (hp : news[hosts.indexOf info.hostname]? = some node) :
    discoverLoop (info :: rest) (hosts.zip (List.range' old.length hosts.length)) k c =
      discoverLoop rest (hosts.zip (List.range' old.length hosts.length)) (pipeName info k).2
        { c with
          nodes := old ++ news.set (hosts.indexOf info.hostname)
            { node with pipes := node.pipes ++ [newPipe info (pipeName info k).1] } } := by
  rw [discoverLoop, lookup_zip_range, if_pos hmem]
  dsimp only
  rw [updateNode_append c old news _ node _ hc hp]

/-- One pass of the loop of `discover` for a descriptor of a host not seen before. -/
theorem discoverLoop_new (old news : List Node) (hosts : List String) (info : GPUInfo)
    (rest : List GPUInfo) (k : Nat) (c : Config)
    (hmem : info.hostname ∉ hosts) (hc : c.nodes = old ++ news)
    (hlen : news.length = hosts.length) :
    discoverLoop (info :: rest) (hosts.zip (List.range' old.length hosts.length)) k c =
      discoverLoop rest
        ((hosts ++ [info.hostname]).zip
          (List.range' old.length (hosts ++ [info.hostname]).length))
        (pipeName info k).2
        { c with
          nodes := old ++ (news ++
            [{ newNode with pipes := newNode.pipes ++ [newPipe info (pipeName info k).1] }]) } := by
  rw [discoverLoop, lookup_zip_range, if_neg hmem]
  dsimp only
  have hzip : (hosts ++ [info.hostname]).zip
      (List.range' old.length (hosts ++ [info.hostname]).length) =
      hosts.zip (List.range' old.length hosts.length) ++ [(info.hostname, c.nodes.length)] := by
    rw [List.length_append, List.length_singleton, List.range'_concat, List.zip_append (by simp)]
    simp [hc, hlen]
  rw [hzip]
  congr 1
  have hc' : ({ c with nodes := c.nodes ++ [newNode] } : Config).nodes =
      old ++ (news ++ [newNode]) := by
    simp [hc]
  have hlen' : c.nodes.length = old.length + news.length := by simp [hc]
  rw [hlen', updateNode_append _ old (news ++ [newNode]) news.length newNode _ hc' (by simp)]
  simp

/-- What the loop of `discover` does when the map holds the hosts `hosts` with the nodes
`news` made so far (the nodes after the `old` ones, in the same order): it makes one node
more for every further host of the feed, in order of first appearance, and the node of every
host gets the devices of the descriptors of that host, in feed order. -/
theorem discoverLoop_spec (old : List Node) : ∀ (infos : List GPUInfo) (hosts : List String)
    (news : List Node) (k : Nat) (c : Config),
    hosts.Nodup → news.length = hosts.length → c.nodes = old ++ news →
    ∃ (more : List String) (news' : List Node),
      (discoverLoop infos (hosts.zip (List.range' old.length hosts.length)) k c).2.2 =
        { c with nodes := old ++ news' } ∧
      (hosts ++ more).Nodup ∧ news'.length = (hosts ++ more).length ∧
      (∀ h ∈ more, h ∈ infos.map (fun info => info.hostname)) ∧
      (∀ info ∈ infos, info.hostname ∈ hosts ++ more) ∧
      ∀ (j : Nat) (h : String), (hosts ++ more)[j]? = some h →
        news'[j]? = some { (news[j]?.getD newNode) with
          pipes := (news[j]?.getD newNode).pipes ++ hostPipes h k infos } := by
  intro infos
  induction infos with
  | nil =>
    intro hosts news k c hnd hlen hc
    refine ⟨[], news, ?_, by simpa using hnd, by simpa using hlen, ?_, ?_, ?_⟩
    · show c = _
      rw [← hc]
    · intro h hm; cases hm
    · intro info hm; cases hm
    · intro j h hj
      rw [List.append_nil] at hj
      have hjl : j < news.length := by
        rw [hlen]; exact (List.getElem?_eq_some.mp hj).1
      rw [List.getElem?_eq_getElem hjl]
      simp [hostPipes]
  | cons info rest ih =>
    intro hosts news k c hnd hlen hc
    by_cases hmem : info.hostname ∈ hosts
    · have hp : hosts.indexOf info.hostname < hosts.length := List.indexOf_lt_length.mpr hmem
      have hpn : hosts.indexOf info.hostname < news.length := by rw [hlen]; exact hp
      have hhost : hosts[hosts.indexOf info.hostname]? = some info.hostname := by
        rw [List.getElem?_eq_getElem hp, List.getElem_indexOf hp]
      rw [discoverLoop_found old news hosts info rest k c _ hmem hc
        (List.getElem?_eq_getElem hpn)]
      obtain ⟨more, news', h1, h2, h3, h4, h5, h6⟩ := ih hosts
        (news.set (hosts.indexOf info.hostname)
          { news[hosts.indexOf info.hostname] with
            pipes := news[hosts.indexOf info.hostname].pipes ++
              [newPipe info (pipeName info k).1] })
        (pipeName info k).2
        { c with
          nodes := old ++ news.set (hosts.indexOf info.hostname)
            { news[hosts.indexOf info.hostname] with
              pipes := news[hosts.indexOf info.hostname].pipes ++
                [newPipe info (pipeName info k).1] } }
        hnd (by rw [List.length_set]; exact hlen) rfl
      refine ⟨more, news', h1, h2, h3, ?_, ?_, ?_⟩
      · intro h hm
        exact List.mem_cons_of_mem _ (h4 h hm)
      · intro x hx
        rcases List.mem_cons.mp hx with rfl | hx
        · exact List.mem_append_left _ hmem
        · exact h5 x hx
      · intro j h hj
        rw [h6 j h hj]
        by_cases hjp : j = hosts.indexOf info.hostname
        · subst hjp
          have hh : h = info.hostname := by
            rw [List.getElem?_append_left hp, hhost] at hj
            exact (Option.some.inj hj).symm
          subst hh
          rw [List.getElem?_set_self hpn, List.getElem?_eq_getElem hpn]
          simp [hostPipes]
        · have hne : info.hostname ≠ h := by
            intro e
            apply hjp
            have hpl : hosts.indexOf info.hostname < (hosts ++ more).length := by
              rw [List.length_append]; omega
            have := List.getElem?_inj hpl h2
              (by rw [List.getElem?_append_left hp, hhost, hj, e] :
                (hosts ++ more)[hosts.indexOf info.hostname]? = (hosts ++ more)[j]?)
            exact this.symm
          rw [List.getElem?_set_ne (Ne.symm hjp)]
          simp [hostPipes, hne]
    · rw [discoverLoop_new old news hosts info rest k c hmem hc hlen]
      have hnd' : (hosts ++ [info.hostname]).Nodup := by
        rw [List.nodup_append]
        refine ⟨hnd, List.nodup_singleton _, ?_⟩
        intro a ha hb
        rw [List.mem_singleton] at hb
        subst hb
        exact hmem ha
      obtain ⟨more, news', h1, h2, h3, h4, h5, h6⟩ := ih (hosts ++ [info.hostname])
        (news ++ [{ newNode with
                    pipes := newNode.pipes ++ [newPipe info (pipeName info k).1] }])
        (pipeName info k).2
        { c with
          nodes := old ++ (news ++
            [{ newNode with pipes := newNode.pipes ++ [newPipe info (pipeName info k).1] }]) }
        hnd' (by simp [hlen]) rfl
      have hassoc : hosts ++ [info.hostname] ++ more = hosts ++ info.hostname :: more := by
        simp
      rw [hassoc] at h2 h3 h5 h6
      refine ⟨info.hostname :: more, news', h1, h2, h3, ?_, ?_, ?_⟩
      · intro h hm
        rcases List.mem_cons.mp hm with rfl | hm
        · exact List.mem_cons_self _ _
        · exact List.mem_cons_of_mem _ (h4 h hm)
      · intro x hx
        rcases List.mem_cons.mp hx with rfl | hx
        · simp
        · exact h5 x hx
      · intro j h hj
        rw [h6 j h hj]
        have hat : (hosts ++ info.hostname :: more)[hosts.length]? = some info.hostname := by
          rw [List.getElem?_append_right (le_refl _)]
          simp
        have hll : hosts.length < (hosts ++ info.hostname :: more).length := by
          rw [List.length_append, List.length_cons]; omega
        by_cases hjp : j = hosts.length
        · subst hjp
          have hh : h = info.hostname := by
            rw [hat] at hj
            exact (Option.some.inj hj).symm
          subst hh
          have e1 : (news ++ [{ newNode with
              pipes := newNode.pipes ++ [newPipe info (pipeName info k).1] }])[hosts.length]? =
              some { newNode with
                pipes := newNode.pipes ++ [newPipe info (pipeName info k).1] } := by
            rw [← hlen, List.getElem?_append_right (le_refl _)]
            simp
          have e2 : news[hosts.length]? = none := by
            rw [← hlen]; simp
          rw [e1, e2]
          simp [hostPipes]
        · have hne : info.hostname ≠ h := by
            intro e
            apply hjp
            have := List.getElem?_inj hll h2
              (by rw [hat, hj, e] :
                (hosts ++ info.hostname :: more)[hosts.length]? =
                  (hosts ++ info.hostname :: more)[j]?)
            exact this.symm
          have e1 : ((news ++ [{ newNode with
              pipes := newNode.pipes ++ [newPipe info (pipeName info k).1] }])[j]?).getD newNode =
              (news[j]?).getD newNode := by
            by_cases hlt : j < news.length
            · rw [List.getElem?_append_left hlt]
            · have hgt : news.length < j := by omega
              rw [List.getElem?_eq_none (by simp; omega), List.getElem?_eq_none (by omega)]
          rw [e1]
          simp [hostPipes, hne]

/-- The name of an indexed device determines its number. -/
theorem gpuName_injective {a b : Nat}
    (h : "GPU" ++ String.mk (decimalNat a) = "GPU" ++ String.mk (decimalNat b)) : a = b := by
  have hd := congrArg String.data h
  simp only [String.data_append] at hd
  exact decimalNat_injective (List.append_cancel_left hd)

theorem deviceNames_length : ∀ (infos : List GPUInfo) (k : Nat),
    (deviceNames k infos).length = infos.length := by
  intro infos
  induction infos with
  | nil => intro k; rfl
  | cons info rest ih => intro k; simp [deviceNames, ih]

/-- The name of the device of the descriptor at position `j` of the feed: `"display"`
without a device index, `"GPU"` with the number of indexed descriptors up to and including
this one (added to the start value of the counter) with one. -/
theorem deviceNames_getElem : ∀ (infos : List GPUInfo) (k j : Nat) (info : GPUInfo),
    infos[j]? = some info →
    (deviceNames k infos)[j]? = some
      (if info.device = EQ_UNDEFINED_UINT32 then "display"
       else "GPU" ++ String.mk (decimalNat (k +
        ((infos.take (j + 1)).filter
          (fun x => decide (x.device ≠ EQ_UNDEFINED_UINT32))).length))) := by
  intro infos
  induction infos with
  | nil => intro k j info h; cases h
  | cons first rest ih =>
    intro k j info h
    cases j with
    | zero =>
      simp only [List.getElem?_cons_zero, Option.some.injEq] at h
      subst h
      by_cases hd : first.device = EQ_UNDEFINED_UINT32
      · simp [deviceNames, pipeName, hd]
      · simp [deviceNames, pipeName, hd]
    | succ j =>
      simp only [List.getElem?_cons_succ] at h
      simp only [deviceNames, List.getElem?_cons_succ, List.take_succ_cons]
      rw [ih _ j info h]
      by_cases hd : first.device = EQ_UNDEFINED_UINT32
      · simp [pipeName, hd, List.filter_cons]
      · simp only [pipeName, hd, if_false, List.filter_cons, ne_eq, not_false_eq_true,
          decide_True, if_true, List.length_cons]
        have e : ∀ n : Nat, k + 1 + n = k + (n + 1) := fun n => by omega
        rw [e]

/-- The names of the indexed devices of a feed, in feed order, are `"GPU"` followed by the
successive values of the counter. -/
theorem deviceNames_indexed : ∀ (infos : List GPUInfo) (k : Nat),
    ((infos.zip (deviceNames k infos)).filter
        (fun p => decide (p.1.device ≠ EQ_UNDEFINED_UINT32))).map (fun p => p.2) =
      (List.range (infos.filter
          (fun x => decide (x.device ≠ EQ_UNDEFINED_UINT32))).length).map
        (fun i => "GPU" ++ String.mk (decimalNat (k + i + 1))) := by
  intro infos
  induction infos with
  | nil => intro k; rfl
  | cons first rest ih =>
    intro k
    by_cases hd : first.device = EQ_UNDEFINED_UINT32
    · simp only [deviceNames, pipeName, hd, if_true, List.zip_cons_cons, List.filter_cons,
        ne_eq, not_true_eq_false, decide_False, Bool.false_eq_true, if_false]
      exact ih k
    · simp only [deviceNames, pipeName, hd, if_false, List.zip_cons_cons, List.filter_cons,
        ne_eq, not_false_eq_true, decide_True, if_true, List.map_cons, List.length_cons,
        List.range_succ_eq_map, List.map_map]
      rw [ih (k + 1)]
      simp only [List.cons.injEq, List.map_inj_left, Function.comp_apply]
      refine ⟨by simp, ?_⟩
      intro i _
      congr 3
      omega

/-- The names `GPU1`, `GPU2`, .. are pairwise distinct. -/
theorem gpuNames_nodup (m : Nat) :
    ((List.range m).map (fun i => "GPU" ++ String.mk (decimalNat (0 + i + 1)))).Nodup := by
  refine List.Nodup.map ?_ (List.nodup_range m)
  intro a b h
  have := gpuName_injective h
  omega

/-- Port, device index and viewport of the devices made for a host are those of the
descriptors of that host, in feed order. -/
theorem hostPipes_fields (host : String) : ∀ (infos : List GPUInfo) (k : Nat),
    (hostPipes host k infos).map (fun p => (p.port, p.device, p.pvp)) =
      (infos.filter (fun info => decide (info.hostname = host))).map
        (fun info => (info.port, info.device, info.pvp)) := by
  intro infos
  induction infos with
  | nil => intro k; rfl
  | cons first rest ih =>
    intro k
    by_cases hh : first.hostname = host
    · simp [hostPipes, hh, ih, newPipe, List.filter_cons]
    · simp [hostPipes, hh, ih, List.filter_cons]

/-- The names of the devices made for a host are the names given to the descriptors of that
host, in feed order. -/
theorem hostPipes_names (host : String) : ∀ (infos : List GPUInfo) (k : Nat),
    (hostPipes host k infos).map (fun p => p.name) =
      ((infos.zip (deviceNames k infos)).filter
        (fun p => decide (p.1.hostname = host))).map (fun p => p.2) := by
  intro infos
  induction infos with
  | nil => intro k; rfl
  | cons first rest ih =>
    intro k
    by_cases hh : first.hostname = host
    · simp [hostPipes, deviceNames, hh, ih, newPipe, List.filter_cons]
    · simp [hostPipes, deviceNames, hh, ih, List.filter_cons]

/-- Every descriptor is counted for exactly one of the hosts of a list without repetition
that holds its host. -/
theorem sum_hostFilter (infos : List GPUInfo) : ∀ (hosts : List String), hosts.Nodup →
    (hosts.map (fun h =>
      (infos.filter (fun info => decide (info.hostname = h))).length)).sum =
    (infos.filter (fun info => decide (info.hostname ∈ hosts))).length := by
  intro hosts
  induction hosts with
  | nil => intro _; simp
  | cons a hosts ih =>
    intro hnd
    have hnd' := List.nodup_cons.mp hnd
    rw [List.map_cons, List.sum_cons, ih hnd'.2]
    clear ih
    induction infos with
    | nil => rfl
    | cons first rest ih2 =>
      by_cases h1 : first.hostname = a
      · subst h1
        have h2 : first.hostname ∉ hosts := hnd'.1
        simp only [List.filter_cons, h2, decide_True, decide_False, if_true,
          Bool.false_eq_true, if_false, List.length_cons, List.mem_cons, true_or] at ih2 ⊢
        omega
      · by_cases h2 : first.hostname ∈ hosts
        · simp only [List.filter_cons, h1, h2, decide_True, decide_False, if_true,
            Bool.false_eq_true, if_false, List.length_cons, List.mem_cons, or_true,
            false_or] at ih2 ⊢
          omega
        · simp only [List.filter_cons, h1, h2, decide_False, Bool.false_eq_true, if_false,
            List.mem_cons, or_self] at ih2 ⊢
          omega

/-- What `discover` does for a feed that is not empty: it reports success and adds nodes
after the ones the configuration has, the application node for the host `""` first and then
one node for every other host of the feed, in order of first appearance; the node of every
host gets the devices of the descriptors of that host, in feed order. -/
theorem discover_spec (infos : List GPUInfo) (c : Config) (hne : infos ≠ []) :
    ∃ (more : List String) (news : List Node),
      discover infos c = (true, { c with nodes := c.nodes ++ news }) ∧
      ("" :: more).Nodup ∧ news.length = ("" :: more).length ∧
      (∀ h ∈ more, h ∈ infos.map (fun info => info.hostname)) ∧
      (∀ info ∈ infos, info.hostname ∈ "" :: more) ∧
      ∀ (j : Nat) (h : String), ("" :: more)[j]? = some h →
        news[j]? = some
          { newNode with applicationNode := decide (j = 0), pipes := hostPipes h 0 infos } := by
  obtain ⟨more, news, h1, h2, h3, h4, h5, h6⟩ := discoverLoop_spec c.nodes infos [""]
    [{ newNode with applicationNode := true }] 0
    { c with nodes := c.nodes ++ [{ newNode with applicationNode := true }] }
    (List.nodup_singleton _) rfl rfl
  refine ⟨more, news, ?_, h2, h3, h4, h5, ?_⟩
  · unfold discover
    have he : infos.isEmpty = false := by
      cases infos with
      | nil => exact absurd rfl hne
      | cons _ _ => rfl
    rw [he]
    simp only [Bool.false_eq_true, if_false]
    congr 1
  · intro j h hj
    rw [h6 j h hj]
    cases j with
    | zero => simp [newNode]
    | succ j => simp [newNode]

end Resources
end config

/-- C14: `discover` reports failure exactly when the feed of descriptors is empty, and then
the configuration is left as it was: no node is added, not even the application node, and
no device. -/
theorem discover_fails_iff_empty (infos : List config.Resources.GPUInfo) (c : Config) :
    ((config.Resources.discover infos c).1 = false ↔ infos = []) ∧
    ((config.Resources.discover infos c).1 = false →
      (config.Resources.discover infos c).2 = c) ∧
    (infos = [] → config.Resources.discover infos c = (false, c)) := by
  cases infos with
  | nil => exact ⟨⟨fun _ => rfl, fun _ => rfl⟩, fun _ => rfl, fun _ => rfl⟩
  | cons info rest =>
    refine ⟨⟨fun h => ?_, fun h => ?_⟩, fun h => ?_, fun h => ?_⟩
    · simp [config.Resources.discover] at h
    · cases h
    · simp [config.Resources.discover] at h
    · cases h

/-- C13: for a feed that is not empty `discover` reports success and adds, after the nodes
the configuration has, the application node and then one node for every host name of the
feed other than the empty one, each such name once: one plus the number of distinct
non-empty host names in all. The application node is the node of the empty host name, and
the only one flagged as application node. The node of every host has exactly one device per
descriptor of that host, in feed order, with the port, device index and viewport of the
descriptor; so there are as many devices in all as descriptors. -/
theorem discover_nodes (infos : List config.Resources.GPUInfo) (c : Config)
    (hne : infos ≠ []) :
    ∃ (more : List String) (news : List Node),
      config.Resources.discover infos c = (true, { c with nodes := c.nodes ++ news }) ∧
      ("" :: more).Nodup ∧
      (∀ h, h ∈ more ↔ h ≠ "" ∧ ∃ info ∈ infos, info.hostname = h) ∧
      news.length = 1 + more.length ∧
      more.length = (((infos.map (fun info => info.hostname)).filter
        (fun h => decide (h ≠ ""))).dedup).length ∧
      (∀ (j : Nat) (h : String), ("" :: more)[j]? = some h →
        ∃ node, news[j]? = some node ∧
          node.applicationNode = decide (j = 0) ∧
          node.pipes.map (fun p => (p.port, p.device, p.pvp)) =
            (infos.filter (fun info => decide (info.hostname = h))).map
              (fun info => (info.port, info.device, info.pvp))) ∧
      (news.map (fun node => node.pipes.length)).sum = infos.length := by
  obtain ⟨more, news, h1, h2, h3, h4, h5, h6⟩ := config.Resources.discover_spec infos c hne
  have hnd := List.nodup_cons.mp h2
  have hmore : ∀ h, h ∈ more ↔ h ≠ "" ∧ ∃ info ∈ infos, info.hostname = h := by
    intro h
    constructor
    · intro hm
      refine ⟨fun e => hnd.1 (e ▸ hm), ?_⟩
      obtain ⟨info, hi, he⟩ := List.mem_map.mp (h4 h hm)
      exact ⟨info, hi, he⟩
    · rintro ⟨hn, info, hi, he⟩
      rcases List.mem_cons.mp (h5 info hi) with e | hm
      · exact absurd (he.symm.trans e) hn
      · exact he ▸ hm
  refine ⟨more, news, h1, h2, hmore, by rw [h3, List.length_cons]; omega, ?_, ?_, ?_⟩
  · apply List.Perm.length_eq
    rw [List.perm_ext_iff_of_nodup hnd.2 (List.nodup_dedup _)]
    intro h
    rw [hmore h, List.mem_dedup, List.mem_filter, List.mem_map]
    constructor
    · rintro ⟨hn, info, hi, he⟩
      exact ⟨⟨info, hi, he⟩, by simpa using hn⟩
    · rintro ⟨⟨info, hi, he⟩, hn⟩
      exact ⟨by simpa using hn, info, hi, he⟩
  · intro j h hj
    exact ⟨_, h6 j h hj, rfl, config.Resources.hostPipes_fields h infos 0⟩
  · have hmap : news.map (fun node => node.pipes.length) =
        ("" :: more).map (fun h =>
          (infos.filter (fun info => decide (info.hostname = h))).length) := by
      apply List.ext_getElem?
      intro j
      rw [List.getElem?_map, List.getElem?_map]
      cases hj : ("" :: more)[j]? with
      | none =>
        have : news[j]? = none := by
          rw [List.getElem?_eq_none_iff] at hj ⊢
          rw [h3]; exact hj
        rw [this]
        rfl
      | some h =>
        rw [h6 j h hj]
        have := congrArg List.length (config.Resources.hostPipes_fields h infos 0)
        simp only [List.length_map] at this
        simp only [Option.map_some', this]
    rw [hmap, config.Resources.sum_hostFilter infos _ h2]
    congr 1
    rw [List.filter_eq_self]
    intro info hi
    simpa using h5 info hi

/-- Witness for C13: one local host with two devices gives one node, the application node,
with two devices. -/
theorem discover_nodes_witness :
    ∃ node, (config.Resources.discover Example.localFeed Config.fresh).2.nodes = [node] ∧
      node.applicationNode = true ∧ node.pipes.length = 2 := by
  obtain ⟨more, news, h1, _, _, h4, h5, h6, h7⟩ :=
    discover_nodes Example.localFeed Config.fresh (by decide)
  have h5' : more.length = 0 := h5
  rw [h5'] at h4
  obtain ⟨node, hn, ha, _⟩ := h6 0 "" List.getElem?_cons_zero
  match news, h4, hn, h7 with
  | [n], _, hn, h7 =>
    simp only [List.getElem?_cons_zero, Option.some.injEq] at hn
    subst hn
    refine ⟨n, by rw [h1]; rfl, by simpa using ha, ?_⟩
    simpa using h7

/-- C12: in `discover`, for a feed that is not empty, the devices get the names `names`, one
per descriptor in feed order: the device of a descriptor without device index is named
"display", and the device of a descriptor with one is named "GPU" followed by the decimal
number of descriptors with a device index up to and including it, counted over the whole
feed whatever the hosts. The devices of the node of every host carry the names of the
descriptors of that host. So the names of the indexed devices, in feed order, are `GPU1`,
`GPU2`, .. up to the number of indexed descriptors, without gap, and pairwise distinct. -/
theorem discover_names (infos : List config.Resources.GPUInfo) (c : Config)
    (hne : infos ≠ []) :
    ∃ (more : List String) (news : List Node) (names : List String),
      config.Resources.discover infos c = (true, { c with nodes := c.nodes ++ news }) ∧
      ("" :: more).Nodup ∧ news.length = ("" :: more).length ∧
      (∀ info ∈ infos, info.hostname ∈ "" :: more) ∧
      names.length = infos.length ∧
      (∀ (j : Nat) (h : String), ("" :: more)[j]? = some h →
        ∃ node, news[j]? = some node ∧
          node.pipes.map (fun p => p.name) =
            ((infos.zip names).filter (fun p => decide (p.1.hostname = h))).map
              (fun p => p.2)) ∧
      (∀ (j : Nat) (info : config.Resources.GPUInfo), infos[j]? = some info →
        info.device = config.Resources.EQ_UNDEFINED_UINT32 → names[j]? = some "display") ∧
      (∀ (j : Nat) (info : config.Resources.GPUInfo), infos[j]? = some info →
        info.device ≠ config.Resources.EQ_UNDEFINED_UINT32 →
        names[j]? = some ("GPU" ++ String.mk (config.decimalNat
          ((infos.take (j + 1)).filter
            (fun x => decide (x.device ≠ config.Resources.EQ_UNDEFINED_UINT32))).length))) ∧
      ((infos.zip names).filter
          (fun p => decide (p.1.device ≠ config.Resources.EQ_UNDEFINED_UINT32))).map
            (fun p => p.2) =
        (List.range (infos.filter
            (fun x => decide (x.device ≠ config.Resources.EQ_UNDEFINED_UINT32))).length).map
          (fun i => "GPU" ++ String.mk (config.decimalNat (i + 1))) ∧
      (((infos.zip names).filter
          (fun p => decide (p.1.device ≠ config.Resources.EQ_UNDEFINED_UINT32))).map
            (fun p => p.2)).Nodup := by
  obtain ⟨more, news, h1, h2, h3, _, h5, h6⟩ := config.Resources.discover_spec infos c hne
  have hidx := config.Resources.deviceNames_indexed infos 0
  refine ⟨more, news, config.Resources.deviceNames 0 infos, h1, h2, h3, h5,
    config.Resources.deviceNames_length infos 0, ?_, ?_, ?_, ?_, ?_⟩
  · intro j h hj
    exact ⟨_, h6 j h hj, config.Resources.hostPipes_names h infos 0⟩
  · intro j info hj hd
    rw [config.Resources.deviceNames_getElem infos 0 j info hj, if_pos hd]
  · intro j info hj hd
    rw [config.Resources.deviceNames_getElem infos 0 j info hj, if_neg hd, Nat.zero_add]
  · rw [hidx]
    apply List.map_congr_left
    intro i _
    rw [Nat.zero_add]
  · rw [hidx]
    exact config.Resources.gpuNames_nodup _

/-- Witness for C12: in a feed of three hosts with four indexed devices and one display,
interleaved, the devices are named `GPU1`, `GPU2`, `display`, `GPU3`, `GPU4` in feed
order. -/
theorem discover_names_witness :
    ∃ (news : List Node) (names : List String),
      config.Resources.discover Example.clusterFeed Config.fresh =
        (true, { Config.fresh with nodes := Config.fresh.nodes ++ news }) ∧
      names.length = 5 ∧
      ((Example.clusterFeed.zip names).filter
          (fun p => decide (p.1.device ≠ config.Resources.EQ_UNDEFINED_UINT32))).map
            (fun p => p.2) = ["GPU1", "GPU2", "GPU3", "GPU4"] ∧
      names[2]? = some "display" := by
  obtain ⟨more, news, names, h1, _, _, _, h5, _, h7, _, h9, _⟩ :=
    discover_names Example.clusterFeed Config.fresh (by decide)
  refine ⟨news, names, h1, h5, ?_, h7 2 _ rfl rfl⟩
  rw [h9]
  decide

/-! ### Shutdown of the server -/

/-- C20: the handler of the shutdown command always reports the command as handled, leaves
the registry of application sessions as it was and adds to the log exactly one reply to the
node the command came from (followed by the closing sleep, except on Windows). When the
registry is empty the reply carries success and the flag `_running` of the dispatch loop is
cleared, so that the loop returns without invoking another command. Otherwise the reply
carries failure, the flag is left as it was and the loop goes on with the next command. So
on a running server the flag is cleared exactly when the registry is empty. -/
theorem cmdShutdown_reply (win32 : Bool) (node : Nat) (s : Server) :
    (Server._cmdShutdown win32 node s).1 = .COMMAND_HANDLED ∧
    (Server._cmdShutdown win32 node s).2._appConfigs = s._appConfigs ∧
    (Server._cmdShutdown win32 node s).2._configs = s._configs ∧
    (s._appConfigs = [] →
      (Server._cmdShutdown win32 node s).2._running = false ∧
      (Server._cmdShutdown win32 node s).2.log =
        s.log ++ .send node (.ServerShutdownReply true) ::
          (if win32 then [] else [.sleep 100])) ∧
    (s._appConfigs ≠ [] →
      (Server._cmdShutdown win32 node s).2._running = s._running ∧
      (Server._cmdShutdown win32 node s).2.log =
        s.log ++ .send node (.ServerShutdownReply false) ::
          (if win32 then [] else [.sleep 100])) ∧
    (s._running = true →
      ((Server._cmdShutdown win32 node s).2._running = false ↔ s._appConfigs = [])) ∧
    (∀ (κ : Type) (checked : Bool) (invoke : κ → Server → CommandResult × Server)
        (command : κ) (rest : List κ), s._running = true →
        invoke command s = Server._cmdShutdown win32 node s →
      (s._appConfigs = [] →
        Server._handleLoop checked invoke (command :: rest) s =
          .ok (Server._cmdShutdown win32 node s).2) ∧
      (s._appConfigs ≠ [] →
        Server._handleLoop checked invoke (command :: rest) s =
          Server._handleLoop checked invoke rest (Server._cmdShutdown win32 node s).2)) := by
  have hyes : s._appConfigs = [] →
      (Server._cmdShutdown win32 node s).2._running = false ∧
      (Server._cmdShutdown win32 node s).2.log =
        s.log ++ .send node (.ServerShutdownReply true) ::
          (if win32 then [] else [.sleep 100]) := by
    intro h
    unfold Server._cmdShutdown
    cases win32 <;> simp [Server.emit, h]
  have hno : s._appConfigs ≠ [] →
      (Server._cmdShutdown win32 node s).2._running = s._running ∧
      (Server._cmdShutdown win32 node s).2.log =
        s.log ++ .send node (.ServerShutdownReply false) ::
          (if win32 then [] else [.sleep 100]) := by
    intro h
    have he : s._appConfigs.isEmpty = false := by
      cases hc : s._appConfigs with
      | nil => exact absurd hc h
      | cons _ _ => rfl
    unfold Server._cmdShutdown
    cases win32 <;> simp [Server.emit, he]
  have h2 : (Server._cmdShutdown win32 node s).1 = .COMMAND_HANDLED := rfl
  refine ⟨rfl, ?_, ?_, hyes, hno, ?_, ?_⟩
  · unfold Server._cmdShutdown
    cases s._appConfigs.isEmpty <;> cases win32 <;> rfl
  · unfold Server._cmdShutdown
    cases s._appConfigs.isEmpty <;> cases win32 <;> rfl
  · intro h
    by_cases he : s._appConfigs = []
    · simp [he, (hyes he).1]
    · simp [he, (hno he).1, h]
  · intro κ checked invoke command rest hr hinv
    constructor
    · intro he
      rw [Server._handleLoop, if_pos hr, hinv]
      simp only [h2]
      cases rest with
      | nil => simp [Server._handleLoop, (hyes he).1, pure, Except.pure]
      | cons c cs => simp [Server._handleLoop, (hyes he).1, pure, Except.pure]
    · intro _
      rw [Server._handleLoop, if_pos hr, hinv]
      simp only [h2]

/-- Witness for C20: a shutdown command from node 3 stops a server without application
session and is refused by a server with one. -/
theorem cmdShutdown_reply_witness :
    ((Server._cmdShutdown false 3 Example.idleServer).2._running = false ∧
      (Server._cmdShutdown false 3 Example.idleServer).2.log =
        [.send 3 (.ServerShutdownReply true), .sleep 100]) ∧
    ((Server._cmdShutdown false 3 Example.busyServer).2._running = true ∧
      (Server._cmdShutdown false 3 Example.busyServer).2.log =
        [.send 3 (.ServerShutdownReply false), .sleep 100]) :=
  ⟨(cmdShutdown_reply false 3 Example.idleServer).2.2.2.1 rfl,
   (cmdShutdown_reply false 3 Example.busyServer).2.2.2.2.1 (List.cons_ne_nil _ _)⟩

/-! ### Width of the ranges of the DB group -/

namespace config
namespace Resources

/-- The range the exact reading `exactRanges` gives to the child at position `i`: it starts at
`(start + i * step) / 100000`, and ends at `(start + (i + 1) * step) / 100000` unless the
child is the last one, whose range ends at 1. -/
theorem exactRanges_getElem (step : Nat) : ∀ (children : List Compound) (start i : Nat),
    i < children.length →
    ((exactRanges step start children)[i]?).map (fun c => c.range) = some
      ⟨((start + i * step : Nat) : ℚ) / 100000,
       if i + 1 = children.length then 1
       else ((start + (i + 1) * step : Nat) : ℚ) / 100000⟩ := by
  intro children
  induction children with
  | nil => intro start i h; cases h
  | cons child rest ih =>
    intro start i hi
    cases rest with
    | nil =>
      have : i = 0 := by simpa using hi
      subst this
      simp [exactRanges]
    | cons next rest =>
      cases i with
      | zero => simp [exactRanges]
      | succ i =>
        have hi' : i < (next :: rest).length := by simpa using hi
        have := ih (start + step) i hi'
        simp only [exactRanges, List.getElem?_cons_succ]
        rw [this]
        have e1 : start + step + i * step = start + (i + 1) * step := by
          rw [Nat.add_mul]; omega
        have e2 : start + step + (i + 1) * step = start + (i + 1 + 1) * step := by
          rw [Nat.add_mul (i + 1) 1 step]; omega
        simp only [e1, e2, List.length_cons, Nat.add_right_cancel_iff]

/-- The ranges of the children after the range assignment of `_addDBCompound`, for a group
with `n` children: `n` children still, the one at position `i` with the single-precision
roundings of `i * step / 100000` and `(i + 1) * step / 100000`, the last one ending at 1,
where `step` is `100000 / n`. -/
theorem setRanges_children (w : Compound) :
    (setRanges (100000 / w.children.length) 0 w.children).length = w.children.length ∧
    ∀ i, i < w.children.length →
      ((setRanges (100000 / w.children.length) 0 w.children)[i]?).map (fun c => c.range) =
        some (stored ⟨((i * (100000 / w.children.length) : Nat) : ℚ) / 100000,
          if i + 1 = w.children.length then 1
          else (((i + 1) * (100000 / w.children.length) : Nat) : ℚ) / 100000⟩) := by
  have hb : 0 + (w.children.length - 1) * (100000 / w.children.length) ≤ 100000 := by
    have h1 : (w.children.length - 1) * (100000 / w.children.length) ≤
        w.children.length * (100000 / w.children.length) :=
      Nat.mul_le_mul_right _ (Nat.sub_le _ _)
    have h2 := Nat.mul_div_le 100000 w.children.length
    omega
  obtain ⟨s1, s2⟩ := setRanges_stored (100000 / w.children.length) w.children 0 hb
  refine ⟨s1, ?_⟩
  intro i hi
  have h := exactRanges_getElem (100000 / w.children.length) w.children 0 i hi
  have hm : ((setRanges (100000 / w.children.length) 0 w.children).map (fun c => c.range))[i]? =
      (((exactRanges (100000 / w.children.length) 0 w.children).map
        (fun c => c.range)).map stored)[i]? := by rw [s2]
  rw [List.getElem?_map, List.getElem?_map, List.getElem?_map, h] at hm
  rw [hm]
  simp

/-- The group `_addDBCompound` builds from the sources `channels`: named "DB", without
load-balancing policy, with one child per source; the child at position `i` has the range
whose bounds are the single-precision roundings of `i * step / 100000` and
`(i + 1) * step / 100000`, the last one ending at 1, where `step` is `100000 / n` for `n`
sources. -/
theorem addDBCompound_ranges (checked : Bool) (root : Compound) (channels : List ChannelPtr)
    (counter : Int) (rootChannel : Channel) (hroot : root.getChannel = some rootChannel)
    (hout : checked = false ∨ (outputChannelOf rootChannel).isSome = true) :
    ∃ v, _addDBCompound checked root channels counter = .ok v ∧
      v.1.children.length = channels.length ∧ v.1.equalizers = [] ∧ v.1.name = "DB" ∧
      ∀ i, i < channels.length →
        (v.1.children[i]?).map (fun c => c.range) = some
          (stored ⟨((i * (100000 / channels.length) : Nat) : ℚ) / 100000,
           if i + 1 = channels.length then 1
           else (((i + 1) * (100000 / channels.length) : Nat) : ℚ) / 100000⟩) := by
  have key : ∀ compound : Compound, compound.getChannel = some rootChannel →
      compound.children = [] → compound.equalizers = [] → compound.name = "DB" →
      ∃ w, _addSources checked compound channels counter = .ok w ∧
        w.1.children.length = channels.length ∧ w.1.equalizers = [] ∧ w.1.name = "DB" := by
    intro compound hc hch heq hname
    refine ⟨_, addSources_returns checked compound channels counter rootChannel hc hout,
      ?_, ?_, ?_⟩
    · rw [addSourcesLoop_children, hch]; simp
    · rw [(addSourcesLoop_frame _ channels compound counter).2.1, heq]
    · rw [(addSourcesLoop_frame _ channels compound counter).1, hname]
  obtain ⟨w, hw, hlen, heq, hname⟩ := key
    (if channels.length > 1
      then { Compound.new root with name := "DB", buffers := [.BUFFER_COLOR, .BUFFER_DEPTH] }
      else { Compound.new root with name := "DB" })
    (by split <;> simpa [Compound.new, Compound.getChannel] using hroot)
    (by split <;> rfl) (by split <;> rfl) (by split <;> rfl)
  have hdb : _addDBCompound checked root channels counter =
      .ok ({ w.1 with children := setRanges (100000 / w.1.children.length) 0 w.1.children },
        w.2) := by
    unfold _addDBCompound
    simp only [bind, Except.bind, pure, Except.pure, dbStep_eq]
    have : (if channels.length > 1
        then ({ ({ Compound.new root with name := "DB" } : Compound) with
               buffers := [.BUFFER_COLOR, .BUFFER_DEPTH] } : Compound)
        else { Compound.new root with name := "DB" }) =
        (if channels.length > 1
          then { Compound.new root with name := "DB", buffers := [.BUFFER_COLOR, .BUFFER_DEPTH] }
          else { Compound.new root with name := "DB" }) := by
      split <;> rfl
    rw [this, hw]
  obtain ⟨h1, h2⟩ := setRanges_children w.1
  refine ⟨_, hdb, h1.trans hlen, heq, hname, ?_⟩
  intro i hi
  have := h2 i (by rw [hlen]; exact hi)
  rw [hlen] at this
  dsimp only
  rw [hlen]
  exact this

end Resources
end config

/-- Counterexample to C23 as stated: in the DB group built from ten sources the first child
gets the range from 0 to the single-precision value of 1/10 and the third child the range
between the single-precision values of 2/10 and 3/10; the two widths differ, and neither is
1/10. -/
theorem addDBCompound_width_counterexample :
    ∃ v first third, Example.dbGroup 10 = .ok v ∧ v.1.children.length = 10 ∧
      v.1.children[0]? = some first ∧ v.1.children[2]? = some third ∧
      first.range.end_ - first.range.start = 13421773 / 134217728 ∧
      third.range.end_ - third.range.start = 13421774 / 134217728 ∧
      first.range.end_ - first.range.start ≠ third.range.end_ - third.range.start ∧
      first.range.end_ - first.range.start ≠ 1 / 10 ∧
      third.range.end_ - third.range.start ≠ 1 / 10 := by
  obtain ⟨v, hv, hlen, _, _, hr⟩ := config.Resources.addDBCompound_ranges true
    (Example.segmentTask "static DB") (Example.manySources 10) 0
    { id := 2, name := "channel", layout := some "static DB", canvas := some 3,
      segment := true, segmentChannel := some 2 } rfl (Or.inr rfl)
  have hl : (Example.manySources 10).length = 10 := rfl
  rw [hl] at hr hlen
  have r1 : float.round (1 / 10) = 13421773 / 134217728 := by
    rw [float.round_eq_of (e := -4) (m := 13421773) (by norm_num) (by norm_num) (by norm_num)
      (by rw [abs_lt]; constructor <;> norm_num)]
    norm_num
  have r2 : float.round (1 / 5) = 13421773 / 67108864 := by
    rw [float.round_eq_of (e := -3) (m := 13421773) (by norm_num) (by norm_num) (by norm_num)
      (by rw [abs_lt]; constructor <;> norm_num)]
    norm_num
  have r3 : float.round (3 / 10) = 5033165 / 16777216 := by
    rw [float.round_eq_of (e := -2) (m := 10066330) (by norm_num) (by norm_num) (by norm_num)
      (by rw [abs_lt]; constructor <;> norm_num)]
    norm_num
  have h0 := hr 0 (by decide)
  have h2 := hr 2 (by decide)
  cases hc0 : v.1.children[0]? with
  | none => rw [hc0] at h0; cases h0
  | some first =>
    cases hc2 : v.1.children[2]? with
    | none => rw [hc2] at h2; cases h2
    | some third =>
      rw [hc0] at h0
      rw [hc2] at h2
      simp only [Option.map_some', Option.some.injEq] at h0 h2
      have e0 : first.range.end_ - first.range.start = 13421773 / 134217728 := by
        rw [h0]
        norm_num [config.Resources.stored, float.round_zero, r1]
      have e2 : third.range.end_ - third.range.start = 13421774 / 134217728 := by
        rw [h2]
        norm_num [config.Resources.stored, r2, r3]
      refine ⟨v, first, third, hv, hlen, hc0, hc2, e0, e2, ?_, ?_, ?_⟩
      · rw [e0, e2]; norm_num
      · rw [e0]; norm_num
      · rw [e2]; norm_num

/-- C23 (amended): for `n >= 2` sources (and a root that names a channel with, under
assertion checking, an output surface for its segment) `_addDBCompound` returns a group with
`n` children; the child at position `i`, when it is not the last, gets the range whose bounds
are the single-precision values of `i * step / 100000` and `(i + 1) * step / 100000`, where
`step` is the integer quotient of 100000 by `n`; its width is within `2^-24` of
`step / 100000`, which is `1/n` when `n` divides 100000 and otherwise smaller than `1/n` by
less than `1/100000`, so that the width differs from `1/n` by less than
`1/100000 + 2^-24`; the last child takes the remainder, from the single-precision value of
`(n - 1) * step / 100000` to 1. -/
theorem addDBCompound_width (checked : Bool) (root : Compound)
    (channels : List config.ChannelPtr) (counter : Int) (rootChannel : Channel)
    (hn : 2 ≤ channels.length) (hroot : root.getChannel = some rootChannel)
    (hout : checked = false ∨ (config.Resources.outputChannelOf rootChannel).isSome = true) :
    ∃ v, config.Resources._addDBCompound checked root channels counter = .ok v ∧
      v.1.children.length = channels.length ∧
      (∀ i, i + 1 < channels.length → ∃ child, v.1.children[i]? = some child ∧
        child.range.start =
          float.round (((i * (100000 / channels.length) : Nat) : ℚ) / 100000) ∧
        child.range.end_ =
          float.round ((((i + 1) * (100000 / channels.length) : Nat) : ℚ) / 100000) ∧
        |child.range.end_ - child.range.start -
          ((100000 / channels.length : Nat) : ℚ) / 100000| ≤ 1 / 2 ^ 24 ∧
        |child.range.end_ - child.range.start - 1 / (channels.length : ℚ)| <
          1 / 100000 + 1 / 2 ^ 24) ∧
      (∃ child, v.1.children[channels.length - 1]? = some child ∧
        child.range.start = float.round
          ((((channels.length - 1) * (100000 / channels.length) : Nat) : ℚ) / 100000) ∧
        child.range.end_ = 1) ∧
      (channels.length ∣ 100000 →
        ((100000 / channels.length : Nat) : ℚ) / 100000 = 1 / (channels.length : ℚ)) ∧
      (¬ channels.length ∣ 100000 →
        ((100000 / channels.length : Nat) : ℚ) / 100000 < 1 / (channels.length : ℚ) ∧
        1 / (channels.length : ℚ) - ((100000 / channels.length : Nat) : ℚ) / 100000 <
          1 / 100000) := by
  obtain ⟨v, hv, hlen, _, _, hr⟩ := config.Resources.addDBCompound_ranges checked root channels
    counter rootChannel hroot hout
  have hpos : (0 : ℚ) < (channels.length : ℚ) := by
    exact_mod_cast (by omega : 0 < channels.length)
  have hdvd : channels.length ∣ 100000 →
      ((100000 / channels.length : Nat) : ℚ) / 100000 = 1 / (channels.length : ℚ) := by
    intro hdvd
    rw [Nat.cast_div hdvd (ne_of_gt hpos)]
    field_simp
    ring
  have hndvd : ¬ channels.length ∣ 100000 →
      ((100000 / channels.length : Nat) : ℚ) / 100000 < 1 / (channels.length : ℚ) ∧
      1 / (channels.length : ℚ) - ((100000 / channels.length : Nat) : ℚ) / 100000 <
        1 / 100000 := by
    intro hdvd
    have hlt : channels.length * (100000 / channels.length) < 100000 := by
      have h1 := Nat.mul_div_le 100000 channels.length
      rcases Nat.lt_or_eq_of_le h1 with h | h
      · exact h
      · exact absurd ⟨_, h.symm⟩ hdvd
    have hgt : 100000 < channels.length * (100000 / channels.length) + channels.length := by
      have := Nat.lt_div_mul_add (a := 100000) (by omega : 0 < channels.length)
      rw [Nat.mul_comm] at this
      exact this
    have hlt' : (channels.length : ℚ) * ((100000 / channels.length : Nat) : ℚ) < 100000 := by
      exact_mod_cast hlt
    have hgt' : (100000 : ℚ) <
        (channels.length : ℚ) * ((100000 / channels.length : Nat) : ℚ) + channels.length := by
      exact_mod_cast hgt
    constructor
    · rw [div_lt_div_iff₀ (by norm_num) hpos]
      linarith
    · rw [div_sub_div _ _ (ne_of_gt hpos) (by norm_num), div_lt_div_iff₀ (by positivity) (by norm_num)]
      nlinarith
  have hstep : |((100000 / channels.length : Nat) : ℚ) / 100000 - 1 / (channels.length : ℚ)| <
      1 / 100000 := by
    by_cases hd : channels.length ∣ 100000
    · rw [hdvd hd]
      norm_num
    · obtain ⟨h1, h2⟩ := hndvd hd
      rw [abs_lt]
      constructor <;> linarith
  have hunit : ∀ j, j ≤ channels.length →
      (0 : ℚ) ≤ ((j * (100000 / channels.length) : Nat) : ℚ) / 100000 ∧
      ((j * (100000 / channels.length) : Nat) : ℚ) / 100000 ≤ 1 := by
    intro j hj
    constructor
    · positivity
    · rw [div_le_one (by norm_num)]
      have h1 : j * (100000 / channels.length) ≤ channels.length * (100000 / channels.length) :=
        Nat.mul_le_mul_right _ hj
      have h2 := Nat.mul_div_le 100000 channels.length
      exact_mod_cast (by omega : j * (100000 / channels.length) ≤ 100000)
  refine ⟨v, hv, hlen, ?_, ?_, hdvd, hndvd⟩
  · intro i hi
    have h := hr i (by omega)
    cases hc : v.1.children[i]? with
    | none => rw [hc] at h; cases h
    | some child =>
      rw [hc] at h
      simp only [Option.map_some', Option.some.injEq] at h
      have hne : ¬ i + 1 = channels.length := by omega
      rw [if_neg hne] at h
      have hs : child.range.start =
          float.round (((i * (100000 / channels.length) : Nat) : ℚ) / 100000) := by
        rw [h]; rfl
      have he : child.range.end_ =
          float.round ((((i + 1) * (100000 / channels.length) : Nat) : ℚ) / 100000) := by
        rw [h]; rfl
      have ea := float.abs_round_sub_le_unit (hunit i (by omega)).1 (hunit i (by omega)).2
      have eb := float.abs_round_sub_le_unit (hunit (i + 1) (by omega)).1
        (hunit (i + 1) (by omega)).2
      have hdiff : (((i + 1) * (100000 / channels.length) : Nat) : ℚ) / 100000 -
          ((i * (100000 / channels.length) : Nat) : ℚ) / 100000 =
          ((100000 / channels.length : Nat) : ℚ) / 100000 := by
        push_cast
        ring
      have hw : |child.range.end_ - child.range.start -
          ((100000 / channels.length : Nat) : ℚ) / 100000| ≤ 1 / 2 ^ 24 := by
        rw [hs, he, ← hdiff]
        rw [abs_le] at ea eb ⊢
        constructor <;> norm_num at ea eb ⊢ <;> linarith
      refine ⟨child, rfl, hs, he, hw, ?_⟩
      rw [abs_lt] at hstep ⊢
      rw [abs_le] at hw
      constructor <;> linarith
  · have h := hr (channels.length - 1) (by omega)
    cases hc : v.1.children[channels.length - 1]? with
    | none => rw [hc] at h; cases h
    | some child =>
      rw [hc] at h
      simp only [Option.map_some', Option.some.injEq] at h
      have he : channels.length - 1 + 1 = channels.length := by omega
      rw [if_pos he] at h
      refine ⟨child, rfl, by rw [h]; rfl, ?_⟩
      rw [h]
      exact float.round_one

/-- Witness for C23: three sources give two ranges whose widths are within `2^-24` of
33333/100000, hence within `1/100000 + 2^-24` of 1/3, and a last range up to 1. -/
theorem addDBCompound_width_witness :
    ∃ v, Example.dbGroup 3 = .ok v ∧ v.1.children.length = 3 ∧
      (∀ i, i + 1 < 3 → ∃ child, v.1.children[i]? = some child ∧
        |child.range.end_ - child.range.start - 33333 / 100000| ≤ 1 / 2 ^ 24 ∧
        |child.range.end_ - child.range.start - 1 / 3| < 1 / 100000 + 1 / 2 ^ 24) ∧
      (∃ child, v.1.children[2]? = some child ∧ child.range.end_ = 1) := by
  obtain ⟨v, hv, hlen, hw, hlast, _, _⟩ := addDBCompound_width true
    (Example.segmentTask "static DB") (Example.manySources 3) 0
    { id := 2, name := "channel", layout := some "static DB", canvas := some 3,
      segment := true, segmentChannel := some 2 } (by decide) rfl (Or.inr rfl)
  have hl : (Example.manySources 3).length = 3 := rfl
  rw [hl] at hlen hw hlast
  refine ⟨v, hv, hlen, ?_, ?_⟩
  · intro i hi
    obtain ⟨child, hc, _, _, h1, h2⟩ := hw i hi
    refine ⟨child, hc, ?_, ?_⟩
    · norm_num at h1 ⊢
      exact h1
    · norm_num at h2 ⊢
      exact h2
  · obtain ⟨child, hc, _, he⟩ := hlast
    exact ⟨child, hc, he⟩

/-! ### Groups `configure` adds for each layout -/

namespace config
namespace Resources

/-- The load-balancing policies of the stereo group `_addEyeCompound` builds and of its two
eyes: the group carries none; an eye carries none when its half of the sources is empty or
is exactly the channel of the group, and one two-dimensional policy otherwise. -/
theorem addEyeCompound_policies (checked : Bool) (root : Compound) (channels : List ChannelPtr)
    (counter : Int) (rootChannel : Channel) (hne : channels ≠ [])
    (hroot : root.getChannel = some rootChannel)
    (hout : checked = false ∨ (outputChannelOf rootChannel).isSome = true) :
    ∃ v left right, _addEyeCompound checked root channels counter = .ok v ∧
      v.1.name = "Stereo" ∧ v.1.equalizers = [] ∧ v.1.children = [left, right] ∧
      ((leftChannels channels = [] ∨ ∃ x : Channel,
          leftChannels channels = [some x] ∧ x.id = rootChannel.id) → left.equalizers = []) ∧
      (¬ (leftChannels channels = [] ∨ ∃ x : Channel,
          leftChannels channels = [some x] ∧ x.id = rootChannel.id) →
        left.equalizers = [{ mode := .MODE_2D, frozen := false }]) ∧
      ((rightChannels channels = [] ∨ ∃ x : Channel,
          rightChannels channels = [some x] ∧ x.id = rootChannel.id) → right.equalizers = []) ∧
      (¬ (rightChannels channels = [] ∨ ∃ x : Channel,
          rightChannels channels = [some x] ∧ x.id = rootChannel.id) →
        right.equalizers = [{ mode := .MODE_2D, frozen := false }]) := by
  have hst : ∀ parent : Compound, parent.getChannel = some rootChannel →
      ∀ (half : List ChannelPtr) (k : Int), ∃ e, eyeChild checked parent half k = .ok e ∧
        ((half = [] ∨ ∃ x : Channel, half = [some x] ∧ x.id = rootChannel.id) →
          e.1.equalizers = []) ∧
        (¬ (half = [] ∨ ∃ x : Channel, half = [some x] ∧ x.id = rootChannel.id) →
          e.1.equalizers = [{ mode := .MODE_2D, frozen := false }]) := by
    intro parent hp half k
    obtain ⟨h1, h2⟩ := eyeChild_cases checked parent half k rootChannel hp
    obtain ⟨g, hg, _, hge, _, _⟩ := add2DCompound_returns checked parent half k rootChannel hp
      hout
    by_cases hd : half = [] ∨ ∃ x : Channel, half = [some x] ∧ x.id = rootChannel.id
    · exact ⟨_, h1 hd, fun _ => rfl, fun hn => absurd hd hn⟩
    · exact ⟨g, (h2 hd).trans hg, fun hy => absurd hy hd, fun _ => hge⟩
  obtain ⟨l, hl, hl1, hl2⟩ := hst { Compound.new root with name := "Stereo" }
    (by simpa [Compound.new, Compound.getChannel] using hroot) (leftChannels channels) counter
  obtain ⟨r, hr, hr1, hr2⟩ := hst
    (Compound.addChild { Compound.new root with name := "Stereo" }
      { l.1 with eyes := some { cyclop := true, left := true, right := false } })
    (by simpa [Compound.new, Compound.getChannel, Compound.addChild] using hroot)
    (rightChannels channels) l.2
  exact ⟨_, _, _, addEyeCompound_of_eyes checked root channels counter hne l r hl hr, rfl, rfl,
    rfl, hl1, hl2, hr1, hr2⟩

end Resources
end config

/-- Counterexample to C24 as stated: of the two groups `configure` adds for the layout "2D",
the group "2D" carries one load-balancing policy and the group "Stereo" none, for the single
source of the one-host example as for five sources. -/
theorem configure_groups_counterexample :
    (Example.addedGroups "2D").map (fun g => (g.name, g.equalizers)) =
      [("2D", [{ mode := .MODE_2D, frozen := false }]), ("Stereo", [])] ∧
    ∃ v, config.Resources.configure true [Example.topTask "2D"] (Example.manySources 5) 0 =
        .ok v ∧
      v.1.map (fun top => top.children.map (fun segment =>
        segment.children.map (fun g => (g.name, g.equalizers)))) =
        [[[("2D", [{ mode := .MODE_2D, frozen := false }]), ("Stereo", [])]]] := by
  refine ⟨by decide, _, rfl, by decide⟩

/-- C24 (amended): for a top-level task whose single child is a segment task naming a
channel (with, under assertion checking, an output surface for its segment) and a non-empty
source list, `configure` adds under the segment task: for the layout "2D" exactly two
groups, first the group "2D" restricted to the cyclop eye, which carries one two-dimensional
load-balancing policy, then the group "Stereo" restricted to the left and right eyes, which
carries no policy itself and has the two eye children, each of which carries one
two-dimensional policy unless its half of the sources is empty or is exactly the channel of
the segment; for "static DB" one group of that name, without policy, with one child per
source; for "dynamic DB" one such group with exactly one policy, of DB mode; for "Simple"
nothing. -/
theorem configure_groups (checked : Bool) (top segment : Compound) (channel : Channel)
    (name : String) (channels : List config.ChannelPtr) (counter : Int)
    (hne : channels ≠ []) (hchildren : top.children = [segment])
    (hchannel : segment.getChannel = some channel) (hlayout : channel.layout = some name)
    (hout : checked = false ∨ (config.Resources.outputChannelOf channel).isSome = true) :
    (name = "2D" → ∃ k mono stereo left right,
      config.Resources.configure checked [top] channels counter =
        .ok ([{ top with children :=
                [{ segment with children := segment.children ++ [mono, stereo] }] }], k) ∧
      mono.name = "2D" ∧ mono.eyes = some { cyclop := true, left := false, right := false } ∧
      mono.equalizers = [{ mode := .MODE_2D, frozen := false }] ∧
      mono.children.length = channels.length ∧
      stereo.name = "Stereo" ∧
      stereo.eyes = some { cyclop := false, left := true, right := true } ∧
      stereo.equalizers = [] ∧ stereo.children = [left, right] ∧
      ((config.Resources.leftChannels channels = [] ∨ ∃ x : Channel,
          config.Resources.leftChannels channels = [some x] ∧ x.id = channel.id) →
        left.equalizers = []) ∧
      (¬ (config.Resources.leftChannels channels = [] ∨ ∃ x : Channel,
          config.Resources.leftChannels channels = [some x] ∧ x.id = channel.id) →
        left.equalizers = [{ mode := .MODE_2D, frozen := false }]) ∧
      ((config.Resources.rightChannels channels = [] ∨ ∃ x : Channel,
          config.Resources.rightChannels channels = [some x] ∧ x.id = channel.id) →
        right.equalizers = []) ∧
      (¬ (config.Resources.rightChannels channels = [] ∨ ∃ x : Channel,
          config.Resources.rightChannels channels = [some x] ∧ x.id = channel.id) →
        right.equalizers = [{ mode := .MODE_2D, frozen := false }])) ∧
    (name = "static DB" → ∃ k db,
      config.Resources.configure checked [top] channels counter =
        .ok ([{ top with children :=
                [{ segment with children := segment.children ++ [db] }] }], k) ∧
      db.name = "static DB" ∧ db.equalizers = [] ∧ db.children.length = channels.length) ∧
    (name = "dynamic DB" → ∃ k db,
      config.Resources.configure checked [top] channels counter =
        .ok ([{ top with children :=
                [{ segment with children := segment.children ++ [db] }] }], k) ∧
      db.name = "dynamic DB" ∧ db.equalizers = [{ mode := .MODE_DB, frozen := false }] ∧
      db.children.length = channels.length) ∧
    (name = "Simple" →
      config.Resources.configure checked [top] channels counter = .ok ([top], counter)) := by
  have hconf : config.Resources.configure checked [top] channels counter =
      (config.Resources.configureOne checked channels top none counter).bind
        (fun r => .ok ([r.1], r.2.2)) := by
    unfold config.Resources.configure
    cases channels with
    | nil => exact absurd rfl hne
    | cons s ss =>
      simp only [EQASSERT, List.isEmpty_cons, Bool.not_false, Bool.not_true, Bool.and_false,
        Bool.false_eq_true, if_false, bind, Except.bind, Bool.or_self,
        config.Resources.configureLoop, pure, Except.pure]
  have hunfold : config.Resources.configureOne checked channels top none counter =
      (if name = "2D" then
          (config.Resources._add2DCompound checked segment channels counter).bind (fun r =>
            (config.Resources._addEyeCompound checked
              (segment.addChild
                { r.1 with eyes := some { cyclop := true, left := false, right := false } })
              channels r.2).bind (fun r' =>
              .ok ({ top with children :=
                      [(segment.addChild
                        { r.1 with
                          eyes := some { cyclop := true, left := false, right := false } }).addChild
                        { r'.1 with
                          eyes := some { cyclop := false, left := true, right := true } }] },
                channel.canvas, r'.2)))
        else if name = "static DB" ∨ name = "dynamic DB" then
          (config.Resources._addDBCompound checked segment channels counter).bind (fun r =>
            .ok ({ top with children :=
                    [segment.addChild
                      (if name = "dynamic DB"
                        then { ({ r.1 with name := name } : Compound) with
                               equalizers := r.1.equalizers ++
                                 [{ mode := .MODE_DB, frozen := false }] }
                        else { r.1 with name := name })] },
              channel.canvas, r.2))
        else if name = "Simple" then .ok (top, channel.canvas, counter)
        else (EQASSERT checked false "Unimplemented" counter).bind (fun _ =>
          .ok (top, channel.canvas, counter))) := by
    unfold config.Resources.configureOne
    simp only [hchildren, hchannel, hlayout, EQASSERT, List.length_singleton, beq_self_eq_true,
      Bool.not_true, Bool.and_false, Bool.false_eq_true, if_false, Option.isSome_some,
      Option.isNone_none, Bool.true_or, bind, Except.bind, pure, Except.pure]
    by_cases h1 : name = "2D"
    · simp only [h1, if_true]
    · simp only [h1, if_false]
      by_cases h2 : name = "static DB" ∨ name = "dynamic DB"
      · have h2' : (decide (name = "static DB") || decide (name = "dynamic DB")) = true := by
          simpa using h2
        simp only [h2, h2', if_true]
      · have h2' : (decide (name = "static DB") || decide (name = "dynamic DB")) = false := by
          simpa using h2
        simp only [h2, h2', if_false, Bool.false_eq_true]
  rw [hconf, hunfold]
  refine ⟨?_, ?_, ?_, ?_⟩
  · intro hname
    obtain ⟨g, hg, hg1, hg2, _, hg4⟩ := config.Resources.add2DCompound_returns checked segment
      channels counter channel hchannel hout
    obtain ⟨v, left, right, hv, hv1, hv2, hv3, hl1, hl2, hr1, hr2⟩ :=
      config.Resources.addEyeCompound_policies checked
        (segment.addChild
          { g.1 with eyes := some { cyclop := true, left := false, right := false } })
        channels g.2 channel hne
        (by simpa [Compound.addChild, Compound.getChannel] using hchannel) hout
    refine ⟨v.2, { g.1 with eyes := some { cyclop := true, left := false, right := false } },
      { v.1 with eyes := some { cyclop := false, left := true, right := true } }, left, right,
      ?_, hg1, rfl, hg2, hg4, hv1, rfl, hv2, hv3, hl1, hl2, hr1, hr2⟩
    rw [if_pos hname, hg]
    simp only [Except.bind]
    rw [hv]
    simp [Compound.addChild]
  · intro hname
    obtain ⟨v, hv, hv1, hv2, _, _⟩ := config.Resources.addDBCompound_ranges checked segment
      channels counter channel hchannel hout
    refine ⟨v.2, { v.1 with name := "static DB" }, ?_, rfl, hv2, hv1⟩
    subst hname
    simp [hv, Except.bind, Compound.addChild]
  · intro hname
    obtain ⟨v, hv, hv1, hv2, _, _⟩ := config.Resources.addDBCompound_ranges checked segment
      channels counter channel hchannel hout
    refine ⟨v.2,
      { v.1 with
        name := "dynamic DB",
        equalizers := v.1.equalizers ++ [{ mode := .MODE_DB, frozen := false }] },
      ?_, rfl, by simp [hv2], hv1⟩
    subst hname
    simp [hv, Except.bind, Compound.addChild]
  · intro hname
    subst hname
    simp [Except.bind]

/-- Witness for C24: the segment of the one-host example with five sources, for the layout
"dynamic DB": one group with one policy, of DB mode, and five children. -/
theorem configure_groups_witness :
    ∃ k db, config.Resources.configure true [Example.topTask "dynamic DB"]
        (Example.manySources 5) 0 =
        .ok ([{ Example.topTask "dynamic DB" with
                children := [{ Example.segmentTask "dynamic DB" with
                  children := (Example.segmentTask "dynamic DB").children ++ [db] }] }], k) ∧
      db.name = "dynamic DB" ∧ db.equalizers = [{ mode := .MODE_DB, frozen := false }] ∧
      db.children.length = 5 :=
  (configure_groups true (Example.topTask "dynamic DB") (Example.segmentTask "dynamic DB")
    { id := 2, name := "channel", layout := some "dynamic DB", canvas := some 3,
      segment := true, segmentChannel := some 2 } "dynamic DB" (Example.manySources 5) 0
    (by decide) rfl rfl rfl (Or.inr rfl)).2.2.1 rfl

/-! ### Error texts collected by `_updateNodes` -/

theorem updateNode_getElem_ne (c : Config) (i j : Nat) (f : Node → Node) (h : j ≠ i) :
    (c.updateNode i f).nodes[j]? = c.nodes[j]? := by
  unfold updateNode
  split
  · simp [List.getElem?_set_ne (Ne.symm h)]
  · rfl

theorem updateNode_length (c : Config) (i : Nat) (f : Node → Node) :
    (c.updateNode i f).nodes.length = c.nodes.length := by
  unfold updateNode
  split
  · simp
  · rfl

theorem updateNode_log (c : Config) (i : Nat) (f : Node → Node) :
    (c.updateNode i f).log = c.log ∧ (c.updateNode i f).errorMessage = c.errorMessage := by
  unfold updateNode
  split <;> exact ⟨rfl, rfl⟩

/-- What the second loop of `_updateNodes` does from node `a` on, when the nodes before `a`
have been awaited: the remaining nodes are awaited in order, the result is the conjunction
of the result so far and of their answers, and the texts of the failing ones are appended to
the error message in node order. -/
theorem syncRunningLoop_spec (env : Env) (log : List Action) (initID currentFrame : Nat)
    (nodes : List Node) : ∀ (m a : Nat) (result : Bool) (c : Config),
    a + m = nodes.length →
    c.log = log ++ (List.range nodes.length).map
        (fun i => Action.nodeUpdateRunning i initID currentFrame) ++
      (List.range a).map Action.nodeSyncRunning →
    (∀ j, a ≤ j → c.nodes[j]? = nodes[j]?) →
    (_syncRunningLoop env (List.range' a m) result c).2.log =
      log ++ (List.range nodes.length).map
          (fun i => Action.nodeUpdateRunning i initID currentFrame) ++
        (List.range (a + m)).map Action.nodeSyncRunning ∧
    (_syncRunningLoop env (List.range' a m) result c).1 =
      (result && (List.range' a m).all
        (fun j => !syncFails env log initID currentFrame nodes j)) ∧
    (_syncRunningLoop env (List.range' a m) result c).2.errorMessage =
      (((List.range' a m).filter (syncFails env log initID currentFrame nodes)).map
        (syncText env log initID currentFrame nodes)).foldl (fun s t => s ++ t)
        c.errorMessage := by
  intro m
  induction m with
  | zero =>
    intro a result c _ hlog _
    simp [_syncRunningLoop, hlog]
  | succ m ih =>
    intro a result c ham hlog hnodes
    have halt : a < nodes.length := by omega
    have hnode : c.nodes[a]? = some nodes[a] := by
      rw [hnodes a (le_refl a), List.getElem?_eq_getElem halt]
    have hans : syncAnswer env log initID currentFrame nodes a =
        some (env.syncRunning (c.log ++ [.nodeSyncRunning a]) a nodes[a]) := by
      simp only [syncAnswer, List.getElem?_eq_getElem halt, Option.map_some', emit, hlog,
        List.range_succ, List.map_append, List.map_cons, List.map_nil, List.append_assoc]
    have hfail : syncFails env log initID currentFrame nodes a =
        !(env.syncRunning (c.log ++ [.nodeSyncRunning a]) a nodes[a]).1 := by
      simp only [syncFails, hans]
    have htext : syncText env log initID currentFrame nodes a =
        "node " ++ nodes[a].name ++ ": '" ++
          (env.syncRunning (c.log ++ [.nodeSyncRunning a]) a nodes[a]).2.2.2 ++ "'" := by
      simp only [syncText, hans, List.getElem?_eq_getElem halt]
    have hlog' : ∀ c' : Config, c'.log = c.log ++ [.nodeSyncRunning a] →
        c'.log = log ++ (List.range nodes.length).map
          (fun i => Action.nodeUpdateRunning i initID currentFrame) ++
          (List.range (a + 1)).map Action.nodeSyncRunning := by
      intro c' hc'
      rw [hc']
      simp only [emit, hlog, List.range_succ, List.map_append, List.map_cons, List.map_nil,
        List.append_assoc]
    rw [List.range'_succ]
    simp only [_syncRunningLoop, hnode, emit]
    by_cases hok : (env.syncRunning (c.log ++ [.nodeSyncRunning a]) a nodes[a]).1 = true
    · obtain ⟨h1, h2, h3⟩ := ih (a + 1) result
        (({ c with log := c.log ++ [.nodeSyncRunning a] } : Config).updateNode a (fun n =>
          { n with
            state := (env.syncRunning (c.log ++ [.nodeSyncRunning a]) a nodes[a]).2.1,
            finishedFrame := (env.syncRunning (c.log ++ [.nodeSyncRunning a]) a nodes[a]).2.2.1,
            errorMessage := (env.syncRunning (c.log ++ [.nodeSyncRunning a]) a nodes[a]).2.2.2 }))
        (by omega) (hlog' _ (updateNode_log _ _ _).1)
        (by
          intro j hj
          rw [updateNode_getElem_ne _ _ _ _ (by omega)]
          exact hnodes j (by omega))
      simp only [hok, Bool.not_true, Bool.false_eq_true, if_false]
      refine ⟨?_, ?_, ?_⟩
      · rw [h1]; congr 3; omega
      · rw [h2]; simp [hfail, hok]
      · rw [h3, (updateNode_log _ _ _).2]
        simp [List.filter_cons, hfail, hok, emit]
    · have hok' : (env.syncRunning (c.log ++ [.nodeSyncRunning a]) a nodes[a]).1 = false := by
        simpa using hok
      obtain ⟨h1, h2, h3⟩ := ih (a + 1) false
        ((({ c with log := c.log ++ [.nodeSyncRunning a] } : Config).updateNode a (fun n =>
          { n with
            state := (env.syncRunning (c.log ++ [.nodeSyncRunning a]) a nodes[a]).2.1,
            finishedFrame := (env.syncRunning (c.log ++ [.nodeSyncRunning a]) a nodes[a]).2.2.1,
            errorMessage := (env.syncRunning (c.log ++ [.nodeSyncRunning a]) a nodes[a]).2.2.2 })).setErrorMessage
          ((({ c with log := c.log ++ [.nodeSyncRunning a] } : Config).updateNode a (fun n =>
          { n with
            state := (env.syncRunning (c.log ++ [.nodeSyncRunning a]) a nodes[a]).2.1,
            finishedFrame := (env.syncRunning (c.log ++ [.nodeSyncRunning a]) a nodes[a]).2.2.1,
            errorMessage := (env.syncRunning (c.log ++ [.nodeSyncRunning a]) a nodes[a]).2.2.2 })).errorMessage ++
            "node " ++ nodes[a].name ++ ": '" ++
            (env.syncRunning (c.log ++ [.nodeSyncRunning a]) a nodes[a]).2.2.2 ++ "'"))
        (by omega) (hlog' _ (updateNode_log _ _ _).1)
        (by
          intro j hj
          show (({ c with log := c.log ++ [.nodeSyncRunning a] } : Config).updateNode a _).nodes[j]? = _
          rw [updateNode_getElem_ne _ _ _ _ (by omega)]
          exact hnodes j (by omega))
      simp only [hok', Bool.not_false, if_true]
      refine ⟨?_, ?_, ?_⟩
      · rw [h1]; congr 3; omega
      · rw [h2]; simp [hfail, hok']
      · rw [h3]
        simp only [setErrorMessage, (updateNode_log _ _ _).2, emit, List.filter_cons, hfail,
          hok', Bool.not_false, if_true, List.map_cons, List.foldl_cons, htext]
        congr 1
        simp [String.append_assoc]

/-- C30: `_updateNodes` first issues the running-state update, with the init id and the
current frame, to every node in node order and only then awaits the nodes, in node order;
it returns success exactly when no node fails to synchronise; and the error message it
leaves is the previous one followed, for each failing node in node order, by the text
`node <name>: '<error message of the node>'`. The answer of a node is the one its
`syncRunning` gives when it is awaited, after the updates and the nodes before it. -/
theorem updateNodes_aggregates (env : Env) (c : Config) :
    (_updateNodes env c).2.log =
      c.log ++ (List.range c.nodes.length).map
          (fun i => Action.nodeUpdateRunning i c.initID c.currentFrame) ++
        (List.range c.nodes.length).map Action.nodeSyncRunning ∧
    ((_updateNodes env c).1 = true ↔
      ∀ j, j < c.nodes.length → syncFails env c.log c.initID c.currentFrame c.nodes j = false) ∧
    (_updateNodes env c).2.errorMessage =
      (((List.range c.nodes.length).filter
          (syncFails env c.log c.initID c.currentFrame c.nodes)).map
        (syncText env c.log c.initID c.currentFrame c.nodes)).foldl (fun s t => s ++ t)
        c.errorMessage ∧
    (∀ (j : Nat) (node : Node), c.nodes[j]? = some node →
      syncFails env c.log c.initID c.currentFrame c.nodes j =
        !(env.syncRunning
          (c.log ++ (List.range c.nodes.length).map
              (fun i => Action.nodeUpdateRunning i c.initID c.currentFrame) ++
            (List.range (j + 1)).map Action.nodeSyncRunning) j node).1 ∧
      syncText env c.log c.initID c.currentFrame c.nodes j =
        "node " ++ node.name ++ ": '" ++
          (env.syncRunning
            (c.log ++ (List.range c.nodes.length).map
                (fun i => Action.nodeUpdateRunning i c.initID c.currentFrame) ++
              (List.range (j + 1)).map Action.nodeSyncRunning) j node).2.2.2 ++ "'") := by
  obtain ⟨h1, h2, h3⟩ := syncRunningLoop_spec env c.log c.initID c.currentFrame c.nodes
    c.nodes.length 0 true
    (c.emitAll (c.nodeIndices.map
      (fun i => Action.nodeUpdateRunning i c.initID c.currentFrame)))
    (by omega) (by simp [emitAll, nodeIndices]) (fun _ _ => rfl)
  rw [← List.range_eq_range'] at h1 h2 h3
  rw [Nat.zero_add] at h1
  refine ⟨h1, ?_, h3, ?_⟩
  · show (_syncRunningLoop env (List.range c.nodes.length) true _).1 = true ↔ _
    rw [h2]
    simp [List.all_eq_true]
  · intro j node hj
    simp [syncFails, syncText, syncAnswer, hj]

/-- Witness for C30: three nodes that all fail to synchronise with the error "failed": the
result is failure and the three texts are appended in node order. -/
theorem updateNodes_aggregates_witness :
    (_updateNodes (Example.failingEnv false) Example.threeNodes).1 = false ∧
    (_updateNodes (Example.failingEnv false) Example.threeNodes).2.errorMessage =
      "node node: 'failed'node node: 'failed'node node: 'failed'" := by
  obtain ⟨_, h2, h3, _⟩ := updateNodes_aggregates (Example.failingEnv false) Example.threeNodes
  constructor
  · cases h : (_updateNodes (Example.failingEnv false) Example.threeNodes).1 with
    | false => rfl
    | true =>
      have := h2.mp h 0 (by decide)
      exact absurd this (by decide)
  · rw [h3]
    decide

/-! ### Steps added to the log by the reconciliation and the frame start -/

theorem adds_refl (P : Action → Bool) (c : Config) : Adds P c c :=
  ⟨[], by simp, by simp⟩

theorem adds_trans {P : Action → Bool} {c₁ c₂ c₃ : Config} (h₁ : Adds P c₁ c₂)
    (h₂ : Adds P c₂ c₃) : Adds P c₁ c₃ := by
  obtain ⟨n₁, e₁, p₁⟩ := h₁
  obtain ⟨n₂, e₂, p₂⟩ := h₂
  refine ⟨n₁ ++ n₂, by rw [e₂, e₁, List.append_assoc], ?_⟩
  intro a ha
  rcases List.mem_append.mp ha with h | h
  · exact p₁ a h
  · exact p₂ a h

theorem adds_mono {P Q : Action → Bool} {c c' : Config} (hPQ : ∀ a, P a = true → Q a = true)
    (h : Adds P c c') : Adds Q c c' := by
  obtain ⟨n, e, p⟩ := h
  exact ⟨n, e, fun a ha => hPQ a (p a ha)⟩

theorem adds_of_log {P : Action → Bool} {c c₁ c' : Config} (h : Adds P c c₁)
    (hlog : c'.log = c₁.log) : Adds P c c' := by
  obtain ⟨n, e, p⟩ := h
  exact ⟨n, hlog.trans e, p⟩

theorem adds_emit {P : Action → Bool} {c c₁ : Config} {a : Action} (h : Adds P c c₁)
    (ha : P a = true) : Adds P c (c₁.emit a) :=
  adds_trans h ⟨[a], rfl, by simpa using ha⟩

theorem adds_emitAll {P : Action → Bool} {c c₁ : Config} {l : List Action} (h : Adds P c c₁)
    (hl : ∀ a ∈ l, P a = true) : Adds P c (c₁.emitAll l) :=
  adds_trans h ⟨l, rfl, hl⟩

theorem adds_updateNode {P : Action → Bool} {c c₁ : Config} {i : Nat} {f : Node → Node}
    (h : Adds P c c₁) : Adds P c (c₁.updateNode i f) :=
  adds_of_log h (updateNode_log c₁ i f).1

theorem adds_setNode {P : Action → Bool} {c c₁ : Config} {i : Nat} {n : Option NetNode}
    (h : Adds P c c₁) : Adds P c (c₁.setNode i n) :=
  adds_updateNode h

theorem adds_setErrorMessage {P : Action → Bool} {c c₁ : Config} {m : String}
    (h : Adds P c c₁) : Adds P c (c₁.setErrorMessage m) :=
  adds_of_log h rfl

/-! #### The connection pass only talks to the connection layer -/

theorem adds_connectNode {env : Env} {i : Nat} {node : Node} {c : Config}
    {v : Bool × Config} (h : _connectNode env i node c = .ok v) :
    Adds Action.isConnect c v.2 := by
  simp only [_connectNode, bind, Except.bind, pure, Except.pure, EQASSERT] at h
  repeat' split at h
  all_goals cases h
  all_goals first
    | exact adds_refl _ _
    | exact adds_setErrorMessage (adds_emit (adds_refl _ _) rfl)
    | exact adds_setNode (adds_emit (adds_refl _ _) rfl)

theorem adds_syncConnectNode {env : Env} {i : Nat} {node : Node} {clock : List Action}
    {c : Config} {v : Bool × Config}
    (h : _syncConnectNode env i node clock c = .ok v) : Adds Action.isConnect c v.2 := by
  simp only [_syncConnectNode, bind, Except.bind, pure, Except.pure, EQASSERT] at h
  repeat' split at h
  all_goals cases h
  all_goals first
    | exact adds_refl _ _
    | exact adds_emit (adds_refl _ _) rfl
    | exact adds_setNode (adds_setErrorMessage (adds_emit (adds_refl _ _) rfl))

theorem adds_connectLoop {env : Env} (l : List Nat) : ∀ {c : Config} {v : Bool × Config},
    _connectLoop env l c = .ok v → Adds Action.isConnect c v.2 := by
  induction l with
  | nil =>
    intro c v h
    cases h
    exact adds_refl _ _
  | cons i rest ih =>
    intro c v h
    simp only [_connectLoop, bind, Except.bind, pure, Except.pure] at h
    repeat' split at h
    all_goals first
      | exact ih h
      | exact adds_trans (adds_connectNode ‹_›) (ih h)
      | (cases h; dsimp only; exact adds_connectNode ‹_›)
      | cases h

theorem adds_syncConnectLoop {env : Env} {clock : List Action} (l : List Nat) :
    ∀ {c : Config} {b : Bool} {v : Bool × Config},
    _syncConnectLoop env clock l b c = .ok v → Adds Action.isConnect c v.2 := by
  induction l with
  | nil =>
    intro c b v h
    cases h
    exact adds_refl _ _
  | cons i rest ih =>
    intro c b v h
    simp only [_syncConnectLoop, bind, Except.bind, pure, Except.pure] at h
    repeat' split at h
    all_goals first
      | exact ih h
      | exact adds_trans (adds_syncConnectNode ‹_›) (ih h)
      | cases h

theorem adds_connectNodes {env : Env} {c : Config} {v : Bool × Config}
    (h : _connectNodes env c = .ok v) : Adds Action.isConnect c v.2 := by
  simp only [_connectNodes, bind, Except.bind] at h
  split at h
  · cases h
  · exact adds_trans (adds_connectLoop _ ‹_›) (adds_syncConnectLoop _ h)

/-! #### The reconciliation starts no frame -/

theorem isConnect_noFrameStart (a : Action) (h : a.isConnect = true) :
    a.noFrameStart = true := by
  cases a <;> first | rfl | cases h

theorem adds_createConfig {env : Env} {node : Node} {c c' : Config}
    (h : _createConfig env node c = .ok c') : Adds Action.noFrameStart c c' := by
  simp only [_createConfig, bind, Except.bind, pure, Except.pure, EQASSERT] at h
  repeat' split at h
  all_goals cases h
  all_goals exact adds_emit (adds_emit (adds_refl _ _) (by rfl)) (by rfl)

theorem adds_startLoop {env : Env} (l : List Nat) :
    ∀ {c : Config} {requests : List Nat} {v : List Nat × Config},
    _startLoop env l requests c = .ok v → Adds Action.noFrameStart c v.2 := by
  induction l with
  | nil =>
    intro c requests v h
    cases h
    exact adds_refl _ _
  | cons i rest ih =>
    intro c requests v h
    simp only [_startLoop, bind, Except.bind, pure, Except.pure] at h
    repeat' split at h
    all_goals first
      | exact ih h
      | exact adds_trans (adds_createConfig ‹_›) (ih h)
      | cases h

theorem adds_startNodes {env : Env} {c c' : Config}
    (h : _startNodes env c = .ok c') : Adds Action.noFrameStart c c' := by
  simp only [_startNodes, bind, Except.bind, pure, Except.pure] at h
  split at h
  · cases h
  · cases h
    refine adds_emitAll (adds_startLoop _ ‹_›) ?_
    intro a ha
    obtain ⟨i, _, rfl⟩ := List.mem_map.mp ha
    rfl

theorem adds_updateCanvases (c : Config) : Adds Action.noFrameStart c (_updateCanvases c) := by
  refine adds_emitAll (adds_refl _ _) ?_
  intro a ha
  obtain ⟨e, _, rfl⟩ := List.mem_map.mp ha
  rfl

theorem adds_syncRunningLoop (env : Env) (l : List Nat) :
    ∀ (c : Config) (b : Bool), Adds Action.noFrameStart c (_syncRunningLoop env l b c).2 := by
  induction l with
  | nil => intro c b; exact adds_refl _ _
  | cons i rest ih =>
    intro c b
    simp only [_syncRunningLoop]
    repeat' split
    all_goals first
      | exact ih _ _
      | (refine adds_trans
          (adds_setErrorMessage (adds_updateNode (adds_emit (adds_refl _ _) ?_))) (ih _ _)
         rfl)

theorem adds_updateNodes (env : Env) (c : Config) :
    Adds Action.noFrameStart c (_updateNodes env c).2 := by
  unfold _updateNodes
  refine adds_trans (adds_emitAll (adds_refl _ _) ?_) (adds_syncRunningLoop env _ _ _)
  intro a ha
  obtain ⟨i, _, rfl⟩ := List.mem_map.mp ha
  rfl

theorem adds_stopLoop {env : Env} (l : List Nat) :
    ∀ {c : Config} {stopping : List Nat} {v : List Nat × Config},
    _stopLoop env l stopping c = .ok v → Adds Action.noFrameStart c v.2 := by
  induction l with
  | nil =>
    intro c stopping v h
    cases h
    exact adds_refl _ _
  | cons i rest ih =>
    intro c stopping v h
    rw [_stopLoop] at h
    split at h
    · exact ih h
    · split at h
      · exact ih h
      · split at h
        · exact adds_trans (adds_setNode (adds_refl _ c)) (ih h)
        · split at h
          · exact ih h
          · rename_i netNode _
            simp only [bind, Except.bind, EQASSERT] at h
            split at h
            · cases h
            · exact adds_trans
                (adds_emit (a := .send (.node (some netNode)) .ClientExit)
                  (adds_emit (a := .send (.node (some netNode)) .ServerDestroyConfig)
                    (adds_refl _ c) rfl) rfl) (ih h)

theorem adds_waitDisconnect (env : Env) (netNode : NetNode) (n : Nat) :
    ∀ (c : Config), Adds Action.noFrameStart c (_waitDisconnect env netNode n c).2 := by
  induction n with
  | zero => intro c; exact adds_refl _ _
  | succ n ih =>
    intro c
    simp only [_waitDisconnect]
    repeat' split
    all_goals first
      | exact adds_refl _ _
      | (refine adds_trans (adds_emit (adds_refl _ _) ?_) (ih _)
         rfl)

theorem adds_disconnectLoop (env : Env) (l : List Nat) :
    ∀ (n : Nat) (c : Config), Adds Action.noFrameStart c (_disconnectLoop env l n c) := by
  induction l with
  | nil => intro n c; exact adds_refl _ _
  | cons i rest ih =>
    intro n c
    simp only [_disconnectLoop]
    split
    · exact ih _ _
    · split
      · exact adds_trans (adds_setNode (adds_refl _ _)) (ih _ _)
      · rename_i netNode _
        refine adds_trans ?_ (ih _ _)
        have hr : ∀ r : Nat × Config, Adds Action.noFrameStart c r.2 →
            Adds Action.noFrameStart c
              (if env.isConnected r.2.log netNode then r.2.emit (.close netNode) else r.2) := by
          intro r hr
          split
          · exact adds_emit hr rfl
          · exact hr
        apply hr
        split
        · exact adds_trans (adds_setNode (adds_refl _ _)) (adds_waitDisconnect _ _ _ _)
        · exact adds_setNode (adds_refl _ _)

theorem adds_stopNodes {env : Env} {c c' : Config}
    (h : _stopNodes env c = .ok c') : Adds Action.noFrameStart c c' := by
  simp only [_stopNodes, bind, Except.bind, pure, Except.pure] at h
  split at h
  · cases h
  · cases h
    exact adds_trans (adds_stopLoop _ ‹_›) (adds_disconnectLoop _ _ _ _)

theorem adds_deleteEntities (c : Config) : Adds Action.noFrameStart c (_deleteEntities c) := by
  have hd : ∀ l : List Entity, ∀ a ∈ deleteActions l, a.noFrameStart = true := by
    intro l a ha
    obtain ⟨e, _, rfl⟩ := List.mem_map.mp ha
    rfl
  refine ⟨deleteActions c.canvases ++ deleteActions c.layouts ++ deleteActions c.observers ++
    (c.nodes.map (fun n =>
      (n.pipes.map (fun p => deleteWindowActions p.windows)).flatten)).flatten, ?_, ?_⟩
  · simp [_deleteEntities, emitAll]
  · intro a ha
    simp only [List.mem_append, List.mem_flatten, List.mem_map] at ha
    rcases ha with ((ha | ha) | ha) | ⟨l, ⟨n, _, rfl⟩, ha⟩
    · exact hd _ a ha
    · exact hd _ a ha
    · exact hd _ a ha
    · simp only [List.mem_flatten, List.mem_map] at ha
      obtain ⟨l', ⟨p, _, rfl⟩, ha⟩ := ha
      obtain ⟨w, _, rfl⟩ := List.mem_map.mp ha
      rfl

theorem adds_syncClockLoop {env : Env} (l : List Nat) : ∀ {c c' : Config},
    _syncClockLoop env l c = .ok c' → Adds Action.noFrameStart c c' := by
  induction l with
  | nil =>
    intro c c' h
    cases h
    exact adds_refl _ _
  | cons i rest ih =>
    intro c c' h
    simp only [_syncClockLoop, bind, Except.bind, pure, Except.pure, EQASSERT] at h
    repeat' split at h
    all_goals first
      | exact ih h
      | (refine adds_trans (adds_emit (adds_refl _ _) ?_) (ih h)
         rfl)
      | cases h

theorem adds_syncClock {env : Env} {c c' : Config}
    (h : _syncClock env c = .ok c') : Adds Action.noFrameStart c c' := by
  refine adds_trans (adds_emit (adds_refl _ _) ?_) (adds_syncClockLoop _ h)
  rfl

theorem adds_updateRunning {env : Env} {c : Config} {v : Bool × Config}
    (h : _updateRunning env c = .ok v) : Adds Action.noFrameStart c v.2 := by
  simp only [_updateRunning, bind, Except.bind, pure, Except.pure, EQASSERT] at h
  repeat' split at h
  all_goals try cases h
  · exact adds_refl _ _
  · dsimp only
    exact adds_trans (adds_setErrorMessage (m := "") (adds_refl _ c))
      (adds_mono isConnect_noFrameStart (adds_connectNodes ‹_›))
  · dsimp only
    refine adds_trans (adds_setErrorMessage (m := "") (adds_refl _ c)) ?_
    refine adds_trans (adds_mono isConnect_noFrameStart (adds_connectNodes ‹_›)) ?_
    refine adds_trans (adds_startNodes ‹_›) ?_
    refine adds_trans (adds_updateCanvases _) ?_
    refine adds_trans (adds_updateNodes env _) ?_
    refine adds_trans (adds_stopNodes ‹_›) ?_
    exact adds_trans (adds_deleteEntities _) (adds_syncClock ‹_›)

/-! #### Frames are started by `_startFrame` alone -/

theorem noFrameStart_startsOnly (frameID n : Nat) (a : Action) (h : a.noFrameStart = true) :
    a.startsOnly frameID n = true := by
  cases a <;> first | rfl | cases h

theorem adds_notifyNodeFrameFinished (n : Nat) (c : Config) :
    Adds Action.noFrameStart c (notifyNodeFrameFinished n c) := by
  unfold notifyNodeFrameFinished
  split
  · exact adds_refl _ _
  · split
    · exact adds_refl _ _
    · exact ⟨[.send .app (.ConfigFrameFinish n)], rfl, by simp [Action.noFrameStart,
        Action.isFrameStart]⟩

theorem adds_nodeFrameFinished (i n : Nat) (c : Config) :
    Adds Action.noFrameStart c (nodeFrameFinished i n c) :=
  adds_trans (adds_updateNode (adds_refl _ c)) (adds_notifyNodeFrameFinished n _)

theorem adds_flushAllFrames (c : Config) : Adds Action.noFrameStart c (_flushAllFrames c) := by
  unfold _flushAllFrames
  split
  · exact adds_refl _ _
  · refine adds_emitAll (adds_refl _ _) ?_
    intro a ha
    obtain ⟨i, _, rfl⟩ := List.mem_map.mp ha
    rfl

theorem adds_waitEQ (l : List (Nat × Nat)) : ∀ {c c' : Config}, waitEQ l c = .ok c' →
    Adds Action.noFrameStart c c' := by
  induction l with
  | nil =>
    intro c c' h
    simp only [waitEQ] at h
    split at h
    · cases h; exact adds_refl _ _
    · cases h
  | cons p rest ih =>
    intro c c' h
    obtain ⟨i, f⟩ := p
    simp only [waitEQ] at h
    split at h
    · cases h; exact adds_refl _ _
    · exact adds_trans (adds_nodeFrameFinished i f c) (ih h)

theorem adds_cmdStartFrameBegin {env : Env} {c c' : Config}
    (h : _cmdStartFrameBegin env c = .ok c') : Adds Action.noFrameStart c c' := by
  unfold _cmdStartFrameBegin at h
  dsimp only at h
  have h3 : Adds Action.noFrameStart c (((c.emit .syncObjects).emit
      (.send .requester .ConfigSync)).emit
        (.send .requester (.ConfigStartFrameReply c.needsFinish))) :=
    adds_emit (adds_emit (adds_emit (adds_refl _ c) rfl) rfl) rfl
  split at h
  · exact adds_trans (adds_trans h3 (adds_flushAllFrames _)) (adds_waitEQ _ h)
  · cases h
    exact h3

theorem adds_exit {env : Env} {c : Config} {v : Bool × Config} (h : exit env c = .ok v) :
    Adds Action.noFrameStart c v.2 := by
  simp only [exit, bind, Except.bind, pure, Except.pure, EQASSERT] at h
  repeat' split at h
  all_goals try cases h
  rename_i w hw
  have h1 : Adds Action.noFrameStart c
      (({ c with state := State.STATE_EXITING }.emitAll
        (forEach c.compounds.length Action.compoundExit)).emitAll
          (c.canvases.map (fun (e : Entity) => Action.canvasExit e.id))) := by
    refine adds_emitAll (adds_emitAll (adds_of_log (adds_refl _ c) rfl) ?_) ?_
    · intro a ha
      obtain ⟨i, _, rfl⟩ := List.mem_map.mp ha
      rfl
    · intro a ha
      obtain ⟨e, _, rfl⟩ := List.mem_map.mp ha
      rfl
  have h2 := adds_trans h1 (adds_updateRunning hw)
  have h3 : Adds Action.noFrameStart c
      ((w.2.emitAll (forEach w.2.compounds.length Action.compoundDeregister)).emit
        (.send .app .ConfigEventExit)) := by
    refine adds_emit (adds_emitAll h2 ?_) rfl
    intro a ha
    obtain ⟨i, _, rfl⟩ := List.mem_map.mp ha
    rfl
  exact adds_of_log h3 rfl

theorem adds_startFrameBegin (frameID : Nat) (c : Config) :
    Adds (Action.startsOnly frameID (incr32 c.currentFrame)) c (_startFrameBegin frameID c) := by
  have h1 : Adds (Action.startsOnly frameID (incr32 c.currentFrame)) c
      (((({ c with currentFrame := incr32 c.currentFrame } : Config).emitAll
        (forEach c.compounds.length
          (fun i => Action.compoundUpdate i (incr32 c.currentFrame)))).emit .updateData).emitAll
        (c.activeIndices.map
          (fun i => Action.nodeUpdate i frameID (incr32 c.currentFrame)))) := by
    refine adds_emitAll (adds_emit (adds_emitAll (adds_of_log (adds_refl _ c) rfl) ?_) rfl) ?_
    · intro a ha
      obtain ⟨i, _, rfl⟩ := List.mem_map.mp ha
      rfl
    · intro a ha
      obtain ⟨i, _, rfl⟩ := List.mem_map.mp ha
      simp [Action.startsOnly]
  unfold _startFrameBegin
  dsimp only
  split
  · exact adds_emit h1 rfl
  · exact h1

theorem adds_startFrame {env : Env} {frameID : Nat} {c c' : Config}
    (h : _startFrame env frameID c = .ok c') :
    Adds (Action.startsOnly frameID (incr32 c.currentFrame)) c c' := by
  simp only [_startFrame, bind, Except.bind, pure, Except.pure, EQASSERT] at h
  split at h
  · cases h
  · cases h
    exact adds_trans (adds_startFrameBegin frameID c)
      (adds_mono (noFrameStart_startsOnly _ _) (adds_notifyNodeFrameFinished _ _))

theorem adds_cmdStartFrameEnd (c : Config) :
    Adds Action.noFrameStart c (_cmdStartFrameEnd c) := by
  unfold _cmdStartFrameEnd
  dsimp only
  have h1 : Adds Action.noFrameStart c
      (if c.needsFinish = true then { _flushAllFrames c with needsFinish := false } else c) := by
    split
    · exact adds_of_log (adds_flushAllFrames c) rfl
    · exact adds_refl _ _
  have key : ∀ c₁ : Config, Adds Action.noFrameStart c c₁ →
      Adds Action.noFrameStart c
        (if c₁.state = .STATE_STOPPED
          then c₁.emit (.send .requester (.ConfigFrameFinish c₁.currentFrame)) else c₁) := by
    intro c₁ h
    split
    · exact adds_emit h rfl
    · exact h
  exact key _ h1

/-- The log of the opening of `_cmdStartFrame` when the needs-finish flag is set: the three
steps for the requester, the flush of the current frame on every active node (unless the
current frame is 0), and then whatever the wait for the nodes adds, which starts no
frame. -/
theorem cmdStartFrameBegin_log {env : Env} {c c₁ : Config} (hn : c.needsFinish = true)
    (h : _cmdStartFrameBegin env c = .ok c₁) :
    ∃ waited, c₁.log = c.log ++
        [.syncObjects, .send .requester .ConfigSync,
          .send .requester (.ConfigStartFrameReply true)] ++
        (if c.currentFrame = 0 then []
          else c.activeIndices.map (fun i => Action.nodeFlushFrames i c.currentFrame)) ++
        waited ∧
      ∀ a ∈ waited, a.noFrameStart = true := by
  have hflush : ∀ c₀ : Config, c₀.currentFrame = c.currentFrame → c₀.nodes = c.nodes →
      (_flushAllFrames c₀).log = c₀.log ++
        (if c.currentFrame = 0 then []
          else c.activeIndices.map (fun i => Action.nodeFlushFrames i c.currentFrame)) := by
    intro c₀ h1 h2
    unfold _flushAllFrames
    rw [h1]
    split
    · simp
    · simp [emitAll, activeIndices, nodeIndices, h2]
  unfold _cmdStartFrameBegin at h
  dsimp only at h
  split at h
  · obtain ⟨waited, hw, hP⟩ := adds_waitEQ _ h
    refine ⟨waited, ?_, hP⟩
    have key := hflush (((c.emit .syncObjects).emit (.send .requester .ConfigSync)).emit
      (.send .requester (.ConfigStartFrameReply
        ((c.emit .syncObjects).emit (.send .requester .ConfigSync)).needsFinish))) rfl rfl
    rw [hw, key]
    simp [emit, hn]
  · rename_i hneg
    exact absurd hn hneg

/-- C27: when the needs-finish flag is set as `ConfigStartFrame` is handled, the log of the
handler is in two parts. The first part, which ends with the state `c₁`, is the opening: the
reply to the requester, the flush of the current frame on every active node and the wait; no
node is told to start a frame in it, and at its end the finished-frame counter equals the
current-frame counter, which is still the one on entry (frame `N - 1`). Only in the second
part, the reconciliation and the start of the frame, are nodes told to start a frame, and
only the frame after the current one (frame `N`) under the id of the command. When the
handler returns the needs-finish flag is clear. -/
theorem cmdStartFrame_needsFinish (env : Env) (frameID : Nat) (c c' : Config)
    (hn : c.needsFinish = true) (h : _cmdStartFrame env frameID c = .ok c') :
    c'.needsFinish = false ∧
    ∃ (c₁ : Config) (waited second : List Action),
      _cmdStartFrameBegin env c = .ok c₁ ∧
      c₁.log = c.log ++
        [.syncObjects, .send .requester .ConfigSync,
          .send .requester (.ConfigStartFrameReply true)] ++
        (if c.currentFrame = 0 then []
          else c.activeIndices.map (fun i => Action.nodeFlushFrames i c.currentFrame)) ++
        waited ∧
      (∀ (i f n : Nat), Action.nodeUpdate i f n ∉ waited) ∧
      c₁.finishedFrame = c₁.currentFrame ∧ c₁.currentFrame = c.currentFrame ∧
      c'.log = c₁.log ++ second ∧
      (∀ (i f n : Nat), Action.nodeUpdate i f n ∈ second →
        f = frameID ∧ n = incr32 c.currentFrame) := by
  obtain ⟨_, hnf, _, _⟩ := cmdStartFrame_ok h
  refine ⟨hnf, ?_⟩
  unfold _cmdStartFrame at h
  simp only [bind, Except.bind, pure, Except.pure] at h
  cases hb : _cmdStartFrameBegin env c with
  | error e => rw [hb] at h; cases h
  | ok c₁ =>
    rw [hb] at h
    dsimp only at h
    obtain ⟨hb1, _, _, _, hb5, _⟩ := cmdStartFrameBegin_ok hb
    obtain ⟨waited, hwaited, hPwaited⟩ := cmdStartFrameBegin_log hn hb
    cases hu : _updateRunning env c₁ with
    | error e => rw [hu] at h; cases h
    | ok w =>
      rw [hu] at h
      dsimp only at h
      have hcw := core_updateRunning hu
      simp only [Config.core, Core.mk.injEq] at hcw
      have hw := adds_mono (noFrameStart_startsOnly frameID (incr32 c.currentFrame))
        (adds_updateRunning hu)
      have hrest : Adds (Action.startsOnly frameID (incr32 c.currentFrame)) c₁ c' := by
        by_cases hok : w.1 = true
        · rw [if_pos hok] at h
          cases hs : _startFrame env frameID w.2 with
          | error e => rw [hs] at h; cases h
          | ok c₂ =>
            rw [hs] at h
            cases h
            have h2 := adds_startFrame hs
            rw [hcw.1, hb1] at h2
            exact adds_trans hw (adds_trans h2
              (adds_mono (noFrameStart_startsOnly _ _) (adds_cmdStartFrameEnd c₂)))
        · rw [if_neg hok] at h
          cases hx : exit env w.2 with
          | error e => rw [hx] at h; cases h
          | ok v =>
            rw [hx] at h
            cases h
            refine adds_trans hw (adds_mono (noFrameStart_startsOnly _ _) ?_)
            exact adds_trans (adds_of_log (adds_exit hx) rfl) (adds_cmdStartFrameEnd _)
      obtain ⟨second, hsecond, hPsecond⟩ := hrest
      refine ⟨c₁, waited, second, rfl, hwaited, ?_, hb5 hn, hb1, hsecond, ?_⟩
      · intro i f n hmem
        have := hPwaited _ hmem
        cases this
      · intro i f n hmem
        have := hPsecond _ hmem
        simpa [Action.startsOnly] using this

/-- Witness for C27: three active nodes at frame 5, two of which have finished it, with the
needs-finish flag set; the third node reports frame 5 during the wait. The handler returns
with the flag clear, and the three nodes are told to start frame 6 only after the flush of
frame 5 and the report. -/
theorem cmdStartFrame_needsFinish_witness :
    ∃ c', _cmdStartFrame { Example.env false with arrivals := fun _ => [(2, 5)] } 7
        { Example.threeNodes with needsFinish := true } = .ok c' ∧
      c'.needsFinish = false ∧
      c'.log.filter (fun a => a.isFrameStart || a == .nodeFlushFrames 2 5) =
        [.nodeFlushFrames 2 5, .nodeUpdate 0 7 6, .nodeUpdate 1 7 6, .nodeUpdate 2 7 6] := by
  have hex : ∃ c', _cmdStartFrame { Example.env false with arrivals := fun _ => [(2, 5)] } 7
      { Example.threeNodes with needsFinish := true } = .ok c' := by
    have : (_cmdStartFrame { Example.env false with arrivals := fun _ => [(2, 5)] } 7
      { Example.threeNodes with needsFinish := true }).toBool = true := by rfl
    cases hc : _cmdStartFrame { Example.env false with arrivals := fun _ => [(2, 5)] } 7
      { Example.threeNodes with needsFinish := true } with
    | ok c' => exact ⟨c', rfl⟩
    | error e => rw [hc] at this; cases this
  obtain ⟨c', hc'⟩ := hex
  refine ⟨c', hc', (cmdStartFrame_needsFinish _ 7 _ c' rfl hc').1, ?_⟩
  have : (_cmdStartFrame { Example.env false with arrivals := fun _ => [(2, 5)] } 7
      { Example.threeNodes with needsFinish := true }).toOption.map
        (fun c' => c'.log.filter (fun a => a.isFrameStart || a == .nodeFlushFrames 2 5)) =
      some [.nodeFlushFrames 2 5, .nodeUpdate 0 7 6, .nodeUpdate 1 7 6, .nodeUpdate 2 7 6] := by
    rfl
  rw [hc'] at this
  simpa [Except.toOption] using this

/-! ### Error text after a failure to connect -/

theorem ne_empty_of_length {s : String} (h : 0 < s.length) : s ≠ "" := by
  intro he
  rw [he] at h
  simp at h

theorem updateNode_map {β : Type} (c : Config) (i : Nat) (f : Node → Node) (g : Node → β)
    (hg : ∀ n, g (f n) = g n) : (c.updateNode i f).nodes.map g = c.nodes.map g := by
  unfold updateNode
  split
  · rename_i n hn
    apply List.ext_getElem?
    intro j
    by_cases hj : i = j
    · subst hj
      simp [List.getElem?_set, hn, hg]
      exact (List.getElem?_eq_some_iff.mp hn).1
    · simp [List.getElem?_set, hj]
  · rfl

/-- The two ways `_connectNode` goes for an active node: a node that holds a handle is
answered with `isConnected()` and nothing else happens; a node without handle is connected,
with an error text on failure and the handle stored on success. -/
theorem connectNode_cases {env : Env} {i : Nat} {node : Node} {c : Config} {v : Bool × Config}
    (ha : node.active = true) (h : _connectNode env i node c = .ok v) :
    (∃ hd, node.node = some hd ∧ v = (env.isConnected c.log hd, c)) ∨
    (node.node = none ∧
      ((v.1 = false ∧ 0 < v.2.errorMessage.length ∧ v.2.nodes = c.nodes ∧
          v.2.appNetNode = c.appNetNode) ∨
        (v.1 = true ∧ v.2 = (c.emit (.initConnect
            (if node.applicationNode then c.appNetNode else some (_createNetNode i node)))).setNode i
            (if node.applicationNode then c.appNetNode else some (_createNetNode i node))))) := by
  simp only [_connectNode, bind, Except.bind, pure, Except.pure, EQASSERT, ha] at h
  cases hn : node.node with
  | some hd =>
    rw [hn] at h
    simp at h
    exact Or.inl ⟨hd, rfl, h.symm⟩
  | none =>
    rw [hn] at h
    refine Or.inr ⟨rfl, ?_⟩
    simp only [Bool.not_true, Bool.and_false, Bool.false_eq_true, ↓reduceIte] at h
    generalize (if node.applicationNode = true then c.appNetNode
      else some (_createNetNode i node)) = netNode at h ⊢
    by_cases hi : env.initConnect (c.emit (.initConnect netNode)).log netNode = true
    · simp [hi] at h
      exact Or.inr ⟨by rw [← h], by rw [← h]⟩
    · simp [hi] at h
      refine Or.inl ⟨by rw [← h], ?_, by rw [← h]; rfl, by rw [← h]; rfl⟩
      rw [← h]
      simp only [setErrorMessage, String.length_append]
      have : 0 < "Connection to node failed, node does not run and launch command failed: ".length := by
        decide
      omega

theorem setNode_getElem (c : Config) (i j : Nat) (netNode : Option NetNode) (n : Node)
    (h : (c.setNode i netNode).nodes[j]? = some n) :
    (j ≠ i ∧ c.nodes[j]? = some n) ∨
    (j = i ∧ n.node = netNode ∧ ∃ m, c.nodes[j]? = some m ∧ m.active = n.active) := by
  by_cases hj : j = i
  · subst hj
    unfold setNode updateNode at h
    split at h
    · rename_i m hm
      simp only [List.getElem?_set] at h
      simp only [↓reduceIte] at h
      split at h
      · cases h
        exact Or.inr ⟨rfl, rfl, m, hm, rfl⟩
      · cases h
    · rename_i hm
      rw [hm] at h
      cases h
  · rw [setNode, updateNode_getElem_ne _ _ _ _ hj] at h
    exact Or.inl ⟨hj, h⟩

/-- The first loop of `_connectNodes` over distinct node numbers, when no active node of the
loop holds a handle that is reported as not connected and the handle of the application is
set: a failure leaves an error text, and after a success every active node of the loop holds
a handle, as does every active node that held one before. -/
theorem connectLoop_spec (env : Env) : ∀ (l : List Nat) (c : Config) (v : Bool × Config),
    l.Nodup → c.appNetNode ≠ none →
    (∀ i ∈ l, ∀ n hd, c.nodes[i]? = some n → n.active = true → n.node = some hd →
      ∀ log, env.isConnected log hd = true) →
    _connectLoop env l c = .ok v →
    v.2.nodes.length = c.nodes.length ∧
    (v.1 = false → 0 < v.2.errorMessage.length) ∧
    (v.1 = true → ∀ j, (j ∈ l ∨ ∀ n, c.nodes[j]? = some n → n.active = true → n.node ≠ none) →
      ∀ n, v.2.nodes[j]? = some n → n.active = true → n.node ≠ none) := by
  intro l
  induction l with
  | nil =>
    intro c v _ _ _ h
    cases h
    refine ⟨rfl, ?_, ?_⟩
    · intro hf
      cases hf
    · intro _ j hj n hn ha
      rcases hj with hj | hj
      · cases hj
      · exact hj n hn ha
  | cons i rest ih =>
    intro c v hnd happ hstale h
    have hnd' := (List.nodup_cons.mp hnd).2
    have hi := (List.nodup_cons.mp hnd).1
    have hstale' : ∀ i ∈ rest, ∀ n hd, c.nodes[i]? = some n → n.active = true →
        n.node = some hd → ∀ log, env.isConnected log hd = true :=
      fun j hj => hstale j (List.mem_cons_of_mem _ hj)
    rw [_connectLoop] at h
    cases hnode : c.nodes[i]? with
    | none =>
      rw [hnode] at h
      dsimp only at h
      obtain ⟨h1, h2, h3⟩ := ih c v hnd' happ hstale' h
      refine ⟨h1, h2, ?_⟩
      intro ht j hj
      apply h3 ht j
      rcases hj with hj | hj
      · rcases List.mem_cons.mp hj with hj | hj
        · right
          intro n hn
          rw [hj, hnode] at hn
          cases hn
        · exact Or.inl hj
      · exact Or.inr hj
    | some node =>
      rw [hnode] at h
      dsimp only at h
      by_cases ha : node.active = true
      · rw [if_pos ha] at h
        simp only [bind, Except.bind, pure, Except.pure] at h
        cases hc : _connectNode env i node c with
        | error e => rw [hc] at h; cases h
        | ok w =>
          rw [hc] at h
          dsimp only at h
          rcases connectNode_cases ha hc with ⟨hd, hhd, hw⟩ | ⟨hnone, hw⟩
          · -- the node holds a handle, which is connected
            have hcon := hstale i (List.mem_cons_self _ _) node hd hnode ha hhd c.log
            rw [hw, hcon] at h
            simp only [Bool.not_true, Bool.false_eq_true, ↓reduceIte] at h
            obtain ⟨h1, h2, h3⟩ := ih c v hnd' happ hstale' h
            refine ⟨h1, h2, ?_⟩
            intro ht j hj
            apply h3 ht j
            rcases hj with hj | hj
            · rcases List.mem_cons.mp hj with hj | hj
              · right
                intro n hn _
                rw [hj, hnode] at hn
                cases hn
                rw [hhd]
                simp
              · exact Or.inl hj
            · exact Or.inr hj
          · rcases hw with ⟨hf, hm, hnodes, _⟩ | ⟨ht, hw⟩
            · rw [hf] at h
              simp only [Bool.not_false, ↓reduceIte] at h
              cases h
              refine ⟨by rw [hnodes], fun _ => hm, ?_⟩
              intro ht
              cases ht
            · rw [ht] at h
              simp only [Bool.not_true, Bool.false_eq_true, ↓reduceIte] at h
              have hset : ∀ j n, w.2.nodes[j]? = some n →
                  (j ≠ i ∧ c.nodes[j]? = some n) ∨
                  (j = i ∧ n.node ≠ none ∧ ∃ m, c.nodes[j]? = some m ∧ m.active = n.active) := by
                intro j n hn
                rw [hw] at hn
                rcases setNode_getElem _ i j _ n hn with hx | ⟨hx, hy, hz⟩
                · exact Or.inl hx
                · refine Or.inr ⟨hx, ?_, hz⟩
                  rw [hy]
                  split
                  · exact happ
                  · simp
              have happ' : w.2.appNetNode ≠ none := by
                rw [hw]
                unfold setNode updateNode
                split <;> exact happ
              have hlen : w.2.nodes.length = c.nodes.length := by
                rw [hw, setNode, updateNode_length]
                rfl
              obtain ⟨h1, h2, h3⟩ := ih w.2 v hnd' happ' (by
                intro j hj n hd hn hact hnd2
                rcases hset j n hn with ⟨_, hx⟩ | ⟨hx, _⟩
                · exact hstale' j hj n hd hx hact hnd2
                · rw [hx] at hj
                  exact absurd hj hi) h
              refine ⟨h1.trans hlen, h2, ?_⟩
              intro htv j hj
              apply h3 htv j
              rcases hj with hj | hj
              · rcases List.mem_cons.mp hj with hj | hj
                · right
                  intro n hn _
                  rcases hset j n hn with ⟨hx, _⟩ | ⟨_, hx, _⟩
                  · exact absurd hj hx
                  · exact hx
                · exact Or.inl hj
              · right
                intro n hn hact
                rcases hset j n hn with ⟨_, hx⟩ | ⟨_, hx, _⟩
                · exact hj n hx hact
                · exact hx
      · rw [if_neg ha] at h
        obtain ⟨h1, h2, h3⟩ := ih c v hnd' happ hstale' h
        refine ⟨h1, h2, ?_⟩
        intro ht j hj
        apply h3 ht j
        rcases hj with hj | hj
        · rcases List.mem_cons.mp hj with hj | hj
          · right
            intro n hn hact
            rw [hj, hnode] at hn
            cases hn
            exact absurd hact ha
          · exact Or.inl hj
        · exact Or.inr hj

/-- The ways `_syncConnectNode` goes for an active node: without a handle it fails and
nothing happens; with a handle it awaits the connection, and a failure leaves an error
text. -/
theorem syncConnectNode_cases {env : Env} {i : Nat} {node : Node} {clock : List Action}
    {c : Config} {v : Bool × Config} (ha : node.active = true)
    (h : _syncConnectNode env i node clock c = .ok v) :
    (0 < c.errorMessage.length → 0 < v.2.errorMessage.length) ∧
    ((node.node = none ∧ v = (false, c)) ∨
      (node.node ≠ none ∧ v.1 = false ∧ 0 < v.2.errorMessage.length) ∨
      (node.node ≠ none ∧ v.1 = true ∧ v.2.nodes = c.nodes ∧
        v.2.errorMessage = c.errorMessage)) := by
  simp only [_syncConnectNode, bind, Except.bind, pure, Except.pure, EQASSERT, ha] at h
  cases hn : node.node with
  | none =>
    rw [hn] at h
    simp at h
    rw [← h]
    exact ⟨fun x => x, Or.inl ⟨rfl, rfl⟩⟩
  | some hd =>
    rw [hn] at h
    simp only [Bool.not_true, Bool.and_false, Bool.false_eq_true, ↓reduceIte] at h
    split at h
    · cases h
      have key : 0 < ((c.emit (.syncConnect hd ((max (hd.launchTimeout -
          env.getTime64 clock c.log) 0).toNat % 2 ^ 32))).setErrorMessage
          ((c.emit (.syncConnect hd ((max (hd.launchTimeout -
            env.getTime64 clock c.log) 0).toNat % 2 ^ 32))).errorMessage ++
            "Connection of node failed, node did not start ( " ++
            String.join (hd.hostnames.map (fun h => h ++ " ")) ++ ") ")).errorMessage.length := by
        simp only [setErrorMessage, String.length_append]
        have : 0 < ") ".length := by decide
        omega
      have key' : ∀ (x : Config), (x.setNode i none).errorMessage = x.errorMessage :=
        fun x => (updateNode_log x i _).2
      refine ⟨fun _ => ?_, Or.inr (Or.inl ⟨by simp, rfl, ?_⟩)⟩
      · dsimp only
        rw [key']
        exact key
      · dsimp only
        rw [key']
        exact key
    · cases h
      exact ⟨fun x => x, Or.inr (Or.inr ⟨by simp, rfl, rfl, rfl⟩)⟩

/-- The second loop of `_connectNodes`, entered either with an error text or with success over
nodes that all hold a handle when active: when it returns failure there is an error
text. -/
theorem syncConnectLoop_spec (env : Env) (clock : List Action) :
    ∀ (l : List Nat) (b : Bool) (c : Config) (v : Bool × Config),
    (0 < c.errorMessage.length ∨
      (b = true ∧ ∀ j ∈ l, ∀ n, c.nodes[j]? = some n → n.active = true → n.node ≠ none)) →
    _syncConnectLoop env clock l b c = .ok v →
    v.1 = false → 0 < v.2.errorMessage.length := by
  intro l
  induction l with
  | nil =>
    intro b c v hinv h hf
    cases h
    rcases hinv with hinv | ⟨hb, _⟩
    · exact hinv
    · rw [hb] at hf
      cases hf
  | cons i rest ih =>
    intro b c v hinv h hf
    have hinv' : 0 < c.errorMessage.length ∨
        (b = true ∧ ∀ j ∈ rest, ∀ n, c.nodes[j]? = some n → n.active = true → n.node ≠ none) := by
      rcases hinv with hinv | ⟨hb, hall⟩
      · exact Or.inl hinv
      · exact Or.inr ⟨hb, fun j hj => hall j (List.mem_cons_of_mem _ hj)⟩
    rw [_syncConnectLoop] at h
    cases hnode : c.nodes[i]? with
    | none =>
      rw [hnode] at h
      exact ih b c v hinv' h hf
    | some node =>
      rw [hnode] at h
      dsimp only at h
      by_cases ha : node.active = true
      · rw [if_pos ha] at h
        simp only [bind, Except.bind, pure, Except.pure] at h
        cases hc : _syncConnectNode env i node clock c with
        | error e => rw [hc] at h; cases h
        | ok w =>
          rw [hc] at h
          dsimp only at h
          obtain ⟨hkeep, hcases⟩ := syncConnectNode_cases ha hc
          refine ih _ w.2 v ?_ h hf
          rcases hcases with ⟨hnone, hw⟩ | ⟨_, _, hm⟩ | ⟨_, ht, hnodes, hmsg⟩
          · rcases hinv with hinv | ⟨_, hall⟩
            · exact Or.inl (hkeep hinv)
            · exact absurd hnone (hall i (List.mem_cons_self _ _) node hnode ha)
          · exact Or.inl hm
          · rcases hinv' with hinv' | ⟨hb, hall⟩
            · exact Or.inl (hkeep hinv')
            · right
              rw [ht, hnodes]
              exact ⟨by simpa using hb, hall⟩
      · rw [if_neg ha] at h
        exact ih b c v hinv' h hf

theorem connectNode_states {env : Env} {i : Nat} {node : Node} {c : Config}
    {v : Bool × Config} (h : _connectNode env i node c = .ok v) :
    v.2.nodes.map (fun n => (n.active, n.state, n.finishedFrame)) =
      c.nodes.map (fun n => (n.active, n.state, n.finishedFrame)) := by
  simp only [_connectNode, bind, Except.bind, pure, Except.pure, EQASSERT] at h
  repeat' split at h
  all_goals cases h
  all_goals first
    | rfl
    | exact updateNode_map _ _ _ _ (fun _ => rfl)

theorem syncConnectNode_states {env : Env} {i : Nat} {node : Node} {clock : List Action}
    {c : Config} {v : Bool × Config} (h : _syncConnectNode env i node clock c = .ok v) :
    v.2.nodes.map (fun n => (n.active, n.state, n.finishedFrame)) =
      c.nodes.map (fun n => (n.active, n.state, n.finishedFrame)) := by
  simp only [_syncConnectNode, bind, Except.bind, pure, Except.pure, EQASSERT] at h
  repeat' split at h
  all_goals cases h
  all_goals first
    | rfl
    | exact updateNode_map _ _ _ _ (fun _ => rfl)

theorem connectLoop_states {env : Env} (l : List Nat) : ∀ {c : Config} {v : Bool × Config},
    _connectLoop env l c = .ok v →
    v.2.nodes.map (fun n => (n.active, n.state, n.finishedFrame)) =
      c.nodes.map (fun n => (n.active, n.state, n.finishedFrame)) := by
  induction l with
  | nil =>
    intro c v h
    cases h
    rfl
  | cons i rest ih =>
    intro c v h
    simp only [_connectLoop, bind, Except.bind, pure, Except.pure] at h
    repeat' split at h
    all_goals first
      | exact ih h
      | exact (ih h).trans (connectNode_states ‹_›)
      | (cases h; dsimp only; exact connectNode_states ‹_›)
      | cases h

theorem syncConnectLoop_states {env : Env} {clock : List Action} (l : List Nat) :
    ∀ {c : Config} {b : Bool} {v : Bool × Config},
    _syncConnectLoop env clock l b c = .ok v →
    v.2.nodes.map (fun n => (n.active, n.state, n.finishedFrame)) =
      c.nodes.map (fun n => (n.active, n.state, n.finishedFrame)) := by
  induction l with
  | nil =>
    intro c b v h
    cases h
    rfl
  | cons i rest ih =>
    intro c b v h
    simp only [_syncConnectLoop, bind, Except.bind, pure, Except.pure] at h
    repeat' split at h
    all_goals first
      | exact ih h
      | exact (ih h).trans (syncConnectNode_states ‹_›)
      | cases h

/-- A failure of `_connectNodes` leaves an error text when the handle of the application is
set and no active node holds a handle that is reported as not connected; the nodes keep
their activation, run-state and last-finished frame in any case. -/
theorem connectNodes_spec {env : Env} {c : Config} {v : Bool × Config}
    (happ : c.appNetNode ≠ none)
    (hstale : ∀ n ∈ c.nodes, n.active = true → ∀ hd, n.node = some hd →
      ∀ log, env.isConnected log hd = true)
    (h : _connectNodes env c = .ok v) :
    (v.1 = false → 0 < v.2.errorMessage.length) ∧
    v.2.nodes.map (fun n => (n.active, n.state, n.finishedFrame)) =
      c.nodes.map (fun n => (n.active, n.state, n.finishedFrame)) := by
  simp only [_connectNodes, bind, Except.bind] at h
  cases h1 : _connectLoop env c.nodeIndices c with
  | error e => rw [h1] at h; cases h
  | ok w =>
    rw [h1] at h
    dsimp only at h
    refine ⟨?_, (syncConnectLoop_states _ h).trans (connectLoop_states _ h1)⟩
    obtain ⟨hlen, hfalse, htrue⟩ := connectLoop_spec env c.nodeIndices c w
      (List.nodup_range _) happ (by
        intro i _ n hd hn ha hnd
        exact hstale n (List.mem_iff_getElem?.mpr ⟨i, hn⟩) ha hd hnd) h1
    refine syncConnectLoop_spec env c.log w.2.nodeIndices w.1 w.2 v ?_ h
    cases hw : w.1 with
    | false => exact Or.inl (hfalse hw)
    | true =>
      right
      refine ⟨rfl, ?_⟩
      intro j hj
      apply htrue hw j
      left
      simpa [nodeIndices, hlen] using hj

/-- A failure to connect that does leave its message: in a configuration that is not
Stopped, whose application handle is set and none of whose active nodes holds a handle that
the connection layer reports as not connected, a
failure of `_connectNodes` makes `_updateRunning` return failure with the state
`_connectNodes` left, the error message is then not empty, the only steps of the pass are
calls that start or await a connection (no node is started, updated or torn down), and the
nodes keep their activation, run-state and last-finished frame. -/
theorem updateRunning_connect_failure (env : Env) (c c' : Config)
    (hstate : c.state ≠ .STATE_STOPPED) (happ : c.appNetNode ≠ none)
    (hstale : ∀ n ∈ c.nodes, n.active = true → ∀ hd, n.node = some hd →
      ∀ log, env.isConnected log hd = true)
    (h : _connectNodes env (c.setErrorMessage "") = .ok (false, c')) :
    _updateRunning env c = .ok (false, c') ∧
    c'.errorMessage ≠ "" ∧
    Adds Action.isConnect c c' ∧
    c'.nodes.map (fun n => (n.active, n.state, n.finishedFrame)) =
      c.nodes.map (fun n => (n.active, n.state, n.finishedFrame)) ∧
    c'.core = c.core := by
  obtain ⟨hmsg, hnodes⟩ := connectNodes_spec (c := c.setErrorMessage "") happ hstale h
  refine ⟨?_, ne_empty_of_length (hmsg rfl), ?_, hnodes, core_connectNodes h⟩
  · unfold _updateRunning
    rw [if_neg hstate]
    have hassert : (decide (c.state = .STATE_RUNNING) || decide (c.state = .STATE_INITIALIZING) ||
        decide (c.state = .STATE_EXITING)) = true := by
      cases hs : c.state <;> simp_all
    simp only [bind, Except.bind, pure, Except.pure, EQASSERT, hassert]
    simp [h]
  · obtain ⟨new, e, p⟩ := adds_connectNodes h
    exact ⟨new, e, p⟩

/-- An instance of it: one active node without a handle and a connection layer that cannot
start a connection: the pass fails and leaves an error text. -/
theorem updateRunning_connect_failure_witness :
    ∃ c', _updateRunning (Example.unreachableEnv false) Example.newNode = .ok (false, c') ∧
      c'.errorMessage ≠ "" := by
  have hex : ∃ c', _connectNodes (Example.unreachableEnv false)
      (Example.newNode.setErrorMessage "") = .ok (false, c') := by
    have : (_connectNodes (Example.unreachableEnv false)
      (Example.newNode.setErrorMessage "")).toOption.map (fun v => v.1) = some false := by rfl
    cases hc : _connectNodes (Example.unreachableEnv false)
      (Example.newNode.setErrorMessage "") with
    | ok v =>
      rw [hc] at this
      obtain ⟨b, c'⟩ := v
      simp [Except.toOption] at this
      exact ⟨c', by rw [this]⟩
    | error e => rw [hc] at this; cases this
  obtain ⟨c', hc'⟩ := hex
  have hall := updateRunning_connect_failure (Example.unreachableEnv false) Example.newNode c'
    (by decide) (by decide) (by
      intro n hn ha hd hnd
      simp [Example.newNode] at hn
      rw [hn] at hnd
      cases hnd) hc'
  exact ⟨c', hall.1, hall.2.1⟩

theorem timed_append (env : Env) (clock : List Action) : ∀ (x base y : List Action),
    timed env clock base (x ++ y) ↔ timed env clock base x ∧ timed env clock (base ++ x) y := by
  intro x
  induction x with
  | nil => intro base y; simp [timed]
  | cons a rest ih =>
    intro base y
    have hi := ih (base ++ [a]) y
    simp only [List.append_assoc, List.singleton_append] at hi
    simp only [List.cons_append, timed, and_assoc]
    exact and_congr_right (fun _ => hi)

theorem timed_decomp {env : Env} {clock base new : List Action} (h : timed env clock base new)
    {pre post : List Action} {netNode : NetNode} {timeOut : Nat}
    (hnew : new = pre ++ Action.syncConnect netNode timeOut :: post) :
    timeOut = (max (netNode.launchTimeout - env.getTime64 clock (base ++ pre)) 0).toNat % 2 ^ 32 := by
  rw [hnew, timed_append] at h
  exact h.2.1

/-- The step `_syncConnectNode` adds for an active node that holds a handle. -/
theorem syncConnectNode_log {env : Env} {i : Nat} {node : Node} {clock : List Action}
    {c : Config} {v : Bool × Config} (h : _syncConnectNode env i node clock c = .ok v) :
    (node.node = none ∧ v.2.log = c.log) ∨
    (∃ netNode, node.node = some netNode ∧
      v.2.log = c.log ++ [.syncConnect netNode
        ((max (netNode.launchTimeout - env.getTime64 clock c.log) 0).toNat % 2 ^ 32)]) := by
  simp only [_syncConnectNode, bind, Except.bind, pure, Except.pure, EQASSERT] at h
  cases hn : node.node with
  | none =>
    rw [hn] at h
    dsimp only at h
    left
    repeat' split at h
    all_goals first
      | (cases h; exact ⟨rfl, rfl⟩)
      | cases h
  | some hd =>
    rw [hn] at h
    dsimp only at h
    right
    refine ⟨hd, rfl, ?_⟩
    repeat' split at h
    all_goals first
      | (cases h; rfl)
      | (cases h; exact (updateNode_log _ _ _).1)
      | cases h

theorem connectNode_log {env : Env} {i : Nat} {node : Node} {c : Config}
    {v : Bool × Config} (h : _connectNode env i node c = .ok v) :
    v.2.log = c.log ∨ ∃ netNode, v.2.log = c.log ++ [.initConnect netNode] := by
  simp only [_connectNode, bind, Except.bind, pure, Except.pure, EQASSERT] at h
  repeat' split at h
  all_goals first
    | (cases h; exact Or.inl rfl)
    | (cases h; exact Or.inr ⟨_, rfl⟩)
    | (cases h; exact Or.inr ⟨_, (updateNode_log _ _ _).1⟩)
    | cases h

theorem connectLoop_timed (env : Env) (clock : List Action) : ∀ (l : List Nat) (c : Config)
    (v : Bool × Config), _connectLoop env l c = .ok v →
    ∃ new, v.2.log = c.log ++ new ∧ timed env clock c.log new := by
  intro l
  induction l with
  | nil =>
    intro c v h
    cases h
    exact ⟨[], by simp, trivial⟩
  | cons i rest ih =>
    intro c v h
    rw [_connectLoop] at h
    cases hnode : c.nodes[i]? with
    | none =>
      rw [hnode] at h
      exact ih c v h
    | some node =>
      rw [hnode] at h
      dsimp only at h
      by_cases ha : node.active = true
      · rw [if_pos ha] at h
        simp only [bind, Except.bind, pure, Except.pure] at h
        cases hc : _connectNode env i node c with
        | error e => rw [hc] at h; cases h
        | ok w =>
          rw [hc] at h
          dsimp only at h
          have hstep : ∃ s, w.2.log = c.log ++ s ∧ timed env clock c.log s := by
            rcases connectNode_log hc with hl | ⟨x, hl⟩
            · exact ⟨[], by simpa using hl, trivial⟩
            · exact ⟨[.initConnect x], hl, by simp [timed]⟩
          obtain ⟨s, hs, hts⟩ := hstep
          split at h
          · cases h
            exact ⟨s, hs, hts⟩
          · obtain ⟨new, hnew, htn⟩ := ih w.2 v h
            refine ⟨s ++ new, by rw [hnew, hs, List.append_assoc], ?_⟩
            rw [timed_append]
            rw [hs] at htn
            exact ⟨hts, htn⟩
      · rw [if_neg ha] at h
        exact ih c v h

theorem syncConnectLoop_timed (env : Env) (clock : List Action) : ∀ (l : List Nat) (b : Bool)
    (c : Config) (v : Bool × Config), _syncConnectLoop env clock l b c = .ok v →
    ∃ new, v.2.log = c.log ++ new ∧ timed env clock c.log new := by
  intro l
  induction l with
  | nil =>
    intro b c v h
    cases h
    exact ⟨[], by simp, trivial⟩
  | cons i rest ih =>
    intro b c v h
    rw [_syncConnectLoop] at h
    cases hnode : c.nodes[i]? with
    | none =>
      rw [hnode] at h
      exact ih b c v h
    | some node =>
      rw [hnode] at h
      dsimp only at h
      by_cases ha : node.active = true
      · rw [if_pos ha] at h
        simp only [bind, Except.bind, pure, Except.pure] at h
        cases hc : _syncConnectNode env i node clock c with
        | error e => rw [hc] at h; cases h
        | ok w =>
          rw [hc] at h
          dsimp only at h
          have hstep : ∃ s, w.2.log = c.log ++ s ∧ timed env clock c.log s := by
            rcases syncConnectNode_log hc with ⟨_, hl⟩ | ⟨x, _, hl⟩
            · exact ⟨[], by simpa using hl, trivial⟩
            · exact ⟨_, hl, by simp [timed]⟩
          obtain ⟨s, hs, hts⟩ := hstep
          obtain ⟨new, hnew, htn⟩ := ih _ w.2 v h
          refine ⟨s ++ new, by rw [hnew, hs, List.append_assoc], ?_⟩
          rw [timed_append]
          rw [hs] at htn
          exact ⟨hts, htn⟩
      · rw [if_neg ha] at h
        exact ih b c v h

theorem connectNodes_timed {env : Env} {c : Config} {v : Bool × Config}
    (h : _connectNodes env c = .ok v) :
    ∃ new, v.2.log = c.log ++ new ∧ timed env c.log c.log new := by
  simp only [_connectNodes, bind, Except.bind] at h
  cases h1 : _connectLoop env c.nodeIndices c with
  | error e => rw [h1] at h; cases h
  | ok w =>
    rw [h1] at h
    dsimp only at h
    obtain ⟨n₁, e₁, t₁⟩ := connectLoop_timed env c.log _ _ _ h1
    obtain ⟨n₂, e₂, t₂⟩ := syncConnectLoop_timed env c.log _ _ _ _ h
    refine ⟨n₁ ++ n₂, by rw [e₂, e₁, List.append_assoc], ?_⟩
    rw [timed_append]
    rw [e₁] at t₂
    exact ⟨t₁, t₂⟩

/-- C28: in one pass of `_connectNodes`, with a clock whose reading is never negative and
never goes back, every `syncConnect` step for a handle whose launch timeout `T` fits 32 bits
carries the timeout `max (T - e) 0`, where `e` is the reading, when the step is taken, of the
one clock started at the beginning of the pass; the timeout is a natural number, and of two
such steps for handles with the same `T` the later one does not carry the larger timeout.
Every active node that holds a handle when it is awaited gets exactly one such step, and the
handle made for a node by `_createNetNode` has the launch timeout of the node. -/
theorem connectNodes_timeouts (env : Env) (c : Config) (v : Bool × Config)
    (hpos : ∀ log, 0 ≤ env.getTime64 c.log log)
    (hmono : ∀ log more, env.getTime64 c.log log ≤ env.getTime64 c.log (log ++ more))
    (h : _connectNodes env c = .ok v) :
    ∃ new, v.2.log = c.log ++ new ∧
      (∀ pre netNode timeOut post, new = pre ++ Action.syncConnect netNode timeOut :: post →
        netNode.launchTimeout < 2 ^ 32 →
        (timeOut : Int) =
          max (netNode.launchTimeout - env.getTime64 c.log (c.log ++ pre)) 0) ∧
      (∀ pre netNode timeOut mid netNode' timeOut' post,
        new = pre ++ Action.syncConnect netNode timeOut ::
          (mid ++ Action.syncConnect netNode' timeOut' :: post) →
        netNode.launchTimeout < 2 ^ 32 →
        netNode'.launchTimeout = netNode.launchTimeout → timeOut' ≤ timeOut) ∧
      (∀ i node c₀ w, _syncConnectNode env i node c.log c₀ = .ok w →
        (node.node = none ∧ w.2.log = c₀.log) ∨
        (∃ netNode, node.node = some netNode ∧
          w.2.log = c₀.log ++ [.syncConnect netNode
            ((max (netNode.launchTimeout - env.getTime64 c.log c₀.log) 0).toNat % 2 ^ 32)])) ∧
      (∀ i node, (_createNetNode i node).launchTimeout = node.launchTimeout) := by
  obtain ⟨new, hnew, ht⟩ := connectNodes_timed h
  have key : ∀ pre netNode timeOut post,
      new = pre ++ Action.syncConnect netNode timeOut :: post →
      netNode.launchTimeout < 2 ^ 32 →
      (timeOut : Int) =
        max (netNode.launchTimeout - env.getTime64 c.log (c.log ++ pre)) 0 := by
    intro pre netNode timeOut post hd hT
    have := timed_decomp ht hd
    have h0 := hpos (c.log ++ pre)
    have hlt : (max (netNode.launchTimeout - env.getTime64 c.log (c.log ++ pre)) 0).toNat
        < 2 ^ 32 := by
      have h1 : max (netNode.launchTimeout - env.getTime64 c.log (c.log ++ pre)) 0 < 2 ^ 32 := by
        apply max_lt
        · omega
        · norm_num
      omega
    rw [Nat.mod_eq_of_lt hlt] at this
    rw [this]
    exact Int.toNat_of_nonneg (le_max_right _ _)
  refine ⟨new, hnew, key, ?_, fun i node c₀ w hw => syncConnectNode_log hw, fun _ _ => rfl⟩
  intro pre netNode timeOut mid netNode' timeOut' post hd hT hsame
  have h1 := key pre netNode timeOut _ hd hT
  have h2 := key (pre ++ Action.syncConnect netNode timeOut :: mid) netNode' timeOut' post
    (by rw [hd]; simp) (by rw [hsame]; exact hT)
  have hm := hmono (c.log ++ pre) (Action.syncConnect netNode timeOut :: mid)
  rw [List.append_assoc] at hm
  rw [hsame] at h2
  have : (timeOut' : Int) ≤ (timeOut : Int) := by
    rw [h1, h2]
    apply max_le_max _ (le_refl _)
    omega
  exact_mod_cast this

/-- Witness for C28: three nodes with a launch timeout of 60 s on a clock where every step
takes 25 s are awaited with 60 s, 35 s and 10 s. -/
theorem connectNodes_timeouts_witness :
    ∃ v new, _connectNodes Example.tickingEnv Example.threeNodes = .ok v ∧
      v.2.log = Example.threeNodes.log ++ new ∧
      new = [.syncConnect ⟨1, 60000, ["host"]⟩ 60000, .syncConnect ⟨1, 60000, ["host"]⟩ 35000,
        .syncConnect ⟨1, 60000, ["host"]⟩ 10000] ∧
      ∀ pre netNode timeOut post, new = pre ++ Action.syncConnect netNode timeOut :: post →
        netNode.launchTimeout < 2 ^ 32 →
        (timeOut : Int) = max (netNode.launchTimeout -
          Example.tickingEnv.getTime64 Example.threeNodes.log
            (Example.threeNodes.log ++ pre)) 0 := by
  have hlog : (_connectNodes Example.tickingEnv Example.threeNodes).toOption.map
      (fun v => v.2.log) = some [.syncConnect ⟨1, 60000, ["host"]⟩ 60000,
        .syncConnect ⟨1, 60000, ["host"]⟩ 35000, .syncConnect ⟨1, 60000, ["host"]⟩ 10000] := by
    decide
  cases hc : _connectNodes Example.tickingEnv Example.threeNodes with
  | error e => rw [hc] at hlog; cases hlog
  | ok v =>
    rw [hc] at hlog
    simp only [Except.toOption, Option.map_some', Option.some.injEq] at hlog
    obtain ⟨new, hnew, h1, _⟩ := connectNodes_timeouts Example.tickingEnv Example.threeNodes v
      (by intro log; simp [Example.tickingEnv, Example.threeNodes, Config.fresh])
      (by
        intro log more
        simp only [Example.tickingEnv, Example.env, List.length_append]
        push_cast
        omega) hc
    refine ⟨v, new, rfl, hnew, ?_, h1⟩
    rw [hlog] at hnew
    simpa [Example.threeNodes, Config.fresh] using hnew.symm

/-! ### Teardown of the stopped nodes -/

theorem setNode_lookup (c : Config) (i j : Nat) (x : Option NetNode) :
    (c.setNode i x).nodes[j]? =
      if j = i then (c.nodes[j]?).map (fun n => { n with node := x }) else c.nodes[j]? := by
  by_cases hj : j = i
  · subst hj
    rw [if_pos rfl]
    unfold setNode updateNode
    split
    · rename_i n hn
      simp [List.getElem?_set, hn, (List.getElem?_eq_some_iff.mp hn).1]
    · rename_i hn
      simp [hn]
  · rw [if_neg hj, setNode, updateNode_getElem_ne _ _ _ _ hj]

theorem setNode_log (c : Config) (i : Nat) (x : Option NetNode) :
    (c.setNode i x).log = c.log := (updateNode_log c i _).1

/-- The wait for one handle, entered with `n` sleeps left: it takes `k` sleeps, each while
the handle was connected, and what is left of the budget, counted as at least 1, together
with `k` does not exceed `n`. -/
theorem waitDisconnect_spec (env : Env) (netNode : NetNode) : ∀ (n : Nat) (c : Config),
    0 < n →
    ∃ k, (_waitDisconnect env netNode n c).2.log = c.log ++ List.replicate k (Action.sleep 100) ∧
      (_waitDisconnect env netNode n c).2.nodes = c.nodes ∧
      k + max (_waitDisconnect env netNode n c).1 1 ≤ n ∧
      ∀ j < k, env.isConnected (c.log ++ List.replicate j (Action.sleep 100)) netNode = true := by
  intro n
  induction n with
  | zero => intro c h; cases h
  | succ n ih =>
    intro c _
    rw [_waitDisconnect]
    by_cases hcon : env.isConnected c.log netNode = true
    · rw [if_pos hcon]
      by_cases hn : n = 0
      · rw [if_pos hn]
        exact ⟨0, by simp, rfl, by simp [hn], by intro j hj; cases hj⟩
      · rw [if_neg hn]
        obtain ⟨k, h1, h2, h3, h4⟩ := ih (c.emit (.sleep 100)) (Nat.pos_of_ne_zero hn)
        refine ⟨k + 1, ?_, h2, by omega, ?_⟩
        · rw [h1]
          simp [emit, List.replicate_succ]
        · intro j hj
          cases j with
          | zero => simpa using hcon
          | succ j =>
            have := h4 j (by omega)
            simpa [emit, List.replicate_succ] using this
    · rw [if_neg hcon]
      exact ⟨0, by simp, rfl, by simp, by intro j hj; cases hj⟩

/-- One round of the second loop of `_stopNodes` for a handle, entered with a budget of `b`
sleeps. -/
theorem disconnect_step (env : Env) (netNode : NetNode) (b : Nat) (c : Config)
    (r : Nat × Config)
    (hr : r = if b ≠ 0 then _waitDisconnect env netNode b c else (b, c)) :
    ∃ k, (if env.isConnected r.2.log netNode then r.2.emit (.close netNode) else r.2).log =
        c.log ++ (List.replicate k (Action.sleep 100) ++
          (if env.isConnected (c.log ++ List.replicate k (Action.sleep 100)) netNode
            then [Action.close netNode] else [])) ∧
      (if env.isConnected r.2.log netNode then r.2.emit (.close netNode) else r.2).nodes =
        c.nodes ∧
      k + max r.1 1 ≤ max b 1 ∧
      ∀ j < k, env.isConnected (c.log ++ List.replicate j (Action.sleep 100)) netNode = true := by
  have hw : ∃ k, r.2.log = c.log ++ List.replicate k (Action.sleep 100) ∧ r.2.nodes = c.nodes ∧
      k + max r.1 1 ≤ max b 1 ∧
      ∀ j < k, env.isConnected (c.log ++ List.replicate j (Action.sleep 100)) netNode = true := by
    by_cases hb : b = 0
    · rw [if_neg (by simpa using hb)] at hr
      rw [hr]
      exact ⟨0, by simp, rfl, by simp [hb], by intro j hj; cases hj⟩
    · rw [if_pos hb] at hr
      obtain ⟨k, h1, h2, h3, h4⟩ := waitDisconnect_spec env netNode b c (Nat.pos_of_ne_zero hb)
      rw [hr]
      exact ⟨k, h1, h2, by omega, h4⟩
  obtain ⟨k, h1, h2, h3, h4⟩ := hw
  refine ⟨k, ?_, ?_, h3, h4⟩
  · rw [← h1]
    split
    · simp [emit, h1]
    · simp [h1]
  · split
    · exact h2
    · exact h2

theorem filterMap_congr_mem {α β : Type} (l : List α) (f g : α → Option β)
    (h : ∀ x ∈ l, f x = g x) : l.filterMap f = l.filterMap g := by
  induction l with
  | nil => rfl
  | cons a rest ih =>
    rw [List.filterMap_cons, List.filterMap_cons, h a (List.mem_cons_self _ _),
      ih (fun x hx => h x (List.mem_cons_of_mem _ hx))]

/-- The second loop of `_stopNodes` over distinct node numbers, entered with a budget of `b`
sleeps: its steps are the rounds for the handles of these nodes, the sleeps are fewer than
the budget, and every node of the loop ends without handle. -/
theorem disconnectLoop_spec (env : Env) : ∀ (l : List Nat) (b : Nat) (c : Config), l.Nodup →
    ∃ new, (_disconnectLoop env l b c).log = c.log ++ new ∧
      torn env (l.filterMap (fun i => (c.nodes[i]?).bind (fun n => n.node))) c.log new ∧
      new.count (Action.sleep 100) + 1 ≤ max b 1 ∧
      ∀ j, (_disconnectLoop env l b c).nodes[j]? =
        if j ∈ l then (c.nodes[j]?).map (fun n => { n with node := none }) else c.nodes[j]? := by
  intro l
  induction l with
  | nil =>
    intro b c _
    exact ⟨[], by simp [_disconnectLoop], by simp [torn], by simp, by simp [_disconnectLoop]⟩
  | cons i rest ih =>
    intro b c hnd
    have hnd' := (List.nodup_cons.mp hnd).2
    have hi := (List.nodup_cons.mp hnd).1
    rw [_disconnectLoop]
    cases hnode : c.nodes[i]? with
    | none =>
      dsimp only
      obtain ⟨new, h1, h2, h3, h4⟩ := ih b c hnd'
      refine ⟨new, h1, ?_, h3, ?_⟩
      · simpa [List.filterMap_cons, hnode] using h2
      · intro j
        rw [h4 j]
        by_cases hj : j = i
        · subst hj
          simp [hi, hnode]
        · simp [hj]
    | some node =>
      dsimp only
      have hrest : rest.filterMap (fun j => ((c.setNode i none).nodes[j]?).bind (fun n => n.node)) =
          rest.filterMap (fun j => (c.nodes[j]?).bind (fun n => n.node)) := by
        apply filterMap_congr_mem
        intro j hj
        have hji : j ≠ i := fun e => hi (e ▸ hj)
        rw [setNode_lookup, if_neg hji]
      have hnodes : ∀ (c₃ : Config) (x : Config), c₃.nodes = (c.setNode i none).nodes →
          (∀ j, x.nodes[j]? = if j ∈ rest then (c₃.nodes[j]?).map (fun n => { n with node := none })
            else c₃.nodes[j]?) →
          ∀ j, x.nodes[j]? = if j ∈ i :: rest then
            (c.nodes[j]?).map (fun n => { n with node := none }) else c.nodes[j]? := by
        intro c₃ x h3 hx j
        rw [hx j, h3, setNode_lookup]
        by_cases hj : j = i
        · subst hj
          simp [hi]
        · simp [hj]
      cases hh : node.node with
      | none =>
        dsimp only
        obtain ⟨new, h1, h2, h3, h4⟩ := ih b (c.setNode i none) hnd'
        refine ⟨new, by rw [h1, setNode_log], ?_, h3, hnodes _ _ rfl h4⟩
        rw [hrest, setNode_log] at h2
        simpa [List.filterMap_cons, hnode, hh] using h2
      | some netNode =>
        dsimp only
        obtain ⟨k, hk1, hk2, hk3, hk4⟩ := disconnect_step env netNode b (c.setNode i none) _ rfl
        rw [setNode_log] at hk1 hk4
        obtain ⟨new, h1, h2, h3, h4⟩ := ih
          (if b ≠ 0 then _waitDisconnect env netNode b (c.setNode i none)
            else (b, c.setNode i none)).1
          (if env.isConnected (if b ≠ 0 then _waitDisconnect env netNode b (c.setNode i none)
              else (b, c.setNode i none)).2.log netNode
            then (if b ≠ 0 then _waitDisconnect env netNode b (c.setNode i none)
              else (b, c.setNode i none)).2.emit (.close netNode)
            else (if b ≠ 0 then _waitDisconnect env netNode b (c.setNode i none)
              else (b, c.setNode i none)).2) hnd'
        refine ⟨List.replicate k (Action.sleep 100) ++
          (if env.isConnected (c.log ++ List.replicate k (Action.sleep 100)) netNode
            then [Action.close netNode] else []) ++ new, ?_, ?_, ?_, hnodes _ _ hk2 h4⟩
        · rw [h1, hk1]
          simp
        · have hl : (i :: rest).filterMap (fun i => (c.nodes[i]?).bind (fun n => n.node)) =
              netNode :: rest.filterMap (fun i => (c.nodes[i]?).bind (fun n => n.node)) := by
            simp [List.filterMap_cons, hnode, hh]
          rw [hl]
          refine ⟨k, new, rfl, hk4, ?_⟩
          have hcongr := filterMap_congr_mem rest
            (fun j => (((if env.isConnected (if b ≠ 0 then _waitDisconnect env netNode b
                (c.setNode i none) else (b, c.setNode i none)).2.log netNode
              then (if b ≠ 0 then _waitDisconnect env netNode b (c.setNode i none)
                else (b, c.setNode i none)).2.emit (.close netNode)
              else (if b ≠ 0 then _waitDisconnect env netNode b (c.setNode i none)
                else (b, c.setNode i none)).2).nodes[j]?).bind (fun n => n.node)))
            (fun j => ((c.setNode i none).nodes[j]?).bind (fun n => n.node))
            (by intro j _; rw [hk2])
          rw [hcongr, hrest, hk1] at h2
          exact h2
        · have hc : ((if env.isConnected (c.log ++ List.replicate k (Action.sleep 100)) netNode
              then [Action.close netNode] else []) : List Action).count (Action.sleep 100) = 0 := by
            split <;> simp
          rw [List.count_append, List.count_append, hc, List.count_replicate_self]
          omega

theorem stoppingHandle_congr {c c₁ : Config} {j : Nat} (h : c₁.nodes[j]? = c.nodes[j]?) :
    c₁.stoppingHandle j = c.stoppingHandle j := by
  unfold stoppingHandle
  rw [h]

/-- The first loop of `_stopNodes` over distinct node numbers: it collects the nodes whose
handle is to be torn down, sends the two packets to each of these handles, and clears the
handle of the stopped application nodes. -/
theorem stopLoop_spec (env : Env) : ∀ (l stopping : List Nat) (c : Config)
    (v : List Nat × Config), l.Nodup → _stopLoop env l stopping c = .ok v →
    v.1 = stopping ++ l.filter (fun i => (c.stoppingHandle i).isSome) ∧
    v.2.log = c.log ++ (l.filterMap c.stoppingHandle).flatMap teardownPackets ∧
    ∀ j, v.2.nodes[j]? = (c.nodes[j]?).map (fun n =>
      if j ∈ l ∧ n.state = .STATE_STOPPED ∧ n.applicationNode = true
      then { n with node := none } else n) := by
  intro l
  induction l with
  | nil =>
    intro stopping c v _ h
    cases h
    refine ⟨by simp, by simp, ?_⟩
    intro j
    simp
  | cons i rest ih =>
    intro stopping c v hnd h
    have hnd' := (List.nodup_cons.mp hnd).2
    have hi := (List.nodup_cons.mp hnd).1
    -- a node that is skipped
    have skip : c.stoppingHandle i = none →
        (∀ n, c.nodes[i]? = some n → ¬ (n.state = .STATE_STOPPED ∧ n.applicationNode = true)) →
        _stopLoop env rest stopping c = .ok v →
        v.1 = stopping ++ (i :: rest).filter (fun i => (c.stoppingHandle i).isSome) ∧
        v.2.log = c.log ++ ((i :: rest).filterMap c.stoppingHandle).flatMap teardownPackets ∧
        ∀ j, v.2.nodes[j]? = (c.nodes[j]?).map (fun n =>
          if j ∈ i :: rest ∧ n.state = .STATE_STOPPED ∧ n.applicationNode = true
          then { n with node := none } else n) := by
      intro hs hna h
      obtain ⟨h1, h2, h3⟩ := ih stopping c v hnd' h
      refine ⟨by rw [h1]; simp [List.filter_cons, hs], by rw [h2]; simp [List.filterMap_cons, hs],
        ?_⟩
      intro j
      rw [h3 j]
      by_cases hj : j = i
      · subst hj
        cases hn : c.nodes[j]? with
        | none => rfl
        | some n =>
          have := hna n hn
          simp [hi, this]
      · simp [hj]
    rw [_stopLoop] at h
    cases hnode : c.nodes[i]? with
    | none =>
      rw [hnode] at h
      exact skip (by simp [stoppingHandle, hnode]) (by intro n hn; rw [hnode] at hn; cases hn) h
    | some node =>
      rw [hnode] at h
      dsimp only at h
      by_cases hst : node.state = .STATE_STOPPED
      · rw [if_neg (by simpa using hst)] at h
        by_cases happ : node.applicationNode = true
        · rw [if_pos happ] at h
          obtain ⟨h1, h2, h3⟩ := ih stopping (c.setNode i none) v hnd' h
          have hsame : ∀ j ∈ rest, (c.setNode i none).stoppingHandle j = c.stoppingHandle j := by
            intro j hj
            apply stoppingHandle_congr
            rw [setNode_lookup, if_neg (fun (e : j = i) => hi (e ▸ hj))]
          have hs : c.stoppingHandle i = none := by
            simp [stoppingHandle, hnode, happ]
          refine ⟨?_, ?_, ?_⟩
          · rw [h1, List.filter_cons, hs]
            simp only [Option.isSome_none, Bool.false_eq_true, ↓reduceIte]
            congr 1
            apply List.filter_congr
            intro j hj
            rw [hsame j hj]
          · rw [h2, setNode_log, List.filterMap_cons, hs]
            dsimp only
            rw [filterMap_congr_mem rest _ _ hsame]
          · intro j
            rw [h3 j, setNode_lookup]
            by_cases hj : j = i
            · subst hj
              simp [hi, hnode, hst, happ]
            · simp [hj]
        · rw [if_neg happ] at h
          cases hh : node.node with
          | none =>
            rw [hh] at h
            dsimp only at h
            exact skip (by simp [stoppingHandle, hnode, hh]) (by
              intro n hn
              rw [hnode] at hn
              cases hn
              exact fun hc => happ hc.2) h
          | some netNode =>
            rw [hh] at h
            simp only [bind, Except.bind, EQASSERT] at h
            split at h
            · cases h
            · obtain ⟨h1, h2, h3⟩ := ih (stopping ++ [i])
                  ((c.emit (.send (.node (some netNode)) .ServerDestroyConfig)).emit
                    (.send (.node (some netNode)) .ClientExit)) v hnd' h
              have hs : c.stoppingHandle i = some netNode := by
                simp [stoppingHandle, hnode, hst, happ, hh]
              refine ⟨?_, ?_, ?_⟩
              · rw [h1, List.filter_cons, hs]
                simp
                rfl
              · rw [h2, List.filterMap_cons, hs]
                simp [emit, teardownPackets]
                rfl
              · intro j
                rw [h3 j]
                by_cases hj : j = i
                · subst hj
                  simp [emit, hnode, happ]
                · simp [hj, emit]
      · rw [if_pos (by simpa using hst)] at h
        exact skip (by simp [stoppingHandle, hnode, hst]) (by
          intro n hn
          rw [hnode] at hn
          cases hn
          exact fun hc => hst hc.1) h

theorem torn_mem (env : Env) : ∀ (hs : List NetNode) (base new : List Action),
    torn env hs base new →
    ∀ a ∈ new, a = Action.sleep 100 ∨ ∃ netNode ∈ hs, a = Action.close netNode := by
  intro hs
  induction hs with
  | nil =>
    intro base new h a ha
    simp only [torn] at h
    rw [h] at ha
    cases ha
  | cons hd rest ih =>
    intro base new h a ha
    simp only [torn] at h
    obtain ⟨k, more, hnew, _, hmore⟩ := h
    rw [hnew] at ha
    rcases List.mem_append.mp ha with ha | ha
    · rcases List.mem_append.mp ha with ha | ha
      · exact Or.inl (List.eq_of_mem_replicate ha)
      · split at ha
        · simp only [List.mem_singleton] at ha
          exact Or.inr ⟨hd, List.mem_cons_self _ _, ha⟩
        · cases ha
    · rcases ih _ _ hmore a ha with h1 | ⟨x, hx, h1⟩
      · exact Or.inl h1
      · exact Or.inr ⟨x, List.mem_cons_of_mem _ hx, h1⟩

theorem filter_filterMap {α β : Type} (f g : α → Option β) : ∀ (l : List α),
    (∀ x, (f x).isSome = true → g x = f x) →
    (l.filter (fun x => (f x).isSome)).filterMap g = l.filterMap f := by
  intro l h
  induction l with
  | nil => rfl
  | cons a rest ih =>
    cases hf : f a with
    | none => simp [List.filter_cons, List.filterMap_cons, hf, ih]
    | some b =>
      have := h a (by simp [hf])
      simp [List.filter_cons, List.filterMap_cons, hf, ih, this]

/-- C29: what one call of `_stopNodes` does when it returns. The handles torn down are those of
the stopped nodes that are not the application node and hold one (each such handle belongs
to such a node). The steps are: the destroy-session and the client-exit packet to each of
these handles, and then for each of them in turn some sleeps of 100 ms, taken while it was
still connected, followed by the forced close of the handle if it is still connected after
its wait. All sleeps together are fewer than 50. No other packet is sent and no other handle
is closed, so a stopped application node gets neither packet and its connection is not
closed. Afterwards every stopped node is without handle, and the nodes are otherwise as
before. -/
theorem stopNodes_teardown (env : Env) (c c' : Config) (h : _stopNodes env c = .ok c') :
    ∃ waits,
      c'.log = c.log ++ c.stoppingHandles.flatMap teardownPackets ++ waits ∧
      torn env c.stoppingHandles (c.log ++ c.stoppingHandles.flatMap teardownPackets) waits ∧
      (c.stoppingHandles.flatMap teardownPackets ++ waits).count (Action.sleep 100) < 50 ∧
      (∀ a ∈ c.stoppingHandles.flatMap teardownPackets ++ waits, a = Action.sleep 100 ∨
        ∃ netNode ∈ c.stoppingHandles, a ∈ teardownPackets netNode ∨ a = Action.close netNode) ∧
      (∀ netNode ∈ c.stoppingHandles, ∃ n ∈ c.nodes, n.state = .STATE_STOPPED ∧
        n.applicationNode = false ∧ n.node = some netNode) ∧
      c'.nodes = c.nodes.map (fun n =>
        if n.state = .STATE_STOPPED then { n with node := none } else n) := by
  simp only [_stopNodes, bind, Except.bind, pure, Except.pure] at h
  cases h1 : _stopLoop env c.nodeIndices [] c with
  | error e => rw [h1] at h; cases h
  | ok w =>
    rw [h1] at h
    dsimp only at h
    cases h
    obtain ⟨hw1, hw2, hw3⟩ := stopLoop_spec env c.nodeIndices [] c w (List.nodup_range _) h1
    have hnd : w.1.Nodup := by
      rw [hw1]
      simpa using (List.nodup_range _).filter _
    obtain ⟨waits, hd1, hd2, hd3, hd4⟩ := disconnectLoop_spec env w.1 50 w.2 hnd
    have hhandles : w.1.filterMap (fun i => (w.2.nodes[i]?).bind (fun n => n.node)) =
        c.stoppingHandles := by
      rw [hw1, List.nil_append]
      apply filter_filterMap
      intro j hj
      rw [hw3 j]
      unfold stoppingHandle at hj ⊢
      cases hn : c.nodes[j]? with
      | none => rfl
      | some n =>
        rw [hn] at hj
        dsimp only at hj
        split at hj
        · rename_i hc
          simp [hc.1, hc.2]
        · cases hj
    rw [hhandles, hw2] at hd2
    have hsends : ∀ a ∈ c.stoppingHandles.flatMap teardownPackets,
        ∃ netNode ∈ c.stoppingHandles, a ∈ teardownPackets netNode := by
      intro a ha
      simpa [List.mem_flatMap] using ha
    refine ⟨waits, by rw [hd1, hw2]; rfl, hd2, ?_, ?_, ?_, ?_⟩
    · have h0 : (c.stoppingHandles.flatMap teardownPackets).count (Action.sleep 100) = 0 := by
        rw [List.count_eq_zero]
        intro hmem
        obtain ⟨x, _, hx⟩ := hsends _ hmem
        simp [teardownPackets] at hx
      rw [List.count_append, h0]
      simp only [Nat.zero_add]
      have : max 50 1 = 50 := by decide
      omega
    · intro a ha
      rcases List.mem_append.mp ha with ha | ha
      · obtain ⟨x, hx, hax⟩ := hsends a ha
        exact Or.inr ⟨x, hx, Or.inl hax⟩
      · rcases torn_mem env _ _ _ hd2 a ha with h1 | ⟨x, hx, h1⟩
        · exact Or.inl h1
        · exact Or.inr ⟨x, hx, Or.inr h1⟩
    · intro netNode hmem
      unfold stoppingHandles at hmem
      obtain ⟨j, _, hj⟩ := List.mem_filterMap.mp hmem
      unfold stoppingHandle at hj
      cases hn : c.nodes[j]? with
      | none => rw [hn] at hj; cases hj
      | some n =>
        rw [hn] at hj
        dsimp only at hj
        split at hj
        · rename_i hc
          exact ⟨n, List.mem_iff_getElem?.mpr ⟨j, hn⟩, hc.1, hc.2, hj⟩
        · cases hj
    · apply List.ext_getElem?
      intro j
      rw [hd4 j, hw3 j, List.getElem?_map]
      cases hn : c.nodes[j]? with
      | none => simp
      | some n =>
        have hj : j ∈ c.nodeIndices := by
          simp [nodeIndices, (List.getElem?_eq_some_iff.mp hn).1]
        have hmem : j ∈ w.1 ↔ (n.state = .STATE_STOPPED ∧ n.applicationNode = false ∧
            n.node.isSome = true) := by
          rw [hw1]
          simp only [List.nil_append, List.mem_filter, hj, true_and, stoppingHandle, hn]
          constructor
          · intro hs
            split at hs
            · rename_i hc
              exact ⟨hc.1, hc.2, hs⟩
            · cases hs
          · intro hs
            rw [if_pos ⟨hs.1, hs.2.1⟩]
            exact hs.2.2
        by_cases hst : n.state = .STATE_STOPPED
        · by_cases happ : n.applicationNode = true
          · have : j ∉ w.1 := by
              rw [hmem]
              simp [happ]
            simp [this, hj, hst, happ]
          · cases hh : n.node with
            | none =>
              have : j ∉ w.1 := by
                rw [hmem]
                simp [hh]
              simp [this, hj, hst, happ]
              cases n
              simp_all
            | some x =>
              have : j ∈ w.1 := by
                rw [hmem]
                simp [hst, happ, hh]
              simp [this, hj, hst, happ]
        · have : j ∉ w.1 := by
            rw [hmem]
            simp [hst]
          simp [this, hj, hst]

/-- Witness for C29: a stopped application node and two stopped render nodes whose
connections never go away. The first render node is waited for with 49 sleeps and then
closed, the second is closed without a sleep, the application node is neither sent a packet
nor closed, and all three end without handle. -/
theorem stopNodes_teardown_witness :
    ∃ c', _stopNodes (Example.env true) Example.stoppedNodes = .ok c' ∧
      c'.log.count (Action.sleep 100) = 49 ∧
      c'.log.filter (fun a => a != Action.sleep 100) =
        [.send (.node (some ⟨1, 60000, ["host"]⟩)) .ServerDestroyConfig,
         .send (.node (some ⟨1, 60000, ["host"]⟩)) .ClientExit,
         .send (.node (some ⟨2, 60000, ["other"]⟩)) .ServerDestroyConfig,
         .send (.node (some ⟨2, 60000, ["other"]⟩)) .ClientExit,
         .close ⟨1, 60000, ["host"]⟩, .close ⟨2, 60000, ["other"]⟩] ∧
      c'.nodes = Example.stoppedNodes.nodes.map (fun n =>
        if n.state = .STATE_STOPPED then { n with node := none } else n) := by
  have hlog : (_stopNodes (Example.env true) Example.stoppedNodes).toOption.map
      (fun c' => (c'.log.count (Action.sleep 100),
        c'.log.filter (fun a => a != Action.sleep 100))) =
      some (49, [.send (.node (some ⟨1, 60000, ["host"]⟩)) .ServerDestroyConfig,
         .send (.node (some ⟨1, 60000, ["host"]⟩)) .ClientExit,
         .send (.node (some ⟨2, 60000, ["other"]⟩)) .ServerDestroyConfig,
         .send (.node (some ⟨2, 60000, ["other"]⟩)) .ClientExit,
         .close ⟨1, 60000, ["host"]⟩, .close ⟨2, 60000, ["other"]⟩]) := by
    rfl
  cases hc : _stopNodes (Example.env true) Example.stoppedNodes with
  | error e => rw [hc] at hlog; cases hlog
  | ok c' =>
    rw [hc] at hlog
    simp only [Except.toOption, Option.map_some', Option.some.injEq, Prod.mk.injEq] at hlog
    obtain ⟨_, _, _, _, _, _, hnodes⟩ :=
      stopNodes_teardown (Example.env true) Example.stoppedNodes c' hc
    exact ⟨c', rfl, hlog.1, hlog.2, hnodes⟩

/-! ### Freezing the load-balancing policies -/

mutual
theorem accept_frozen (b : Bool) : ∀ (x : Compound), ∀ y ∈ (x.accept b).2.reachable,
    ∀ e ∈ y.equalizers, e.frozen = b
  | ⟨name, channel, inherited, eyes, range, buffers, equalizers, inputFrames, outputFrames,
      children⟩ => by
    intro y hy e he
    simp only [Compound.accept, FreezeVisitor.visit, Compound.reachable, List.mem_cons] at hy
    rcases hy with hy | hy
    · rw [hy] at he
      simp only [List.mem_map] at he
      obtain ⟨e₀, _, rfl⟩ := he
      rfl
    · exact acceptChildren_frozen b children y hy e he
theorem acceptChildren_frozen (b : Bool) : ∀ (l : List Compound),
    ∀ y ∈ Compound.reachableAll (Compound.acceptChildren b l),
    ∀ e ∈ y.equalizers, e.frozen = b
  | [] => by
    intro y hy
    simp [Compound.acceptChildren, Compound.reachableAll] at hy
  | x :: rest => by
    intro y hy e he
    simp only [Compound.acceptChildren, Compound.reachableAll, List.mem_append] at hy
    rcases hy with hy | hy
    · exact accept_frozen b x y hy e he
    · exact acceptChildren_frozen b rest y hy e he
end

mutual
theorem accept_alike (b : Bool) : ∀ (x : Compound), Compound.alike x (x.accept b).2
  | ⟨name, channel, inherited, eyes, range, buffers, equalizers, inputFrames, outputFrames,
      children⟩ => by
    simp only [Compound.accept, FreezeVisitor.visit, Compound.alike, List.map_map, true_and]
    exact ⟨by simp [Function.comp_def, Equalizer.setFrozen], acceptChildren_alike b children⟩
theorem acceptChildren_alike (b : Bool) : ∀ (l : List Compound),
    Compound.alikeAll l (Compound.acceptChildren b l)
  | [] => by simp [Compound.acceptChildren, Compound.alikeAll]
  | x :: rest => by
    simp only [Compound.acceptChildren, Compound.alikeAll]
    exact ⟨_, _, rfl, accept_alike b x, acceptChildren_alike b rest⟩
end

mutual
theorem accept_twice (b : Bool) : ∀ (x : Compound), (x.accept b).2.accept b = x.accept b
  | ⟨name, channel, inherited, eyes, range, buffers, equalizers, inputFrames, outputFrames,
      children⟩ => by
    simp only [Compound.accept, FreezeVisitor.visit, List.map_map]
    rw [acceptChildren_twice b children]
    simp [Function.comp_def, Equalizer.setFrozen]
theorem acceptChildren_twice (b : Bool) : ∀ (l : List Compound),
    Compound.acceptChildren b (Compound.acceptChildren b l) = Compound.acceptChildren b l
  | [] => by simp [Compound.acceptChildren]
  | x :: rest => by
    simp only [Compound.acceptChildren]
    rw [accept_twice b x, acceptChildren_twice b rest]
end

mutual
theorem accept_reachable (b : Bool) : ∀ (x : Compound),
    (x.accept b).2.reachable.length = x.reachable.length
  | ⟨name, channel, inherited, eyes, range, buffers, equalizers, inputFrames, outputFrames,
      children⟩ => by
    simp only [Compound.accept, FreezeVisitor.visit, Compound.reachable, List.length_cons]
    rw [acceptChildren_reachable b children]
theorem acceptChildren_reachable (b : Bool) : ∀ (l : List Compound),
    (Compound.reachableAll (Compound.acceptChildren b l)).length =
      (Compound.reachableAll l).length
  | [] => by simp [Compound.acceptChildren]
  | x :: rest => by
    simp only [Compound.acceptChildren, Compound.reachableAll, List.length_append]
    rw [accept_reachable b x, acceptChildren_reachable b rest]
end

theorem accept_continue (b : Bool) (x : Compound) : (x.accept b).1 = .TRAVERSE_CONTINUE := by
  cases x
  rfl

/-- The loop of `_accept` does not stop early for a `FreezeVisitor`: every top-level compound
is traversed and the result is the one the loop started with. -/
theorem accept_loop (b : Bool) : ∀ (l : List Compound) (r : VisitorResult),
    Config._accept b l r = (r, Compound.acceptChildren b l) := by
  intro l
  induction l with
  | nil => intro r; rfl
  | cons x rest ih =>
    intro r
    simp only [Config._accept, accept_continue, ih, Compound.acceptChildren]

/-- C22: what handling `ConfigFreezeLoadBalancing( b )` does. The command is handled;
afterwards every policy of every compound reachable from the top-level compounds has its
frozen flag equal to `b`; the task trees are as before but for the frozen flags (the same
compounds with the same members, as many policies of the same modes on each, the same
children); the nodes are as before, as is everything else in the configuration; and handling
the command a second time changes nothing. -/
theorem cmdFreezeLoadBalancing_spec (b : Bool) (c : Config) :
    (_cmdFreezeLoadBalancing b c).1 = .COMMAND_HANDLED ∧
    (∀ y ∈ Compound.reachableAll (_cmdFreezeLoadBalancing b c).2.compounds,
      ∀ e ∈ y.equalizers, e.frozen = b) ∧
    Compound.alikeAll c.compounds (_cmdFreezeLoadBalancing b c).2.compounds ∧
    (Compound.reachableAll (_cmdFreezeLoadBalancing b c).2.compounds).length =
      (Compound.reachableAll c.compounds).length ∧
    (_cmdFreezeLoadBalancing b c).2.nodes = c.nodes ∧
    (_cmdFreezeLoadBalancing b c).2 =
      { c with compounds := (_cmdFreezeLoadBalancing b c).2.compounds } ∧
    _cmdFreezeLoadBalancing b (_cmdFreezeLoadBalancing b c).2 = _cmdFreezeLoadBalancing b c := by
  have hnodes : c.nodes.map (fun node => node.accept.2) = c.nodes := by
    simp [Node.accept]
  have hc : (_cmdFreezeLoadBalancing b c).2 =
      { c with compounds := Compound.acceptChildren b c.compounds } := by
    simp only [_cmdFreezeLoadBalancing, Config.accept, _acceptCompounds, accept_loop, hnodes]
  refine ⟨rfl, ?_, ?_, ?_, ?_, ?_, ?_⟩
  · rw [hc]
    exact acceptChildren_frozen b c.compounds
  · rw [hc]
    exact acceptChildren_alike b c.compounds
  · rw [hc]
    exact acceptChildren_reachable b c.compounds
  · rw [hc]
  · rw [hc]
  · have h2 : _cmdFreezeLoadBalancing b (_cmdFreezeLoadBalancing b c).2 =
        (CommandResult.COMMAND_HANDLED, (_cmdFreezeLoadBalancing b (_cmdFreezeLoadBalancing b c).2).2) := rfl
    have h3 : _cmdFreezeLoadBalancing b c =
        (CommandResult.COMMAND_HANDLED, (_cmdFreezeLoadBalancing b c).2) := rfl
    rw [h2, h3]
    congr 1
    rw [hc]
    simp only [_cmdFreezeLoadBalancing, Config.accept, _acceptCompounds, accept_loop, hnodes,
      acceptChildren_twice]

/-! ### Release of an unknown session -/

/-- C25: a `ReleaseConfig` for a session id that is not in the registry is handled and
answered with exactly one reply, but the registry does not stay as it was: the lookup
`_appConfigs[ id ]` leaves an entry with a null pointer under the id. On a server without
any application session the registry is therefore not empty afterwards, and a `Shutdown` that
follows is answered with failure and leaves the flag `_running` of the dispatch loop as it
was. -/
theorem releaseConfig_unknown_blocks_shutdown (env : ServerEnv) (win32 : Bool)
    (configID : Nat) (node : NetNode) (from_ : Nat) (s : Server)
    (hunknown : s._appConfigs.lookup configID = none) :
    ∃ s', Server._cmdReleaseConfig env configID node s = .ok (.COMMAND_HANDLED, s') ∧
      s'.log = s.log ++ [.send node.id .ServerReleaseConfigReply] ∧
      s'._appConfigs = s._appConfigs ++ [(configID, none)] ∧
      s'._appConfigs ≠ s._appConfigs ∧
      s'._running = s._running ∧
      (Server._cmdShutdown win32 from_ s').2._running = s._running ∧
      (Server._cmdShutdown win32 from_ s').2.log =
        s'.log ++ .send from_ (.ServerShutdownReply false) ::
          (if win32 then [] else [.sleep 100]) := by
  refine ⟨{ s with _appConfigs := s._appConfigs ++ [(configID, none)],
                   log := s.log ++ [.send node.id .ServerReleaseConfigReply] }, ?_, rfl, rfl, ?_,
    rfl, ?_, ?_⟩
  · simp [Server._cmdReleaseConfig, Server.appConfigAt, hunknown, Server.emit, pure, Except.pure]
  · intro h
    have := congrArg List.length h
    simp at this
  · simp [Server._cmdShutdown, Server.emit, List.isEmpty_iff]
    split <;> rfl
  · simp [Server._cmdShutdown, Server.emit, List.isEmpty_iff]
    split <;> simp

/-- Witness for C25: on a running server without application session, a release of the
session 7, which does not exist, followed by a shutdown: the shutdown is refused and the
server keeps running. -/
theorem releaseConfig_unknown_blocks_shutdown_witness :
    ∃ s', Server._cmdReleaseConfig (Example.serverEnv false) 7 ⟨3, 0, []⟩ Example.idleServer =
        .ok (.COMMAND_HANDLED, s') ∧
      s'._appConfigs.length = 1 ∧
      (Server._cmdShutdown false 3 s').2._running = true ∧
      (Server._cmdShutdown false 3 s').2.log =
        [.send 3 .ServerReleaseConfigReply, .send 3 (.ServerShutdownReply false), .sleep 100] := by
  obtain ⟨s', h1, h2, h3, _, _, h6, h7⟩ :=
    releaseConfig_unknown_blocks_shutdown (Example.serverEnv false) false 7 ⟨3, 0, []⟩ 3
      Example.idleServer rfl
  refine ⟨s', h1, by rw [h3]; rfl, h6, ?_⟩
  rw [h7, h2]
  rfl

/-! ### Splitting of the request texts -/

theorem indexOf_joined (ch : Char) : ∀ (l t : List Char), ch ∉ l →
    (l ++ ch :: t).indexOf ch = l.length := by
  intro l
  induction l with
  | nil => intro t _; simp
  | cons a rest ih =>
    intro t h
    have ha : a ≠ ch := fun e => h (e ▸ List.mem_cons_self _ _)
    have hr : ch ∉ rest := fun e => h (List.mem_cons_of_mem _ e)
    simp [List.indexOf_cons, ha, ih t hr]

theorem joined_data (w t : String) : (w ++ "#" ++ t).data = w.data ++ '#' :: t.data := by
  simp [String.data_append]

theorem find_joined (w t : String) (hw : '#' ∉ w.data) :
    string.find (w ++ "#" ++ t) '#' = w.length := by
  unfold string.find
  rw [joined_data, if_pos (by simp), indexOf_joined _ _ _ hw]
  rfl

theorem substr_head (w t : String) : string.substr (w ++ "#" ++ t) 0 w.length = some w := by
  unfold string.substr
  rw [if_neg (by simp), joined_data, List.drop_zero]
  show some (String.mk (List.take w.data.length (w.data ++ '#' :: t.data))) = some w
  rw [List.take_left' rfl]

theorem substr_tail (w t : String) (h : (w ++ "#" ++ t).length < 2 ^ 64) :
    string.substr (w ++ "#" ++ t) ((w.length + 1) % 2 ^ 64) string.npos = some t := by
  have hlen : (w ++ "#" ++ t).length = w.length + 1 + t.length := by
    simp [String.length_append]
    rfl
  rw [hlen] at h
  have hmod : (w.length + 1) % 2 ^ 64 = w.length + 1 := Nat.mod_eq_of_lt (by omega)
  unfold string.substr
  rw [hmod, if_neg (by rw [hlen]; omega), joined_data]
  have hdrop : (w.data ++ '#' :: t.data).drop (w.length + 1) = t.data := by
    have : w.data ++ '#' :: t.data = (w.data ++ ['#']) ++ t.data := by simp
    rw [this]
    apply List.drop_left'
    rw [List.length_append]
    rfl
  rw [hdrop, List.take_of_length_le]
  have : t.data.length = t.length := rfl
  unfold string.npos
  omega

theorem lookup_setAppConfig (s : Server) (id : Nat) (config : Option Config) :
    (s.setAppConfig id config)._appConfigs.lookup id = some config := by
  unfold Server.setAppConfig
  split
  · rename_i h
    dsimp only
    generalize s._appConfigs = l at h ⊢
    induction l with
    | nil => simp at h
    | cons e rest ih =>
      obtain ⟨k, v⟩ := e
      rw [List.map_cons]
      by_cases hk : id = k
      · subst hk
        rw [if_pos rfl]
        simp [List.lookup]
      · have hk' : ¬ (k, v).1 = id := fun e => hk e.symm
        have hb : (id == k) = false := by simpa using hk
        simp only [List.lookup, hb] at h
        rw [if_neg hk']
        simp only [List.lookup, hb]
        exact ih h
  · rename_i h
    dsimp only
    have hnone : s._appConfigs.lookup id = none := by
      cases hl : s._appConfigs.lookup id with
      | none => rfl
      | some v => rw [hl] at h; simp at h
    generalize s._appConfigs = l at hnone ⊢
    induction l with
    | nil => simp [List.lookup]
    | cons e rest ih =>
      obtain ⟨k, v⟩ := e
      by_cases hk : id = k
      · subst hk
        simp [List.lookup] at hnone
      · have hb : (id == k) = false := by simpa using hk
        simp only [List.lookup, hb] at hnone
        simp only [List.cons_append, List.lookup, hb]
        exact ih hnone

/-- C21: the two handlers split their request text at the first `#`. For `w` and `r`
without `#`, any `c` and any `r₂`, on texts that a `std::string` can hold: `UseConfig` on
`w#r#c` hands exactly `c` to the loader; when that does not parse, the reply carries the
null id; when it parses to a configuration (which is Stopped, or assertions are not
checked), the command is handled and the configuration is registered with work directory
`w` and render client `r`. `ChooseConfig` on `w#r₂` registers a copy of the first loaded
configuration with work directory `w` and render client `r₂`. -/
theorem request_splitting (env : ServerEnv) (w r c r₂ : String) (node : NetNode) (s : Server)
    (hw : '#' ∉ w.data) (hr : '#' ∉ r.data)
    (hsize : (w ++ "#" ++ (r ++ "#" ++ c)).length < 2 ^ 64)
    (hsize₂ : (w ++ "#" ++ r₂).length < 2 ^ 64) :
    (env.parseConfig c = none →
      Server._cmdUseConfig env (w ++ "#" ++ (r ++ "#" ++ c)) node s =
        .ok (.COMMAND_HANDLED, s.emit (.send node.id (.ServerChooseConfigReply 0)))) ∧
    (∀ config, env.parseConfig c = some config →
      env.config.assertsEnabled = false ∨ config.state = .STATE_STOPPED →
      ∃ s', Server._cmdUseConfig env (w ++ "#" ++ (r ++ "#" ++ c)) node s =
          .ok (.COMMAND_HANDLED, s') ∧
        s' = (((Server.registerConfig env { config with appNetNode := some node } s).2.setAppConfig
            (Server.registerConfig env { config with appNetNode := some node } s).1.2
            (some { config with appNetNode := some node, workDir := w, renderClient := r })).emit
            (.send node.id (.ServerCreateConfig
              (Server.registerConfig env { config with appNetNode := some node } s).1.2
              (Server.registerConfig env { config with appNetNode := some node } s).1.1))).emit
            (.send node.id (.ServerChooseConfigReply
              (Server.registerConfig env { config with appNetNode := some node } s).1.2)) ∧
        s'._appConfigs.lookup
            (Server.registerConfig env { config with appNetNode := some node } s).1.2 =
          some (some { config with appNetNode := some node, workDir := w, renderClient := r })) ∧
    (∀ config, s._configs.head? = some config →
      env.config.assertsEnabled = false ∨ config.state = .STATE_STOPPED →
      ∃ s', Server._cmdChooseConfig env (w ++ "#" ++ r₂) node s = .ok (.COMMAND_HANDLED, s') ∧
        s' = (((Server.registerConfig env { config with appNetNode := some node } s).2.setAppConfig
            (Server.registerConfig env { config with appNetNode := some node } s).1.2
            (some { config with appNetNode := some node, workDir := w, renderClient := r₂ })).emit
            (.send node.id (.ServerCreateConfig
              (Server.registerConfig env { config with appNetNode := some node } s).1.2
              (Server.registerConfig env { config with appNetNode := some node } s).1.1))).emit
            (.send node.id (.ServerChooseConfigReply
              (Server.registerConfig env { config with appNetNode := some node } s).1.2)) ∧
        s'._appConfigs.lookup
            (Server.registerConfig env { config with appNetNode := some node } s).1.2 =
          some (some { config with appNetNode := some node, workDir := w, renderClient := r₂ })) := by
  have hsize' : (r ++ "#" ++ c).length < 2 ^ 64 := by
    have : (w ++ "#" ++ (r ++ "#" ++ c)).length = w.length + 1 + (r ++ "#" ++ c).length := by
      simp [String.length_append]
      rfl
    omega
  have hset : ∀ config : Config,
      env.config.assertsEnabled = false ∨ config.state = .STATE_STOPPED →
      Config.setApplicationNetNode env.config (some node) config =
        .ok { config with appNetNode := some node } := by
    intro config h
    unfold Config.setApplicationNetNode
    rcases h with h | h
    · simp [EQASSERT, h, bind, Except.bind, pure, Except.pure]
    · simp [EQASSERT, h, bind, Except.bind, pure, Except.pure]
  have huse :
      Server._cmdUseConfig env (w ++ "#" ++ (r ++ "#" ++ c)) node s =
        (match env.parseConfig c with
          | none => pure (.COMMAND_HANDLED, s.emit (.send node.id (.ServerChooseConfigReply 0)))
          | some config =>
            match Config.setApplicationNetNode env.config (some node) config with
            | .error e => .error ⟨e.cause, s⟩
            | .ok config =>
              pure (.COMMAND_HANDLED,
                (((Server.registerConfig env config s).2.setAppConfig
                  (Server.registerConfig env config s).1.2
                  (some { config with workDir := w, renderClient := r })).emit
                  (.send node.id (.ServerCreateConfig (Server.registerConfig env config s).1.2
                    (Server.registerConfig env config s).1.1))).emit
                  (.send node.id (.ServerChooseConfigReply
                    (Server.registerConfig env config s).1.2)))) := by
    unfold Server._cmdUseConfig
    simp only [find_joined w _ hw, substr_head, substr_tail w _ hsize, find_joined r _ hr,
      substr_tail r _ hsize']
  refine ⟨?_, ?_, ?_⟩
  · intro hp
    rw [huse, hp]
    rfl
  · intro config hp hst
    refine ⟨_, ?_, rfl, lookup_setAppConfig _ _ _⟩
    rw [huse, hp]
    simp only [hset config hst]
    rfl
  · intro config hp hst
    refine ⟨_, ?_, rfl, lookup_setAppConfig _ _ _⟩
    unfold Server._cmdChooseConfig
    simp only [hp, hset config hst, find_joined w _ hw, substr_head, substr_tail w _ hsize₂]
    rfl

/-- Witness for C21: the texts `/work#render#config#1` and `/work#a#b` handled by a server
with one loaded configuration and no session. -/
theorem request_splitting_witness :
    (∃ s', Server._cmdUseConfig (Example.serverEnv false)
        ("/work" ++ "#" ++ ("render" ++ "#" ++ "config#1")) ⟨3, 0, []⟩ Example.idleServer =
          .ok (.COMMAND_HANDLED, s') ∧
      s'._appConfigs.lookup 1 = some (some { Config.fresh with
        appNetNode := some ⟨3, 0, []⟩
        workDir := "/work"
        renderClient := "render" })) ∧
    (∃ s', Server._cmdChooseConfig (Example.serverEnv false)
        ("/work" ++ "#" ++ "a#b") ⟨3, 0, []⟩ Example.idleServer = .ok (.COMMAND_HANDLED, s') ∧
      s'._appConfigs.lookup 1 = some (some { Config.fresh with
        appNetNode := some ⟨3, 0, []⟩
        workDir := "/work"
        renderClient := "a#b" })) := by
  have h := request_splitting (Example.serverEnv false) "/work" "render" "config#1" "a#b"
    ⟨3, 0, []⟩ Example.idleServer (by decide) (by decide) (by decide) (by decide)
  constructor
  · obtain ⟨s', h1, _, h3⟩ := h.2.1 Config.fresh rfl (Or.inl rfl)
    exact ⟨s', h1, h3⟩
  · obtain ⟨s', h1, _, h3⟩ := h.2.2 Config.fresh rfl (Or.inl rfl)
    exact ⟨s', h1, h3⟩

end server
end eq
